import Mathlib

/-!
# GATT client discovery and cache engine (`bta_gattc_cache.cc`)

A shallow embedding of `system/bta/gatt/bta_gattc_cache.cc`.

Conventions of the embedding:

* 16-bit handles (`uint16_t`) are natural numbers; where the source can overflow
  (`s_handle + 1`, `decl_handle - 1`) the arithmetic is written modulo `2 ^ 16`.
* The buffer cursors and counters (`cur_srvc_idx`, `cur_char_idx`, `next_avail_idx`,
  `total_srvc`, `total_char`) are 8-bit in the source (the loops over them use `uint8_t`);
  increments and decrements are written modulo `2 ^ 8`.
* A pointer into the `std::list` of services is the position of the node in the list
  (nodes are only appended, or the whole list is cleared); a null pointer is `none`.
* Loops are recursive functions over the traversed list that thread the output cursor
  explicitly (the list of elements written so far).
* Calls that leave this file (`GATTC_Discover`, `bta_gattc_sm_execute`,
  `bta_gattc_reset_discover_st`, the file write) are recorded in a trace.
-/

set_option linter.unusedVariables false

namespace BtaGattc

/-! ## Data model -/

/-- A `bluetooth::Uuid`; only value equality is used by this file. -/
abbrev Uuid := Nat

/-- Descriptor node `tBTA_GATTC_DESCRIPTOR` (the back pointer to the owning characteristic is
the position of the node in the graph). -/
structure tBTA_GATTC_DESCRIPTOR where
  handle : Nat
  uuid : Uuid
  deriving DecidableEq, Repr, Inhabited

/-- Characteristic node `tBTA_GATTC_CHARACTERISTIC`; `handle` is the value handle. -/
structure tBTA_GATTC_CHARACTERISTIC where
  handle : Nat
  properties : Nat
  uuid : Uuid
  descriptors : List tBTA_GATTC_DESCRIPTOR
  deriving DecidableEq, Repr, Inhabited

/-- Included-service edge `tBTA_GATTC_INCLUDED_SVC`; `included_service` points at the target
service node (its position in `srvc_cache`), `none` is the null pointer. -/
structure tBTA_GATTC_INCLUDED_SVC where
  handle : Nat
  uuid : Uuid
  included_service : Option Nat
  deriving DecidableEq, Repr, Inhabited

/-- Service node `tBTA_GATTC_SERVICE`. -/
structure tBTA_GATTC_SERVICE where
  s_handle : Nat
  e_handle : Nat
  is_primary : Bool
  uuid : Uuid
  handle : Nat
  characteristics : List tBTA_GATTC_CHARACTERISTIC
  included_svc : List tBTA_GATTC_INCLUDED_SVC
  deriving DecidableEq, Repr, Inhabited

/-- Attribute kinds `tBTA_GATTC_ATTR_TYPE`. -/
inductive tBTA_GATTC_ATTR_TYPE where
  | BTA_GATTC_ATTR_TYPE_INCL_SRVC
  | BTA_GATTC_ATTR_TYPE_CHAR
  | BTA_GATTC_ATTR_TYPE_CHAR_DESCR
  | BTA_GATTC_ATTR_TYPE_SRVC
  deriving DecidableEq, Repr, Inhabited

open tBTA_GATTC_ATTR_TYPE

/-- Persistence record `tBTA_GATTC_NV_ATTR`. -/
structure tBTA_GATTC_NV_ATTR where
  s_handle : Nat
  e_handle : Nat
  attr_type : tBTA_GATTC_ATTR_TYPE
  is_primary : Bool
  id : Nat
  prop : Nat
  incl_srvc_handle : Nat
  uuid : Uuid
  deriving DecidableEq, Repr, Inhabited

/-- Element kinds `bt_gatt_db_attribute_type_t` of the exported database. -/
inductive bt_gatt_db_attribute_type_t where
  | BTGATT_DB_PRIMARY_SERVICE
  | BTGATT_DB_SECONDARY_SERVICE
  | BTGATT_DB_INCLUDED_SERVICE
  | BTGATT_DB_CHARACTERISTIC
  | BTGATT_DB_DESCRIPTOR
  deriving DecidableEq, Repr, Inhabited

open bt_gatt_db_attribute_type_t

/-- Exported element `btgatt_db_element_t`. -/
structure btgatt_db_element_t where
  type : bt_gatt_db_attribute_type_t
  attribute_handle : Nat
  start_handle : Nat
  end_handle : Nat
  id : Nat
  uuid : Uuid
  properties : Nat
  permissions : Nat
  deriving DecidableEq, Repr, Inhabited

/-! ## Attribute graph -/

/-- `bta_gattc_find_matching_service`: the first service, in list order, whose range contains
`handle`; the result is the position of the node, `none` is `NULL`. -/
def bta_gattc_find_matching_service :
    List tBTA_GATTC_SERVICE → Nat → Option Nat
  | [], _ => none
  | service :: rest, handle =>
    if handle ≥ service.s_handle ∧ handle ≤ service.e_handle then some 0
    else (bta_gattc_find_matching_service rest handle).map (· + 1)

/-- `bta_gattc_add_srvc_to_cache`: append a service node. -/
def bta_gattc_add_srvc_to_cache (srvc_cache : List tBTA_GATTC_SERVICE)
    (s_handle e_handle : Nat) (uuid : Uuid) (is_primary : Bool) :
    List tBTA_GATTC_SERVICE :=
  srvc_cache ++ [{ s_handle := s_handle, e_handle := e_handle, is_primary := is_primary,
                   uuid := uuid, handle := s_handle, characteristics := [],
                   included_svc := [] }]

/-- `bta_gattc_add_char_to_cache`: locate the service by `attr_handle`, widen its end handle to
cover `value_handle`, append the characteristic. -/
def bta_gattc_add_char_to_cache (srvc_cache : List tBTA_GATTC_SERVICE)
    (attr_handle value_handle : Nat) (uuid : Uuid) (property : Nat) :
    List tBTA_GATTC_SERVICE :=
  match bta_gattc_find_matching_service srvc_cache attr_handle with
  | none => srvc_cache
  | some i =>
    srvc_cache.modify (fun service =>
      { service with
        e_handle := if service.e_handle < value_handle then value_handle else service.e_handle
        characteristics := service.characteristics ++
          [{ handle := value_handle, properties := property, uuid := uuid,
             descriptors := [] }] }) i

/-- The `emplace_back` on `service->characteristics.back().descriptors`. -/
def append_descriptor_to_back (characteristics : List tBTA_GATTC_CHARACTERISTIC)
    (d : tBTA_GATTC_DESCRIPTOR) : List tBTA_GATTC_CHARACTERISTIC :=
  match characteristics.getLast? with
  | none => characteristics
  | some char_node =>
    characteristics.dropLast ++ [{ char_node with descriptors := char_node.descriptors ++ [d] }]

/-- `bta_gattc_add_attr_to_cache`: add an included-service edge or a descriptor. -/
def bta_gattc_add_attr_to_cache (srvc_cache : List tBTA_GATTC_SERVICE)
    (handle : Nat) (uuid : Uuid) (property : Nat) (incl_srvc_s_handle : Nat)
    (type : tBTA_GATTC_ATTR_TYPE) : List tBTA_GATTC_SERVICE :=
  match bta_gattc_find_matching_service srvc_cache handle with
  | none => srvc_cache
  | some i =>
    if type = BTA_GATTC_ATTR_TYPE_INCL_SRVC then
      match bta_gattc_find_matching_service srvc_cache incl_srvc_s_handle with
      | none => srvc_cache
      | some j =>
        srvc_cache.modify (fun service =>
          { service with
            included_svc := service.included_svc ++
              [{ handle := handle, uuid := uuid, included_service := some j }] }) i
    else if type = BTA_GATTC_ATTR_TYPE_CHAR_DESCR then
      srvc_cache.modify (fun service =>
        if service.characteristics.isEmpty then service
        else { service with
               characteristics := append_descriptor_to_back service.characteristics
                 { handle := handle, uuid := uuid } }) i
    else srvc_cache

/-! ## Database export -/

/-- `bta_gattc_fill_gatt_db_el`. -/
def bta_gattc_fill_gatt_db_el (type : bt_gatt_db_attribute_type_t)
    (att_handle s_handle e_handle id : Nat) (uuid : Uuid) (prop : Nat) :
    btgatt_db_element_t :=
  { type := type, attribute_handle := att_handle, start_handle := s_handle,
    end_handle := e_handle, id := id, properties := prop, permissions := 0, uuid := uuid }

/-- Size contribution of the characteristics loop of `bta_gattc_get_db_size`. -/
def db_size_characteristics : List tBTA_GATTC_CHARACTERISTIC → Nat → Nat
  | [], db_size => db_size
  | charac :: rest, db_size =>
    db_size_characteristics rest (db_size + 1 + charac.descriptors.length)

/-- The service loop of `bta_gattc_get_db_size` (with its `continue` and `break`). -/
def db_size_services : List tBTA_GATTC_SERVICE → Nat → Nat → Nat → Nat
  | [], _, _, db_size => db_size
  | service :: rest, start_handle, end_handle, db_size =>
    if service.s_handle < start_handle then
      db_size_services rest start_handle end_handle db_size
    else if service.e_handle > end_handle then db_size
    else
      db_size_services rest start_handle end_handle
        (db_size_characteristics service.characteristics (db_size + 1)
          + service.included_svc.length)

/-- `bta_gattc_get_db_size`. -/
def bta_gattc_get_db_size (services : List tBTA_GATTC_SERVICE)
    (start_handle end_handle : Nat) : Nat :=
  if services.isEmpty then 0 else db_size_services services start_handle end_handle 0

/-- The descriptor loop of the export: each descriptor is written at the cursor. -/
def export_descriptors :
    List tBTA_GATTC_DESCRIPTOR → List btgatt_db_element_t → List btgatt_db_element_t
  | [], out => out
  | desc :: rest, out =>
    export_descriptors rest
      (out ++ [bta_gattc_fill_gatt_db_el BTGATT_DB_DESCRIPTOR desc.handle 0 0 desc.handle
        desc.uuid 0])

/-- The characteristic loop of the export. -/
def export_characteristics :
    List tBTA_GATTC_CHARACTERISTIC → List btgatt_db_element_t → List btgatt_db_element_t
  | [], out => out
  | charac :: rest, out =>
    export_characteristics rest
      (export_descriptors charac.descriptors
        (out ++ [bta_gattc_fill_gatt_db_el BTGATT_DB_CHARACTERISTIC charac.handle 0 0
          charac.handle charac.uuid charac.properties]))

/-- Start handle of the service an edge points at (`p_isvc.included_service->s_handle`), `0`
for a null pointer. -/
def included_s_handle (srvc_cache : List tBTA_GATTC_SERVICE)
    (p_isvc : tBTA_GATTC_INCLUDED_SVC) : Nat :=
  match p_isvc.included_service with
  | none => 0
  | some j => (srvc_cache.getD j default).s_handle

/-- The included-service loop of the export. -/
def export_included (srvc_cache : List tBTA_GATTC_SERVICE) :
    List tBTA_GATTC_INCLUDED_SVC → List btgatt_db_element_t → List btgatt_db_element_t
  | [], out => out
  | p_isvc :: rest, out =>
    export_included srvc_cache rest
      (out ++ [bta_gattc_fill_gatt_db_el BTGATT_DB_INCLUDED_SERVICE p_isvc.handle
        (included_s_handle srvc_cache p_isvc) 0 p_isvc.handle p_isvc.uuid 0])

/-- Body of the service loop of `bta_gattc_get_gatt_db_impl` for a service that is neither
skipped nor ends the walk. -/
def export_service (srvc_cache : List tBTA_GATTC_SERVICE) (service : tBTA_GATTC_SERVICE)
    (out : List btgatt_db_element_t) : List btgatt_db_element_t :=
  export_included srvc_cache service.included_svc
    (export_characteristics service.characteristics
      (out ++ [bta_gattc_fill_gatt_db_el
        (if service.is_primary then BTGATT_DB_PRIMARY_SERVICE else BTGATT_DB_SECONDARY_SERVICE)
        0 service.s_handle service.e_handle service.s_handle service.uuid 0]))

/-- The service loop of `bta_gattc_get_gatt_db_impl` (with its `continue` and `break`). -/
def export_services (srvc_cache : List tBTA_GATTC_SERVICE) :
    List tBTA_GATTC_SERVICE → Nat → Nat → List btgatt_db_element_t → List btgatt_db_element_t
  | [], _, _, out => out
  | service :: rest, start_handle, end_handle, out =>
    if service.s_handle < start_handle then
      export_services srvc_cache rest start_handle end_handle out
    else if service.e_handle > end_handle then out
    else
      export_services srvc_cache rest start_handle end_handle
        (export_service srvc_cache service out)

/-- Out parameters of `bta_gattc_get_gatt_db_impl`: `db` is the array written (`none` is
`NULL`), `count` the reported number of elements. -/
structure GattDbOut where
  db : Option (List btgatt_db_element_t)
  count : Nat
  deriving DecidableEq, Repr

/-- `bta_gattc_get_gatt_db_impl`. -/
def bta_gattc_get_gatt_db_impl (srvc_cache : List tBTA_GATTC_SERVICE)
    (start_handle end_handle : Nat) : GattDbOut :=
  if srvc_cache.isEmpty then { db := none, count := 0 }
  else
    let db_size := bta_gattc_get_db_size srvc_cache start_handle end_handle
    { db := some (export_services srvc_cache srvc_cache start_handle end_handle []),
      count := db_size }

/-- The exported sequence of elements (empty when `db` is `NULL`). -/
def GattDbOut.elements (r : GattDbOut) : List btgatt_db_element_t := r.db.getD []

/-! ## Persistence codec -/

/-- `bta_gattc_fill_nv_attr`. -/
def bta_gattc_fill_nv_attr (type : tBTA_GATTC_ATTR_TYPE) (s_handle e_handle : Nat)
    (uuid : Uuid) (prop incl_srvc_handle : Nat) (is_primary : Bool) : tBTA_GATTC_NV_ATTR :=
  { s_handle := s_handle, e_handle := e_handle, attr_type := type, is_primary := is_primary,
    id := 0, prop := prop, incl_srvc_handle := incl_srvc_handle, uuid := uuid }

/-- First loop of `bta_gattc_cache_save`: one `SRVC` record per service. -/
def save_services :
    List tBTA_GATTC_SERVICE → List tBTA_GATTC_NV_ATTR → List tBTA_GATTC_NV_ATTR
  | [], nv_attr => nv_attr
  | service :: rest, nv_attr =>
    save_services rest
      (nv_attr ++ [bta_gattc_fill_nv_attr BTA_GATTC_ATTR_TYPE_SRVC service.s_handle
        service.e_handle service.uuid 0 0 service.is_primary])

/-- Descriptor loop of `bta_gattc_cache_save`. -/
def save_descriptors :
    List tBTA_GATTC_DESCRIPTOR → List tBTA_GATTC_NV_ATTR → List tBTA_GATTC_NV_ATTR
  | [], nv_attr => nv_attr
  | desc :: rest, nv_attr =>
    save_descriptors rest
      (nv_attr ++ [bta_gattc_fill_nv_attr BTA_GATTC_ATTR_TYPE_CHAR_DESCR desc.handle 0
        desc.uuid 0 0 false])

/-- Characteristic loop of `bta_gattc_cache_save`. -/
def save_characteristics :
    List tBTA_GATTC_CHARACTERISTIC → List tBTA_GATTC_NV_ATTR → List tBTA_GATTC_NV_ATTR
  | [], nv_attr => nv_attr
  | charac :: rest, nv_attr =>
    save_characteristics rest
      (save_descriptors charac.descriptors
        (nv_attr ++ [bta_gattc_fill_nv_attr BTA_GATTC_ATTR_TYPE_CHAR charac.handle 0
          charac.uuid charac.properties 0 false]))

/-- Included-service loop of `bta_gattc_cache_save`. -/
def save_included (srvc_cache : List tBTA_GATTC_SERVICE) :
    List tBTA_GATTC_INCLUDED_SVC → List tBTA_GATTC_NV_ATTR → List tBTA_GATTC_NV_ATTR
  | [], nv_attr => nv_attr
  | p_isvc :: rest, nv_attr =>
    save_included srvc_cache rest
      (nv_attr ++ [bta_gattc_fill_nv_attr BTA_GATTC_ATTR_TYPE_INCL_SRVC p_isvc.handle 0
        p_isvc.uuid 0 (included_s_handle srvc_cache p_isvc) false])

/-- Second loop of `bta_gattc_cache_save`: the children of every service. -/
def save_children (srvc_cache : List tBTA_GATTC_SERVICE) :
    List tBTA_GATTC_SERVICE → List tBTA_GATTC_NV_ATTR → List tBTA_GATTC_NV_ATTR
  | [], nv_attr => nv_attr
  | service :: rest, nv_attr =>
    save_children srvc_cache rest
      (save_included srvc_cache service.included_svc
        (save_characteristics service.characteristics nv_attr))

/-- `bta_gattc_cache_save`: `none` when nothing is written (empty graph), otherwise the
arguments handed to `bta_gattc_cache_write`: the attribute count converted to `uint16_t` and
the record array. -/
def bta_gattc_cache_save (srvc_cache : List tBTA_GATTC_SERVICE) :
    Option (Nat × List tBTA_GATTC_NV_ATTR) :=
  if srvc_cache.isEmpty then none
  else
    let db_size := bta_gattc_get_db_size srvc_cache 0x0000 0xFFFF
    let nv_attr := save_children srvc_cache srvc_cache (save_services srvc_cache [])
    some (db_size % 65536, nv_attr)

/-- One iteration of the loop of `bta_gattc_rebuild_cache`: the `switch` on the record type. -/
def rebuild_record (srvc_cache : List tBTA_GATTC_SERVICE) (p_attr : tBTA_GATTC_NV_ATTR) :
    List tBTA_GATTC_SERVICE :=
  match p_attr.attr_type with
  | BTA_GATTC_ATTR_TYPE_SRVC =>
    bta_gattc_add_srvc_to_cache srvc_cache p_attr.s_handle p_attr.e_handle p_attr.uuid
      p_attr.is_primary
  | BTA_GATTC_ATTR_TYPE_CHAR =>
    bta_gattc_add_char_to_cache srvc_cache p_attr.s_handle p_attr.s_handle p_attr.uuid
      p_attr.prop
  | BTA_GATTC_ATTR_TYPE_CHAR_DESCR =>
    bta_gattc_add_attr_to_cache srvc_cache p_attr.s_handle p_attr.uuid p_attr.prop
      p_attr.incl_srvc_handle p_attr.attr_type
  | BTA_GATTC_ATTR_TYPE_INCL_SRVC =>
    bta_gattc_add_attr_to_cache srvc_cache p_attr.s_handle p_attr.uuid p_attr.prop
      p_attr.incl_srvc_handle p_attr.attr_type

/-- The loop `while (num_attr > 0 && p_attr != NULL)` of `bta_gattc_rebuild_cache`; the walk
also ends where the record array ends. -/
def rebuild_loop :
    Nat → List tBTA_GATTC_NV_ATTR → List tBTA_GATTC_SERVICE → List tBTA_GATTC_SERVICE
  | 0, _, srvc_cache => srvc_cache
  | _ + 1, [], srvc_cache => srvc_cache
  | num_attr + 1, p_attr :: rest, srvc_cache =>
    rebuild_loop num_attr rest (rebuild_record srvc_cache p_attr)

/-- `bta_gattc_rebuild_cache`: clear the graph, then replay `num_attr` records (`p_attr` is the
record array, `none` a null pointer). -/
def bta_gattc_rebuild_cache (num_attr : Nat) (p_attr : Option (List tBTA_GATTC_NV_ATTR)) :
    List tBTA_GATTC_SERVICE :=
  match p_attr with
  | none => []
  | some attrs => rebuild_loop num_attr attrs []

/-! ## Discovery buffer and control blocks -/

/-- Discovery record `tBTA_GATTC_ATTR_REC`. -/
structure tBTA_GATTC_ATTR_REC where
  uuid : Uuid
  s_handle : Nat
  e_handle : Nat
  char_decl_handle : Nat
  is_primary : Bool
  property : Nat
  deriving DecidableEq, Repr, Inhabited

/-- Status values `tGATT_STATUS` named in this file; `GATT_SUCCESS` is the value `0` that
`bta_gattc_start_disc_char_dscp` compares with; `other` stands for any further status the
stack may return. -/
inductive tGATT_STATUS where
  | GATT_SUCCESS
  | GATT_INTERNAL_ERROR
  | GATT_DB_FULL
  | GATT_ERROR
  | other (code : Nat)
  deriving DecidableEq, Repr, Inhabited

open tGATT_STATUS

/-- Discovery sub-procedures `tGATT_DISC_TYPE`. -/
inductive tGATT_DISC_TYPE where
  | GATT_DISC_SRVC_ALL
  | GATT_DISC_SRVC_BY_UUID
  | GATT_DISC_INC_SRVC
  | GATT_DISC_CHAR
  | GATT_DISC_CHAR_DSCPT
  deriving DecidableEq, Repr, Inhabited

open tGATT_DISC_TYPE

/-- Member `group_value` of the discovery result. -/
structure tGATT_GROUP_VALUE where
  service_type : Uuid := 0
  s_handle : Nat := 0
  e_handle : Nat := 0
  deriving DecidableEq, Repr, Inhabited

/-- Member `incl_service` of the discovery result. -/
structure tGATT_INCL_SRVC where
  service_type : Uuid := 0
  s_handle : Nat := 0
  e_handle : Nat := 0
  deriving DecidableEq, Repr, Inhabited

/-- Member `dclr_value` of the discovery result. -/
structure tGATT_CHAR_DCLR_VAL where
  char_prop : Nat := 0
  val_handle : Nat := 0
  char_uuid : Uuid := 0
  deriving DecidableEq, Repr, Inhabited

/-- The members of `tGATT_DISC_VALUE` this file reads, each kept as a field of its own. -/
structure tGATT_DISC_VALUE where
  incl_service : tGATT_INCL_SRVC := {}
  group_value : tGATT_GROUP_VALUE := {}
  dclr_value : tGATT_CHAR_DCLR_VAL := {}
  deriving DecidableEq, Repr, Inhabited

/-- Discovery result `tGATT_DISC_RES`. -/
structure tGATT_DISC_RES where
  type : Uuid := 0
  handle : Nat := 0
  value : tGATT_DISC_VALUE := {}
  deriving DecidableEq, Repr, Inhabited

/-- States of the server control block (`BTA_GATTC_SERV_*`). -/
inductive tBTA_GATTC_SERV_STATE where
  | BTA_GATTC_SERV_IDLE
  | BTA_GATTC_SERV_LOAD
  | BTA_GATTC_SERV_SAVE
  | BTA_GATTC_SERV_DISC
  | BTA_GATTC_SERV_DISC_ACT
  deriving DecidableEq, Repr, Inhabited

open tBTA_GATTC_SERV_STATE

/-- Server control block `tBTA_GATTC_SERV`: the graph, the discovery buffer (`none` is a null
`p_srvc_list`) and its cursors. `front_e_handle` is not a member of the source structure: it
is the memory in front of the buffer, the `e_handle` of the record-sized cell at
`p_srvc_list - 1`, which `bta_gattc_add_char_to_list` can write through `p_rec - 1`; it is
`none` as long as nothing was written there since the buffer was allocated. -/
structure tBTA_GATTC_SERV where
  state : tBTA_GATTC_SERV_STATE
  srvc_cache : List tBTA_GATTC_SERVICE
  p_srvc_list : Option (List tBTA_GATTC_ATTR_REC)
  cur_srvc_idx : Nat
  cur_char_idx : Nat
  next_avail_idx : Nat
  total_srvc : Nat
  total_char : Nat
  front_e_handle : Option Nat
  deriving DecidableEq, Repr, Inhabited

/-- States of the client control block state machine. -/
inductive tBTA_GATTC_STATE where
  | BTA_GATTC_IDLE_ST
  | BTA_GATTC_W4_CONN_ST
  | BTA_GATTC_CONN_ST
  | BTA_GATTC_DISCOVER_ST
  deriving DecidableEq, Repr, Inhabited

open tBTA_GATTC_STATE

/-- The fields of the client control block `tBTA_GATTC_CLCB` this file reads or writes; its
`p_srcb` is the server control block of the world. -/
structure tBTA_GATTC_CLCB where
  bta_conn_id : Nat
  state : tBTA_GATTC_STATE
  status : tGATT_STATUS
  deriving DecidableEq, Repr, Inhabited

/-! ## Lookup -/

/-- `bta_gattc_get_services_srcb` (`p_srcb` may be a null pointer). -/
def bta_gattc_get_services_srcb (p_srcb : Option tBTA_GATTC_SERV) :
    Option (List tBTA_GATTC_SERVICE) :=
  match p_srcb with
  | none => none
  | some srcb => if srcb.srvc_cache.isEmpty then none else some srcb.srvc_cache

/-- `bta_gattc_get_service_for_handle_srcb`. -/
def bta_gattc_get_service_for_handle_srcb (p_srcb : Option tBTA_GATTC_SERV)
    (handle : Nat) : Option tBTA_GATTC_SERVICE :=
  match bta_gattc_get_services_srcb p_srcb with
  | none => none
  | some services =>
    match bta_gattc_find_matching_service services handle with
    | none => none
    | some i => services[i]?

/-- The scan `for (charac : service->characteristics) if (handle == charac.handle) return`. -/
def find_characteristic_in :
    List tBTA_GATTC_CHARACTERISTIC → Nat → Option tBTA_GATTC_CHARACTERISTIC
  | [], _ => none
  | charac :: rest, handle =>
    if handle = charac.handle then some charac else find_characteristic_in rest handle

/-- `bta_gattc_get_characteristic_srcb`. -/
def bta_gattc_get_characteristic_srcb (p_srcb : Option tBTA_GATTC_SERV)
    (handle : Nat) : Option tBTA_GATTC_CHARACTERISTIC :=
  match bta_gattc_get_service_for_handle_srcb p_srcb handle with
  | none => none
  | some service => find_characteristic_in service.characteristics handle

/-- What crosses the boundary of this file, in order: the calls it makes to its collaborators
(`GATTC_Discover` with the status returned, `bta_gattc_sm_execute` with
`BTA_GATTC_DISCOVER_CMPL_EVT`, `bta_gattc_reset_discover_st`, the write of the cache file) and
the completion callbacks it receives. -/
inductive Effect where
  | GATTC_Discover (disc_type : tGATT_DISC_TYPE) (s_handle e_handle : Nat)
      (status : tGATT_STATUS)
  | sm_execute_DISCOVER_CMPL_EVT
  | reset_discover_st (status : tGATT_STATUS)
  | cache_write (num_attr : Nat) (attr : List tBTA_GATTC_NV_ATTR)
  | disc_cmpl_received (disc_type : tGATT_DISC_TYPE) (status : tGATT_STATUS)
  deriving DecidableEq, Repr, Inhabited

/-- What one connection id resolves to: the client control block found by
`bta_gattc_find_clcb_by_conn_id` (`none` is `NULL`), the server control block it points at, and
the trace of outgoing calls. -/
structure World where
  clcb : Option tBTA_GATTC_CLCB
  srcb : tBTA_GATTC_SERV
  trace : List Effect
  deriving DecidableEq, Repr, Inhabited

/-- The collaborators and constants declared outside this file: the buffer capacity
`BTA_GATTC_MAX_CACHE_CHAR`, the status `GATTC_Discover` answers a request with (it may depend
on the calls made so far), and whether the peer is bonded. -/
structure Env where
  BTA_GATTC_MAX_CACHE_CHAR : Nat
  GATTC_Discover : List Effect → tGATT_DISC_TYPE → Nat → Nat → tGATT_STATUS
  btm_sec_is_a_bonded_dev : Bool

/-- Modelled from the spec: the macro `GATT_HANDLE_IS_VALID` is declared in a header outside
this file; by the data model a handle is valid when it is not the reserved value `0x0000`. -/
def GATT_HANDLE_IS_VALID (x : Nat) : Bool := x != 0

/-- Modelled from the spec: `bta_gattc_find_scb_by_cid` belongs to the control-block registry
outside this file; a connection id resolves to the server control block of its client control
block, and to nothing when the connection is unknown. -/
def bta_gattc_find_scb_by_cid (w : World) : Option tBTA_GATTC_SERV :=
  match w.clcb with
  | none => none
  | some _ => some w.srcb

/-- The record `p_srvc_list + i`. The source dereferences the pointer whatever `i` is; the
value is that of the source only for an allocated buffer and an index inside it, and the
zeroed record returned elsewhere stands for memory the source does not own. -/
def rec_at (p_srvc_cb : tBTA_GATTC_SERV) (i : Nat) : tBTA_GATTC_ATTR_REC :=
  (p_srvc_cb.p_srvc_list.getD []).getD i default

/-- `bta_gattc_init_cache`: clear the graph, allocate the buffer, reset the cursors
(`total_char` is not among them). The contents of the fresh allocation are taken to be zeroed
records, and nothing has been written in front of it. -/
def bta_gattc_init_cache (env : Env) (p_srvc_cb : tBTA_GATTC_SERV) : tBTA_GATTC_SERV :=
  { p_srvc_cb with
    srvc_cache := []
    p_srvc_list := some (List.replicate env.BTA_GATTC_MAX_CACHE_CHAR default)
    front_e_handle := none
    total_srvc := 0
    cur_srvc_idx := 0
    cur_char_idx := 0
    next_avail_idx := 0 }

/-- `bta_gattc_get_disc_range`: the pair `(*p_s_hdl, *p_e_hdl)`. -/
def bta_gattc_get_disc_range (p_srvc_cb : tBTA_GATTC_SERV) (is_srvc : Bool) : Nat × Nat :=
  if is_srvc then
    let p_rec := rec_at p_srvc_cb p_srvc_cb.cur_srvc_idx
    (p_rec.s_handle, p_rec.e_handle)
  else
    let p_rec := rec_at p_srvc_cb p_srvc_cb.cur_char_idx
    ((p_rec.s_handle + 1) % 65536, p_rec.e_handle)

/-- `bta_gattc_discover_procedure`: the status returned, and the world with the call to
`GATTC_Discover` recorded when it is made. -/
def bta_gattc_discover_procedure (env : Env) (w : World) (disc_type : tGATT_DISC_TYPE) :
    World × tGATT_STATUS :=
  if disc_type = GATT_DISC_SRVC_ALL ∨ disc_type = GATT_DISC_SRVC_BY_UUID then
    let status := env.GATTC_Discover w.trace disc_type 1 0xFFFF
    ({ w with trace := w.trace ++ [Effect.GATTC_Discover disc_type 1 0xFFFF status] }, status)
  else
    let is_service := if disc_type = GATT_DISC_CHAR_DSCPT then false else true
    let param := bta_gattc_get_disc_range w.srcb is_service
    if param.1 > param.2 then (w, GATT_ERROR)
    else
      let status := env.GATTC_Discover w.trace disc_type param.1 param.2
      ({ w with trace := w.trace ++ [Effect.GATTC_Discover disc_type param.1 param.2 status] },
        status)

/-- `bta_gattc_start_disc_include_srvc`. -/
def bta_gattc_start_disc_include_srvc (env : Env) (w : World) : World × tGATT_STATUS :=
  bta_gattc_discover_procedure env w GATT_DISC_INC_SRVC

/-- `bta_gattc_start_disc_char`. -/
def bta_gattc_start_disc_char (env : Env) (w : World) : World × tGATT_STATUS :=
  bta_gattc_discover_procedure env { w with srcb := { w.srcb with total_char := 0 } }
    GATT_DISC_CHAR

/-- The call `bta_gattc_cache_save(p_clcb->p_srcb, ...)` followed by the file write. -/
def cache_save_effect (w : World) : World :=
  match bta_gattc_cache_save w.srcb.srvc_cache with
  | none => w
  | some (num_attr, attr) => { w with trace := w.trace ++ [Effect.cache_write num_attr attr] }

/-- `bta_gattc_explore_srvc`. -/
def bta_gattc_explore_srvc (env : Env) (w : World) : World :=
  let p_rec := rec_at w.srcb w.srcb.cur_srvc_idx
  let w := { w with srcb := { w.srcb with cur_char_idx := w.srcb.total_srvc
                                          next_avail_idx := w.srcb.total_srvc } }
  match w.clcb with
  | none => w
  | some _ =>
    if w.srcb.cur_srvc_idx < w.srcb.total_srvc then
      let w := { w with srcb := { w.srcb with
                  srvc_cache := bta_gattc_add_srvc_to_cache w.srcb.srvc_cache p_rec.s_handle
                    p_rec.e_handle p_rec.uuid p_rec.is_primary } }
      (bta_gattc_start_disc_include_srvc env w).1
    else
      let w := { w with srcb := { w.srcb with state := BTA_GATTC_SERV_SAVE } }
      let w := if env.btm_sec_is_a_bonded_dev then cache_save_effect w else w
      { w with trace := w.trace ++ [Effect.reset_discover_st GATT_SUCCESS] }

/-- `bta_gattc_incl_srvc_disc_cmpl`. -/
def bta_gattc_incl_srvc_disc_cmpl (env : Env) (w : World) : World :=
  (bta_gattc_start_disc_char env
    { w with srcb := { w.srcb with cur_char_idx := w.srcb.total_srvc } }).1

/-- `bta_gattc_start_disc_char_dscp`; `cmpl` is `bta_gattc_char_dscpt_disc_cmpl`, run at once
when the request could not be issued. -/
def bta_gattc_start_disc_char_dscp (env : Env) (cmpl : World → World) (w : World) : World :=
  let r := bta_gattc_discover_procedure env w GATT_DISC_CHAR_DSCPT
  if r.2 ≠ GATT_SUCCESS then cmpl r.1 else r.1

/-- The characteristic record at `cur_char_idx` lifted into the graph. -/
def add_cur_char_to_cache (w : World) : World :=
  let p_rec := rec_at w.srcb w.srcb.cur_char_idx
  { w with srcb := { w.srcb with
      srvc_cache := bta_gattc_add_char_to_cache w.srcb.srvc_cache p_rec.char_decl_handle
        p_rec.s_handle p_rec.uuid p_rec.property } }

/-- `bta_gattc_char_dscpt_disc_cmpl` with an explicit bound on the depth of the synchronous
chain through `bta_gattc_start_disc_char_dscp`. -/
def char_dscpt_disc_cmpl_fuel (env : Env) : Nat → World → World
  | 0, w => w
  | fuel + 1, w =>
    let total_char := (w.srcb.total_char + 255) % 256
    let w := { w with srcb := { w.srcb with total_char := total_char } }
    if total_char > 0 then
      let w := { w with srcb := { w.srcb with
                  cur_char_idx := (w.srcb.cur_char_idx + 1) % 256 } }
      let w := add_cur_char_to_cache w
      bta_gattc_start_disc_char_dscp env (char_dscpt_disc_cmpl_fuel env fuel) w
    else
      let w := { w with srcb := { w.srcb with
                  cur_srvc_idx := (w.srcb.cur_srvc_idx + 1) % 256 } }
      bta_gattc_explore_srvc env w

/-- `bta_gattc_char_dscpt_disc_cmpl`: the 8-bit `total_char` falls by one at every step of
the chain, so 256 steps always suffice. -/
def bta_gattc_char_dscpt_disc_cmpl (env : Env) (w : World) : World :=
  char_dscpt_disc_cmpl_fuel env 256 w

/-- `bta_gattc_char_disc_cmpl`. -/
def bta_gattc_char_disc_cmpl (env : Env) (w : World) : World :=
  if w.srcb.total_char > 0 then
    bta_gattc_start_disc_char_dscp env (bta_gattc_char_dscpt_disc_cmpl env)
      (add_cur_char_to_cache w)
  else
    bta_gattc_explore_srvc env
      { w with srcb := { w.srcb with cur_srvc_idx := (w.srcb.cur_srvc_idx + 1) % 256 } }

/-- `bta_gattc_srvc_in_list`. -/
def bta_gattc_srvc_in_list (p_srvc_cb : tBTA_GATTC_SERV) (s_handle e_handle : Nat)
    (uuid : Uuid) : Bool :=
  if !GATT_HANDLE_IS_VALID s_handle || !GATT_HANDLE_IS_VALID e_handle then true
  else
    (List.range p_srvc_cb.next_avail_idx).any fun i =>
      let p_rec := rec_at p_srvc_cb i
      p_rec.s_handle == s_handle || p_rec.e_handle == e_handle

/-- `bta_gattc_add_srvc_to_list`. -/
def bta_gattc_add_srvc_to_list (env : Env) (p_srvc_cb : tBTA_GATTC_SERV)
    (s_handle e_handle : Nat) (uuid : Uuid) (is_primary : Bool) :
    tBTA_GATTC_SERV × tGATT_STATUS :=
  match p_srvc_cb.p_srvc_list with
  | none => (p_srvc_cb, GATT_DB_FULL)
  | some list =>
    if p_srvc_cb.next_avail_idx < env.BTA_GATTC_MAX_CACHE_CHAR then
      let p_rec := list.getD p_srvc_cb.next_avail_idx default
      let p_rec := { p_rec with s_handle := s_handle, e_handle := e_handle,
                                is_primary := is_primary, uuid := uuid }
      ({ p_srvc_cb with
          p_srvc_list := some (list.set p_srvc_cb.next_avail_idx p_rec)
          total_srvc := (p_srvc_cb.total_srvc + 1) % 256
          next_avail_idx := (p_srvc_cb.next_avail_idx + 1) % 256 }, GATT_SUCCESS)
    else (p_srvc_cb, GATT_DB_FULL)

/-- `bta_gattc_add_char_to_list`. The write through `p_rec - 1` is made whenever `total_char`
is above one after its increment: it patches the previous record of the buffer when
`next_avail_idx` is at least one, and lands in front of the buffer (`front_e_handle`) when the
record written is the first of the array. -/
def bta_gattc_add_char_to_list (env : Env) (p_srvc_cb : tBTA_GATTC_SERV)
    (decl_handle value_handle : Nat) (uuid : Uuid) (property : Nat) :
    tBTA_GATTC_SERV × tGATT_STATUS :=
  match p_srvc_cb.p_srvc_list with
  | none => (p_srvc_cb, GATT_INTERNAL_ERROR)
  | some list =>
    if p_srvc_cb.next_avail_idx < env.BTA_GATTC_MAX_CACHE_CHAR then
      let total_char := (p_srvc_cb.total_char + 1) % 256
      let p_rec := list.getD p_srvc_cb.next_avail_idx default
      let p_rec := { p_rec with
                      s_handle := value_handle
                      char_decl_handle := decl_handle
                      property := property
                      e_handle := (list.getD p_srvc_cb.cur_srvc_idx default).e_handle
                      uuid := uuid }
      let list := list.set p_srvc_cb.next_avail_idx p_rec
      let list :=
        if total_char > 1 ∧ p_srvc_cb.next_avail_idx ≥ 1 then
          let prev := list.getD (p_srvc_cb.next_avail_idx - 1) default
          list.set (p_srvc_cb.next_avail_idx - 1)
            { prev with e_handle := (decl_handle + 65535) % 65536 }
        else list
      let front_e_handle :=
        if total_char > 1 ∧ p_srvc_cb.next_avail_idx = 0 then
          some ((decl_handle + 65535) % 65536)
        else p_srvc_cb.front_e_handle
      ({ p_srvc_cb with
          p_srvc_list := some list
          front_e_handle := front_e_handle
          total_char := total_char
          next_avail_idx := (p_srvc_cb.next_avail_idx + 1) % 256 }, GATT_SUCCESS)
    else (p_srvc_cb, GATT_DB_FULL)

/-- `bta_gattc_disc_res_cback`. -/
def bta_gattc_disc_res_cback (env : Env) (w : World) (disc_type : tGATT_DISC_TYPE)
    (p_data : tGATT_DISC_RES) : World :=
  match bta_gattc_find_scb_by_cid w, w.clcb with
  | some p_srvc_cb, some p_clcb =>
    if p_clcb.state = BTA_GATTC_DISCOVER_ST then
      match disc_type with
      | GATT_DISC_SRVC_ALL =>
        { w with srcb := (bta_gattc_add_srvc_to_list env p_srvc_cb p_data.handle
            p_data.value.group_value.e_handle p_data.value.group_value.service_type true).1 }
      | GATT_DISC_SRVC_BY_UUID =>
        { w with srcb := (bta_gattc_add_srvc_to_list env p_srvc_cb p_data.handle
            p_data.value.group_value.e_handle p_data.value.group_value.service_type true).1 }
      | GATT_DISC_INC_SRVC =>
        let pri_srvc := bta_gattc_srvc_in_list p_srvc_cb p_data.value.incl_service.s_handle
          p_data.value.incl_service.e_handle p_data.value.incl_service.service_type
        let p_srvc_cb :=
          if !pri_srvc then
            (bta_gattc_add_srvc_to_list env p_srvc_cb p_data.value.incl_service.s_handle
              p_data.value.incl_service.e_handle p_data.value.incl_service.service_type
              false).1
          else p_srvc_cb
        { w with srcb := { p_srvc_cb with
            srvc_cache := bta_gattc_add_attr_to_cache p_srvc_cb.srvc_cache p_data.handle
              p_data.value.incl_service.service_type (if pri_srvc then 1 else 0)
              p_data.value.incl_service.s_handle BTA_GATTC_ATTR_TYPE_INCL_SRVC } }
      | GATT_DISC_CHAR =>
        { w with srcb := (bta_gattc_add_char_to_list env p_srvc_cb p_data.handle
            p_data.value.dclr_value.val_handle p_data.value.dclr_value.char_uuid
            p_data.value.dclr_value.char_prop).1 }
      | GATT_DISC_CHAR_DSCPT =>
        { w with srcb := { p_srvc_cb with
            srvc_cache := bta_gattc_add_attr_to_cache p_srvc_cb.srvc_cache p_data.handle
              p_data.type 0 0 BTA_GATTC_ATTR_TYPE_CHAR_DESCR } }
    else w
  | _, _ => w

/-- `bta_gattc_disc_cmpl_cback`. -/
def bta_gattc_disc_cmpl_cback (env : Env) (w : World) (disc_type : tGATT_DISC_TYPE)
    (status : tGATT_STATUS) : World :=
  match w.clcb with
  | some p_clcb =>
    if status ≠ GATT_SUCCESS ∨ p_clcb.status ≠ GATT_SUCCESS then
      let p_clcb := if status = GATT_SUCCESS then { p_clcb with status := status } else p_clcb
      { w with clcb := some p_clcb
               trace := w.trace ++ [Effect.sm_execute_DISCOVER_CMPL_EVT] }
    else
      match disc_type with
      | GATT_DISC_SRVC_ALL => bta_gattc_explore_srvc env w
      | GATT_DISC_SRVC_BY_UUID => bta_gattc_explore_srvc env w
      | GATT_DISC_INC_SRVC => bta_gattc_incl_srvc_disc_cmpl env w
      | GATT_DISC_CHAR => bta_gattc_char_disc_cmpl env w
      | GATT_DISC_CHAR_DSCPT => bta_gattc_char_dscpt_disc_cmpl env w
  | none => w

/-! ## Discovery passes -/

/-- An event delivered by the ATT collaborator: a result or a completion callback. -/
inductive DiscEvent where
  | res (disc_type : tGATT_DISC_TYPE) (p_data : tGATT_DISC_RES)
  | cmpl (disc_type : tGATT_DISC_TYPE) (status : tGATT_STATUS)
  deriving DecidableEq, Repr, Inhabited

/-- The sub-procedure an event belongs to. -/
def DiscEvent.disc_type : DiscEvent → tGATT_DISC_TYPE
  | .res t _ => t
  | .cmpl t _ => t

/-- Deliver one event to the engine; the receipt of a completion is noted in the trace before
the callback runs. -/
def deliver (env : Env) (w : World) : DiscEvent → World
  | .res disc_type p_data => bta_gattc_disc_res_cback env w disc_type p_data
  | .cmpl disc_type status =>
    bta_gattc_disc_cmpl_cback env
      { w with trace := w.trace ++ [Effect.disc_cmpl_received disc_type status] }
      disc_type status

/-- Deliver a sequence of events in order. -/
def run (env : Env) (w : World) (evs : List DiscEvent) : World :=
  evs.foldl (deliver env) w

/-- The sub-procedure a trace entry leaves the engine waiting on: a discovery request that
`GATTC_Discover` accepted. -/
def accepted_request : Effect → Option tGATT_DISC_TYPE
  | Effect.GATTC_Discover disc_type _ _ GATT_SUCCESS => some disc_type
  | _ => none

/-- The sub-procedure the engine is waiting on: the last entry of the trace is a discovery
request that was accepted (no completion was received and nothing else was done since). -/
def outstanding (w : World) : Option tGATT_DISC_TYPE :=
  w.trace.getLast?.bind accepted_request

/-- Protocol order: every event belongs to the sub-procedure the engine last issued. -/
def in_protocol_order (env : Env) : World → List DiscEvent → Bool
  | _, [] => true
  | w, ev :: rest =>
    outstanding w == some ev.disc_type && in_protocol_order env (deliver env w ev) rest

/-- The start of a discovery pass over LE: the client is in the discover state with status
success, `bta_gattc_init_cache` has run and the primary-service discovery is issued. -/
def start_discovery (env : Env) (w : World) : World :=
  (bta_gattc_discover_procedure env
    { w with clcb := some { bta_conn_id := 0, state := BTA_GATTC_DISCOVER_ST,
                            status := GATT_SUCCESS }
             srcb := bta_gattc_init_cache env w.srcb }
    GATT_DISC_SRVC_ALL).1

/-- The pass is complete: the last thing the engine did is report overall success. -/
def pass_complete (w : World) : Bool :=
  w.trace.getLast? == some (Effect.reset_discover_st GATT_SUCCESS)
/-! ## Descriptor lookup and lookups by connection -/

/-- The inner loop of `bta_gattc_get_descriptor_srcb`:
`for (desc : charac.descriptors) if (handle == desc.handle) return &desc`. -/
def find_descriptor_in_descriptors :
    List tBTA_GATTC_DESCRIPTOR → Nat → Option tBTA_GATTC_DESCRIPTOR
  | [], _ => none
  | desc :: rest, handle =>
    if handle = desc.handle then some desc else find_descriptor_in_descriptors rest handle

/-- The outer loop of `bta_gattc_get_descriptor_srcb` over the characteristics of the
service. -/
def find_descriptor_in :
    List tBTA_GATTC_CHARACTERISTIC → Nat → Option tBTA_GATTC_DESCRIPTOR
  | [], _ => none
  | charac :: rest, handle =>
    match find_descriptor_in_descriptors charac.descriptors handle with
    | some desc => some desc
    | none => find_descriptor_in rest handle

/-- `bta_gattc_get_descriptor_srcb`. -/
def bta_gattc_get_descriptor_srcb (p_srcb : Option tBTA_GATTC_SERV)
    (handle : Nat) : Option tBTA_GATTC_DESCRIPTOR :=
  match bta_gattc_get_service_for_handle_srcb p_srcb handle with
  | none => none
  | some service => find_descriptor_in service.characteristics handle

/-- `bta_gattc_get_services`: the connection id resolves to the client control block of the
world (`none` when the connection is unknown). -/
def bta_gattc_get_services (w : World) : Option (List tBTA_GATTC_SERVICE) :=
  match w.clcb with
  | none => none
  | some _ => bta_gattc_get_services_srcb (some w.srcb)

/-- `bta_gattc_get_service_for_handle`. -/
def bta_gattc_get_service_for_handle (w : World) (handle : Nat) :
    Option tBTA_GATTC_SERVICE :=
  match bta_gattc_get_services w with
  | none => none
  | some services =>
    match bta_gattc_find_matching_service services handle with
    | none => none
    | some i => services[i]?

/-- `bta_gattc_get_characteristic`. -/
def bta_gattc_get_characteristic (w : World) (handle : Nat) :
    Option tBTA_GATTC_CHARACTERISTIC :=
  match w.clcb with
  | none => none
  | some _ => bta_gattc_get_characteristic_srcb (some w.srcb) handle

/-- `bta_gattc_get_descriptor`. -/
def bta_gattc_get_descriptor (w : World) (handle : Nat) : Option tBTA_GATTC_DESCRIPTOR :=
  match w.clcb with
  | none => none
  | some _ => bta_gattc_get_descriptor_srcb (some w.srcb) handle

/-- `bta_gattc_get_gatt_db`: `out` holds the values of `*db` and `*count` before the call, the
result their values after it. -/
def bta_gattc_get_gatt_db (w : World) (start_handle end_handle : Nat) (out : GattDbOut) :
    GattDbOut :=
  match w.clcb with
  | none => out
  | some p_clcb =>
    if p_clcb.state ≠ BTA_GATTC_CONN_ST then out
    else if w.srcb.p_srvc_list.isSome ∨ w.srcb.srvc_cache.isEmpty then out
    else bta_gattc_get_gatt_db_impl w.srcb.srvc_cache start_handle end_handle

/-! ## Cache file -/

/-- `GATT_CACHE_VERSION`. -/
def GATT_CACHE_VERSION : Nat := 2

/-- The storage layout of `tBTA_GATTC_NV_ATTR` (the type is declared in `bta_gattc_int.h`):
`sizeof (tBTA_GATTC_NV_ATTR)`, the bytes of a record in memory, and the record a run of
`sizeof` bytes is read as. `fwrite` copies exactly `sizeof` bytes per record. -/
structure NvAttrLayout where
  sizeof_attr : Nat
  to_bytes : tBTA_GATTC_NV_ATTR → List Nat
  of_bytes : List Nat → tBTA_GATTC_NV_ATTR
  to_bytes_length : ∀ a, (to_bytes a).length = sizeof_attr

/-- The two bytes of a `uint16_t` in memory (little endian). -/
def uint16_bytes (x : Nat) : List Nat := [x % 256, x / 256 % 256]

/-- `fread(&x, sizeof(uint16_t), 1, fd)`: the value read and the rest of the stream, `none`
when fewer than two bytes are left (the call returns `0`). -/
def fread_uint16 : List Nat → Option (Nat × List Nat)
  | b0 :: b1 :: rest => some (b0 + 256 * b1, rest)
  | _ => none

/-- `fread(attr, sizeof(tBTA_GATTC_NV_ATTR), num_attr, fd)`: the complete records read, at most
`num_attr` of them; the length of the result is the value the call returns. -/
def fread_attr (layout : NvAttrLayout) : Nat → List Nat → List tBTA_GATTC_NV_ATTR
  | 0, _ => []
  | num_attr + 1, stream =>
    if layout.sizeof_attr ≤ stream.length then
      layout.of_bytes (stream.take layout.sizeof_attr) ::
        fread_attr layout num_attr (stream.drop layout.sizeof_attr)
    else []

/-- `bta_gattc_cache_load`: `file` is the content of the cache file of the server (`none`
when `fopen` fails), `p_srcb` the server control block `p_clcb->p_srcb`; the result is the
return value and the server control block after the call. -/
def bta_gattc_cache_load (layout : NvAttrLayout) (file : Option (List Nat))
    (p_srcb : tBTA_GATTC_SERV) : Bool × tBTA_GATTC_SERV :=
  match file with
  | none => (false, p_srcb)
  | some fd =>
    match fread_uint16 fd with
    | none => (false, p_srcb)
    | some (cache_ver, fd) =>
      if cache_ver ≠ GATT_CACHE_VERSION then (false, p_srcb)
      else
        match fread_uint16 fd with
        | none => (false, p_srcb)
        | some (num_attr, fd) =>
          if num_attr > 0xFFFF then (false, p_srcb)
          else
            let attr := fread_attr layout num_attr fd
            if attr.length ≠ num_attr then (false, p_srcb)
            else
              (true, { p_srcb with
                        srvc_cache := bta_gattc_rebuild_cache num_attr (some attr) })

/-- The storage device as the writer sees it: whether `fopen(fname, "wb")` succeeds, and how
many bytes the device accepts before a write comes up short. -/
structure Storage where
  fopen_wb : Bool
  room : Nat

/-- `fwrite(ptr, size, nmemb, fd)` of the bytes `data` on a stream with `room` bytes of space:
the bytes that reach the file, and the number of complete items written (the return value). -/
def fwrite (room : Nat) (data : List Nat) (size : Nat) : List Nat × Nat :=
  (data.take room, if size = 0 then 0 else (data.take room).length / size)

/-- `bta_gattc_cache_write`: `file` is the content of the cache file before the call (`none`
when there is none); the result is its content after the call. Opening with `"wb"` truncates
the file. -/
def bta_gattc_cache_write (layout : NvAttrLayout) (dev : Storage) (file : Option (List Nat))
    (num_attr : Nat) (attr : List tBTA_GATTC_NV_ATTR) : Option (List Nat) :=
  if !dev.fopen_wb then file
  else
    let cache_ver := GATT_CACHE_VERSION
    let w1 := fwrite dev.room (uint16_bytes cache_ver) 2
    if w1.2 ≠ 1 then some w1.1
    else
      let w2 := fwrite (dev.room - w1.1.length) (uint16_bytes num_attr) 2
      if w2.2 ≠ 1 then some (w1.1 ++ w2.1)
      else
        let w3 := fwrite (dev.room - w1.1.length - w2.1.length)
          ((attr.take num_attr).flatMap layout.to_bytes) layout.sizeof_attr
        some (w1.1 ++ w2.1 ++ w3.1)

/-- `bta_gattc_cache_save` down to the file: the content of the cache file after the call. -/
def cache_save_file (layout : NvAttrLayout) (dev : Storage) (file : Option (List Nat))
    (srvc_cache : List tBTA_GATTC_SERVICE) : Option (List Nat) :=
  match bta_gattc_cache_save srvc_cache with
  | none => file
  | some (num_attr, attr) => bta_gattc_cache_write layout dev file num_attr attr


/-! ## Specification vocabulary -/

/-- The handle `h` lies in the range of the service `S`. -/
def in_range (S : tBTA_GATTC_SERVICE) (h : Nat) : Prop := S.s_handle ≤ h ∧ h ≤ S.e_handle

/-- No handle lies in the ranges of both services. -/
def disjoint_pair (S T : tBTA_GATTC_SERVICE) : Prop :=
  ∀ h, ¬ (in_range S h ∧ in_range T h)

instance (S T : tBTA_GATTC_SERVICE) : Decidable (disjoint_pair S T) :=
  decidable_of_iff
    (¬ (S.s_handle ≤ S.e_handle ∧ T.s_handle ≤ T.e_handle ∧ S.s_handle ≤ T.e_handle ∧
        T.s_handle ≤ S.e_handle))
    (by
      unfold disjoint_pair in_range
      constructor
      · intro hno h hh
        exact hno (by omega)
      · intro hd hc
        by_cases hle : S.s_handle ≤ T.s_handle
        · exact hd T.s_handle (by omega)
        · exact hd S.s_handle (by omega))

/-- No handle lies in the ranges of two service nodes of the list. -/
def ranges_disjoint (services : List tBTA_GATTC_SERVICE) : Prop :=
  services.Pairwise disjoint_pair

instance (services : List tBTA_GATTC_SERVICE) : Decidable (ranges_disjoint services) := by
  unfold ranges_disjoint
  infer_instance

/-- The element written for a service. -/
def service_element (service : tBTA_GATTC_SERVICE) : btgatt_db_element_t :=
  { type := if service.is_primary then BTGATT_DB_PRIMARY_SERVICE
            else BTGATT_DB_SECONDARY_SERVICE
    attribute_handle := 0, start_handle := service.s_handle, end_handle := service.e_handle,
    id := service.s_handle, uuid := service.uuid, properties := 0, permissions := 0 }

/-- The element written for a characteristic. -/
def characteristic_element (charac : tBTA_GATTC_CHARACTERISTIC) : btgatt_db_element_t :=
  { type := BTGATT_DB_CHARACTERISTIC, attribute_handle := charac.handle, start_handle := 0,
    end_handle := 0, id := charac.handle, uuid := charac.uuid,
    properties := charac.properties, permissions := 0 }

/-- The element written for a descriptor. -/
def descriptor_element (desc : tBTA_GATTC_DESCRIPTOR) : btgatt_db_element_t :=
  { type := BTGATT_DB_DESCRIPTOR, attribute_handle := desc.handle, start_handle := 0,
    end_handle := 0, id := desc.handle, uuid := desc.uuid, properties := 0, permissions := 0 }

/-- The element written for an included-service edge. -/
def included_element (srvc_cache : List tBTA_GATTC_SERVICE)
    (p_isvc : tBTA_GATTC_INCLUDED_SVC) : btgatt_db_element_t :=
  { type := BTGATT_DB_INCLUDED_SERVICE, attribute_handle := p_isvc.handle,
    start_handle := included_s_handle srvc_cache p_isvc, end_handle := 0,
    id := p_isvc.handle, uuid := p_isvc.uuid, properties := 0, permissions := 0 }

/-- Element order of one exported service as the code produces it: the service, then every
characteristic immediately followed by its own descriptors, then the included edges. -/
def service_block (srvc_cache : List tBTA_GATTC_SERVICE) (service : tBTA_GATTC_SERVICE) :
    List btgatt_db_element_t :=
  service_element service ::
    (service.characteristics.flatMap fun charac =>
      characteristic_element charac :: charac.descriptors.map descriptor_element) ++
    service.included_svc.map (included_element srvc_cache)

/-- Element order of one exported service as the specification words it: the service, then
all characteristics, then all descriptors, then the included edges. -/
def service_block_as_specified (srvc_cache : List tBTA_GATTC_SERVICE)
    (service : tBTA_GATTC_SERVICE) : List btgatt_db_element_t :=
  service_element service ::
    service.characteristics.map characteristic_element ++
    (service.characteristics.flatMap fun charac =>
      charac.descriptors.map descriptor_element) ++
    service.included_svc.map (included_element srvc_cache)

/-- The services the export walk reaches and emits: those inside `[start_handle, end_handle]`
among the services that come before the first one that starts at or after `start_handle` and
ends after `end_handle`. -/
def exported_services (services : List tBTA_GATTC_SERVICE) (start_handle end_handle : Nat) :
    List tBTA_GATTC_SERVICE :=
  (services.takeWhile fun S =>
      !(decide (start_handle ≤ S.s_handle) && decide (end_handle < S.e_handle))).filter
    fun S => decide (start_handle ≤ S.s_handle) && decide (S.e_handle ≤ end_handle)

/-- The services whose range lies entirely within `[start_handle, end_handle]`. -/
def services_within (services : List tBTA_GATTC_SERVICE) (start_handle end_handle : Nat) :
    List tBTA_GATTC_SERVICE :=
  services.filter fun S =>
    decide (start_handle ≤ S.s_handle) && decide (S.e_handle ≤ end_handle)

/-- The graph of scenario 2: one service with two characteristics, the first with one
descriptor. -/
def scenario2_graph : List tBTA_GATTC_SERVICE :=
  [{ s_handle := 1, e_handle := 10, is_primary := true, uuid := 0x180F, handle := 1,
     characteristics :=
       [{ handle := 3, properties := 0x10, uuid := 0x2A19,
          descriptors := [{ handle := 4, uuid := 0x2902 }] },
        { handle := 6, properties := 0x02, uuid := 0x2A1A, descriptors := [] }],
     included_svc := [] }]

/-- A graph in discovery order with a secondary service appended after the primaries. -/
def secondary_last_graph : List tBTA_GATTC_SERVICE :=
  [{ s_handle := 1, e_handle := 10, is_primary := true, uuid := 0x1801, handle := 1,
     characteristics := [], included_svc := [] },
   { s_handle := 20, e_handle := 30, is_primary := true, uuid := 0x180A, handle := 20,
     characteristics := [], included_svc := [] },
   { s_handle := 12, e_handle := 15, is_primary := false, uuid := 0x181A, handle := 12,
     characteristics := [], included_svc := [] }]

/-- A graph holding one service whose reported range is inverted. -/
def inverted_range_graph : List tBTA_GATTC_SERVICE :=
  [{ s_handle := 10, e_handle := 5, is_primary := true, uuid := 0x1801, handle := 10,
     characteristics := [], included_svc := [] }]

/-- The edge points at a service node of the graph, and that node is the first service whose
range contains its own start handle. -/
def target_resolves (G : List tBTA_GATTC_SERVICE) (e : tBTA_GATTC_INCLUDED_SVC) : Prop :=
  match e.included_service with
  | none => False
  | some j =>
    j < G.length ∧ bta_gattc_find_matching_service G (G.getD j default).s_handle = some j

instance (G : List tBTA_GATTC_SERVICE) (e : tBTA_GATTC_INCLUDED_SVC) :
    Decidable (target_resolves G e) := by
  unfold target_resolves
  cases e.included_service <;> infer_instance

/-- The service `S` stored at position `k` carries its start handle as `handle`, and the
first service whose range contains the value handle of one of its characteristics, the handle
of one of its descriptors or the handle of one of its included edges is `S` itself; its edges
point at services that resolve. -/
def owner_resolves (G : List tBTA_GATTC_SERVICE) (k : Nat) (S : tBTA_GATTC_SERVICE) : Prop :=
  S.handle = S.s_handle ∧
  (∀ c ∈ S.characteristics,
    bta_gattc_find_matching_service G c.handle = some k ∧
    ∀ d ∈ c.descriptors, bta_gattc_find_matching_service G d.handle = some k) ∧
  (∀ e ∈ S.included_svc,
    bta_gattc_find_matching_service G e.handle = some k ∧ target_resolves G e)

instance (G : List tBTA_GATTC_SERVICE) (k : Nat) (S : tBTA_GATTC_SERVICE) :
    Decidable (owner_resolves G k S) := by
  unfold owner_resolves
  infer_instance

/-- Every attribute handle of the graph resolves to its owner. -/
def handles_resolve (G : List tBTA_GATTC_SERVICE) : Prop :=
  ∀ k, k < G.length → owner_resolves G k (G.getD k default)

instance (G : List tBTA_GATTC_SERVICE) : Decidable (handles_resolve G) := by
  unfold handles_resolve
  infer_instance

/-- The `SRVC` record of a service. -/
def srvc_record (S : tBTA_GATTC_SERVICE) : tBTA_GATTC_NV_ATTR :=
  bta_gattc_fill_nv_attr BTA_GATTC_ATTR_TYPE_SRVC S.s_handle S.e_handle S.uuid 0 0 S.is_primary

/-- The `CHAR` record of a characteristic. -/
def char_record (c : tBTA_GATTC_CHARACTERISTIC) : tBTA_GATTC_NV_ATTR :=
  bta_gattc_fill_nv_attr BTA_GATTC_ATTR_TYPE_CHAR c.handle 0 c.uuid c.properties 0 false

/-- The `CHAR_DESCR` record of a descriptor. -/
def descr_record (d : tBTA_GATTC_DESCRIPTOR) : tBTA_GATTC_NV_ATTR :=
  bta_gattc_fill_nv_attr BTA_GATTC_ATTR_TYPE_CHAR_DESCR d.handle 0 d.uuid 0 0 false

/-- The `INCL_SRVC` record of an included edge. -/
def incl_record (G : List tBTA_GATTC_SERVICE) (e : tBTA_GATTC_INCLUDED_SVC) :
    tBTA_GATTC_NV_ATTR :=
  bta_gattc_fill_nv_attr BTA_GATTC_ATTR_TYPE_INCL_SRVC e.handle 0 e.uuid 0
    (included_s_handle G e) false

/-- The records of one characteristic and its descriptors. -/
def char_records (c : tBTA_GATTC_CHARACTERISTIC) : List tBTA_GATTC_NV_ATTR :=
  char_record c :: c.descriptors.map descr_record

/-- The child records of one service. -/
def children_records (G : List tBTA_GATTC_SERVICE) (S : tBTA_GATTC_SERVICE) :
    List tBTA_GATTC_NV_ATTR :=
  S.characteristics.flatMap char_records ++ S.included_svc.map (incl_record G)

/-- The range of a service node. -/
def rng (S : tBTA_GATTC_SERVICE) : Nat × Nat := (S.s_handle, S.e_handle)

/-- A service node without its children, as the `SRVC` record restores it. -/
def skeleton (S : tBTA_GATTC_SERVICE) : tBTA_GATTC_SERVICE :=
  { S with characteristics := [], included_svc := [] }

/-- The collaborators of the scenarios: a buffer of 128 records, every discovery request
accepted, the peer bonded. -/
def scenario_env : Env :=
  { BTA_GATTC_MAX_CACHE_CHAR := 128
    GATTC_Discover := fun _ _ _ _ => GATT_SUCCESS
    btm_sec_is_a_bonded_dev := true }

/-- A protocol-order pass over one service `[3, 10]` whose only characteristic is reported
with declaration handle 5 and value handle 1. -/
def value_below_service_pass : List DiscEvent :=
  [ .res GATT_DISC_SRVC_ALL
      { handle := 3, value := { group_value := { e_handle := 10, service_type := 0x1801 } } },
    .cmpl GATT_DISC_SRVC_ALL GATT_SUCCESS,
    .cmpl GATT_DISC_INC_SRVC GATT_SUCCESS,
    .res GATT_DISC_CHAR
      { handle := 5,
        value := { dclr_value := { val_handle := 1, char_uuid := 0x2A19, char_prop := 0x10 } } },
    .cmpl GATT_DISC_CHAR GATT_SUCCESS,
    .cmpl GATT_DISC_CHAR_DSCPT GATT_SUCCESS ]

/-- The graph service `S` was lifted from the buffer record `r`: same start handle, UUID and
primary flag, and an end handle that is the record's or was widened past it. -/
def lifted_from (S : tBTA_GATTC_SERVICE) (r : tBTA_GATTC_ATTR_REC) : Prop :=
  S.s_handle = r.s_handle ∧ r.e_handle ≤ S.e_handle ∧ S.uuid = r.uuid ∧
    S.is_primary = r.is_primary

/-- The graph holds one service per record among the first `k` records of the buffer, in
buffer order. -/
def graph_lifted (srvc_cache : List tBTA_GATTC_SERVICE) (list : List tBTA_GATTC_ATTR_REC)
    (k : Nat) : Prop :=
  List.Forall₂ lifted_from srvc_cache (list.take k)

/-- The engine neither waits on a request nor has reported the end of the pass. -/
def inert (w : World) : Prop := outstanding w = none ∧ pass_complete w = false

/-- What holds throughout a pass: the client is in the discover state with status success, the
buffer is allocated with its full capacity, and the service count fits the buffer. -/
structure pass_common (env : Env) (w : World) (list : List tBTA_GATTC_ATTR_REC) : Prop where
  clcb : ∃ c, w.clcb = some c ∧ c.state = BTA_GATTC_DISCOVER_ST ∧ c.status = GATT_SUCCESS
  buf : w.srcb.p_srvc_list = some list
  len : list.length = env.BTA_GATTC_MAX_CACHE_CHAR
  tot : w.srcb.total_srvc ≤ env.BTA_GATTC_MAX_CACHE_CHAR

/-- The invariant of a discovery pass in protocol order, by the sub-procedure the engine is
waiting on. -/
inductive pass_inv (env : Env) (w : World) : Prop where
  | srvc (list : List tBTA_GATTC_ATTR_REC) (hc : pass_common env w list)
      (ho : outstanding w = some GATT_DISC_SRVC_ALL)
      (hcache : w.srcb.srvc_cache = []) (hcur : w.srcb.cur_srvc_idx = 0)
      (hnext : w.srcb.next_avail_idx = w.srcb.total_srvc)
  | incl (list : List tBTA_GATTC_ATTR_REC) (hc : pass_common env w list)
      (ho : outstanding w = some GATT_DISC_INC_SRVC)
      (hcur : w.srcb.cur_srvc_idx < w.srcb.total_srvc)
      (hl : graph_lifted w.srcb.srvc_cache list (w.srcb.cur_srvc_idx + 1))
      (hnext : w.srcb.next_avail_idx = w.srcb.total_srvc)
  | char (list : List tBTA_GATTC_ATTR_REC) (hc : pass_common env w list)
      (ho : outstanding w = some GATT_DISC_CHAR)
      (hcur : w.srcb.cur_srvc_idx < w.srcb.total_srvc)
      (hl : graph_lifted w.srcb.srvc_cache list (w.srcb.cur_srvc_idx + 1))
      (hidx : w.srcb.cur_char_idx = w.srcb.total_srvc)
      (hnext : w.srcb.next_avail_idx = w.srcb.total_srvc + w.srcb.total_char)
      (hfit : w.srcb.next_avail_idx ≤ env.BTA_GATTC_MAX_CACHE_CHAR)
  | dscpt (list : List tBTA_GATTC_ATTR_REC) (hc : pass_common env w list)
      (ho : outstanding w = some GATT_DISC_CHAR_DSCPT)
      (hcur : w.srcb.cur_srvc_idx < w.srcb.total_srvc)
      (hl : graph_lifted w.srcb.srvc_cache list (w.srcb.cur_srvc_idx + 1))
      (hidx : w.srcb.total_srvc ≤ w.srcb.cur_char_idx)
      (hchar : 1 ≤ w.srcb.total_char)
      (hnext : w.srcb.cur_char_idx + w.srcb.total_char = w.srcb.next_avail_idx)
      (hfit : w.srcb.next_avail_idx ≤ env.BTA_GATTC_MAX_CACHE_CHAR)
  | idle (hi : inert w)
  | done (list : List tBTA_GATTC_ATTR_REC) (hbuf : w.srcb.p_srvc_list = some list)
      (hl : graph_lifted w.srcb.srvc_cache list w.srcb.total_srvc)
      (hp : pass_complete w = true)

/-- What holds while the descriptors of a characteristic are being discovered. -/
structure dscpt_phase (env : Env) (w : World) (list : List tBTA_GATTC_ATTR_REC) : Prop where
  hc : pass_common env w list
  hcur : w.srcb.cur_srvc_idx < w.srcb.total_srvc
  hl : graph_lifted w.srcb.srvc_cache list (w.srcb.cur_srvc_idx + 1)
  hidx : w.srcb.total_srvc ≤ w.srcb.cur_char_idx
  hchar : 1 ≤ w.srcb.total_char
  hnext : w.srcb.cur_char_idx + w.srcb.total_char = w.srcb.next_avail_idx
  hfit : w.srcb.next_avail_idx ≤ env.BTA_GATTC_MAX_CACHE_CHAR

/-- A `SRVC_ALL` result reporting the primary service `[s, e]` with UUID `u`. -/
def srvc_result (s e u : Nat) : DiscEvent :=
  .res GATT_DISC_SRVC_ALL
    { handle := s, value := { group_value := { e_handle := e, service_type := u } } }

/-- An `INC_SRVC` result: the include declaration at `h` names the service `[s, e]` with UUID
`u`. -/
def incl_result (h s e u : Nat) : DiscEvent :=
  .res GATT_DISC_INC_SRVC
    { handle := h,
      value := { incl_service := { s_handle := s, e_handle := e, service_type := u } } }

/-- A `CHAR` result: declaration handle `d`, value handle `v`, UUID `u`, properties `p`. -/
def char_result (d v u p : Nat) : DiscEvent :=
  .res GATT_DISC_CHAR
    { handle := d,
      value := { dclr_value := { val_handle := v, char_uuid := u, char_prop := p } } }

/-- A completion with success status. -/
def cmpl_ok (t : tGATT_DISC_TYPE) : DiscEvent := .cmpl t GATT_SUCCESS

/-- Scenario 3: primaries `A = [1, 10]` and `B = [20, 30]`; while `A` is explored the peer
reports that `A` includes `B`. -/
def scenario3_pass : List DiscEvent :=
  [ srvc_result 1 10 0x1801, srvc_result 20 30 0x180A, cmpl_ok GATT_DISC_SRVC_ALL,
    incl_result 2 20 30 0x180A, cmpl_ok GATT_DISC_INC_SRVC, cmpl_ok GATT_DISC_CHAR,
    cmpl_ok GATT_DISC_INC_SRVC, cmpl_ok GATT_DISC_CHAR ]

/-- Scenario 4: as scenario 3, but the included range `[40, 50]` was not reported as a
primary service. -/
def scenario4_pass : List DiscEvent :=
  [ srvc_result 1 10 0x1801, srvc_result 20 30 0x180A, cmpl_ok GATT_DISC_SRVC_ALL,
    incl_result 2 40 50 0x181A, cmpl_ok GATT_DISC_INC_SRVC, cmpl_ok GATT_DISC_CHAR,
    cmpl_ok GATT_DISC_INC_SRVC, cmpl_ok GATT_DISC_CHAR,
    cmpl_ok GATT_DISC_INC_SRVC, cmpl_ok GATT_DISC_CHAR ]

/-- A pass in which the first primary service includes the secondary service `[12, 15]`,
which lies between the two primary services. -/
def secondary_between_pass : List DiscEvent :=
  [ srvc_result 1 10 0x1801, srvc_result 20 30 0x180A, cmpl_ok GATT_DISC_SRVC_ALL,
    incl_result 2 12 15 0x181A, cmpl_ok GATT_DISC_INC_SRVC, cmpl_ok GATT_DISC_CHAR,
    cmpl_ok GATT_DISC_INC_SRVC, cmpl_ok GATT_DISC_CHAR,
    cmpl_ok GATT_DISC_INC_SRVC, cmpl_ok GATT_DISC_CHAR ]

/-- A pass in which the peer reports the primary service `[1, 10]` twice. -/
def repeated_service_pass : List DiscEvent :=
  [ srvc_result 1 10 0x1801, srvc_result 1 10 0x1801, cmpl_ok GATT_DISC_SRVC_ALL,
    cmpl_ok GATT_DISC_INC_SRVC, cmpl_ok GATT_DISC_CHAR,
    cmpl_ok GATT_DISC_INC_SRVC, cmpl_ok GATT_DISC_CHAR ]

/-- A pass in which the peer reports one primary service with the inverted range `[10, 5]`. -/
def inverted_range_pass : List DiscEvent :=
  [ srvc_result 10 5 0x1801, cmpl_ok GATT_DISC_SRVC_ALL ]

/-- The world a scenario pass ends in. -/
def scenario_run (evs : List DiscEvent) : World :=
  run scenario_env (start_discovery scenario_env default) evs

/-- No handle lies in the ranges of both buffered records. -/
def disjoint_records (r1 r2 : tBTA_GATTC_ATTR_REC) : Prop :=
  ∀ h, ¬ ((r1.s_handle ≤ h ∧ h ≤ r1.e_handle) ∧ (r2.s_handle ≤ h ∧ h ≤ r2.e_handle))

/-- The characteristic results of one `CHAR` phase handed to `bta_gattc_add_char_to_list` in
order, as `bta_gattc_disc_res_cback` does. -/
def ingest_chars (env : Env) (p_srvc_cb : tBTA_GATTC_SERV) (results : List tGATT_DISC_RES) :
    tBTA_GATTC_SERV :=
  results.foldl (fun p p_data =>
    (bta_gattc_add_char_to_list env p p_data.handle p_data.value.dclr_value.val_handle
      p_data.value.dclr_value.char_uuid p_data.value.dclr_value.char_prop).1) p_srvc_cb

/-- The buffer holds the characteristic results `results` from slot `base` on: record `j` has
the value handle of result `j` as start and ends just before the declaration of result
`j + 1`, the last one at the end `S_e` of the service. -/
def chars_buffered (list : List tBTA_GATTC_ATTR_REC) (base S_e : Nat)
    (results : List tGATT_DISC_RES) : Prop :=
  ∀ j, j < results.length →
    (list.getD (base + j) default).s_handle =
      (results.getD j default).value.dclr_value.val_handle ∧
    (list.getD (base + j) default).e_handle =
      if j + 1 < results.length then (results.getD (j + 1) default).handle - 1 else S_e

/-- A pass over the service `[1, 0xFFFF]` whose characteristic is declared at `0xFFFE` with
value handle `0xFFFF`, up to the characteristic result. -/
def last_handle_pass : List DiscEvent :=
  [ srvc_result 1 0xFFFF 0x1801, cmpl_ok GATT_DISC_SRVC_ALL, cmpl_ok GATT_DISC_INC_SRVC,
    char_result 0xFFFE 0xFFFF 0x2A19 0x02 ]

/-- The buffer when the `CHAR` phase of scenario 2 starts: the service record `[1, 10]` in
slot 0, no characteristic counted. -/
def scenario2_char_phase : tBTA_GATTC_SERV :=
  { (default : tBTA_GATTC_SERV) with
    p_srvc_list := some ((List.replicate 128 default).set 0
      { (default : tBTA_GATTC_ATTR_REC) with s_handle := 1, e_handle := 10 })
    next_avail_idx := 1
    total_srvc := 1 }

/-- The characteristic results of scenario 2. -/
def scenario2_char_results : List tGATT_DISC_RES :=
  [{ handle := 2, value := { dclr_value := { val_handle := 3, char_uuid := 0x2A19,
                                              char_prop := 0x10 } } },
   { handle := 5, value := { dclr_value := { val_handle := 6, char_uuid := 0x2A1A,
                                              char_prop := 0x02 } } }]

/-- Collaborators with a discovery buffer of two records. -/
def two_slot_env : Env :=
  { BTA_GATTC_MAX_CACHE_CHAR := 2
    GATTC_Discover := fun _ _ _ _ => GATT_SUCCESS
    btm_sec_is_a_bonded_dev := true }

/-- The pass of scenario 2 up to its second characteristic result. -/
def scenario2_char_pass : List DiscEvent :=
  [ srvc_result 1 10 0x180F, cmpl_ok GATT_DISC_SRVC_ALL, cmpl_ok GATT_DISC_INC_SRVC,
    char_result 2 3 0x2A19 0x10, char_result 5 6 0x2A1A 0x02 ]
/-- The number of attributes of the graph: services, characteristics, descriptors and
included-service edges. -/
def attribute_count (G : List tBTA_GATTC_SERVICE) : Nat :=
  G.length + (G.map fun S => S.characteristics.length).sum +
    (G.map fun S => (S.characteristics.map fun c => c.descriptors.length).sum).sum +
    (G.map fun S => S.included_svc.length).sum

/-- A record layout for the examples: the fields in declaration order, handles and UUID in two
bytes each (little endian), the remaining fields in one byte each. -/
def packed_layout : NvAttrLayout :=
  { sizeof_attr := 12
    to_bytes := fun a =>
      uint16_bytes a.s_handle ++ uint16_bytes a.e_handle ++
        [ (match a.attr_type with
            | BTA_GATTC_ATTR_TYPE_INCL_SRVC => 0
            | BTA_GATTC_ATTR_TYPE_CHAR => 1
            | BTA_GATTC_ATTR_TYPE_CHAR_DESCR => 2
            | BTA_GATTC_ATTR_TYPE_SRVC => 3),
          (if a.is_primary then 1 else 0), a.id % 256, a.prop % 256 ] ++
        uint16_bytes a.incl_srvc_handle ++ uint16_bytes a.uuid
    of_bytes := fun b =>
      { s_handle := b.getD 0 0 + 256 * b.getD 1 0
        e_handle := b.getD 2 0 + 256 * b.getD 3 0
        attr_type :=
          (match b.getD 4 0 with
            | 0 => BTA_GATTC_ATTR_TYPE_INCL_SRVC
            | 1 => BTA_GATTC_ATTR_TYPE_CHAR
            | 2 => BTA_GATTC_ATTR_TYPE_CHAR_DESCR
            | _ => BTA_GATTC_ATTR_TYPE_SRVC)
        is_primary := b.getD 5 0 != 0
        id := b.getD 6 0
        prop := b.getD 7 0
        incl_srvc_handle := b.getD 8 0 + 256 * b.getD 9 0
        uuid := b.getD 10 0 + 256 * b.getD 11 0 }
    to_bytes_length := fun a => rfl }

/-- A storage device that opens the file and accepts 4096 bytes. -/
def roomy_device : Storage := { fopen_wb := true, room := 4096 }

/-- A run of 65534 descriptors, as a peer that repeats a descriptor result leaves them. -/
def many_descriptors : List tBTA_GATTC_DESCRIPTOR :=
  List.replicate 65534 { handle := 4, uuid := 0x2902 }

/-- A graph of 65536 attributes: one service, one characteristic and 65534 descriptors. -/
def oversized_graph : List tBTA_GATTC_SERVICE :=
  [{ s_handle := 1, e_handle := 0xFFFF, is_primary := true, uuid := 0x1801, handle := 1,
     characteristics :=
       [{ handle := 3, properties := 0x02, uuid := 0x2A19, descriptors := many_descriptors }],
     included_svc := [] }]

/-- A `CHAR_DSCPT` result: the descriptor at `h` with UUID `u`. -/
def dscpt_result (h u : Nat) : DiscEvent :=
  .res GATT_DISC_CHAR_DSCPT { type := u, handle := h }

/-- Scenario 2: one service `[1, 10]`, two characteristics, one descriptor under the first. -/
def scenario2_pass : List DiscEvent :=
  [ srvc_result 1 10 0x180F, cmpl_ok GATT_DISC_SRVC_ALL, cmpl_ok GATT_DISC_INC_SRVC,
    char_result 2 3 0x2A19 0x10, char_result 5 6 0x2A1A 0x02, cmpl_ok GATT_DISC_CHAR,
    dscpt_result 4 0x2902, cmpl_ok GATT_DISC_CHAR_DSCPT, cmpl_ok GATT_DISC_CHAR_DSCPT ]

/-- The ranges of the descriptor-discovery requests of a trace, in the order issued. -/
def dscpt_requests (trace : List Effect) : List (Nat × Nat) :=
  trace.filterMap fun
    | Effect.GATTC_Discover GATT_DISC_CHAR_DSCPT s e _ => some (s, e)
    | _ => none

/-- The discovery requests of a trace, in the order issued. -/
def discover_requests (trace : List Effect) : List Effect :=
  trace.filter fun
    | Effect.GATTC_Discover _ _ _ _ => true
    | _ => false

/-- The cache writes of a trace. -/
def cache_writes (trace : List Effect) : List Effect :=
  trace.filter fun
    | Effect.cache_write _ _ => true
    | _ => false

/-- Graphs built from the empty graph by the insert operations of the engine; `ok` is what is
known of the attribute handle and the value handle of every characteristic insertion. -/
inductive graph_built (ok : Nat → Nat → Prop) : List tBTA_GATTC_SERVICE → Prop where
  | empty : graph_built ok []
  | add_srvc (G : List tBTA_GATTC_SERVICE) (s_handle e_handle : Nat) (uuid : Uuid)
      (is_primary : Bool) (h : graph_built ok G) :
      graph_built ok (bta_gattc_add_srvc_to_cache G s_handle e_handle uuid is_primary)
  | add_char (G : List tBTA_GATTC_SERVICE) (attr_handle value_handle : Nat) (uuid : Uuid)
      (property : Nat) (h : graph_built ok G) (hok : ok attr_handle value_handle) :
      graph_built ok (bta_gattc_add_char_to_cache G attr_handle value_handle uuid property)
  | add_attr (G : List tBTA_GATTC_SERVICE) (handle : Nat) (uuid : Uuid) (property : Nat)
      (incl_srvc_s_handle : Nat) (type : tBTA_GATTC_ATTR_TYPE) (h : graph_built ok G) :
      graph_built ok
        (bta_gattc_add_attr_to_cache G handle uuid property incl_srvc_s_handle type)

/-- No condition on the handles of a characteristic insertion. -/
def any_handles : Nat → Nat → Prop := fun _ _ => True

/-- A world in the connected state with the graph of scenario 2 and no discovery buffer. -/
def connected_world : World :=
  { clcb := some { bta_conn_id := 0, state := BTA_GATTC_CONN_ST, status := GATT_SUCCESS }
    srcb := { (default : tBTA_GATTC_SERV) with srvc_cache := scenario2_graph }
    trace := [] }

/-- One service `[3, 10]` and, inserted under the attribute handle 5, a characteristic with
value handle 1. -/
def char_below_graph : List tBTA_GATTC_SERVICE :=
  bta_gattc_add_char_to_cache (bta_gattc_add_srvc_to_cache [] 3 10 0x1801 true) 5 1 0x2A19 0x10

/-- The record of the primary service `[1, 10]` with UUID `0x180F`. -/
def battery_record : tBTA_GATTC_NV_ATTR :=
  { s_handle := 1, e_handle := 10, attr_type := BTA_GATTC_ATTR_TYPE_SRVC, is_primary := true,
    id := 0, prop := 0, incl_srvc_handle := 0, uuid := 0x180F }

/-- A cache file with a valid header, one complete record and one extra byte. -/
def trailing_byte_file : List Nat :=
  uint16_bytes GATT_CACHE_VERSION ++ uint16_bytes 1 ++ packed_layout.to_bytes battery_record ++
    [0xAA]

/-- The primaries `[1, 10]` and `[20, 30]` reported and the `SRVC_ALL` phase completed: the
engine explores `[1, 10]` and waits for its included services. -/
def two_primaries_pass : List DiscEvent :=
  [ srvc_result 1 10 0x1800, srvc_result 20 30 0x180F, cmpl_ok GATT_DISC_SRVC_ALL ]

/-- The world a pass ends in over collaborators with a buffer of two records. -/
def two_slot_run (evs : List DiscEvent) : World :=
  run two_slot_env (start_discovery two_slot_env default) evs

/-- The payload of an `INC_SRVC` result: the include declaration at `h` names the service
`[s, e]` with UUID `u`. -/
def incl_data (h s e u : Nat) : tGATT_DISC_RES :=
  { handle := h,
    value := { incl_service := { s_handle := s, e_handle := e, service_type := u } } }

/-- `char_dscpt_disc_cmpl_fuel` with the worlds recorded in which
`bta_gattc_char_dscpt_disc_cmpl` is entered: the world `w0` of the call and, each time
`bta_gattc_start_disc_char_dscp` runs the completion at once, the worlds of the nested
calls. -/
def char_dscpt_disc_cmpl_entries (env : Env) : Nat → World → World × List World
  | 0, w0 => (w0, [])
  | fuel + 1, w0 =>
    let total_char := (w0.srcb.total_char + 255) % 256
    let w := { w0 with srcb := { w0.srcb with total_char := total_char } }
    if total_char > 0 then
      let w := { w with srcb := { w.srcb with
                  cur_char_idx := (w.srcb.cur_char_idx + 1) % 256 } }
      let w := add_cur_char_to_cache w
      let r := bta_gattc_discover_procedure env w GATT_DISC_CHAR_DSCPT
      if r.2 ≠ GATT_SUCCESS then
        ((char_dscpt_disc_cmpl_entries env fuel r.1).1,
          w0 :: (char_dscpt_disc_cmpl_entries env fuel r.1).2)
      else (r.1, [w0])
    else
      let w := { w with srcb := { w.srcb with
                  cur_srvc_idx := (w.srcb.cur_srvc_idx + 1) % 256 } }
      (bta_gattc_explore_srvc env w, [w0])

/-- The worlds in which `bta_gattc_char_dscpt_disc_cmpl` is entered during a call of
`bta_gattc_disc_cmpl_cback`: directly for a `CHAR_DSCPT` completion, through
`bta_gattc_char_disc_cmpl` and `bta_gattc_start_disc_char_dscp` for a `CHAR` completion. -/
def disc_cmpl_cback_entries (env : Env) (w : World) (disc_type : tGATT_DISC_TYPE)
    (status : tGATT_STATUS) : List World :=
  match w.clcb with
  | none => []
  | some p_clcb =>
    if status ≠ GATT_SUCCESS ∨ p_clcb.status ≠ GATT_SUCCESS then []
    else
      match disc_type with
      | GATT_DISC_CHAR =>
        if w.srcb.total_char > 0 then
          let r := bta_gattc_discover_procedure env (add_cur_char_to_cache w)
            GATT_DISC_CHAR_DSCPT
          if r.2 ≠ GATT_SUCCESS then (char_dscpt_disc_cmpl_entries env 256 r.1).2 else []
        else []
      | GATT_DISC_CHAR_DSCPT => (char_dscpt_disc_cmpl_entries env 256 w).2
      | _ => []

/-- The worlds in which `bta_gattc_char_dscpt_disc_cmpl` is entered while `deliver` handles
the event. -/
def dscpt_cmpl_entries (env : Env) (w : World) : DiscEvent → List World
  | .res _ _ => []
  | .cmpl disc_type status =>
    disc_cmpl_cback_entries env
      { w with trace := w.trace ++ [Effect.disc_cmpl_received disc_type status] }
      disc_type status

/-- The characteristic records in the `n` slots after `cur_char_idx` lifted into the graph one
after the other, as the chain of completions does: the cursor advances by one (in 8 bits)
before each insertion. -/
def insert_next_chars : Nat → tBTA_GATTC_SERV → tBTA_GATTC_SERV
  | 0, p_srvc_cb => p_srvc_cb
  | n + 1, p_srvc_cb =>
    let i := (p_srvc_cb.cur_char_idx + 1) % 256
    let p_rec := rec_at p_srvc_cb i
    insert_next_chars n
      { p_srvc_cb with
        cur_char_idx := i
        srvc_cache := bta_gattc_add_char_to_cache p_srvc_cb.srvc_cache p_rec.char_decl_handle
          p_rec.s_handle p_rec.uuid p_rec.property }

/-- Scenario 1: one service `[1, 3]` whose only characteristic is declared at 2 with value
handle 3. -/
def scenario1_pass : List DiscEvent :=
  [ srvc_result 1 3 0x1800, cmpl_ok GATT_DISC_SRVC_ALL, cmpl_ok GATT_DISC_INC_SRVC,
    char_result 2 3 0x2A00 0x02, cmpl_ok GATT_DISC_CHAR ]

/-- The indices of the buffer records `bta_gattc_add_srvc_to_list` writes: the record at
`next_avail_idx` when the buffer is allocated and not full. -/
def add_srvc_to_list_slots (env : Env) (p_srvc_cb : tBTA_GATTC_SERV) : List Int :=
  match p_srvc_cb.p_srvc_list with
  | none => []
  | some _ =>
    if p_srvc_cb.next_avail_idx < env.BTA_GATTC_MAX_CACHE_CHAR then
      [(p_srvc_cb.next_avail_idx : Int)]
    else []

/-- The indices of the buffer records `bta_gattc_add_char_to_list` writes: `p_rec` at
`next_avail_idx` and, when `total_char` is above one after its increment, `p_rec - 1`. -/
def add_char_to_list_slots (env : Env) (p_srvc_cb : tBTA_GATTC_SERV) : List Int :=
  match p_srvc_cb.p_srvc_list with
  | none => []
  | some _ =>
    if p_srvc_cb.next_avail_idx < env.BTA_GATTC_MAX_CACHE_CHAR then
      (p_srvc_cb.next_avail_idx : Int) ::
        (if (p_srvc_cb.total_char + 1) % 256 > 1 then [(p_srvc_cb.next_avail_idx : Int) - 1]
          else [])
    else []

/-- The indices of the buffer records written while `deliver` handles the event: those of
the insert `bta_gattc_disc_res_cback` makes for a result; a completion writes none. -/
def written_slots (env : Env) (w : World) : DiscEvent → List Int
  | .cmpl _ _ => []
  | .res disc_type p_data =>
    match bta_gattc_find_scb_by_cid w, w.clcb with
    | some p_srvc_cb, some p_clcb =>
      if p_clcb.state = BTA_GATTC_DISCOVER_ST then
        match disc_type with
        | GATT_DISC_SRVC_ALL => add_srvc_to_list_slots env p_srvc_cb
        | GATT_DISC_SRVC_BY_UUID => add_srvc_to_list_slots env p_srvc_cb
        | GATT_DISC_INC_SRVC =>
          if !bta_gattc_srvc_in_list p_srvc_cb p_data.value.incl_service.s_handle
              p_data.value.incl_service.e_handle p_data.value.incl_service.service_type then
            add_srvc_to_list_slots env p_srvc_cb
          else []
        | GATT_DISC_CHAR => add_char_to_list_slots env p_srvc_cb
        | GATT_DISC_CHAR_DSCPT => []
      else []
    | _, _ => []

/-- What every engine function keeps of the buffer: the records, the service count,
`next_avail_idx` unless it is reset to the service count, and the memory in front of the
buffer. -/
def buffer_kept (a b : tBTA_GATTC_SERV) : Prop :=
  b.total_srvc = a.total_srvc ∧ b.p_srvc_list = a.p_srvc_list ∧
    (b.next_avail_idx = a.next_avail_idx ∨ b.next_avail_idx = a.total_srvc) ∧
    b.front_e_handle = a.front_e_handle

/-- A discovery pass started again while an earlier pass is in its `CHAR` phase: the earlier
pass (scenario 2 up to its first characteristic result) has counted one characteristic, and
`bta_gattc_init_cache` runs for the new pass with `total_char = 1`. -/
def restarted_pass : World :=
  start_discovery scenario_env (scenario_run (scenario2_pass.take 4))


/-- Modelled from the spec: `GATTC_Discover` is defined outside this file. By the data model a
handle is valid in the range `0x0001–0xFFFF` and `0x0000` is reserved/invalid: a discovery
request whose start handle is `0x0000` is not accepted, whatever its type and end handle. -/
def refuses_reserved_handle (env : Env) : Prop :=
  ∀ (trace : List Effect) (disc_type : tGATT_DISC_TYPE) (e_handle : Nat),
    env.GATTC_Discover trace disc_type 0 e_handle ≠ GATT_SUCCESS

/-- The descriptor range of a characteristic record is empty as the specification words it:
`value_handle + 1 > e_handle`, the value handle being a 16-bit handle. -/
def empty_descriptor_range (p_rec : tBTA_GATTC_ATTR_REC) : Prop :=
  p_rec.s_handle ≤ 0xFFFF ∧ p_rec.s_handle + 1 > p_rec.e_handle

instance (p_rec : tBTA_GATTC_ATTR_REC) : Decidable (empty_descriptor_range p_rec) := by
  unfold empty_descriptor_range
  infer_instance

/-- The collaborators of the scenarios with a `GATTC_Discover` that checks the handles of a
request: a start or end handle `0x0000` is answered with `GATT_ILLEGAL_PARAMETER` (`0x87`),
every other request is accepted. -/
def strict_env : Env :=
  { BTA_GATTC_MAX_CACHE_CHAR := 128
    GATTC_Discover := fun _ _ s e =>
      if GATT_HANDLE_IS_VALID s && GATT_HANDLE_IS_VALID e then GATT_SUCCESS else other 0x87
    btm_sec_is_a_bonded_dev := true }

/-- The world a pass ends in when `GATTC_Discover` checks the handles. -/
def strict_run (evs : List DiscEvent) : World :=
  run strict_env (start_discovery strict_env default) evs

/-- A pass over the services `[1, 10]` and `[20, 30]`, up to the characteristic request of the
second service: the two characteristics of the first service (declared at 2 and 5, value
handles 3 and 6) were stored in slots 2 and 3 of the buffer and lifted into the graph. -/
def second_service_pass : List DiscEvent :=
  [ srvc_result 1 10 0x180F, srvc_result 20 30 0x180A, cmpl_ok GATT_DISC_SRVC_ALL,
    cmpl_ok GATT_DISC_INC_SRVC, char_result 2 3 0x2A19 0x10, char_result 5 6 0x2A1A 0x02,
    cmpl_ok GATT_DISC_CHAR, cmpl_ok GATT_DISC_CHAR_DSCPT, cmpl_ok GATT_DISC_CHAR_DSCPT,
    cmpl_ok GATT_DISC_INC_SRVC ]

/-- The buffer of two records after the characteristic result of scenario 1: the service
record `[1, 3]` and the characteristic record declared at 2 with value handle 3. -/
def scenario1_buffer : List tBTA_GATTC_ATTR_REC :=
  [{ (default : tBTA_GATTC_ATTR_REC) with
      s_handle := 1, e_handle := 3, uuid := 0x1800, is_primary := true },
   { (default : tBTA_GATTC_ATTR_REC) with
      s_handle := 3, e_handle := 3, char_decl_handle := 2, uuid := 0x2A00, property := 0x02 }]

/-- A service as the discovery results report it: its range, its UUID, and whether it was
reported as a primary service or named by an include declaration. -/
structure reported_service where
  s_handle : Nat
  e_handle : Nat
  uuid : Uuid
  is_primary : Bool
  deriving DecidableEq, Repr, Inhabited

/-- The service a buffer record describes. -/
def record_service (p_rec : tBTA_GATTC_ATTR_REC) : reported_service :=
  { s_handle := p_rec.s_handle, e_handle := p_rec.e_handle, uuid := p_rec.uuid,
    is_primary := p_rec.is_primary }

/-- The primary service a `SRVC_ALL` or `SRVC_BY_UUID` result reports. -/
def primary_reported (p_data : tGATT_DISC_RES) : reported_service :=
  { s_handle := p_data.handle, e_handle := p_data.value.group_value.e_handle,
    uuid := p_data.value.group_value.service_type, is_primary := true }

/-- The service an `INC_SRVC` result names. -/
def included_reported (p_data : tGATT_DISC_RES) : reported_service :=
  { s_handle := p_data.value.incl_service.s_handle,
    e_handle := p_data.value.incl_service.e_handle,
    uuid := p_data.value.incl_service.service_type, is_primary := false }

/-- A service is stored behind the services stored so far while the buffer of `cap` records
has room. -/
def store_service (cap : Nat) (acc : List reported_service) (r : reported_service) :
    List reported_service :=
  if acc.length < cap then acc ++ [r] else acc

/-- The test made for the service an `INC_SRVC` result names: a handle is `0x0000`, or a
service stored so far has the same start handle or the same end handle. -/
def already_stored (acc : List reported_service) (r : reported_service) : Bool :=
  r.s_handle == 0 || r.e_handle == 0 ||
    acc.any fun q => q.s_handle == r.s_handle || q.e_handle == r.e_handle

/-- The services stored after one more event of a pass, `acc` being those stored before it: a
`SRVC_ALL` or `SRVC_BY_UUID` result stores the primary service it reports, whatever is stored
already; an `INC_SRVC` result stores the service it names as a secondary service unless the
test `already_stored` holds; no other event stores a service. -/
def store_reported (cap : Nat) (acc : List reported_service) : DiscEvent → List reported_service
  | .cmpl _ _ => acc
  | .res disc_type p_data =>
    match disc_type with
    | GATT_DISC_SRVC_ALL => store_service cap acc (primary_reported p_data)
    | GATT_DISC_SRVC_BY_UUID => store_service cap acc (primary_reported p_data)
    | GATT_DISC_INC_SRVC =>
      if already_stored acc (included_reported p_data) then acc
      else store_service cap acc (included_reported p_data)
    | GATT_DISC_CHAR => acc
    | GATT_DISC_CHAR_DSCPT => acc

/-- The services a pass stores, computed from its events alone. -/
def stored_services (cap : Nat) (evs : List DiscEvent) : List reported_service :=
  evs.foldl (store_reported cap) []

/-- The primary services the events of a pass report, in the order reported. -/
def primaries_reported (evs : List DiscEvent) : List reported_service :=
  evs.filterMap fun
    | .res GATT_DISC_SRVC_ALL p_data => some (primary_reported p_data)
    | .res GATT_DISC_SRVC_BY_UUID p_data => some (primary_reported p_data)
    | _ => none

/-- The service a node of the graph describes. -/
def node_service (S : tBTA_GATTC_SERVICE) : reported_service :=
  { s_handle := S.s_handle, e_handle := S.e_handle, uuid := S.uuid,
    is_primary := S.is_primary }

/-- The service `r` without its end handle. -/
def service_key (r : reported_service) : Nat × Uuid × Bool := (r.s_handle, r.uuid, r.is_primary)

/-- The service records of the buffer, the first `total_srvc` records, describe the services
`acc`, in order. -/
def services_buffered (w : World) (acc : List reported_service) : Prop :=
  ∃ list, w.srcb.p_srvc_list = some list ∧
    (list.take w.srcb.total_srvc).map record_service = acc

/-- The engine is not waiting on a primary-service discovery. -/
def past_srvc (w : World) : Prop :=
  outstanding w ≠ some GATT_DISC_SRVC_ALL ∧ outstanding w ≠ some GATT_DISC_SRVC_BY_UUID

/-- No `INC_SRVC` result of the pass names a service that is new: each names a service with a
handle `0x0000`, or with the start handle or the end handle of a primary service that the pass
reports. -/
def includes_known (evs : List DiscEvent) : Bool :=
  evs.all fun
    | .res GATT_DISC_INC_SRVC p_data =>
      already_stored (primaries_reported evs) (included_reported p_data)
    | _ => true

/-- The value handle of a characteristic declared at `decl` is not beyond the end of any of
the services `R` whose range contains the declaration. -/
def char_inside (R : List reported_service) (decl value : Nat) : Bool :=
  R.all fun r => !(decide (r.s_handle ≤ decl) && decide (decl ≤ r.e_handle)) ||
    decide (value ≤ r.e_handle)

/-- Every `CHAR` result of the pass has its value handle at or below the end of every stored
service whose range contains its declaration handle. -/
def chars_inside (cap : Nat) (evs : List DiscEvent) : Bool :=
  evs.all fun
    | .res GATT_DISC_CHAR p_data =>
      char_inside (stored_services cap evs) p_data.handle p_data.value.dclr_value.val_handle
    | _ => true

/-- No handle lies in the ranges of both reported services. -/
def disjoint_reported (r1 r2 : reported_service) : Prop :=
  ∀ h, ¬ ((r1.s_handle ≤ h ∧ h ≤ r1.e_handle) ∧ (r2.s_handle ≤ h ∧ h ≤ r2.e_handle))

instance (r1 r2 : reported_service) : Decidable (disjoint_reported r1 r2) :=
  decidable_of_iff
    (¬ (r1.s_handle ≤ r1.e_handle ∧ r2.s_handle ≤ r2.e_handle ∧ r1.s_handle ≤ r2.e_handle ∧
        r2.s_handle ≤ r1.e_handle))
    (by
      unfold disjoint_reported
      constructor
      · intro hno h hh
        exact hno (by omega)
      · intro hd hc
        by_cases hle : r1.s_handle ≤ r2.s_handle
        · exact hd r2.s_handle (by omega)
        · exact hd r1.s_handle (by omega))

/-- The buffer holds nothing but what the services `R` explain: its service records describe
services of `R`, and every record behind them has a value handle that is not beyond the end
of a service of `R` containing its declaration handle. -/
def buffer_within (R : List reported_service) (p_srvc_cb : tBTA_GATTC_SERV) : Prop :=
  (∀ i, i < p_srvc_cb.total_srvc → record_service (rec_at p_srvc_cb i) ∈ R) ∧
  (∀ i, p_srvc_cb.total_srvc ≤ i →
    char_inside R (rec_at p_srvc_cb i).char_decl_handle (rec_at p_srvc_cb i).s_handle = true)

/-- Every service of the graph has the range of the service record at its position in the
buffer: no end handle was widened. -/
def graph_unwidened (p_srvc_cb : tBTA_GATTC_SERV) : Prop :=
  ∀ i S, p_srvc_cb.srvc_cache[i]? = some S →
    i < p_srvc_cb.total_srvc ∧ S.s_handle = (rec_at p_srvc_cb i).s_handle ∧
      S.e_handle = (rec_at p_srvc_cb i).e_handle

/-- A complete pass over the services `[1, 10]`, with the characteristics `2/3` and `5/6`,
and `[20, 30]`, without characteristics. -/
def two_services_pass : List DiscEvent :=
  second_service_pass ++ [cmpl_ok GATT_DISC_CHAR]

/-- A pass over the services `[1, 10]` and `[20, 30]` in which the peer reports, in the first
service, a characteristic declared at 5 whose value handle is 25. -/
def value_beyond_service_pass : List DiscEvent :=
  [ srvc_result 1 10 0x180F, srvc_result 20 30 0x180A, cmpl_ok GATT_DISC_SRVC_ALL,
    cmpl_ok GATT_DISC_INC_SRVC, char_result 5 25 0x2A19 0x10, cmpl_ok GATT_DISC_CHAR,
    cmpl_ok GATT_DISC_INC_SRVC, cmpl_ok GATT_DISC_CHAR ]

/-! # Theorems -/

/-! ## Lookup (C9, C10) -/

theorem find_matching_service_eq_some (services : List tBTA_GATTC_SERVICE) (h i : Nat) :
    bta_gattc_find_matching_service services h = some i ↔
      ∃ S, services[i]? = some S ∧ in_range S h ∧
        ∀ j T, j < i → services[j]? = some T → ¬ in_range T h := by
  induction services generalizing i with
  | nil => simp [bta_gattc_find_matching_service]
  | cons S rest ih =>
    unfold bta_gattc_find_matching_service
    by_cases hS : h ≥ S.s_handle ∧ h ≤ S.e_handle
    · rw [if_pos hS]
      constructor
      · intro hi
        have hi0 : i = 0 := by simpa using hi.symm
        subst hi0
        exact ⟨S, by simp, ⟨hS.1, hS.2⟩, fun j T hj => absurd hj (Nat.not_lt_zero j)⟩
      · rintro ⟨T, hT, _, hfirst⟩
        cases i with
        | zero => rfl
        | succ k => exact absurd ⟨hS.1, hS.2⟩ (hfirst 0 S (Nat.succ_pos k) (by simp))
    · rw [if_neg hS]
      cases i with
      | zero =>
        constructor
        · intro hi
          simp at hi
        · rintro ⟨T, hT, hin, _⟩
          simp at hT
          subst hT
          exact absurd ⟨hin.1, hin.2⟩ hS
      | succ k =>
        have := ih k
        constructor
        · intro hi
          have hk : bta_gattc_find_matching_service rest h = some k := by
            cases hfind : bta_gattc_find_matching_service rest h with
            | none => simp [hfind] at hi
            | some m => simp [hfind] at hi; simp [hi]
          obtain ⟨T, hT, hin, hfirst⟩ := (ih k).1 hk
          refine ⟨T, by simpa using hT, hin, ?_⟩
          intro j U hj hU
          cases j with
          | zero =>
            simp at hU
            subst hU
            exact fun hc => hS ⟨hc.1, hc.2⟩
          | succ m => exact hfirst m U (Nat.lt_of_succ_lt_succ hj) (by simpa using hU)
        · rintro ⟨T, hT, hin, hfirst⟩
          have hk : bta_gattc_find_matching_service rest h = some k :=
            (ih k).2 ⟨T, by simpa using hT, hin, fun j U hj hU =>
              hfirst (j + 1) U (Nat.succ_lt_succ hj) (by simpa using hU)⟩
          simp [hk]

theorem find_matching_service_eq_none (services : List tBTA_GATTC_SERVICE) (h : Nat) :
    bta_gattc_find_matching_service services h = none ↔ ∀ S ∈ services, ¬ in_range S h := by
  induction services with
  | nil => simp [bta_gattc_find_matching_service]
  | cons S rest ih =>
    unfold bta_gattc_find_matching_service
    by_cases hS : h ≥ S.s_handle ∧ h ≤ S.e_handle
    · rw [if_pos hS]
      simp only [List.mem_cons, forall_eq_or_imp]
      constructor
      · intro hc
        simp at hc
      · intro hc
        exact absurd ⟨hS.1, hS.2⟩ hc.1
    · rw [if_neg hS]
      simp only [Option.map_eq_none', ih, List.mem_cons, forall_eq_or_imp, iff_and_self]
      intro _ hc
      exact hS ⟨hc.1, hc.2⟩

theorem disjoint_unique (services : List tBTA_GATTC_SERVICE) (hd : ranges_disjoint services)
    (h i j : Nat) (S T : tBTA_GATTC_SERVICE) (hi : services[i]? = some S)
    (hj : services[j]? = some T) (hS : in_range S h) (hT : in_range T h) : i = j := by
  by_contra hne
  have hil : i < services.length := (List.getElem?_eq_some.1 hi).1
  have hjl : j < services.length := (List.getElem?_eq_some.1 hj).1
  have hSe : services[i] = S := (List.getElem?_eq_some.1 hi).2
  have hTe : services[j] = T := (List.getElem?_eq_some.1 hj).2
  rcases Nat.lt_or_gt_of_ne hne with hlt | hgt
  · have := List.pairwise_iff_getElem.1 hd i j hil hjl hlt h
    rw [hSe, hTe] at this
    exact this ⟨hS, hT⟩
  · have := List.pairwise_iff_getElem.1 hd j i hjl hil hgt h
    rw [hSe, hTe] at this
    exact this ⟨hT, hS⟩

/-- With pairwise disjoint ranges the lookup of a handle inside the range of the service at
position `k` returns `k`. -/
theorem find_matching_service_of_disjoint (G : List tBTA_GATTC_SERVICE)
    (hd : ranges_disjoint G) (k : Nat) (S : tBTA_GATTC_SERVICE) (hk : G[k]? = some S)
    (h : Nat) (hin : in_range S h) : bta_gattc_find_matching_service G h = some k := by
  cases hfind : bta_gattc_find_matching_service G h with
  | none =>
    exact absurd hin ((find_matching_service_eq_none G h).1 hfind S (List.getElem?_mem hk))
  | some i =>
    obtain ⟨T, hT, hTin, _⟩ := (find_matching_service_eq_some G h i).1 hfind
    rw [disjoint_unique G hd h i k T S hT hk hTin hin]

/-- The characteristic scan returns the first characteristic with the handle. -/
theorem find_characteristic_in_some (chars : List tBTA_GATTC_CHARACTERISTIC) (h : Nat)
    (c : tBTA_GATTC_CHARACTERISTIC) (hc : find_characteristic_in chars h = some c) :
    c ∈ chars ∧ c.handle = h := by
  induction chars with
  | nil => simp [find_characteristic_in] at hc
  | cons x rest ih =>
    unfold find_characteristic_in at hc
    by_cases hx : h = x.handle
    · rw [if_pos hx] at hc
      have : x = c := by simpa using hc
      subst this
      exact ⟨by simp, hx.symm⟩
    · rw [if_neg hx] at hc
      exact ⟨List.mem_cons_of_mem _ (ih hc).1, (ih hc).2⟩

theorem find_characteristic_in_none (chars : List tBTA_GATTC_CHARACTERISTIC) (h : Nat) :
    find_characteristic_in chars h = none ↔ ∀ c ∈ chars, c.handle ≠ h := by
  induction chars with
  | nil => simp [find_characteristic_in]
  | cons x rest ih =>
    unfold find_characteristic_in
    by_cases hx : h = x.handle
    · rw [if_pos hx]
      simp [hx]
    · rw [if_neg hx, ih]
      simp only [List.mem_cons, forall_eq_or_imp, iff_and_self]
      intro _ hc
      exact hx hc.symm

/-- C9. `bta_gattc_find_matching_service` returns the first service, in insertion order, whose
range contains the handle, and nothing when no range contains it; when the service ranges are
pairwise disjoint the service returned is the only one whose range contains the handle. -/
theorem find_matching_service_first_match (services : List tBTA_GATTC_SERVICE) (h : Nat) :
    ((∃ S ∈ services, S.s_handle ≤ h ∧ h ≤ S.e_handle) →
      ∃ i S, bta_gattc_find_matching_service services h = some i ∧ services[i]? = some S ∧
        S.s_handle ≤ h ∧ h ≤ S.e_handle ∧
        (∀ j T, j < i → services[j]? = some T → ¬ (T.s_handle ≤ h ∧ h ≤ T.e_handle)) ∧
        (ranges_disjoint services →
          ∀ j T, services[j]? = some T → T.s_handle ≤ h ∧ h ≤ T.e_handle → j = i)) ∧
    ((¬ ∃ S ∈ services, S.s_handle ≤ h ∧ h ≤ S.e_handle) →
      bta_gattc_find_matching_service services h = none) := by
  constructor
  · rintro ⟨S, hS, hin⟩
    cases hfind : bta_gattc_find_matching_service services h with
    | none => exact absurd hin ((find_matching_service_eq_none services h).1 hfind S hS)
    | some i =>
      obtain ⟨T, hT, hTin, hfirst⟩ := (find_matching_service_eq_some services h i).1 hfind
      refine ⟨i, T, rfl, hT, hTin.1, hTin.2, hfirst, ?_⟩
      intro hd j U hU hUin
      exact disjoint_unique services hd h j i U T hU hT hUin hTin
  · intro hno
    apply (find_matching_service_eq_none services h).2
    intro S hS hin
    exact hno ⟨S, hS, hin⟩

/-- C10. In a graph with pairwise disjoint service ranges in which every characteristic's value
handle lies inside the range of its owning service, `bta_gattc_get_characteristic_srcb` returns
a characteristic exactly when some characteristic of the graph has value handle `h`, and the
characteristic it returns has value handle `h` (and is one of the graph). -/
theorem get_characteristic_srcb_iff (srcb : tBTA_GATTC_SERV) (h : Nat)
    (hd : ranges_disjoint srcb.srvc_cache)
    (hin : ∀ S ∈ srcb.srvc_cache, ∀ c ∈ S.characteristics,
      S.s_handle ≤ c.handle ∧ c.handle ≤ S.e_handle) :
    ((∃ c, bta_gattc_get_characteristic_srcb (some srcb) h = some c) ↔
      ∃ S ∈ srcb.srvc_cache, ∃ c ∈ S.characteristics, c.handle = h) ∧
    (∀ c, bta_gattc_get_characteristic_srcb (some srcb) h = some c →
      c.handle = h ∧ ∃ S ∈ srcb.srvc_cache, c ∈ S.characteristics) := by
  have key : ∀ c, bta_gattc_get_characteristic_srcb (some srcb) h = some c →
      c.handle = h ∧ ∃ S ∈ srcb.srvc_cache, c ∈ S.characteristics := by
    intro c hc
    unfold bta_gattc_get_characteristic_srcb bta_gattc_get_service_for_handle_srcb
      bta_gattc_get_services_srcb at hc
    cases hempty : srcb.srvc_cache.isEmpty with
    | true => simp [hempty] at hc
    | false =>
      dsimp only at hc
      rw [hempty] at hc
      simp only [Bool.false_eq_true, if_false] at hc
      cases hfind : bta_gattc_find_matching_service srcb.srvc_cache h with
      | none => simp [hfind] at hc
      | some i =>
        simp only [hfind] at hc
        cases hget : srcb.srvc_cache[i]? with
        | none => simp [hget] at hc
        | some S =>
          simp only [hget] at hc
          have := find_characteristic_in_some _ _ _ hc
          exact ⟨this.2, S, List.getElem?_mem hget, this.1⟩
  refine ⟨⟨?_, ?_⟩, key⟩
  · rintro ⟨c, hc⟩
    obtain ⟨hh, S, hS, hcS⟩ := key c hc
    exact ⟨S, hS, c, hcS, hh⟩
  · rintro ⟨S, hS, c, hcS, hh⟩
    have hrange : in_range S h := by
      have := hin S hS c hcS
      rw [hh] at this
      exact this
    obtain ⟨j, hj⟩ := List.getElem?_of_mem hS
    have hne : srcb.srvc_cache.isEmpty = false := by
      cases hl : srcb.srvc_cache with
      | nil => rw [hl] at hS; simp at hS
      | cons _ _ => rfl
    cases hfind : bta_gattc_find_matching_service srcb.srvc_cache h with
    | none => exact absurd hrange ((find_matching_service_eq_none _ h).1 hfind S hS)
    | some i =>
      obtain ⟨T, hT, hTin, _⟩ := (find_matching_service_eq_some _ h i).1 hfind
      have hij : i = j := disjoint_unique _ hd h i j T S hT hj hTin hrange
      subst hij
      have hTS : T = S := by rw [hT] at hj; simpa using hj
      subst hTS
      cases hscan : find_characteristic_in T.characteristics h with
      | none => exact absurd hh ((find_characteristic_in_none _ h).1 hscan c hcS)
      | some c2 =>
        refine ⟨c2, ?_⟩
        unfold bta_gattc_get_characteristic_srcb bta_gattc_get_service_for_handle_srcb
          bta_gattc_get_services_srcb
        simp [hne, hfind, hT, hscan]

/-- C10, witness: in the graph of scenario 2 the lookup of handle 6 returns the second
characteristic. -/
theorem get_characteristic_srcb_iff_witness :
    ranges_disjoint scenario2_graph ∧
    (∀ S ∈ scenario2_graph, ∀ c ∈ S.characteristics,
      S.s_handle ≤ c.handle ∧ c.handle ≤ S.e_handle) ∧
    ((∃ c, bta_gattc_get_characteristic_srcb
        (some { (default : tBTA_GATTC_SERV) with srvc_cache := scenario2_graph }) 6 = some c) ↔
      ∃ S ∈ scenario2_graph, ∃ c ∈ S.characteristics, c.handle = 6) ∧
    (∀ c, bta_gattc_get_characteristic_srcb
        (some { (default : tBTA_GATTC_SERV) with srvc_cache := scenario2_graph }) 6 = some c →
      c.handle = 6 ∧ ∃ S ∈ scenario2_graph, c ∈ S.characteristics) :=
  ⟨by decide, by decide,
    get_characteristic_srcb_iff
      { (default : tBTA_GATTC_SERV) with srvc_cache := scenario2_graph } 6
      (by decide) (by decide)⟩

/-! ## Database export (C2, C3, C4) -/

theorem export_descriptors_eq (descs : List tBTA_GATTC_DESCRIPTOR)
    (out : List btgatt_db_element_t) :
    export_descriptors descs out = out ++ descs.map descriptor_element := by
  induction descs generalizing out with
  | nil => simp [export_descriptors]
  | cons d rest ih =>
    simp [export_descriptors, ih, descriptor_element, bta_gattc_fill_gatt_db_el]

theorem export_characteristics_eq (chars : List tBTA_GATTC_CHARACTERISTIC)
    (out : List btgatt_db_element_t) :
    export_characteristics chars out =
      out ++ chars.flatMap fun charac =>
        characteristic_element charac :: charac.descriptors.map descriptor_element := by
  induction chars generalizing out with
  | nil => simp [export_characteristics]
  | cons c rest ih =>
    simp [export_characteristics, ih, export_descriptors_eq, characteristic_element,
      bta_gattc_fill_gatt_db_el]

theorem export_included_eq (srvc_cache : List tBTA_GATTC_SERVICE)
    (incl : List tBTA_GATTC_INCLUDED_SVC) (out : List btgatt_db_element_t) :
    export_included srvc_cache incl out = out ++ incl.map (included_element srvc_cache) := by
  induction incl generalizing out with
  | nil => simp [export_included]
  | cons e rest ih =>
    simp [export_included, ih, included_element, bta_gattc_fill_gatt_db_el]

theorem export_service_eq (srvc_cache : List tBTA_GATTC_SERVICE)
    (service : tBTA_GATTC_SERVICE) (out : List btgatt_db_element_t) :
    export_service srvc_cache service out = out ++ service_block srvc_cache service := by
  simp [export_service, export_included_eq, export_characteristics_eq, service_block,
    service_element, bta_gattc_fill_gatt_db_el]

theorem export_services_eq (srvc_cache services : List tBTA_GATTC_SERVICE)
    (start_handle end_handle : Nat) (out : List btgatt_db_element_t) :
    export_services srvc_cache services start_handle end_handle out =
      out ++ (exported_services services start_handle end_handle).flatMap
        fun S => export_service srvc_cache S [] := by
  induction services generalizing out with
  | nil => simp [export_services, exported_services]
  | cons S rest ih =>
    unfold export_services
    by_cases h1 : S.s_handle < start_handle
    · have h1' : ¬ start_handle ≤ S.s_handle := by omega
      rw [if_pos h1, ih]
      simp [exported_services, List.takeWhile_cons, List.filter_cons, h1']
    · have h1' : start_handle ≤ S.s_handle := by omega
      rw [if_neg h1]
      by_cases h2 : S.e_handle > end_handle
      · have h2' : end_handle < S.e_handle := h2
        rw [if_pos h2]
        simp [exported_services, List.takeWhile_cons, h1', h2']
      · have h2' : S.e_handle ≤ end_handle := by omega
        have h2'' : ¬ end_handle < S.e_handle := by omega
        rw [if_neg h2, ih]
        have hS : export_service srvc_cache S out = out ++ export_service srvc_cache S [] := by
          rw [export_service_eq, export_service_eq]; simp
        rw [hS]
        simp [exported_services, List.takeWhile_cons, List.filter_cons, h1', h2', h2'']

theorem exported_services_mem (services : List tBTA_GATTC_SERVICE)
    (start_handle end_handle : Nat) (S : tBTA_GATTC_SERVICE)
    (hS : S ∈ exported_services services start_handle end_handle) :
    S ∈ services ∧ start_handle ≤ S.s_handle ∧ S.e_handle ≤ end_handle := by
  unfold exported_services at hS
  rw [List.mem_filter] at hS
  refine ⟨(List.takeWhile_sublist _).subset hS.1, ?_⟩
  simpa using hS.2

theorem exported_services_sorted (services : List tBTA_GATTC_SERVICE)
    (start_handle end_handle : Nat)
    (hsorted : services.Pairwise fun S T => S.e_handle < T.s_handle)
    (hvalid : ∀ S ∈ services, S.s_handle ≤ S.e_handle) :
    exported_services services start_handle end_handle =
      services_within services start_handle end_handle := by
  induction services with
  | nil => simp [exported_services, services_within]
  | cons S rest ih =>
    rw [List.pairwise_cons] at hsorted
    have ih' := ih hsorted.2 (fun T hT => hvalid T (List.mem_cons_of_mem _ hT))
    unfold exported_services services_within at *
    by_cases hstop : start_handle ≤ S.s_handle ∧ end_handle < S.e_handle
    · have hrest : ∀ T ∈ rest, ¬ (start_handle ≤ T.s_handle ∧ T.e_handle ≤ end_handle) := by
        intro T hT hc
        have h1 := hsorted.1 T hT
        have h2 := hvalid T (List.mem_cons_of_mem _ hT)
        omega
      have hnil : rest.filter (fun S =>
          decide (start_handle ≤ S.s_handle) && decide (S.e_handle ≤ end_handle)) = [] := by
        rw [List.filter_eq_nil_iff]
        intro T hT
        simpa using hrest T hT
      have hS : ¬ S.e_handle ≤ end_handle := by omega
      simp [List.takeWhile_cons, List.filter_cons, hstop.1, hstop.2, hS, hnil]
    · have hgo : (!(decide (start_handle ≤ S.s_handle) && decide (end_handle < S.e_handle)))
          = true := by
        by_cases h1 : start_handle ≤ S.s_handle
        · have h2 : ¬ end_handle < S.e_handle := fun h2 => hstop ⟨h1, h2⟩
          simp [h1, h2]
        · simp [h1]
      rw [List.takeWhile_cons, if_pos hgo, List.filter_cons, List.filter_cons, ih']

/-- C2, amended. The export writes the elements of exactly the services inside
`[start, end]` that come before the first service starting at or after `start` and ending
after `end` (the walk stops there), in insertion order, and nothing for any other service;
when the services are stored in ascending order with non-overlapping, well-formed ranges these
are all the services inside `[start, end]`. -/
theorem get_gatt_db_impl_exported_services (srvc_cache : List tBTA_GATTC_SERVICE)
    (start_handle end_handle : Nat) :
    (bta_gattc_get_gatt_db_impl srvc_cache start_handle end_handle).elements =
        (exported_services srvc_cache start_handle end_handle).flatMap
          (fun S => export_service srvc_cache S []) ∧
    (∀ S ∈ exported_services srvc_cache start_handle end_handle,
        S ∈ srvc_cache ∧ S.s_handle ≥ start_handle ∧ S.e_handle ≤ end_handle) ∧
    ((srvc_cache.Pairwise fun S T => S.e_handle < T.s_handle) →
      (∀ S ∈ srvc_cache, S.s_handle ≤ S.e_handle) →
        exported_services srvc_cache start_handle end_handle =
          services_within srvc_cache start_handle end_handle) := by
  refine ⟨?_, ?_, ?_⟩
  · unfold bta_gattc_get_gatt_db_impl GattDbOut.elements
    cases hl : srvc_cache with
    | nil => simp [exported_services]
    | cons S rest =>
      simp only [List.isEmpty_cons, Bool.false_eq_true, if_false, Option.getD_some]
      rw [export_services_eq]
      simp
  · intro S hS
    exact exported_services_mem _ _ _ S hS
  · intro hs hv
    exact exported_services_sorted _ _ _ hs hv

/-- C2, counterexample. In the graph a completed pass leaves when an `INC_SRVC` result appended
the secondary service `[12, 15]` after the primaries, `get_db(1, 16)` stops at the service
`[20, 30]` and writes nothing for the service `[12, 15]`, although that service lies inside
`[1, 16]`. -/
theorem get_gatt_db_impl_skips_service_in_range :
    in_protocol_order scenario_env (start_discovery scenario_env default)
      secondary_between_pass = true ∧
    pass_complete (scenario_run secondary_between_pass) = true ∧
    (scenario_run secondary_between_pass).srcb.srvc_cache = secondary_last_graph ∧
    (bta_gattc_get_gatt_db_impl secondary_last_graph 1 16).elements.map
        (fun el => (el.start_handle, el.end_handle)) = [(1, 10)] ∧
    services_within secondary_last_graph 1 16 ≠
      exported_services secondary_last_graph 1 16 ∧
    (services_within secondary_last_graph 1 16).map (fun S => (S.s_handle, S.e_handle)) =
      [(1, 10), (12, 15)] := by
  decide

/-- C3, amended. For every service the export writes, the elements come in this order: the
service element (primary or secondary by `is_primary`), then for each characteristic its
element immediately followed by one element per descriptor of that characteristic, then one
element per included-service edge. -/
theorem export_service_element_order (srvc_cache : List tBTA_GATTC_SERVICE)
    (service : tBTA_GATTC_SERVICE) (out : List btgatt_db_element_t) :
    export_service srvc_cache service out =
      out ++ (service_element service ::
        (service.characteristics.flatMap fun charac =>
          characteristic_element charac :: charac.descriptors.map descriptor_element) ++
        service.included_svc.map (included_element srvc_cache)) ∧
    (service_element service).type =
      (if service.is_primary then BTGATT_DB_PRIMARY_SERVICE
       else BTGATT_DB_SECONDARY_SERVICE) := by
  refine ⟨?_, rfl⟩
  rw [export_service_eq]
  rfl

/-- C3, counterexample. For the graph of scenario 2 the export writes service, characteristic
3, descriptor 4, characteristic 6; the order "all characteristics, then all descriptors" would
be service, characteristic 3, characteristic 6, descriptor 4. -/
theorem export_interleaves_descriptors :
    (bta_gattc_get_gatt_db_impl scenario2_graph 1 10).elements.map
        (fun el => el.attribute_handle) = [0, 3, 4, 6] ∧
    (scenario2_graph.flatMap (service_block_as_specified scenario2_graph)).map
        (fun el => el.attribute_handle) = [0, 3, 6, 4] ∧
    (bta_gattc_get_gatt_db_impl scenario2_graph 1 10).elements ≠
      scenario2_graph.flatMap (service_block_as_specified scenario2_graph) := by
  decide

theorem export_services_empty_range (srvc_cache services : List tBTA_GATTC_SERVICE)
    (start_handle end_handle : Nat) (out : List btgatt_db_element_t)
    (hvalid : ∀ S ∈ services, S.s_handle ≤ S.e_handle) (hgt : start_handle > end_handle) :
    export_services srvc_cache services start_handle end_handle out = out := by
  induction services with
  | nil => simp [export_services]
  | cons S rest ih =>
    have hS := hvalid S (by simp)
    unfold export_services
    by_cases h1 : S.s_handle < start_handle
    · rw [if_pos h1]
      exact ih (fun T hT => hvalid T (List.mem_cons_of_mem _ hT))
    · rw [if_neg h1, if_pos (by omega)]

theorem db_size_services_empty_range (services : List tBTA_GATTC_SERVICE)
    (start_handle end_handle db_size : Nat)
    (hvalid : ∀ S ∈ services, S.s_handle ≤ S.e_handle) (hgt : start_handle > end_handle) :
    db_size_services services start_handle end_handle db_size = db_size := by
  induction services with
  | nil => simp [db_size_services]
  | cons S rest ih =>
    have hS := hvalid S (by simp)
    unfold db_size_services
    by_cases h1 : S.s_handle < start_handle
    · rw [if_pos h1]
      exact ih (fun T hT => hvalid T (List.mem_cons_of_mem _ hT))
    · rw [if_neg h1, if_pos (by omega)]

/-- C4, amended. For every graph whose services all have `s_handle ≤ e_handle`, and every
pair of handles with `start > end`, the export returns an empty sequence with count `0`. -/
theorem get_gatt_db_impl_empty_range (srvc_cache : List tBTA_GATTC_SERVICE)
    (start_handle end_handle : Nat)
    (hvalid : ∀ S ∈ srvc_cache, S.s_handle ≤ S.e_handle)
    (hgt : start_handle > end_handle) :
    (bta_gattc_get_gatt_db_impl srvc_cache start_handle end_handle).elements = [] ∧
    (bta_gattc_get_gatt_db_impl srvc_cache start_handle end_handle).count = 0 := by
  unfold bta_gattc_get_gatt_db_impl GattDbOut.elements bta_gattc_get_db_size
  cases hl : srvc_cache with
  | nil => simp
  | cons S rest =>
    simp only [List.isEmpty_cons, Bool.false_eq_true, if_false, Option.getD_some]
    rw [← hl, export_services_empty_range _ _ _ _ _ hvalid hgt,
      db_size_services_empty_range _ _ _ _ hvalid hgt]
    exact ⟨rfl, rfl⟩

/-- C4, witness: the graph of scenario 2 queried with `start = 8 > end = 6`. -/
theorem get_gatt_db_impl_empty_range_witness :
    (∀ S ∈ scenario2_graph, S.s_handle ≤ S.e_handle) ∧ 8 > 6 ∧
    (bta_gattc_get_gatt_db_impl scenario2_graph 8 6).elements = [] ∧
    (bta_gattc_get_gatt_db_impl scenario2_graph 8 6).count = 0 :=
  ⟨by decide, by decide,
    get_gatt_db_impl_empty_range scenario2_graph 8 6 (by decide) (by decide)⟩

/-- C4, counterexample. A service stored with an inverted range `[10, 5]` is exported by
`get_db(8, 6)` although `8 > 6`: the result holds one element and the count is `1`. Ranges
enter the graph unchecked: a `SRVC_ALL` result carrying `[10, 5]` is lifted into the graph as
reported, and the rebuild restores the range of a `SRVC` record as stored. -/
theorem get_gatt_db_impl_inverted_range_not_empty :
    (scenario_run inverted_range_pass).srcb.srvc_cache = inverted_range_graph ∧
    bta_gattc_rebuild_cache 1 (some (inverted_range_graph.map srvc_record)) =
      inverted_range_graph ∧
    8 > 6 ∧
    (bta_gattc_get_gatt_db_impl inverted_range_graph 8 6).elements.length = 1 ∧
    (bta_gattc_get_gatt_db_impl inverted_range_graph 8 6).count = 1 := by
  decide

/-! ## Persistence round trip (C1) -/

theorem save_services_eq (L : List tBTA_GATTC_SERVICE) (acc : List tBTA_GATTC_NV_ATTR) :
    save_services L acc = acc ++ L.map srvc_record := by
  induction L generalizing acc with
  | nil => simp [save_services]
  | cons S rest ih => simp [save_services, ih, srvc_record]

theorem save_descriptors_eq (ds : List tBTA_GATTC_DESCRIPTOR)
    (acc : List tBTA_GATTC_NV_ATTR) :
    save_descriptors ds acc = acc ++ ds.map descr_record := by
  induction ds generalizing acc with
  | nil => simp [save_descriptors]
  | cons d rest ih => simp [save_descriptors, ih, descr_record]

theorem save_characteristics_eq (cs : List tBTA_GATTC_CHARACTERISTIC)
    (acc : List tBTA_GATTC_NV_ATTR) :
    save_characteristics cs acc = acc ++ cs.flatMap char_records := by
  induction cs generalizing acc with
  | nil => simp [save_characteristics]
  | cons c rest ih =>
    simp [save_characteristics, ih, save_descriptors_eq, char_records, char_record]

theorem save_included_eq (G : List tBTA_GATTC_SERVICE) (es : List tBTA_GATTC_INCLUDED_SVC)
    (acc : List tBTA_GATTC_NV_ATTR) :
    save_included G es acc = acc ++ es.map (incl_record G) := by
  induction es generalizing acc with
  | nil => simp [save_included]
  | cons e rest ih => simp [save_included, ih, incl_record]

theorem save_children_eq (G L : List tBTA_GATTC_SERVICE) (acc : List tBTA_GATTC_NV_ATTR) :
    save_children G L acc = acc ++ L.flatMap (children_records G) := by
  induction L generalizing acc with
  | nil => simp [save_children]
  | cons S rest ih =>
    simp [save_children, ih, save_included_eq, save_characteristics_eq, children_records]

theorem db_size_characteristics_eq (cs : List tBTA_GATTC_CHARACTERISTIC) (n : Nat) :
    db_size_characteristics cs n = n + (cs.flatMap char_records).length := by
  induction cs generalizing n with
  | nil => simp [db_size_characteristics]
  | cons c rest ih =>
    simp [db_size_characteristics, ih, char_records]
    omega

theorem db_size_services_all (G L : List tBTA_GATTC_SERVICE) (n : Nat)
    (h16 : ∀ S ∈ L, S.e_handle ≤ 0xFFFF) :
    db_size_services L 0x0000 0xFFFF n =
      n + L.length + (L.flatMap (children_records G)).length := by
  induction L generalizing n with
  | nil => simp [db_size_services]
  | cons S rest ih =>
    have hS := h16 S (by simp)
    unfold db_size_services
    rw [if_neg (by omega), if_neg (by omega), ih _ (fun T hT => h16 T (List.mem_cons_of_mem _ hT)),
      db_size_characteristics_eq]
    simp [children_records]
    omega

/-- Replaying records in order. -/
theorem rebuild_loop_eq_foldl (attrs : List tBTA_GATTC_NV_ATTR) (num_attr : Nat)
    (cache : List tBTA_GATTC_SERVICE) (hn : num_attr = attrs.length) :
    rebuild_loop num_attr attrs cache = attrs.foldl rebuild_record cache := by
  induction attrs generalizing num_attr cache with
  | nil => subst hn; simp [rebuild_loop]
  | cons a rest ih =>
    subst hn
    simp only [List.length_cons, rebuild_loop, List.foldl_cons]
    exact ih _ _ rfl

/-- The lookup by handle reads nothing but the ranges. -/
theorem find_matching_service_congr (L1 L2 : List tBTA_GATTC_SERVICE) (h : Nat)
    (hr : L1.map rng = L2.map rng) :
    bta_gattc_find_matching_service L1 h = bta_gattc_find_matching_service L2 h := by
  induction L1 generalizing L2 with
  | nil =>
    cases L2 with
    | nil => rfl
    | cons _ _ => simp at hr
  | cons A rest ih =>
    cases L2 with
    | nil => simp at hr
    | cons B rest2 =>
      simp only [List.map_cons, List.cons.injEq, rng, Prod.mk.injEq] at hr
      unfold bta_gattc_find_matching_service
      rw [hr.1.1, hr.1.2, ih rest2 hr.2]

theorem modify_append_cons (f : tBTA_GATTC_SERVICE → tBTA_GATTC_SERVICE)
    (pre post : List tBTA_GATTC_SERVICE) (cur : tBTA_GATTC_SERVICE) :
    List.modify f pre.length (pre ++ cur :: post) = pre ++ f cur :: post := by
  induction pre with
  | nil => simp [List.modify]
  | cons a rest ih => simpa [List.modify] using ih

theorem find_at_cur_in_range (pre post : List tBTA_GATTC_SERVICE) (cur : tBTA_GATTC_SERVICE)
    (h : Nat)
    (hf : bta_gattc_find_matching_service (pre ++ cur :: post) h = some pre.length) :
    cur.s_handle ≤ h ∧ h ≤ cur.e_handle := by
  obtain ⟨S, hS, hin, _⟩ := (find_matching_service_eq_some _ h _).1 hf
  have : S = cur := by
    rw [List.getElem?_append_right (Nat.le_refl _)] at hS
    simpa using hS.symm
  subst this
  exact hin

/-- Replaying the `CHAR` record of `c` appends `c` without descriptors to the owner. -/
theorem rebuild_char_record (pre post : List tBTA_GATTC_SERVICE) (cur : tBTA_GATTC_SERVICE)
    (c : tBTA_GATTC_CHARACTERISTIC)
    (hf : bta_gattc_find_matching_service (pre ++ cur :: post) c.handle = some pre.length) :
    rebuild_record (pre ++ cur :: post) (char_record c) =
      pre ++ { cur with characteristics :=
                cur.characteristics ++ [{ c with descriptors := [] }] } :: post := by
  have hin := find_at_cur_in_range pre post cur c.handle hf
  have hle : ¬ cur.e_handle < c.handle := by omega
  simp only [rebuild_record, char_record, bta_gattc_fill_nv_attr, bta_gattc_add_char_to_cache,
    hf, modify_append_cons, if_neg hle]

/-- Replaying the `CHAR_DESCR` record of `d` appends `d` to the last characteristic of the
owner. -/
theorem rebuild_descr_record (pre post : List tBTA_GATTC_SERVICE) (cur : tBTA_GATTC_SERVICE)
    (acc : List tBTA_GATTC_CHARACTERISTIC) (c : tBTA_GATTC_CHARACTERISTIC)
    (d : tBTA_GATTC_DESCRIPTOR) (hc : cur.characteristics = acc ++ [c])
    (hf : bta_gattc_find_matching_service (pre ++ cur :: post) d.handle = some pre.length) :
    rebuild_record (pre ++ cur :: post) (descr_record d) =
      pre ++ { cur with characteristics :=
                acc ++ [{ c with descriptors := c.descriptors ++ [d] }] } :: post := by
  simp only [rebuild_record, descr_record, bta_gattc_fill_nv_attr, bta_gattc_add_attr_to_cache,
    hf, modify_append_cons, reduceCtorEq, if_false, if_true]
  simp [hc, append_descriptor_to_back]

/-- Replaying the `INCL_SRVC` record of `e` appends `e` to the owner. -/
theorem rebuild_incl_record (G pre post : List tBTA_GATTC_SERVICE) (cur : tBTA_GATTC_SERVICE)
    (e : tBTA_GATTC_INCLUDED_SVC) (j : Nat) (he : e.included_service = some j)
    (hf : bta_gattc_find_matching_service (pre ++ cur :: post) e.handle = some pre.length)
    (ht : bta_gattc_find_matching_service (pre ++ cur :: post) (included_s_handle G e)
      = some j) :
    rebuild_record (pre ++ cur :: post) (incl_record G e) =
      pre ++ { cur with included_svc := cur.included_svc ++ [e] } :: post := by
  simp only [rebuild_record, incl_record, bta_gattc_fill_nv_attr, bta_gattc_add_attr_to_cache,
    hf, ht, modify_append_cons, if_true]
  cases e
  simp at he
  simp [he]

theorem replay_descriptors (G pre post : List tBTA_GATTC_SERVICE)
    (ds : List tBTA_GATTC_DESCRIPTOR) (cur : tBTA_GATTC_SERVICE)
    (acc : List tBTA_GATTC_CHARACTERISTIC) (c : tBTA_GATTC_CHARACTERISTIC)
    (hc : cur.characteristics = acc ++ [c])
    (hR : (pre ++ cur :: post).map rng = G.map rng)
    (hres : ∀ d ∈ ds, bta_gattc_find_matching_service G d.handle = some pre.length) :
    (ds.map descr_record).foldl rebuild_record (pre ++ cur :: post) =
      pre ++ { cur with characteristics :=
                acc ++ [{ c with descriptors := c.descriptors ++ ds }] } :: post := by
  induction ds generalizing cur c with
  | nil =>
    cases cur
    simp only at hc
    simp [hc]
  | cons d rest ih =>
    have hf : bta_gattc_find_matching_service (pre ++ cur :: post) d.handle
        = some pre.length := by
      rw [find_matching_service_congr _ G _ hR]
      exact hres d (by simp)
    rw [List.map_cons, List.foldl_cons, rebuild_descr_record pre post cur acc c d hc hf]
    rw [ih _ { c with descriptors := c.descriptors ++ [d] } rfl
      (by simpa [rng] using hR) (fun d2 hd2 => hres d2 (List.mem_cons_of_mem _ hd2))]
    simp

theorem replay_characteristics (G pre post : List tBTA_GATTC_SERVICE)
    (cs : List tBTA_GATTC_CHARACTERISTIC) (cur : tBTA_GATTC_SERVICE)
    (hR : (pre ++ cur :: post).map rng = G.map rng)
    (hres : ∀ c ∈ cs, bta_gattc_find_matching_service G c.handle = some pre.length ∧
      ∀ d ∈ c.descriptors, bta_gattc_find_matching_service G d.handle = some pre.length) :
    (cs.flatMap char_records).foldl rebuild_record (pre ++ cur :: post) =
      pre ++ { cur with characteristics := cur.characteristics ++ cs } :: post := by
  induction cs generalizing cur with
  | nil =>
    cases cur
    simp
  | cons c rest ih =>
    have hf : bta_gattc_find_matching_service (pre ++ cur :: post) c.handle
        = some pre.length := by
      rw [find_matching_service_congr _ G _ hR]
      exact (hres c (by simp)).1
    rw [List.flatMap_cons, List.foldl_append, char_records, List.foldl_cons,
      rebuild_char_record pre post cur c hf]
    rw [replay_descriptors G pre post c.descriptors _ cur.characteristics
      { c with descriptors := [] } rfl (by simpa [rng] using hR) (hres c (by simp)).2]
    rw [ih _ (by simpa [rng] using hR) (fun c2 hc2 => hres c2 (List.mem_cons_of_mem _ hc2))]
    simp

theorem replay_included (G pre post : List tBTA_GATTC_SERVICE)
    (es : List tBTA_GATTC_INCLUDED_SVC) (cur : tBTA_GATTC_SERVICE)
    (hR : (pre ++ cur :: post).map rng = G.map rng)
    (hres : ∀ e ∈ es, bta_gattc_find_matching_service G e.handle = some pre.length ∧
      ∃ j T, e.included_service = some j ∧ G[j]? = some T ∧
        bta_gattc_find_matching_service G T.s_handle = some j) :
    (es.map (incl_record G)).foldl rebuild_record (pre ++ cur :: post) =
      pre ++ { cur with included_svc := cur.included_svc ++ es } :: post := by
  induction es generalizing cur with
  | nil =>
    cases cur
    simp
  | cons e rest ih =>
    obtain ⟨hown, j, T, hj, hT, htgt⟩ := hres e (by simp)
    have hf : bta_gattc_find_matching_service (pre ++ cur :: post) e.handle
        = some pre.length := by
      rw [find_matching_service_congr _ G _ hR]
      exact hown
    have hs : included_s_handle G e = T.s_handle := by
      simp [included_s_handle, hj, hT]
    have ht : bta_gattc_find_matching_service (pre ++ cur :: post) (included_s_handle G e)
        = some j := by
      rw [find_matching_service_congr _ G _ hR, hs]
      exact htgt
    rw [List.map_cons, List.foldl_cons, rebuild_incl_record G pre post cur e j hj hf ht]
    rw [ih _ (by simpa [rng] using hR) (fun e2 he2 => hres e2 (List.mem_cons_of_mem _ he2))]
    simp

theorem replay_children (G pre post : List tBTA_GATTC_SERVICE) (S : tBTA_GATTC_SERVICE)
    (hR : (pre ++ S :: post).map rng = G.map rng)
    (hchars : ∀ c ∈ S.characteristics,
      bta_gattc_find_matching_service G c.handle = some pre.length ∧
      ∀ d ∈ c.descriptors, bta_gattc_find_matching_service G d.handle = some pre.length)
    (hincl : ∀ e ∈ S.included_svc,
      bta_gattc_find_matching_service G e.handle = some pre.length ∧
      ∃ j T, e.included_service = some j ∧ G[j]? = some T ∧
        bta_gattc_find_matching_service G T.s_handle = some j) :
    (children_records G S).foldl rebuild_record (pre ++ skeleton S :: post) =
      pre ++ S :: post := by
  rw [children_records, List.foldl_append,
    replay_characteristics G pre post S.characteristics (skeleton S)
      (by simpa [rng, skeleton] using hR) hchars,
    replay_included G pre post S.included_svc _ (by simpa [rng, skeleton] using hR) hincl]
  cases S
  simp [skeleton]

theorem replay_services (L acc : List tBTA_GATTC_SERVICE)
    (hh : ∀ S ∈ L, S.handle = S.s_handle) :
    (L.map srvc_record).foldl rebuild_record acc = acc ++ L.map skeleton := by
  induction L generalizing acc with
  | nil => simp
  | cons S rest ih =>
    have hS := hh S (by simp)
    rw [List.map_cons, List.foldl_cons, ih _ (fun T hT => hh T (List.mem_cons_of_mem _ hT))]
    cases S
    simp only at hS
    simp [rebuild_record, srvc_record, bta_gattc_fill_nv_attr, bta_gattc_add_srvc_to_cache,
      skeleton, hS]

theorem map_rng_skeleton (L : List tBTA_GATTC_SERVICE) :
    (L.map skeleton).map rng = L.map rng := by
  induction L with
  | nil => rfl
  | cons S rest ih => simp [skeleton, rng]

theorem replay_all_children (G : List tBTA_GATTC_SERVICE) (hres : handles_resolve G)
    (rest pre : List tBTA_GATTC_SERVICE) (hG : G = pre ++ rest) :
    (rest.flatMap (children_records G)).foldl rebuild_record (pre ++ rest.map skeleton) =
      pre ++ rest := by
  induction rest generalizing pre with
  | nil => simp
  | cons S rest ih =>
    have hk : G[pre.length]? = some S := by
      rw [hG, List.getElem?_append_right (Nat.le_refl _)]
      simp
    have hlt : pre.length < G.length := by rw [hG]; simp
    have hget : G.getD pre.length default = S := by
      rw [List.getD_eq_getElem?_getD, hk]; rfl
    have hown := hres pre.length hlt
    rw [hget] at hown
    obtain ⟨_, hchars, hincl0⟩ := hown
    have hincl : ∀ e ∈ S.included_svc,
        bta_gattc_find_matching_service G e.handle = some pre.length ∧
        ∃ j T, e.included_service = some j ∧ G[j]? = some T ∧
          bta_gattc_find_matching_service G T.s_handle = some j := by
      intro e he
      refine ⟨(hincl0 e he).1, ?_⟩
      have ht := (hincl0 e he).2
      unfold target_resolves at ht
      cases hj : e.included_service with
      | none => simp [hj] at ht
      | some j =>
        simp only [hj] at ht
        have hjl : j < G.length := ht.1
        refine ⟨j, G[j], rfl, List.getElem?_eq_getElem hjl, ?_⟩
        have : G.getD j default = G[j] := by
          simp [List.getD_eq_getElem?_getD, List.getElem?_eq_getElem hjl]
        rw [← this]
        exact ht.2
    have hR : (pre ++ S :: rest.map skeleton).map rng = G.map rng := by
      rw [hG]
      simp only [List.map_append, List.map_cons, map_rng_skeleton]
    rw [List.flatMap_cons, List.foldl_append, List.map_cons,
      replay_children G pre (rest.map skeleton) S hR hchars hincl]
    have := ih (pre ++ [S]) (by simp [hG])
    simpa using this

/-- Every attribute handle resolves to its owner in a graph with pairwise disjoint, well-formed
service ranges whose services carry their start handle as `handle`, contain the handles of
their characteristics, descriptors and included edges, and whose edges point at services of
the graph. -/
theorem handles_resolve_of_disjoint (G : List tBTA_GATTC_SERVICE)
    (hd : ranges_disjoint G)
    (hh : ∀ S ∈ G, S.handle = S.s_handle ∧ S.s_handle ≤ S.e_handle)
    (hc : ∀ S ∈ G, ∀ c ∈ S.characteristics,
      in_range S c.handle ∧ ∀ d ∈ c.descriptors, in_range S d.handle)
    (he : ∀ S ∈ G, ∀ e ∈ S.included_svc,
      in_range S e.handle ∧ ∃ j, e.included_service = some j ∧ j < G.length) :
    handles_resolve G := by
  intro k hk
  have hget : G[k]? = some (G.getD k default) := by
    rw [List.getD_eq_getElem?_getD, List.getElem?_eq_getElem hk]
    rfl
  have hmem : G.getD k default ∈ G := List.getElem?_mem hget
  refine ⟨(hh _ hmem).1, ?_, ?_⟩
  · intro c hcm
    obtain ⟨h1, h2⟩ := hc _ hmem c hcm
    refine ⟨find_matching_service_of_disjoint G hd k _ hget _ h1, ?_⟩
    intro d hdm
    exact find_matching_service_of_disjoint G hd k _ hget _ (h2 d hdm)
  · intro e hem
    obtain ⟨h1, j, hj, hjl⟩ := he _ hmem e hem
    refine ⟨find_matching_service_of_disjoint G hd k _ hget _ h1, ?_⟩
    unfold target_resolves
    rw [hj]
    refine ⟨hjl, ?_⟩
    have hgetj : G[j]? = some (G.getD j default) := by
      rw [List.getD_eq_getElem?_getD, List.getElem?_eq_getElem hjl]
      rfl
    apply find_matching_service_of_disjoint G hd j _ hgetj
    exact ⟨Nat.le_refl _, (hh _ (List.getElem?_mem hgetj)).2⟩

/-- C1, amended. For every non-empty graph with 16-bit handles and fewer than 65536 attributes
in which every attribute handle resolves to its owner (`handles_resolve`: the first service
whose range contains a characteristic's value handle, a descriptor's handle or an edge's handle
is the owning service, and every edge points at the first service containing its target's
start handle), rebuilding from the count and the record stream that `bta_gattc_cache_save`
emits yields exactly the same graph, the order of included edges too. -/
theorem rebuild_cache_save_identity (G : List tBTA_GATTC_SERVICE)
    (hres : handles_resolve G) (hne : G ≠ [])
    (h16 : ∀ S ∈ G, S.e_handle ≤ 0xFFFF)
    (hsize : bta_gattc_get_db_size G 0x0000 0xFFFF < 65536) :
    ∃ num_attr attr, bta_gattc_cache_save G = some (num_attr, attr) ∧
      num_attr = attr.length ∧
      bta_gattc_rebuild_cache num_attr (some attr) = G := by
  have hempty : G.isEmpty = false := by
    cases G with
    | nil => exact absurd rfl hne
    | cons _ _ => rfl
  have hsz : bta_gattc_get_db_size G 0x0000 0xFFFF =
      (save_children G G (save_services G [])).length := by
    unfold bta_gattc_get_db_size
    rw [hempty]
    simp only [Bool.false_eq_true, if_false]
    rw [db_size_services_all G G 0 h16, save_children_eq, save_services_eq]
    simp
  refine ⟨bta_gattc_get_db_size G 0x0000 0xFFFF % 65536,
    save_children G G (save_services G []), ?_, ?_, ?_⟩
  · unfold bta_gattc_cache_save
    rw [hempty]
    simp only [Bool.false_eq_true, if_false]
  · rw [Nat.mod_eq_of_lt hsize]
    exact hsz
  · have hn : bta_gattc_get_db_size G 0x0000 0xFFFF % 65536 =
        (save_children G G (save_services G [])).length := by
      rw [Nat.mod_eq_of_lt hsize]
      exact hsz
    unfold bta_gattc_rebuild_cache
    simp only
    rw [rebuild_loop_eq_foldl _ _ _ hn, save_children_eq, save_services_eq, List.nil_append,
      List.foldl_append, replay_services G [] (fun S hS => by
        obtain ⟨k, hk⟩ := List.getElem?_of_mem hS
        have hlt : k < G.length := (List.getElem?_eq_some.1 hk).1
        have := (hres k hlt).1
        rw [List.getD_eq_getElem?_getD, hk] at this
        exact this)]
    have := replay_all_children G hres G [] rfl
    simpa using this

/-- C1, witness: the graph of scenario 2 survives the round trip. -/
theorem rebuild_cache_save_identity_witness :
    handles_resolve scenario2_graph ∧ scenario2_graph ≠ [] ∧
    (∀ S ∈ scenario2_graph, S.e_handle ≤ 0xFFFF) ∧
    bta_gattc_get_db_size scenario2_graph 0x0000 0xFFFF < 65536 ∧
    ∃ num_attr attr, bta_gattc_cache_save scenario2_graph = some (num_attr, attr) ∧
      num_attr = attr.length ∧
      bta_gattc_rebuild_cache num_attr (some attr) = scenario2_graph :=
  ⟨by decide, by decide, by decide, by decide,
    rebuild_cache_save_identity scenario2_graph (by decide) (by decide) (by decide)
      (by decide)⟩

/-- C1, counterexample. A pass in protocol order that completes with success leaves the graph
`[3, 10]` with one characteristic of value handle 1 (the peer reported it under declaration
handle 5); the saved stream is one `SRVC` and one `CHAR` record; rebuilding locates the
characteristic by its value handle, finds no service containing 1 and drops it. -/
theorem rebuild_cache_save_not_identity :
    in_protocol_order scenario_env (start_discovery scenario_env default)
      value_below_service_pass = true ∧
    pass_complete (run scenario_env (start_discovery scenario_env default)
      value_below_service_pass) = true ∧
    (run scenario_env (start_discovery scenario_env default)
        value_below_service_pass).srcb.srvc_cache =
      [{ s_handle := 3, e_handle := 10, is_primary := true, uuid := 0x1801, handle := 3,
         characteristics := [{ handle := 1, properties := 0x10, uuid := 0x2A19,
                               descriptors := [] }],
         included_svc := [] }] ∧
    (bta_gattc_cache_save (run scenario_env (start_discovery scenario_env default)
        value_below_service_pass).srcb.srvc_cache).map
        (fun r => bta_gattc_rebuild_cache r.1 (some r.2)) =
      some [{ s_handle := 3, e_handle := 10, is_primary := true, uuid := 0x1801, handle := 3,
              characteristics := [], included_svc := [] }] := by
  decide

/-! ## Discovery passes: the invariant of a pass in protocol order -/

theorem outstanding_concat (w : World) (t : List Effect) (e : Effect)
    (h : w.trace = t ++ [e]) : outstanding w = accepted_request e := by
  unfold outstanding
  rw [h, List.getLast?_concat]
  rfl

theorem pass_complete_concat (w : World) (t : List Effect) (e : Effect)
    (h : w.trace = t ++ [e]) :
    pass_complete w = (e == Effect.reset_discover_st GATT_SUCCESS) := by
  unfold pass_complete
  rw [h, List.getLast?_concat]
  cases hd : decide (e = Effect.reset_discover_st GATT_SUCCESS) <;> simp_all

theorem forall₂_modify {α β : Type} (R : α → β → Prop) (f : α → α)
    (hf : ∀ a b, R a b → R (f a) b) (l1 : List α) (l2 : List β) (i : Nat)
    (h : List.Forall₂ R l1 l2) : List.Forall₂ R (l1.modify f i) l2 := by
  induction h generalizing i with
  | nil => cases i <;> exact List.Forall₂.nil
  | cons hab _ ih =>
    cases i with
    | zero => exact List.Forall₂.cons (hf _ _ hab) (by assumption)
    | succ n => exact List.Forall₂.cons hab (ih n)

theorem add_char_to_cache_lifted (srvc_cache : List tBTA_GATTC_SERVICE)
    (recs : List tBTA_GATTC_ATTR_REC) (attr_handle value_handle : Nat) (uuid : Uuid)
    (property : Nat) (h : List.Forall₂ lifted_from srvc_cache recs) :
    List.Forall₂ lifted_from
      (bta_gattc_add_char_to_cache srvc_cache attr_handle value_handle uuid property) recs := by
  unfold bta_gattc_add_char_to_cache
  cases bta_gattc_find_matching_service srvc_cache attr_handle with
  | none => exact h
  | some i =>
    apply forall₂_modify _ _ _ _ _ _ h
    intro S r hS
    refine ⟨hS.1, ?_, hS.2.2.1, hS.2.2.2⟩
    have := hS.2.1
    simp only
    split <;> omega

theorem add_attr_to_cache_lifted (srvc_cache : List tBTA_GATTC_SERVICE)
    (recs : List tBTA_GATTC_ATTR_REC) (handle : Nat) (uuid : Uuid) (property : Nat)
    (incl_srvc_s_handle : Nat) (type : tBTA_GATTC_ATTR_TYPE)
    (h : List.Forall₂ lifted_from srvc_cache recs) :
    List.Forall₂ lifted_from
      (bta_gattc_add_attr_to_cache srvc_cache handle uuid property incl_srvc_s_handle type)
      recs := by
  unfold bta_gattc_add_attr_to_cache
  cases bta_gattc_find_matching_service srvc_cache handle with
  | none => exact h
  | some i =>
    simp only
    split
    · cases bta_gattc_find_matching_service srvc_cache incl_srvc_s_handle with
      | none => exact h
      | some j =>
        apply forall₂_modify _ _ _ _ _ _ h
        intro S r hS
        exact hS
    · split
      · apply forall₂_modify _ _ _ _ _ _ h
        intro S r hS
        split
        · exact hS
        · exact hS
      · exact h

theorem take_set_of_le {α : Type} (a : α) {n m : Nat} (l : List α) (h : m ≤ n) :
    (l.set n a).take m = l.take m := by
  apply List.ext_getElem?
  intro i
  rw [List.getElem?_take, List.getElem?_take]
  split
  · rw [List.getElem?_set_ne (by omega)]
  · rfl

theorem discover_procedure_cases (env : Env) (w : World) (t : tGATT_DISC_TYPE) :
    bta_gattc_discover_procedure env w t = (w, GATT_ERROR) ∨
    ∃ s e, bta_gattc_discover_procedure env w t =
      ({ w with trace := w.trace ++
          [Effect.GATTC_Discover t s e (env.GATTC_Discover w.trace t s e)] },
        env.GATTC_Discover w.trace t s e) := by
  unfold bta_gattc_discover_procedure
  by_cases h1 : t = GATT_DISC_SRVC_ALL ∨ t = GATT_DISC_SRVC_BY_UUID
  · right
    exact ⟨1, 0xFFFF, by rw [if_pos h1]⟩
  · rw [if_neg h1]
    dsimp only
    by_cases h2 : (bta_gattc_get_disc_range w.srcb
        (if t = GATT_DISC_CHAR_DSCPT then false else true)).1 >
        (bta_gattc_get_disc_range w.srcb
          (if t = GATT_DISC_CHAR_DSCPT then false else true)).2
    · left
      rw [if_pos h2]
    · right
      exact ⟨_, _, by rw [if_neg h2]⟩

theorem discover_procedure_spec (env : Env) (w : World) (t : tGATT_DISC_TYPE) :
    (bta_gattc_discover_procedure env w t).1.srcb = w.srcb ∧
    (bta_gattc_discover_procedure env w t).1.clcb = w.clcb ∧
    (((bta_gattc_discover_procedure env w t).2 = GATT_SUCCESS ∧
        outstanding (bta_gattc_discover_procedure env w t).1 = some t ∧
        pass_complete (bta_gattc_discover_procedure env w t).1 = false) ∨
      ((bta_gattc_discover_procedure env w t).2 ≠ GATT_SUCCESS ∧
        (inert w → inert (bta_gattc_discover_procedure env w t).1))) := by
  rcases discover_procedure_cases env w t with heq | ⟨s, e, heq⟩
  · rw [heq]
    exact ⟨rfl, rfl, Or.inr ⟨fun h => tGATT_STATUS.noConfusion h, fun h => h⟩⟩
  · rw [heq]
    refine ⟨rfl, rfl, ?_⟩
    by_cases hs : env.GATTC_Discover w.trace t s e = GATT_SUCCESS
    · left
      refine ⟨hs, ?_, ?_⟩
      · rw [outstanding_concat _ w.trace _ rfl]
        simp only [hs]
        rfl
      · rw [pass_complete_concat _ w.trace _ rfl]
        rfl
    · right
      refine ⟨hs, fun _ => ⟨?_, ?_⟩⟩
      · rw [outstanding_concat _ w.trace _ rfl]
        cases hst : env.GATTC_Discover w.trace t s e <;> first | rfl | exact absurd hst hs
      · rw [pass_complete_concat _ w.trace _ rfl]
        rfl

theorem add_srvc_to_list_spec (env : Env) (p : tBTA_GATTC_SERV)
    (list : List tBTA_GATTC_ATTR_REC) (s e : Nat) (u : Uuid) (prim : Bool)
    (hmax : env.BTA_GATTC_MAX_CACHE_CHAR ≤ 255)
    (hbuf : p.p_srvc_list = some list)
    (hlen : list.length = env.BTA_GATTC_MAX_CACHE_CHAR)
    (hnext : p.next_avail_idx = p.total_srvc)
    (htot : p.total_srvc ≤ env.BTA_GATTC_MAX_CACHE_CHAR) :
    ∃ list2, (bta_gattc_add_srvc_to_list env p s e u prim).1.p_srvc_list = some list2 ∧
      list2.length = env.BTA_GATTC_MAX_CACHE_CHAR ∧
      (bta_gattc_add_srvc_to_list env p s e u prim).1.next_avail_idx =
        (bta_gattc_add_srvc_to_list env p s e u prim).1.total_srvc ∧
      (bta_gattc_add_srvc_to_list env p s e u prim).1.total_srvc ≤
        env.BTA_GATTC_MAX_CACHE_CHAR ∧
      p.total_srvc ≤ (bta_gattc_add_srvc_to_list env p s e u prim).1.total_srvc ∧
      (∀ k, k ≤ p.total_srvc → list2.take k = list.take k) ∧
      (bta_gattc_add_srvc_to_list env p s e u prim).1.srvc_cache = p.srvc_cache ∧
      (bta_gattc_add_srvc_to_list env p s e u prim).1.cur_srvc_idx = p.cur_srvc_idx := by
  unfold bta_gattc_add_srvc_to_list
  rw [hbuf]
  simp only
  split
  · rename_i hlt
    refine ⟨_, rfl, by simpa using hlen, ?_, ?_, ?_, ?_, rfl, rfl⟩
    · simp only [hnext]
    · simp only
      omega
    · simp only
      omega
    · intro k hk
      exact take_set_of_le _ _ (by omega)
  · exact ⟨list, hbuf, hlen, hnext, htot, Nat.le_refl _, fun _ _ => rfl, rfl, rfl⟩

theorem add_char_to_list_spec (env : Env) (p : tBTA_GATTC_SERV)
    (list : List tBTA_GATTC_ATTR_REC) (d v : Nat) (u : Uuid) (prop : Nat)
    (hmax : env.BTA_GATTC_MAX_CACHE_CHAR ≤ 255)
    (hbuf : p.p_srvc_list = some list)
    (hlen : list.length = env.BTA_GATTC_MAX_CACHE_CHAR)
    (hnext : p.next_avail_idx = p.total_srvc + p.total_char)
    (hfit : p.next_avail_idx ≤ env.BTA_GATTC_MAX_CACHE_CHAR) :
    ∃ list2, (bta_gattc_add_char_to_list env p d v u prop).1.p_srvc_list = some list2 ∧
      list2.length = env.BTA_GATTC_MAX_CACHE_CHAR ∧
      (bta_gattc_add_char_to_list env p d v u prop).1.next_avail_idx =
        (bta_gattc_add_char_to_list env p d v u prop).1.total_srvc +
          (bta_gattc_add_char_to_list env p d v u prop).1.total_char ∧
      (bta_gattc_add_char_to_list env p d v u prop).1.next_avail_idx ≤
        env.BTA_GATTC_MAX_CACHE_CHAR ∧
      (bta_gattc_add_char_to_list env p d v u prop).1.total_srvc = p.total_srvc ∧
      (∀ k, k ≤ p.total_srvc → list2.take k = list.take k) ∧
      (bta_gattc_add_char_to_list env p d v u prop).1.srvc_cache = p.srvc_cache ∧
      (bta_gattc_add_char_to_list env p d v u prop).1.cur_srvc_idx = p.cur_srvc_idx ∧
      (bta_gattc_add_char_to_list env p d v u prop).1.cur_char_idx = p.cur_char_idx := by
  unfold bta_gattc_add_char_to_list
  rw [hbuf]
  simp only
  split
  · rename_i hlt
    refine ⟨_, rfl, ?_, ?_, ?_, rfl, ?_, rfl, rfl, rfl⟩
    · split <;> simpa using hlen
    · simp only
      omega
    · simp only
      omega
    · intro k hk
      split
      · rename_i hgt
        rw [take_set_of_le _ _ (by omega), take_set_of_le _ _ (by omega)]
      · exact take_set_of_le _ _ (by omega)
  · exact ⟨list, hbuf, hlen, hnext, hfit, rfl, fun _ _ => rfl, rfl, rfl, rfl⟩

theorem cache_save_effect_spec (w : World) :
    (cache_save_effect w).srcb = w.srcb ∧ (cache_save_effect w).clcb = w.clcb ∧
    ∃ t, (cache_save_effect w).trace = w.trace ++ t := by
  unfold cache_save_effect
  cases bta_gattc_cache_save w.srcb.srvc_cache with
  | none => exact ⟨rfl, rfl, [], by simp⟩
  | some r => exact ⟨rfl, rfl, _, rfl⟩

theorem explore_srvc_cases (env : Env) (w : World) (c : tBTA_GATTC_CLCB)
    (hclcb : w.clcb = some c) :
    (w.srcb.cur_srvc_idx < w.srcb.total_srvc ∧
      bta_gattc_explore_srvc env w =
        (bta_gattc_discover_procedure env
          { w with srcb := { w.srcb with
              cur_char_idx := w.srcb.total_srvc
              next_avail_idx := w.srcb.total_srvc
              srvc_cache := bta_gattc_add_srvc_to_cache w.srcb.srvc_cache
                (rec_at w.srcb w.srcb.cur_srvc_idx).s_handle
                (rec_at w.srcb w.srcb.cur_srvc_idx).e_handle
                (rec_at w.srcb w.srcb.cur_srvc_idx).uuid
                (rec_at w.srcb w.srcb.cur_srvc_idx).is_primary } }
          GATT_DISC_INC_SRVC).1) ∨
    (¬ w.srcb.cur_srvc_idx < w.srcb.total_srvc ∧
      (bta_gattc_explore_srvc env w).srcb =
        { w.srcb with cur_char_idx := w.srcb.total_srvc
                      next_avail_idx := w.srcb.total_srvc
                      state := BTA_GATTC_SERV_SAVE } ∧
      (bta_gattc_explore_srvc env w).clcb = w.clcb ∧
      ∃ t, (bta_gattc_explore_srvc env w).trace =
        t ++ [Effect.reset_discover_st GATT_SUCCESS]) := by
  unfold bta_gattc_explore_srvc bta_gattc_start_disc_include_srvc
  dsimp only
  rw [hclcb]
  dsimp only
  by_cases hlt : w.srcb.cur_srvc_idx < w.srcb.total_srvc
  · left
    rw [if_pos hlt]
    exact ⟨hlt, rfl⟩
  · right
    rw [if_neg hlt]
    refine ⟨hlt, ?_, ?_, ?_⟩
    · split
      · rw [(cache_save_effect_spec _).1]
      · rfl
    · split
      · rw [(cache_save_effect_spec _).2.1]
      · rfl
    · split
      · exact ⟨_, rfl⟩
      · exact ⟨_, rfl⟩

theorem graph_lifted_succ (srvc_cache : List tBTA_GATTC_SERVICE)
    (list : List tBTA_GATTC_ATTR_REC) (k : Nat) (hk : k < list.length)
    (hl : graph_lifted srvc_cache list k) :
    graph_lifted
      (bta_gattc_add_srvc_to_cache srvc_cache (list.getD k default).s_handle
        (list.getD k default).e_handle (list.getD k default).uuid
        (list.getD k default).is_primary) list (k + 1) := by
  unfold graph_lifted bta_gattc_add_srvc_to_cache at *
  rw [List.take_succ, List.getElem?_eq_getElem hk]
  have hget : list.getD k default = list[k] := by
    simp [List.getD_eq_getElem?_getD, List.getElem?_eq_getElem hk]
  rw [hget]
  exact List.rel_append hl (List.Forall₂.cons ⟨rfl, Nat.le_refl _, rfl, rfl⟩ List.Forall₂.nil)

theorem explore_srvc_inv (env : Env) (w : World) (list : List tBTA_GATTC_ATTR_REC)
    (hc : pass_common env w list)
    (hcur : w.srcb.cur_srvc_idx ≤ w.srcb.total_srvc)
    (hl : graph_lifted w.srcb.srvc_cache list w.srcb.cur_srvc_idx)
    (hi : inert w) : pass_inv env (bta_gattc_explore_srvc env w) := by
  obtain ⟨c, hclcb, hst, hss⟩ := hc.clcb
  rcases explore_srvc_cases env w c hclcb with ⟨hlt, heq⟩ | ⟨hge, hsrcb, hcl, t, htr⟩
  · rw [heq]
    have hspec := discover_procedure_spec env
      { w with srcb := { w.srcb with
          cur_char_idx := w.srcb.total_srvc
          next_avail_idx := w.srcb.total_srvc
          srvc_cache := bta_gattc_add_srvc_to_cache w.srcb.srvc_cache
            (rec_at w.srcb w.srcb.cur_srvc_idx).s_handle
            (rec_at w.srcb w.srcb.cur_srvc_idx).e_handle
            (rec_at w.srcb w.srcb.cur_srvc_idx).uuid
            (rec_at w.srcb w.srcb.cur_srvc_idx).is_primary } } GATT_DISC_INC_SRVC
    obtain ⟨hsrcb, hcl, hcase⟩ := hspec
    have hrec : rec_at w.srcb w.srcb.cur_srvc_idx = list.getD w.srcb.cur_srvc_idx default := by
      unfold rec_at
      rw [hc.buf]
      rfl
    rcases hcase with ⟨_, hout, _⟩ | ⟨_, hin⟩
    · refine pass_inv.incl list ⟨⟨c, ?_, hst, hss⟩, ?_, hc.len, ?_⟩ hout ?_ ?_ ?_
      · rw [hcl]; exact hclcb
      · rw [hsrcb]; exact hc.buf
      · rw [hsrcb]; exact hc.tot
      · rw [hsrcb]; exact hlt
      · rw [hsrcb]
        dsimp only
        rw [hrec]
        exact graph_lifted_succ _ _ _ (by have := hc.len; have := hc.tot; omega) hl
      · rw [hsrcb]
    · exact pass_inv.idle (hin hi)
  · have hcureq : w.srcb.cur_srvc_idx = w.srcb.total_srvc := by omega
    refine pass_inv.done list ?_ ?_ ?_
    · rw [hsrcb]; exact hc.buf
    · rw [hsrcb]
      dsimp only
      rw [← hcureq]
      exact hl
    · rw [pass_complete_concat _ t _ htr]
      rfl

theorem inert_of_trace_eq (w w2 : World) (h : w2.trace = w.trace) (hi : inert w) :
    inert w2 := by
  unfold inert outstanding pass_complete at *
  rw [h]
  exact hi

theorem dscpt_phase_congr (env : Env) (w w2 : World) (list : List tBTA_GATTC_ATTR_REC)
    (hs : w2.srcb = w.srcb) (hcl : w2.clcb = w.clcb) (h : dscpt_phase env w list) :
    dscpt_phase env w2 list := by
  obtain ⟨⟨hclcb, hbuf, hlen, htot⟩, hcur, hl, hidx, hchar, hnext, hfit⟩ := h
  refine ⟨⟨?_, ?_, hlen, ?_⟩, ?_, ?_, ?_, ?_, ?_, ?_⟩
  · rw [hcl]
    exact hclcb
  all_goals rw [hs]; assumption

theorem start_disc_char_dscp_inv (env : Env) (cmpl : World → World) (w : World)
    (list : List tBTA_GATTC_ATTR_REC) (hd : dscpt_phase env w list) (hi : inert w)
    (hcmpl : ∀ w2, w2.srcb = w.srcb → dscpt_phase env w2 list → inert w2 →
      pass_inv env (cmpl w2)) :
    pass_inv env (bta_gattc_start_disc_char_dscp env cmpl w) := by
  unfold bta_gattc_start_disc_char_dscp
  dsimp only
  obtain ⟨hsrcb, hcl, hcase⟩ := discover_procedure_spec env w GATT_DISC_CHAR_DSCPT
  have hd2 := dscpt_phase_congr env w _ list hsrcb hcl hd
  rcases hcase with ⟨hs, hout, _⟩ | ⟨hs, hin⟩
  · rw [if_neg (by simpa using hs)]
    exact pass_inv.dscpt list hd2.hc hout hd2.hcur hd2.hl hd2.hidx hd2.hchar hd2.hnext hd2.hfit
  · rw [if_pos hs]
    exact hcmpl _ hsrcb hd2 (hin hi)

theorem char_dscpt_disc_cmpl_fuel_inv (env : Env)
    (hmax : env.BTA_GATTC_MAX_CACHE_CHAR ≤ 255) (list : List tBTA_GATTC_ATTR_REC)
    (fuel : Nat) (w : World) (hd : dscpt_phase env w list) (hi : inert w)
    (hfuel : w.srcb.total_char ≤ fuel) :
    pass_inv env (char_dscpt_disc_cmpl_fuel env fuel w) := by
  induction fuel generalizing w with
  | zero =>
    have := hd.hchar
    omega
  | succ fuel ih =>
    obtain ⟨hc, hcur, hl, hidx, hchar, hnext, hfit⟩ := hd
    have htot := hc.tot
    have htc : (w.srcb.total_char + 255) % 256 = w.srcb.total_char - 1 := by omega
    unfold char_dscpt_disc_cmpl_fuel
    dsimp only
    rw [htc]
    by_cases hmore : w.srcb.total_char - 1 > 0
    · rw [if_pos hmore]
      have hcci : (w.srcb.cur_char_idx + 1) % 256 = w.srcb.cur_char_idx + 1 := by omega
      rw [hcci]
      apply start_disc_char_dscp_inv env _ _ list
      · refine ⟨⟨hc.clcb, hc.buf, hc.len, hc.tot⟩, hcur, ?_, ?_, ?_, ?_, hfit⟩
        · exact add_char_to_cache_lifted _ _ _ _ _ _ hl
        · show w.srcb.total_srvc ≤ w.srcb.cur_char_idx + 1
          omega
        · show 1 ≤ w.srcb.total_char - 1
          omega
        · show w.srcb.cur_char_idx + 1 + (w.srcb.total_char - 1) = w.srcb.next_avail_idx
          omega
      · exact inert_of_trace_eq w _ rfl hi
      · intro w2 hs2 hd2 hi2
        apply ih w2 hd2 hi2
        rw [hs2]
        show w.srcb.total_char - 1 ≤ fuel
        omega
    · rw [if_neg hmore]
      have hcs : (w.srcb.cur_srvc_idx + 1) % 256 = w.srcb.cur_srvc_idx + 1 := by omega
      rw [hcs]
      apply explore_srvc_inv env _ list
      · exact ⟨hc.clcb, hc.buf, hc.len, hc.tot⟩
      · show w.srcb.cur_srvc_idx + 1 ≤ w.srcb.total_srvc
        omega
      · exact hl
      · exact inert_of_trace_eq w _ rfl hi

theorem outstanding_none_of_complete (w : World) (h : pass_complete w = true) :
    outstanding w = none := by
  unfold pass_complete at h
  unfold outstanding
  cases hl : w.trace.getLast? with
  | none => rfl
  | some e =>
    rw [hl] at h
    have : e = Effect.reset_discover_st GATT_SUCCESS := by simpa using h
    subst this
    rfl

theorem graph_lifted_congr (srvc_cache : List tBTA_GATTC_SERVICE)
    (list list2 : List tBTA_GATTC_ATTR_REC) (k : Nat) (h : list2.take k = list.take k)
    (hl : graph_lifted srvc_cache list k) : graph_lifted srvc_cache list2 k := by
  unfold graph_lifted at *
  rw [h]
  exact hl

theorem disc_res_cback_srvc_inv (env : Env) (hmax : env.BTA_GATTC_MAX_CACHE_CHAR ≤ 255)
    (w : World) (list : List tBTA_GATTC_ATTR_REC) (p_data : tGATT_DISC_RES)
    (hc : pass_common env w list) (ho : outstanding w = some GATT_DISC_SRVC_ALL)
    (hcache : w.srcb.srvc_cache = []) (hcur : w.srcb.cur_srvc_idx = 0)
    (hnext : w.srcb.next_avail_idx = w.srcb.total_srvc) :
    pass_inv env (bta_gattc_disc_res_cback env w GATT_DISC_SRVC_ALL p_data) := by
  obtain ⟨c, hclcb, hst, hss⟩ := hc.clcb
  obtain ⟨list2, h1, h2, h3, h4, _, _, h7, h8⟩ :=
    add_srvc_to_list_spec env w.srcb list p_data.handle p_data.value.group_value.e_handle
      p_data.value.group_value.service_type true hmax hc.buf hc.len hnext hc.tot
  simp only [bta_gattc_disc_res_cback, bta_gattc_find_scb_by_cid, hclcb, hst, if_true]
  refine pass_inv.srvc list2 ⟨⟨c, rfl, hst, hss⟩, h1, h2, h4⟩ ho ?_ ?_ h3
  · show (bta_gattc_add_srvc_to_list env w.srcb _ _ _ _).1.srvc_cache = []
    rw [h7]; exact hcache
  · show (bta_gattc_add_srvc_to_list env w.srcb _ _ _ _).1.cur_srvc_idx = 0
    rw [h8]; exact hcur

theorem disc_res_cback_incl_inv (env : Env) (hmax : env.BTA_GATTC_MAX_CACHE_CHAR ≤ 255)
    (w : World) (list : List tBTA_GATTC_ATTR_REC) (p_data : tGATT_DISC_RES)
    (hc : pass_common env w list) (ho : outstanding w = some GATT_DISC_INC_SRVC)
    (hcur : w.srcb.cur_srvc_idx < w.srcb.total_srvc)
    (hl : graph_lifted w.srcb.srvc_cache list (w.srcb.cur_srvc_idx + 1))
    (hnext : w.srcb.next_avail_idx = w.srcb.total_srvc) :
    pass_inv env (bta_gattc_disc_res_cback env w GATT_DISC_INC_SRVC p_data) := by
  obtain ⟨c, hclcb, hst, hss⟩ := hc.clcb
  obtain ⟨list2, h1, h2, h3, h4, h5, h6, h7, h8⟩ :=
    add_srvc_to_list_spec env w.srcb list p_data.value.incl_service.s_handle
      p_data.value.incl_service.e_handle p_data.value.incl_service.service_type false hmax
      hc.buf hc.len hnext hc.tot
  simp only [bta_gattc_disc_res_cback, bta_gattc_find_scb_by_cid, hclcb, hst, if_true]
  split
  · refine pass_inv.incl list2 ⟨⟨c, rfl, hst, hss⟩, h1, h2, h4⟩ ho ?_ ?_ h3
    · show (bta_gattc_add_srvc_to_list env w.srcb _ _ _ _).1.cur_srvc_idx <
        (bta_gattc_add_srvc_to_list env w.srcb _ _ _ _).1.total_srvc
      rw [h8]; omega
    · dsimp only
      rw [h7, h8]
      exact add_attr_to_cache_lifted _ _ _ _ _ _ _
        (graph_lifted_congr _ _ _ _ (h6 _ (by omega)) hl)
  · refine pass_inv.incl list ⟨⟨c, rfl, hst, hss⟩, hc.buf, hc.len, hc.tot⟩ ho hcur ?_ hnext
    dsimp only
    exact add_attr_to_cache_lifted _ _ _ _ _ _ _ hl

theorem disc_res_cback_char_inv (env : Env) (hmax : env.BTA_GATTC_MAX_CACHE_CHAR ≤ 255)
    (w : World) (list : List tBTA_GATTC_ATTR_REC) (p_data : tGATT_DISC_RES)
    (hc : pass_common env w list) (ho : outstanding w = some GATT_DISC_CHAR)
    (hcur : w.srcb.cur_srvc_idx < w.srcb.total_srvc)
    (hl : graph_lifted w.srcb.srvc_cache list (w.srcb.cur_srvc_idx + 1))
    (hidx : w.srcb.cur_char_idx = w.srcb.total_srvc)
    (hnext : w.srcb.next_avail_idx = w.srcb.total_srvc + w.srcb.total_char)
    (hfit : w.srcb.next_avail_idx ≤ env.BTA_GATTC_MAX_CACHE_CHAR) :
    pass_inv env (bta_gattc_disc_res_cback env w GATT_DISC_CHAR p_data) := by
  obtain ⟨c, hclcb, hst, hss⟩ := hc.clcb
  obtain ⟨list2, h1, h2, h3, h4, h5, h6, h7, h8, h9⟩ :=
    add_char_to_list_spec env w.srcb list p_data.handle p_data.value.dclr_value.val_handle
      p_data.value.dclr_value.char_uuid p_data.value.dclr_value.char_prop hmax
      hc.buf hc.len hnext hfit
  simp only [bta_gattc_disc_res_cback, bta_gattc_find_scb_by_cid, hclcb, hst, if_true]
  refine pass_inv.char list2 ⟨⟨c, rfl, hst, hss⟩, h1, h2, ?_⟩ ho ?_ ?_ ?_ h3 h4
  · show (bta_gattc_add_char_to_list env w.srcb _ _ _ _).1.total_srvc ≤ _
    rw [h5]; exact hc.tot
  · show (bta_gattc_add_char_to_list env w.srcb _ _ _ _).1.cur_srvc_idx <
      (bta_gattc_add_char_to_list env w.srcb _ _ _ _).1.total_srvc
    rw [h8, h5]; exact hcur
  · show graph_lifted (bta_gattc_add_char_to_list env w.srcb _ _ _ _).1.srvc_cache list2
      ((bta_gattc_add_char_to_list env w.srcb _ _ _ _).1.cur_srvc_idx + 1)
    rw [h7, h8]
    exact graph_lifted_congr _ _ _ _ (h6 _ (by omega)) hl
  · show (bta_gattc_add_char_to_list env w.srcb _ _ _ _).1.cur_char_idx =
      (bta_gattc_add_char_to_list env w.srcb _ _ _ _).1.total_srvc
    rw [h9, h5]; exact hidx

theorem disc_res_cback_dscpt_inv (env : Env)
    (w : World) (list : List tBTA_GATTC_ATTR_REC) (p_data : tGATT_DISC_RES)
    (hd : dscpt_phase env w list) (ho : outstanding w = some GATT_DISC_CHAR_DSCPT) :
    pass_inv env (bta_gattc_disc_res_cback env w GATT_DISC_CHAR_DSCPT p_data) := by
  obtain ⟨hc, hcur, hl, hidx, hchar, hnext, hfit⟩ := hd
  obtain ⟨c, hclcb, hst, hss⟩ := hc.clcb
  simp only [bta_gattc_disc_res_cback, bta_gattc_find_scb_by_cid, hclcb, hst, if_true]
  refine pass_inv.dscpt list ⟨⟨c, rfl, hst, hss⟩, hc.buf, hc.len, hc.tot⟩ ho hcur
    ?_ hidx hchar hnext hfit
  dsimp only
  exact add_attr_to_cache_lifted _ _ _ _ _ _ _ hl

theorem inert_after_cmpl_received (w : World) (t : tGATT_DISC_TYPE) (st : tGATT_STATUS) :
    inert { w with trace := w.trace ++ [Effect.disc_cmpl_received t st] } :=
  ⟨by rw [outstanding_concat _ w.trace _ rfl]; rfl,
   by rw [pass_complete_concat _ w.trace _ rfl]; rfl⟩

theorem disc_cmpl_cback_failure (env : Env) (w : World) (c : tBTA_GATTC_CLCB)
    (t : tGATT_DISC_TYPE) (st : tGATT_STATUS) (hclcb : w.clcb = some c)
    (hst : st ≠ GATT_SUCCESS) : pass_inv env (bta_gattc_disc_cmpl_cback env w t st) := by
  unfold bta_gattc_disc_cmpl_cback
  rw [hclcb]
  dsimp only
  rw [if_pos (Or.inl hst)]
  exact pass_inv.idle
    ⟨by rw [outstanding_concat _ w.trace _ rfl]; rfl,
     by rw [pass_complete_concat _ w.trace _ rfl]; rfl⟩

theorem disc_cmpl_cback_success (env : Env) (w : World) (c : tBTA_GATTC_CLCB)
    (t : tGATT_DISC_TYPE) (hclcb : w.clcb = some c) (hss : c.status = GATT_SUCCESS) :
    bta_gattc_disc_cmpl_cback env w t GATT_SUCCESS =
      match t with
      | GATT_DISC_SRVC_ALL => bta_gattc_explore_srvc env w
      | GATT_DISC_SRVC_BY_UUID => bta_gattc_explore_srvc env w
      | GATT_DISC_INC_SRVC => bta_gattc_incl_srvc_disc_cmpl env w
      | GATT_DISC_CHAR => bta_gattc_char_disc_cmpl env w
      | GATT_DISC_CHAR_DSCPT => bta_gattc_char_dscpt_disc_cmpl env w := by
  unfold bta_gattc_disc_cmpl_cback
  rw [hclcb]
  dsimp only
  rw [if_neg (by simp [hss])]

theorem incl_srvc_disc_cmpl_inv (env : Env)
    (w : World) (list : List tBTA_GATTC_ATTR_REC)
    (hc : pass_common env w list) (hi : inert w)
    (hcur : w.srcb.cur_srvc_idx < w.srcb.total_srvc)
    (hl : graph_lifted w.srcb.srvc_cache list (w.srcb.cur_srvc_idx + 1))
    (hnext : w.srcb.next_avail_idx = w.srcb.total_srvc) :
    pass_inv env (bta_gattc_incl_srvc_disc_cmpl env w) := by
  unfold bta_gattc_incl_srvc_disc_cmpl bta_gattc_start_disc_char
  dsimp only
  obtain ⟨hsrcb, hcl, hcase⟩ := discover_procedure_spec env
    { w with srcb := { w.srcb with cur_char_idx := w.srcb.total_srvc, total_char := 0 } }
    GATT_DISC_CHAR
  rcases hcase with ⟨_, hout, _⟩ | ⟨_, hin⟩
  · refine pass_inv.char list ⟨?_, ?_, hc.len, ?_⟩ hout ?_ ?_ ?_ ?_ ?_
    · rw [hcl]; exact hc.clcb
    · rw [hsrcb]; exact hc.buf
    · rw [hsrcb]; exact hc.tot
    · rw [hsrcb]; exact hcur
    · rw [hsrcb]; exact hl
    · rw [hsrcb]
    · rw [hsrcb]; exact hnext
    · rw [hsrcb]
      show w.srcb.next_avail_idx ≤ env.BTA_GATTC_MAX_CACHE_CHAR
      rw [hnext]; exact hc.tot
  · exact pass_inv.idle (hin (inert_of_trace_eq w _ rfl hi))

theorem char_disc_cmpl_inv (env : Env) (hmax : env.BTA_GATTC_MAX_CACHE_CHAR ≤ 255)
    (w : World) (list : List tBTA_GATTC_ATTR_REC)
    (hc : pass_common env w list) (hi : inert w)
    (hcur : w.srcb.cur_srvc_idx < w.srcb.total_srvc)
    (hl : graph_lifted w.srcb.srvc_cache list (w.srcb.cur_srvc_idx + 1))
    (hidx : w.srcb.cur_char_idx = w.srcb.total_srvc)
    (hnext : w.srcb.next_avail_idx = w.srcb.total_srvc + w.srcb.total_char)
    (hfit : w.srcb.next_avail_idx ≤ env.BTA_GATTC_MAX_CACHE_CHAR) :
    pass_inv env (bta_gattc_char_disc_cmpl env w) := by
  unfold bta_gattc_char_disc_cmpl
  by_cases hmore : w.srcb.total_char > 0
  · rw [if_pos hmore]
    apply start_disc_char_dscp_inv env _ _ list
    · refine ⟨⟨hc.clcb, hc.buf, hc.len, hc.tot⟩, hcur, ?_, ?_, hmore, ?_, hfit⟩
      · exact add_char_to_cache_lifted _ _ _ _ _ _ hl
      · show w.srcb.total_srvc ≤ w.srcb.cur_char_idx
        omega
      · show w.srcb.cur_char_idx + w.srcb.total_char = w.srcb.next_avail_idx
        omega
    · exact inert_of_trace_eq w _ rfl hi
    · intro w2 hs2 hd2 hi2
      apply char_dscpt_disc_cmpl_fuel_inv env hmax list 256 w2 hd2 hi2
      rw [hs2]
      show w.srcb.total_char ≤ 256
      omega
  · rw [if_neg hmore]
    have hcs : (w.srcb.cur_srvc_idx + 1) % 256 = w.srcb.cur_srvc_idx + 1 := by
      have := hc.tot
      omega
    rw [hcs]
    apply explore_srvc_inv env _ list
    · exact ⟨hc.clcb, hc.buf, hc.len, hc.tot⟩
    · show w.srcb.cur_srvc_idx + 1 ≤ w.srcb.total_srvc
      omega
    · exact hl
    · exact inert_of_trace_eq w _ rfl hi

theorem pass_common_congr (env : Env) (w w2 : World) (list : List tBTA_GATTC_ATTR_REC)
    (hs : w2.srcb = w.srcb) (hcl : w2.clcb = w.clcb) (h : pass_common env w list) :
    pass_common env w2 list := by
  obtain ⟨hclcb, hbuf, hlen, htot⟩ := h
  refine ⟨?_, ?_, hlen, ?_⟩
  · rw [hcl]; exact hclcb
  · rw [hs]; exact hbuf
  · rw [hs]; exact htot

/-- One event in protocol order preserves the invariant of the pass. -/
theorem deliver_inv (env : Env) (hmax : env.BTA_GATTC_MAX_CACHE_CHAR ≤ 255) (w : World)
    (ev : DiscEvent) (hinv : pass_inv env w) (hout : outstanding w = some ev.disc_type) :
    pass_inv env (deliver env w ev) := by
  cases ev with
  | res t d =>
    simp only [DiscEvent.disc_type] at hout
    simp only [deliver]
    cases hinv with
    | srvc list hc ho hcache hcur hnext =>
      have ht : t = GATT_DISC_SRVC_ALL := by rw [ho] at hout; simpa using hout.symm
      subst ht
      exact disc_res_cback_srvc_inv env hmax w list d hc ho hcache hcur hnext
    | incl list hc ho hcur hl hnext =>
      have ht : t = GATT_DISC_INC_SRVC := by rw [ho] at hout; simpa using hout.symm
      subst ht
      exact disc_res_cback_incl_inv env hmax w list d hc ho hcur hl hnext
    | char list hc ho hcur hl hidx hnext hfit =>
      have ht : t = GATT_DISC_CHAR := by rw [ho] at hout; simpa using hout.symm
      subst ht
      exact disc_res_cback_char_inv env hmax w list d hc ho hcur hl hidx hnext hfit
    | dscpt list hc ho hcur hl hidx hchar hnext hfit =>
      have ht : t = GATT_DISC_CHAR_DSCPT := by rw [ho] at hout; simpa using hout.symm
      subst ht
      exact disc_res_cback_dscpt_inv env w list d ⟨hc, hcur, hl, hidx, hchar, hnext, hfit⟩ ho
    | idle hi => rw [hi.1] at hout; simp at hout
    | done list hbuf hl hp => rw [outstanding_none_of_complete w hp] at hout; simp at hout
  | cmpl t st =>
    simp only [DiscEvent.disc_type] at hout
    simp only [deliver]
    have hi := inert_after_cmpl_received w t st
    have hs1 : ({ w with trace := w.trace ++ [Effect.disc_cmpl_received t st] } : World).srcb
        = w.srcb := rfl
    have hcl1 : ({ w with trace := w.trace ++ [Effect.disc_cmpl_received t st] } : World).clcb
        = w.clcb := rfl
    generalize ({ w with trace := w.trace ++ [Effect.disc_cmpl_received t st] } : World) = w1
      at hi hs1 hcl1 ⊢
    by_cases hst : st = GATT_SUCCESS
    · subst hst
      cases hinv with
      | srvc list hc ho hcache hcur hnext =>
        have ht : t = GATT_DISC_SRVC_ALL := by rw [ho] at hout; simpa using hout.symm
        subst ht
        obtain ⟨c, hclcb, hcs, hss⟩ := hc.clcb
        rw [disc_cmpl_cback_success env w1 c _ (by rw [hcl1]; exact hclcb) hss]
        apply explore_srvc_inv env _ list (pass_common_congr env w _ list hs1 hcl1 hc) _ _ hi
        · rw [hs1]
          omega
        · rw [hs1, hcache, hcur]
          unfold graph_lifted
          simp
      | incl list hc ho hcur hl hnext =>
        have ht : t = GATT_DISC_INC_SRVC := by rw [ho] at hout; simpa using hout.symm
        subst ht
        obtain ⟨c, hclcb, hcs, hss⟩ := hc.clcb
        rw [disc_cmpl_cback_success env w1 c _ (by rw [hcl1]; exact hclcb) hss]
        exact incl_srvc_disc_cmpl_inv env _ list (pass_common_congr env w _ list hs1 hcl1 hc) hi
          (by rw [hs1]; exact hcur) (by rw [hs1]; exact hl) (by rw [hs1]; exact hnext)
      | char list hc ho hcur hl hidx hnext hfit =>
        have ht : t = GATT_DISC_CHAR := by rw [ho] at hout; simpa using hout.symm
        subst ht
        obtain ⟨c, hclcb, hcs, hss⟩ := hc.clcb
        rw [disc_cmpl_cback_success env w1 c _ (by rw [hcl1]; exact hclcb) hss]
        exact char_disc_cmpl_inv env hmax _ list (pass_common_congr env w _ list hs1 hcl1 hc) hi
          (by rw [hs1]; exact hcur) (by rw [hs1]; exact hl) (by rw [hs1]; exact hidx)
          (by rw [hs1]; exact hnext) (by rw [hs1]; exact hfit)
      | dscpt list hc ho hcur hl hidx hchar hnext hfit =>
        have ht : t = GATT_DISC_CHAR_DSCPT := by rw [ho] at hout; simpa using hout.symm
        subst ht
        obtain ⟨c, hclcb, hcs, hss⟩ := hc.clcb
        rw [disc_cmpl_cback_success env w1 c _ (by rw [hcl1]; exact hclcb) hss]
        have htc : w1.srcb.total_char ≤ 256 := by rw [hs1]; omega
        exact char_dscpt_disc_cmpl_fuel_inv env hmax list 256 _
          (dscpt_phase_congr env w w1 list hs1 hcl1
            ⟨hc, hcur, hl, hidx, hchar, hnext, hfit⟩) hi htc
      | idle hi2 => rw [hi2.1] at hout; simp at hout
      | done list hbuf hl hp => rw [outstanding_none_of_complete w hp] at hout; simp at hout
    · have hclcb : ∃ c, w.clcb = some c := by
        cases hinv with
        | srvc list hc => obtain ⟨c, h, _⟩ := hc.clcb; exact ⟨c, h⟩
        | incl list hc => obtain ⟨c, h, _⟩ := hc.clcb; exact ⟨c, h⟩
        | char list hc => obtain ⟨c, h, _⟩ := hc.clcb; exact ⟨c, h⟩
        | dscpt list hc => obtain ⟨c, h, _⟩ := hc.clcb; exact ⟨c, h⟩
        | idle hi2 => rw [hi2.1] at hout; simp at hout
        | done list hbuf hl hp => rw [outstanding_none_of_complete w hp] at hout; simp at hout
      obtain ⟨c, hc⟩ := hclcb
      exact disc_cmpl_cback_failure env _ c t st (by rw [hcl1]; exact hc) hst

/-- Every event sequence in protocol order preserves the invariant of the pass. -/
theorem run_inv (env : Env) (hmax : env.BTA_GATTC_MAX_CACHE_CHAR ≤ 255)
    (evs : List DiscEvent) (w : World) (hinv : pass_inv env w)
    (hp : in_protocol_order env w evs = true) : pass_inv env (run env w evs) := by
  induction evs generalizing w with
  | nil => exact hinv
  | cons ev rest ih =>
    unfold in_protocol_order at hp
    simp only [Bool.and_eq_true, beq_iff_eq] at hp
    unfold run
    rw [List.foldl_cons]
    exact ih _ (deliver_inv env hmax w ev hinv hp.1) hp.2

/-- The invariant holds when the pass starts. -/
theorem start_discovery_inv (env : Env) (w : World) :
    pass_inv env (start_discovery env w) := by
  unfold start_discovery
  obtain ⟨hsrcb, hcl, hcase⟩ := discover_procedure_spec env
    { w with clcb := some { bta_conn_id := 0, state := BTA_GATTC_DISCOVER_ST,
                            status := GATT_SUCCESS }
             srcb := bta_gattc_init_cache env w.srcb } GATT_DISC_SRVC_ALL
  rcases discover_procedure_cases env
    { w with clcb := some { bta_conn_id := 0, state := BTA_GATTC_DISCOVER_ST,
                            status := GATT_SUCCESS }
             srcb := bta_gattc_init_cache env w.srcb } GATT_DISC_SRVC_ALL with heq | ⟨s, e, heq⟩
  · exfalso
    unfold bta_gattc_discover_procedure at heq
    simp at heq
  · by_cases hs : env.GATTC_Discover w.trace GATT_DISC_SRVC_ALL s e = GATT_SUCCESS
    · rw [heq]
      refine pass_inv.srvc (List.replicate env.BTA_GATTC_MAX_CACHE_CHAR default)
        ⟨⟨_, rfl, rfl, rfl⟩, rfl, by simp, Nat.zero_le _⟩ ?_ rfl rfl rfl
      rw [outstanding_concat _ w.trace _ rfl]
      simp only [hs]
      rfl
    · rw [heq]
      refine pass_inv.idle ⟨?_, ?_⟩
      · rw [outstanding_concat _ w.trace _ rfl]
        cases hst : env.GATTC_Discover w.trace GATT_DISC_SRVC_ALL s e <;>
          first | rfl | exact absurd hst hs
      · rw [pass_complete_concat _ w.trace _ rfl]
        rfl

/-- In every discovery pass in protocol order that completes, the graph holds one service per
service record of the buffer, in buffer order, lifted from that record. -/
theorem pass_graph_lifted (env : Env) (hmax : env.BTA_GATTC_MAX_CACHE_CHAR ≤ 255)
    (w : World) (evs : List DiscEvent)
    (hp : in_protocol_order env (start_discovery env w) evs = true)
    (hdone : pass_complete (run env (start_discovery env w) evs) = true) :
    ∃ list, (run env (start_discovery env w) evs).srcb.p_srvc_list = some list ∧
      graph_lifted (run env (start_discovery env w) evs).srcb.srvc_cache list
        (run env (start_discovery env w) evs).srcb.total_srvc := by
  have hinv := run_inv env hmax evs _ (start_discovery_inv env w) hp
  have hnone := outstanding_none_of_complete _ hdone
  cases hinv with
  | srvc list hc ho => rw [hnone] at ho; simp at ho
  | incl list hc ho => rw [hnone] at ho; simp at ho
  | char list hc ho => rw [hnone] at ho; simp at ho
  | dscpt list hc ho => rw [hnone] at ho; simp at ho
  | idle hi => rw [hi.2] at hdone; simp at hdone
  | done list hbuf hl hp2 => exact ⟨list, hbuf, hl⟩

/-! ## Services lifted from the buffer; included edges (C6) -/

theorem lifted_map_s_handle (srvc_cache : List tBTA_GATTC_SERVICE)
    (recs : List tBTA_GATTC_ATTR_REC) (h : List.Forall₂ lifted_from srvc_cache recs) :
    srvc_cache.map (fun S => S.s_handle) = recs.map (fun r => r.s_handle) ∧
    srvc_cache.map (fun S => S.uuid) = recs.map (fun r => r.uuid) ∧
    srvc_cache.map (fun S => S.is_primary) = recs.map (fun r => r.is_primary) := by
  induction h with
  | nil => simp
  | cons hab _ ih =>
    simp only [List.map_cons, List.cons.injEq]
    exact ⟨⟨hab.1, ih.1⟩, ⟨hab.2.2.1, ih.2.1⟩, ⟨hab.2.2.2, ih.2.2⟩⟩

theorem forall₂_exists_right {α β : Type} (R : α → β → Prop) (l1 : List α) (l2 : List β)
    (h : List.Forall₂ R l1 l2) (a : α) (ha : a ∈ l1) : ∃ b ∈ l2, R a b := by
  induction h with
  | nil => simp at ha
  | cons hab _ ih =>
    rcases List.mem_cons.1 ha with rfl | hmem
    · exact ⟨_, by simp, hab⟩
    · obtain ⟨b, hb, hr⟩ := ih hmem
      exact ⟨b, List.mem_cons_of_mem _ hb, hr⟩

theorem forall₂_pairwise {α β : Type} (R : α → β → Prop) (P1 : α → α → Prop)
    (P2 : β → β → Prop) (hP : ∀ a b c d, R a c → R b d → P2 c d → P1 a b)
    (l1 : List α) (l2 : List β) (h : List.Forall₂ R l1 l2) (hp : l2.Pairwise P2) :
    l1.Pairwise P1 := by
  induction h with
  | nil => exact List.Pairwise.nil
  | cons hab htail ih =>
    rw [List.pairwise_cons] at hp ⊢
    refine ⟨?_, ih hp.2⟩
    intro b hb
    obtain ⟨d, hd, hr⟩ := forall₂_exists_right R _ _ htail b hb
    exact hP _ _ _ _ hab hr (hp.1 d hd)

theorem lifted_same_range (srvc_cache : List tBTA_GATTC_SERVICE)
    (recs : List tBTA_GATTC_ATTR_REC) (h : List.Forall₂ lifted_from srvc_cache recs)
    (he : srvc_cache.map (fun S => S.e_handle) = recs.map (fun r => r.e_handle)) :
    List.Forall₂ (fun S r => S.s_handle = r.s_handle ∧ S.e_handle = r.e_handle)
      srvc_cache recs := by
  induction h with
  | nil => exact List.Forall₂.nil
  | cons hab _ ih =>
    simp only [List.map_cons, List.cons.injEq] at he
    exact List.Forall₂.cons ⟨hab.1, he.1⟩ (ih he.2)

/-- C6, the code at the claim's scenarios. In scenario 3 (the included range `[20, 30]` is
the primary service `B`, reported in the same pass) and in scenario 4 (the included range
`[40, 50]` is appended as a secondary service by the result) the pass follows the protocol and
completes, the owning service `A = [1, 10]` contains the edge handle 2, and yet no service of
the graph holds an included edge, neither right after the `INC_SRVC` result nor at the end:
when the result arrives only `A` has been lifted into the graph, so the lookup of the target
start handle fails and the edge is dropped. -/
theorem incl_result_edge_dropped :
    in_protocol_order scenario_env (start_discovery scenario_env default)
      scenario3_pass = true ∧
    pass_complete (scenario_run scenario3_pass) = true ∧
    (scenario_run (scenario3_pass.take 4)).srcb.srvc_cache.map
        (fun S => (S.s_handle, S.e_handle, S.included_svc)) = [(1, 10, [])] ∧
    (scenario_run scenario3_pass).srcb.srvc_cache.map
        (fun S => (S.s_handle, S.e_handle, S.is_primary, S.included_svc)) =
      [(1, 10, true, []), (20, 30, true, [])] ∧
    in_protocol_order scenario_env (start_discovery scenario_env default)
      scenario4_pass = true ∧
    pass_complete (scenario_run scenario4_pass) = true ∧
    (scenario_run (scenario4_pass.take 4)).srcb.srvc_cache.map
        (fun S => (S.s_handle, S.e_handle, S.included_svc)) = [(1, 10, [])] ∧
    (scenario_run scenario4_pass).srcb.srvc_cache.map
        (fun S => (S.s_handle, S.e_handle, S.is_primary, S.included_svc)) =
      [(1, 10, true, []), (20, 30, true, []), (40, 50, false, [])] := by
  decide

/-! ## Descriptor ranges (C5) -/

theorem getD_set_self {α : Type} (l : List α) (i : Nat) (a d : α) (h : i < l.length) :
    (l.set i a).getD i d = a := by
  simp [List.getD_eq_getElem?_getD, List.getElem?_set, h]

theorem getD_set_other {α : Type} (l : List α) (i j : Nat) (a d : α) (h : i ≠ j) :
    (l.set i a).getD j d = l.getD j d := by
  simp [List.getD_eq_getElem?_getD, List.getElem?_set, h]

theorem getD_append_left {α : Type} (l : List α) (a d : α) (j : Nat) (h : j < l.length) :
    (l ++ [a]).getD j d = l.getD j d := by
  simp [List.getD_eq_getElem?_getD, List.getElem?_append_left h]

theorem getD_append_last {α : Type} (l : List α) (a d : α) :
    (l ++ [a]).getD l.length d = a := by
  simp [List.getD_eq_getElem?_getD]

theorem ingest_chars_snoc (env : Env) (p : tBTA_GATTC_SERV) (results : List tGATT_DISC_RES)
    (r : tGATT_DISC_RES) :
    ingest_chars env p (results ++ [r]) =
      (bta_gattc_add_char_to_list env (ingest_chars env p results) r.handle
        r.value.dclr_value.val_handle r.value.dclr_value.char_uuid
        r.value.dclr_value.char_prop).1 := by
  simp [ingest_chars, List.foldl_append]

theorem add_char_to_list_buffer (env : Env) (p : tBTA_GATTC_SERV)
    (l : List tBTA_GATTC_ATTR_REC) (d v : Nat) (u : Uuid) (prop : Nat)
    (hmax : env.BTA_GATTC_MAX_CACHE_CHAR ≤ 255)
    (hbuf : p.p_srvc_list = some l) (hlen : l.length = env.BTA_GATTC_MAX_CACHE_CHAR)
    (hlt : p.next_avail_idx < env.BTA_GATTC_MAX_CACHE_CHAR)
    (htc : p.total_char ≤ p.next_avail_idx) :
    ∃ l2, (bta_gattc_add_char_to_list env p d v u prop).1.p_srvc_list = some l2 ∧
      l2.length = env.BTA_GATTC_MAX_CACHE_CHAR ∧
      (bta_gattc_add_char_to_list env p d v u prop).1.total_char = p.total_char + 1 ∧
      (bta_gattc_add_char_to_list env p d v u prop).1.next_avail_idx =
        p.next_avail_idx + 1 ∧
      (bta_gattc_add_char_to_list env p d v u prop).1.cur_srvc_idx = p.cur_srvc_idx ∧
      (l2.getD p.next_avail_idx default).s_handle = v ∧
      (l2.getD p.next_avail_idx default).e_handle =
        (l.getD p.cur_srvc_idx default).e_handle ∧
      (1 ≤ p.total_char →
        (l2.getD (p.next_avail_idx - 1) default).s_handle =
          (l.getD (p.next_avail_idx - 1) default).s_handle ∧
        (l2.getD (p.next_avail_idx - 1) default).e_handle = (d + 65535) % 65536) ∧
      (∀ j, j ≠ p.next_avail_idx → (j + 1 ≠ p.next_avail_idx ∨ p.total_char = 0) →
        l2.getD j default = l.getD j default) := by
  unfold bta_gattc_add_char_to_list
  rw [hbuf]
  dsimp only
  rw [if_pos hlt]
  have h1 : (p.total_char + 1) % 256 = p.total_char + 1 := by omega
  have h2 : (p.next_avail_idx + 1) % 256 = p.next_avail_idx + 1 := by omega
  rw [h1, h2]
  by_cases hpatch : p.total_char + 1 > 1 ∧ p.next_avail_idx ≥ 1
  · rw [if_pos hpatch]
    refine ⟨_, rfl, by simpa using hlen, rfl, rfl, rfl, ?_, ?_, ?_, ?_⟩
    · rw [getD_set_other _ _ _ _ _ (by omega), getD_set_self _ _ _ _ (by omega)]
    · rw [getD_set_other _ _ _ _ _ (by omega), getD_set_self _ _ _ _ (by omega)]
    · intro _
      rw [getD_set_self _ _ _ _ (by simp; omega)]
      refine ⟨?_, rfl⟩
      dsimp only
      rw [getD_set_other _ _ _ _ _ (by omega)]
    · intro j hj1 hj2
      rw [getD_set_other _ _ _ _ _ (by omega), getD_set_other _ _ _ _ _ (by omega)]
  · rw [if_neg hpatch]
    refine ⟨_, rfl, by simpa using hlen, rfl, rfl, rfl, ?_, ?_, ?_, ?_⟩
    · rw [getD_set_self _ _ _ _ (by omega)]
    · rw [getD_set_self _ _ _ _ (by omega)]
    · intro hpos
      omega
    · intro j hj1 _
      rw [getD_set_other _ _ _ _ _ (by omega)]

theorem ingest_chars_buffered (env : Env) (p : tBTA_GATTC_SERV)
    (list : List tBTA_GATTC_ATTR_REC) (results : List tGATT_DISC_RES)
    (hmax : env.BTA_GATTC_MAX_CACHE_CHAR ≤ 255)
    (hbuf : p.p_srvc_list = some list)
    (hlen : list.length = env.BTA_GATTC_MAX_CACHE_CHAR)
    (htc : p.total_char = 0)
    (hcur : p.cur_srvc_idx < p.next_avail_idx)
    (hfit : p.next_avail_idx + results.length ≤ env.BTA_GATTC_MAX_CACHE_CHAR)
    (hasc : results.Pairwise fun a b => a.handle < b.handle)
    (h16 : ∀ r ∈ results, r.handle < 65536) :
    ∃ list2, (ingest_chars env p results).p_srvc_list = some list2 ∧
      list2.length = env.BTA_GATTC_MAX_CACHE_CHAR ∧
      (ingest_chars env p results).total_char = results.length ∧
      (ingest_chars env p results).next_avail_idx = p.next_avail_idx + results.length ∧
      (ingest_chars env p results).cur_srvc_idx = p.cur_srvc_idx ∧
      (list2.getD p.cur_srvc_idx default).e_handle =
        (list.getD p.cur_srvc_idx default).e_handle ∧
      chars_buffered list2 p.next_avail_idx (list.getD p.cur_srvc_idx default).e_handle
        results := by
  induction results using List.reverseRecOn with
  | nil =>
    exact ⟨list, hbuf, hlen, htc, rfl, rfl, rfl, fun j hj => absurd hj (Nat.not_lt_zero j)⟩
  | append_singleton done r ih =>
    rw [List.length_append, List.length_singleton] at hfit
    rw [List.pairwise_append] at hasc
    obtain ⟨l, h1, h2, h3, h4, h5, h6, h7⟩ := ih (by omega) hasc.1
      (fun x hx => h16 x (List.mem_append_left _ hx))
    have hr16 : r.handle < 65536 := h16 r (by simp)
    obtain ⟨l2, g1, g2, g3, g4, g5, g6, g7, g8, g9⟩ :=
      add_char_to_list_buffer env (ingest_chars env p done) l r.handle
        r.value.dclr_value.val_handle r.value.dclr_value.char_uuid
        r.value.dclr_value.char_prop hmax h1 h2 (by omega) (by omega)
    rw [h4, h5] at g7
    rw [h4] at g6
    rw [h3, h4] at g8
    rw [h4, h3] at g9
    rw [ingest_chars_snoc]
    refine ⟨l2, g1, g2, ?_, ?_, ?_, ?_, ?_⟩
    · rw [g3, h3]; simp
    · rw [g4, h4]; simp; omega
    · rw [g5, h5]
    · rw [g9 p.cur_srvc_idx (by omega) (by omega)]
      exact h6
    · intro j hj
      rw [List.length_append, List.length_singleton] at hj
      simp only [List.length_append, List.length_singleton]
      by_cases hjm : j = done.length
      · subst hjm
        rw [getD_append_last, if_neg (by omega), g6, g7, h6]
        exact ⟨rfl, rfl⟩
      · have hjlt : j < done.length := by omega
        obtain ⟨hs, he⟩ := h7 j hjlt
        rw [getD_append_left _ _ _ _ hjlt, if_pos (by omega)]
        by_cases hjp : j + 1 = done.length
        · have hidx : p.next_avail_idx + done.length - 1 = p.next_avail_idx + j := by omega
          obtain ⟨gs, ge⟩ := g8 (by omega)
          rw [hidx] at gs ge
          rw [gs, ge, hjp, getD_append_last]
          refine ⟨hs, ?_⟩
          have hprev := hasc.2.2 (done.getD j default) (by
            rw [List.getD_eq_getElem?_getD, List.getElem?_eq_getElem hjlt]
            exact List.getElem_mem _) r (by simp)
          omega
        · rw [g9 (p.next_avail_idx + j) (by omega) (Or.inl (by omega)), getD_append_left _ _ _ _ (by omega)]
          refine ⟨hs, ?_⟩
          rw [he, if_pos (by omega)]

/-- C5, amended. When a `CHAR` phase starts (no characteristic counted yet, the record of the
service being explored lies below `next_avail_idx`, buffer capacity within the 8-bit cursors),
the buffer has room for all `k` results, their declaration handles are strictly ascending
16-bit handles and every value handle is below `0xFFFF`, then after the results were ingested
by `bta_gattc_add_char_to_list` the descriptor range that `bta_gattc_get_disc_range` yields for
characteristic `i` is `[V_i + 1, D_(i+1) - 1]` for `i < k`, and `[V_k + 1, S_e]` for the last
one. -/
theorem get_disc_range_derivation (env : Env) (p : tBTA_GATTC_SERV)
    (list : List tBTA_GATTC_ATTR_REC) (results : List tGATT_DISC_RES)
    (hmax : env.BTA_GATTC_MAX_CACHE_CHAR ≤ 255)
    (hbuf : p.p_srvc_list = some list)
    (hlen : list.length = env.BTA_GATTC_MAX_CACHE_CHAR)
    (htc : p.total_char = 0)
    (hcur : p.cur_srvc_idx < p.next_avail_idx)
    (hfit : p.next_avail_idx + results.length ≤ env.BTA_GATTC_MAX_CACHE_CHAR)
    (hasc : results.Pairwise fun a b => a.handle < b.handle)
    (h16 : ∀ r ∈ results, r.handle < 65536 ∧ r.value.dclr_value.val_handle < 65535)
    (i : Nat) (hi : i < results.length) :
    bta_gattc_get_disc_range
        { ingest_chars env p results with cur_char_idx := p.next_avail_idx + i } false =
      ((results.getD i default).value.dclr_value.val_handle + 1,
        if i + 1 < results.length then (results.getD (i + 1) default).handle - 1
        else (rec_at p p.cur_srvc_idx).e_handle) := by
  obtain ⟨l2, h1, _, _, _, _, _, h7⟩ :=
    ingest_chars_buffered env p list results hmax hbuf hlen htc hcur hfit hasc
      (fun r hr => (h16 r hr).1)
  obtain ⟨hs, he⟩ := h7 i hi
  have hv : (results.getD i default).value.dclr_value.val_handle < 65535 := by
    have hmem : results.getD i default ∈ results := by
      rw [List.getD_eq_getElem?_getD, List.getElem?_eq_getElem hi]
      exact List.getElem_mem _
    exact (h16 _ hmem).2
  have hrec : rec_at p p.cur_srvc_idx = list.getD p.cur_srvc_idx default := by
    unfold rec_at
    rw [hbuf]
    rfl
  have hrec2 : rec_at { ingest_chars env p results with cur_char_idx := p.next_avail_idx + i }
      (p.next_avail_idx + i) = l2.getD (p.next_avail_idx + i) default := by
    unfold rec_at
    dsimp only
    rw [h1]
    rfl
  unfold bta_gattc_get_disc_range
  simp only [Bool.false_eq_true, if_false]
  rw [hrec2, hs, he, hrec, Nat.mod_eq_of_lt (by omega)]

/-- C5, witness: the two characteristics of scenario 2 ingested after the service record
`[1, 10]`, read for the first characteristic: the range is `[4, 4]`. -/
theorem get_disc_range_derivation_witness :
    bta_gattc_get_disc_range
        { ingest_chars scenario_env scenario2_char_phase scenario2_char_results
          with cur_char_idx := scenario2_char_phase.next_avail_idx + 0 } false =
      (3 + 1, 5 - 1) :=
  get_disc_range_derivation scenario_env scenario2_char_phase
    ((List.replicate 128 default).set 0
      { (default : tBTA_GATTC_ATTR_REC) with s_handle := 1, e_handle := 10 })
    scenario2_char_results
    (by decide) rfl (by simp [scenario_env]) rfl (by decide) (by decide) (by decide)
    (by decide) 0 (by decide)


/-- C5, counterexamples. (a) With a buffer of two records the pass of scenario 2 stores the
service and the first characteristic; the second characteristic result finds the buffer full
and is dropped, so the first characteristic keeps the range `[4, 10]` up to the end of the
service instead of `[V_1 + 1, D_2 - 1] = [4, 4]`. (b) For a characteristic with value handle
`V = 0xFFFF` in the service `[1, 0xFFFF]` the range read is `[0, 0xFFFF]`, not
`[V + 1, S_e]`. -/
theorem get_disc_range_not_derived :
    (in_protocol_order two_slot_env (start_discovery two_slot_env default)
        scenario2_char_pass = true ∧
      (run two_slot_env (start_discovery two_slot_env default)
        scenario2_char_pass).srcb.total_char = 1 ∧
      bta_gattc_get_disc_range (run two_slot_env (start_discovery two_slot_env default)
        scenario2_char_pass).srcb false = (4, 10) ∧
      bta_gattc_get_disc_range (run two_slot_env (start_discovery two_slot_env default)
        scenario2_char_pass).srcb false ≠ (3 + 1, 5 - 1)) ∧
    (in_protocol_order scenario_env (start_discovery scenario_env default)
        last_handle_pass = true ∧
      bta_gattc_get_disc_range (scenario_run last_handle_pass).srcb false = (0, 0xFFFF) ∧
      bta_gattc_get_disc_range (scenario_run last_handle_pass).srcb false
        ≠ (0xFFFF + 1, 0xFFFF)) := by
  decide
/-! ## Descriptor lookup, lookups by connection, export guard (C11, C18, C19) -/

/-- The service lookup returns a service of the graph whose range contains the handle. -/
theorem get_service_for_handle_srcb_some (srcb : tBTA_GATTC_SERV) (h : Nat)
    (S : tBTA_GATTC_SERVICE)
    (hS : bta_gattc_get_service_for_handle_srcb (some srcb) h = some S) :
    S ∈ srcb.srvc_cache ∧ in_range S h := by
  unfold bta_gattc_get_service_for_handle_srcb bta_gattc_get_services_srcb at hS
  cases hempty : srcb.srvc_cache.isEmpty with
  | true => simp [hempty] at hS
  | false =>
    dsimp only at hS
    rw [hempty] at hS
    simp only [Bool.false_eq_true, if_false] at hS
    cases hfind : bta_gattc_find_matching_service srcb.srvc_cache h with
    | none => simp [hfind] at hS
    | some i =>
      simp only [hfind] at hS
      obtain ⟨T, hT, hTin, _⟩ := (find_matching_service_eq_some _ h i).1 hfind
      rw [hT] at hS
      cases hS
      exact ⟨List.getElem?_mem hT, hTin⟩

/-- With pairwise disjoint ranges the service lookup returns the service whose range contains
the handle. -/
theorem get_service_for_handle_srcb_of_disjoint (srcb : tBTA_GATTC_SERV) (h : Nat)
    (hd : ranges_disjoint srcb.srvc_cache) (S : tBTA_GATTC_SERVICE)
    (hS : S ∈ srcb.srvc_cache) (hin : in_range S h) :
    bta_gattc_get_service_for_handle_srcb (some srcb) h = some S := by
  obtain ⟨j, hj⟩ := List.getElem?_of_mem hS
  have hne : srcb.srvc_cache.isEmpty = false := by
    cases hl : srcb.srvc_cache with
    | nil => rw [hl] at hS; simp at hS
    | cons _ _ => rfl
  have hfind := find_matching_service_of_disjoint _ hd j S hj h hin
  unfold bta_gattc_get_service_for_handle_srcb bta_gattc_get_services_srcb
  simp [hne, hfind, hj]

theorem find_descriptor_in_descriptors_some (descs : List tBTA_GATTC_DESCRIPTOR) (h : Nat)
    (d : tBTA_GATTC_DESCRIPTOR) (hd : find_descriptor_in_descriptors descs h = some d) :
    d ∈ descs ∧ d.handle = h := by
  induction descs with
  | nil => simp [find_descriptor_in_descriptors] at hd
  | cons x rest ih =>
    unfold find_descriptor_in_descriptors at hd
    by_cases hx : h = x.handle
    · rw [if_pos hx] at hd
      cases hd
      exact ⟨by simp, hx.symm⟩
    · rw [if_neg hx] at hd
      exact ⟨List.mem_cons_of_mem _ (ih hd).1, (ih hd).2⟩

theorem find_descriptor_in_descriptors_none (descs : List tBTA_GATTC_DESCRIPTOR) (h : Nat) :
    find_descriptor_in_descriptors descs h = none ↔ ∀ d ∈ descs, d.handle ≠ h := by
  induction descs with
  | nil => simp [find_descriptor_in_descriptors]
  | cons x rest ih =>
    unfold find_descriptor_in_descriptors
    by_cases hx : h = x.handle
    · rw [if_pos hx]
      simp [hx]
    · rw [if_neg hx, ih]
      simp only [List.mem_cons, forall_eq_or_imp, iff_and_self]
      intro _ hc
      exact hx hc.symm

theorem find_descriptor_in_some (chars : List tBTA_GATTC_CHARACTERISTIC) (h : Nat)
    (d : tBTA_GATTC_DESCRIPTOR) (hd : find_descriptor_in chars h = some d) :
    (∃ c ∈ chars, d ∈ c.descriptors) ∧ d.handle = h := by
  induction chars with
  | nil => simp [find_descriptor_in] at hd
  | cons x rest ih =>
    unfold find_descriptor_in at hd
    cases hx : find_descriptor_in_descriptors x.descriptors h with
    | some d2 =>
      rw [hx] at hd
      cases hd
      have := find_descriptor_in_descriptors_some _ _ _ hx
      exact ⟨⟨x, by simp, this.1⟩, this.2⟩
    | none =>
      rw [hx] at hd
      obtain ⟨⟨c, hc, hdc⟩, hh⟩ := ih hd
      exact ⟨⟨c, List.mem_cons_of_mem _ hc, hdc⟩, hh⟩

theorem find_descriptor_in_none (chars : List tBTA_GATTC_CHARACTERISTIC) (h : Nat) :
    find_descriptor_in chars h = none ↔
      ∀ c ∈ chars, ∀ d ∈ c.descriptors, d.handle ≠ h := by
  induction chars with
  | nil => simp [find_descriptor_in]
  | cons x rest ih =>
    unfold find_descriptor_in
    cases hx : find_descriptor_in_descriptors x.descriptors h with
    | some d2 =>
      have := find_descriptor_in_descriptors_some _ _ _ hx
      simp only [List.mem_cons, forall_eq_or_imp, false_iff, reduceCtorEq]
      intro hall
      exact absurd this.2 (hall.1 d2 this.1)
    | none =>
      simp only [List.mem_cons, forall_eq_or_imp]
      rw [ih]
      have := (find_descriptor_in_descriptors_none _ h).1 hx
      exact ⟨fun hr => ⟨this, hr⟩, fun hr => hr.2⟩

/-- C11. In a graph with pairwise disjoint service ranges in which every descriptor's handle
lies inside the range of the service that owns its characteristic,
`bta_gattc_get_descriptor_srcb` returns a descriptor exactly when some descriptor of the graph
has handle `h`, and the descriptor it returns has handle `h` (and is one of the graph). -/
theorem get_descriptor_srcb_iff (srcb : tBTA_GATTC_SERV) (h : Nat)
    (hd : ranges_disjoint srcb.srvc_cache)
    (hin : ∀ S ∈ srcb.srvc_cache, ∀ c ∈ S.characteristics, ∀ d ∈ c.descriptors,
      S.s_handle ≤ d.handle ∧ d.handle ≤ S.e_handle) :
    ((∃ d, bta_gattc_get_descriptor_srcb (some srcb) h = some d) ↔
      ∃ S ∈ srcb.srvc_cache, ∃ c ∈ S.characteristics, ∃ d ∈ c.descriptors, d.handle = h) ∧
    (∀ d, bta_gattc_get_descriptor_srcb (some srcb) h = some d →
      d.handle = h ∧ ∃ S ∈ srcb.srvc_cache, ∃ c ∈ S.characteristics, d ∈ c.descriptors) := by
  have key : ∀ d, bta_gattc_get_descriptor_srcb (some srcb) h = some d →
      d.handle = h ∧ ∃ S ∈ srcb.srvc_cache, ∃ c ∈ S.characteristics, d ∈ c.descriptors := by
    intro d hget
    unfold bta_gattc_get_descriptor_srcb at hget
    cases hsvc : bta_gattc_get_service_for_handle_srcb (some srcb) h with
    | none => simp [hsvc] at hget
    | some S =>
      simp only [hsvc] at hget
      obtain ⟨⟨c, hc, hdc⟩, hh⟩ := find_descriptor_in_some _ _ _ hget
      exact ⟨hh, S, (get_service_for_handle_srcb_some srcb h S hsvc).1, c, hc, hdc⟩
  refine ⟨⟨?_, ?_⟩, key⟩
  · rintro ⟨d, hget⟩
    obtain ⟨hh, S, hS, c, hc, hdc⟩ := key d hget
    exact ⟨S, hS, c, hc, d, hdc, hh⟩
  · rintro ⟨S, hS, c, hc, d, hdc, hh⟩
    have hrange : in_range S h := by
      have := hin S hS c hc d hdc
      rw [hh] at this
      exact this
    have hsvc := get_service_for_handle_srcb_of_disjoint srcb h hd S hS hrange
    cases hscan : find_descriptor_in S.characteristics h with
    | none => exact absurd hh ((find_descriptor_in_none _ h).1 hscan c hc d hdc)
    | some d2 =>
      refine ⟨d2, ?_⟩
      unfold bta_gattc_get_descriptor_srcb
      simp [hsvc, hscan]

/-- C11, witness: in the graph of scenario 2 the lookup of handle 4 returns the descriptor of
the first characteristic. -/
theorem get_descriptor_srcb_iff_witness :
    ranges_disjoint scenario2_graph ∧
    (∀ S ∈ scenario2_graph, ∀ c ∈ S.characteristics, ∀ d ∈ c.descriptors,
      S.s_handle ≤ d.handle ∧ d.handle ≤ S.e_handle) ∧
    ((∃ d, bta_gattc_get_descriptor_srcb
        (some { (default : tBTA_GATTC_SERV) with srvc_cache := scenario2_graph }) 4 = some d) ↔
      ∃ S ∈ scenario2_graph, ∃ c ∈ S.characteristics, ∃ d ∈ c.descriptors, d.handle = 4) ∧
    (∀ d, bta_gattc_get_descriptor_srcb
        (some { (default : tBTA_GATTC_SERV) with srvc_cache := scenario2_graph }) 4 = some d →
      d.handle = 4 ∧ ∃ S ∈ scenario2_graph, ∃ c ∈ S.characteristics, d ∈ c.descriptors) :=
  ⟨by decide, by decide,
    get_descriptor_srcb_iff
      { (default : tBTA_GATTC_SERV) with srvc_cache := scenario2_graph } 4
      (by decide) (by decide)⟩

/-- C18, amended. The lookups by connection return nothing when the connection is unknown or
the graph is empty; for a known connection and a non-empty graph `bta_gattc_get_services`
returns the graph as it stands. None of the four lookups reads the discovery buffer pointer,
the server state or the client state: changing them changes no answer. -/
theorem lookups_answer_from_graph (w : World) (h : Nat) :
    (w.clcb = none ∨ w.srcb.srvc_cache = [] →
      bta_gattc_get_services w = none ∧ bta_gattc_get_service_for_handle w h = none ∧
      bta_gattc_get_characteristic w h = none ∧ bta_gattc_get_descriptor w h = none) ∧
    ((∃ c, w.clcb = some c) → w.srcb.srvc_cache ≠ [] →
      bta_gattc_get_services w = some w.srcb.srvc_cache) ∧
    (∀ (p_srvc_list : Option (List tBTA_GATTC_ATTR_REC)) (state : tBTA_GATTC_SERV_STATE)
        (c : tBTA_GATTC_CLCB) (st : tBTA_GATTC_STATE),
      w.clcb = some c →
      bta_gattc_get_services
          { w with clcb := some { c with state := st }
                   srcb := { w.srcb with p_srvc_list := p_srvc_list, state := state } } =
        bta_gattc_get_services w ∧
      bta_gattc_get_service_for_handle
          { w with clcb := some { c with state := st }
                   srcb := { w.srcb with p_srvc_list := p_srvc_list, state := state } } h =
        bta_gattc_get_service_for_handle w h ∧
      bta_gattc_get_characteristic
          { w with clcb := some { c with state := st }
                   srcb := { w.srcb with p_srvc_list := p_srvc_list, state := state } } h =
        bta_gattc_get_characteristic w h ∧
      bta_gattc_get_descriptor
          { w with clcb := some { c with state := st }
                   srcb := { w.srcb with p_srvc_list := p_srvc_list, state := state } } h =
        bta_gattc_get_descriptor w h) := by
  refine ⟨?_, ?_, ?_⟩
  · rintro (hc | hg)
    · simp [bta_gattc_get_services, bta_gattc_get_service_for_handle,
        bta_gattc_get_characteristic, bta_gattc_get_descriptor, hc]
    · cases hc : w.clcb <;>
        simp [bta_gattc_get_services, bta_gattc_get_service_for_handle,
          bta_gattc_get_characteristic, bta_gattc_get_descriptor, hc,
          bta_gattc_get_services_srcb, bta_gattc_get_characteristic_srcb,
          bta_gattc_get_descriptor_srcb, bta_gattc_get_service_for_handle_srcb, hg]
  · rintro ⟨c, hc⟩ hne
    have hempty : w.srcb.srvc_cache.isEmpty = false := by
      cases hl : w.srcb.srvc_cache with
      | nil => exact absurd hl hne
      | cons _ _ => rfl
    simp [bta_gattc_get_services, hc, bta_gattc_get_services_srcb, hempty]
  · intro p_srvc_list state c st hc
    simp [bta_gattc_get_services, bta_gattc_get_service_for_handle,
      bta_gattc_get_characteristic, bta_gattc_get_descriptor, hc,
      bta_gattc_get_services_srcb, bta_gattc_get_characteristic_srcb,
      bta_gattc_get_descriptor_srcb, bta_gattc_get_service_for_handle_srcb]

/-- C18, counterexample. Seven events into scenario 2 (in protocol order, the buffer
allocated, the pass not complete) the lookups answer from the partial graph: the service
`[1, 10]` with its first characteristic, the characteristic 3 and the descriptor 4 are
returned, the characteristic 6 is not found; at the end of the pass it is. -/
theorem lookups_expose_partial_graph :
    in_protocol_order scenario_env (start_discovery scenario_env default)
      (scenario2_pass.take 7) = true ∧
    (scenario_run (scenario2_pass.take 7)).srcb.p_srvc_list.isSome = true ∧
    pass_complete (scenario_run (scenario2_pass.take 7)) = false ∧
    (bta_gattc_get_services (scenario_run (scenario2_pass.take 7))).map
        (fun G => G.map fun S =>
          (S.s_handle, S.e_handle, S.characteristics.map fun c => c.handle)) =
      some [(1, 10, [3])] ∧
    (bta_gattc_get_service_for_handle (scenario_run (scenario2_pass.take 7)) 5).map
        (fun S => (S.s_handle, S.e_handle)) = some (1, 10) ∧
    (bta_gattc_get_characteristic (scenario_run (scenario2_pass.take 7)) 3).map
        (fun c => c.handle) = some 3 ∧
    (bta_gattc_get_descriptor (scenario_run (scenario2_pass.take 7)) 4).map
        (fun d => d.handle) = some 4 ∧
    bta_gattc_get_characteristic (scenario_run (scenario2_pass.take 7)) 6 = none ∧
    (bta_gattc_get_characteristic (scenario_run scenario2_pass) 6).map
        (fun c => c.handle) = some 6 := by
  decide

/-- C19. `bta_gattc_get_gatt_db` writes the element array and the count exactly when the
connection is known with client state `BTA_GATTC_CONN_ST`, no discovery buffer is allocated
and the graph is not empty (the outputs are then those of `bta_gattc_get_gatt_db_impl`: an
allocated array and the computed size); in every other case the outputs keep the values they
had before the call. -/
theorem get_gatt_db_guard (w : World) (start_handle end_handle : Nat) (out : GattDbOut) :
    ((∃ c, w.clcb = some c ∧ c.state = BTA_GATTC_CONN_ST) ∧ w.srcb.p_srvc_list = none ∧
        w.srcb.srvc_cache ≠ [] →
      bta_gattc_get_gatt_db w start_handle end_handle out =
        bta_gattc_get_gatt_db_impl w.srcb.srvc_cache start_handle end_handle ∧
      (bta_gattc_get_gatt_db w start_handle end_handle out).db =
        some (export_services w.srcb.srvc_cache w.srcb.srvc_cache start_handle end_handle []) ∧
      (bta_gattc_get_gatt_db w start_handle end_handle out).count =
        bta_gattc_get_db_size w.srcb.srvc_cache start_handle end_handle) ∧
    (¬ ((∃ c, w.clcb = some c ∧ c.state = BTA_GATTC_CONN_ST) ∧ w.srcb.p_srvc_list = none ∧
        w.srcb.srvc_cache ≠ []) →
      bta_gattc_get_gatt_db w start_handle end_handle out = out) := by
  constructor
  · rintro ⟨⟨c, hc, hst⟩, hbuf, hne⟩
    have hempty : w.srcb.srvc_cache.isEmpty = false := by
      cases hl : w.srcb.srvc_cache with
      | nil => exact absurd hl hne
      | cons _ _ => rfl
    have key : bta_gattc_get_gatt_db w start_handle end_handle out =
        bta_gattc_get_gatt_db_impl w.srcb.srvc_cache start_handle end_handle := by
      unfold bta_gattc_get_gatt_db
      rw [hc]
      simp [hst, hbuf, hempty]
    rw [key]
    unfold bta_gattc_get_gatt_db_impl
    rw [hempty]
    exact ⟨rfl, rfl, rfl⟩
  · intro hno
    unfold bta_gattc_get_gatt_db
    cases hc : w.clcb with
    | none => rfl
    | some c =>
      dsimp only
      by_cases hst : c.state ≠ BTA_GATTC_CONN_ST
      · rw [if_pos hst]
      · rw [if_neg hst]
        have hst2 : c.state = BTA_GATTC_CONN_ST := not_not.1 hst
        rw [if_pos]
        by_contra hcon
        apply hno
        refine ⟨⟨c, hc, hst2⟩, ?_, ?_⟩
        · cases hb : w.srcb.p_srvc_list with
          | none => rfl
          | some l => exact absurd (Or.inl (by simp [hb])) hcon
        · intro hnil
          exact hcon (Or.inr (by simp [hnil]))

/-- C19, witness: in the connected state with the graph of scenario 2 and no discovery buffer the
export of `[1, 10]` writes four elements; with a discovery buffer allocated, or in the discover
state, the outputs are left as they were. -/
theorem get_gatt_db_guard_witness :
    bta_gattc_get_gatt_db connected_world 1 10 { db := none, count := 0 } =
      bta_gattc_get_gatt_db_impl scenario2_graph 1 10 ∧
    (bta_gattc_get_gatt_db connected_world 1 10 { db := none, count := 0 }).count = 4 ∧
    bta_gattc_get_gatt_db
        { connected_world with
          srcb := { connected_world.srcb with p_srvc_list := some [] } }
        1 10 { db := none, count := 7 } = { db := none, count := 7 } ∧
    bta_gattc_get_gatt_db
        { connected_world with
          clcb := some { bta_conn_id := 0, state := BTA_GATTC_DISCOVER_ST,
                         status := GATT_SUCCESS } }
        1 10 { db := none, count := 7 } = { db := none, count := 7 } :=
  ⟨((get_gatt_db_guard connected_world 1 10 { db := none, count := 0 }).1
      ⟨⟨_, rfl, rfl⟩, rfl, by decide⟩).1,
    by decide, by decide, by decide⟩

/-! ## Cache file: load, emission order, header (C12, C13, C14) -/

theorem fread_attr_bytes (layout : NvAttrLayout) (num_attr : Nat) (stream : List Nat) :
    (fread_attr layout num_attr stream).length ≤ num_attr ∧
    (fread_attr layout num_attr stream).length * layout.sizeof_attr ≤ stream.length := by
  induction num_attr generalizing stream with
  | zero => simp [fread_attr]
  | succ n ih =>
    unfold fread_attr
    by_cases h : layout.sizeof_attr ≤ stream.length
    · rw [if_pos h]
      obtain ⟨h1, h2⟩ := ih (stream.drop layout.sizeof_attr)
      simp only [List.length_cons, List.length_drop] at h2 ⊢
      refine ⟨by omega, ?_⟩
      rw [Nat.add_mul]
      omega
    · rw [if_neg h]
      simp

theorem fread_uint16_bytes (x : Nat) (hx : x < 65536) (rest : List Nat) :
    fread_uint16 (uint16_bytes x ++ rest) = some (x, rest) := by
  unfold uint16_bytes fread_uint16
  simp only [List.cons_append, List.nil_append, Option.some.injEq, Prod.mk.injEq, and_true]
  omega

/-- C12. A load that returns `false` leaves the server control block, and with it the graph,
exactly as it was; and the load returns `false` when the file is missing, when its version
field is not 2 (a file starting with the bytes `01 00` for one), when the file ends inside the
header, and when it holds fewer record bytes than the `num_attr` records of its header take. -/
theorem cache_load_failure_atomic (layout : NvAttrLayout) (p_srcb : tBTA_GATTC_SERV) :
    (∀ file, (bta_gattc_cache_load layout file p_srcb).1 = false →
      (bta_gattc_cache_load layout file p_srcb).2 = p_srcb) ∧
    bta_gattc_cache_load layout none p_srcb = (false, p_srcb) ∧
    (∀ v0 v1 rest, v0 + 256 * v1 ≠ 2 →
      bta_gattc_cache_load layout (some (v0 :: v1 :: rest)) p_srcb = (false, p_srcb)) ∧
    (∀ rest, bta_gattc_cache_load layout (some (1 :: 0 :: rest)) p_srcb = (false, p_srcb)) ∧
    (∀ fd, fd.length < 4 →
      bta_gattc_cache_load layout (some fd) p_srcb = (false, p_srcb)) ∧
    (∀ n0 n1 records, records.length < (n0 + 256 * n1) * layout.sizeof_attr →
      bta_gattc_cache_load layout (some (2 :: 0 :: n0 :: n1 :: records)) p_srcb =
        (false, p_srcb)) := by
  have hver : ∀ v0 v1 rest, v0 + 256 * v1 ≠ 2 →
      bta_gattc_cache_load layout (some (v0 :: v1 :: rest)) p_srcb = (false, p_srcb) := by
    intro v0 v1 rest hv
    unfold bta_gattc_cache_load
    simp only [fread_uint16, GATT_CACHE_VERSION]
    rw [if_pos hv]
  refine ⟨?_, rfl, hver, fun rest => hver 1 0 rest (by decide), ?_, ?_⟩
  · intro file hfalse
    unfold bta_gattc_cache_load at hfalse ⊢
    cases file with
    | none => rfl
    | some fd =>
      dsimp only at hfalse ⊢
      cases h1 : fread_uint16 fd with
      | none => rfl
      | some r1 =>
        obtain ⟨cache_ver, fd1⟩ := r1
        rw [h1] at hfalse
        dsimp only at hfalse ⊢
        by_cases hv : cache_ver ≠ GATT_CACHE_VERSION
        · rw [if_pos hv]
        · rw [if_neg hv] at hfalse ⊢
          cases h2 : fread_uint16 fd1 with
          | none => rfl
          | some r2 =>
            obtain ⟨num_attr, fd2⟩ := r2
            rw [h2] at hfalse
            dsimp only at hfalse ⊢
            by_cases hn : num_attr > 0xFFFF
            · rw [if_pos hn]
            · rw [if_neg hn] at hfalse ⊢
              by_cases hl : (fread_attr layout num_attr fd2).length ≠ num_attr
              · rw [if_pos hl]
              · rw [if_neg hl] at hfalse
                exact absurd hfalse (by simp)
  · intro fd hlen
    unfold bta_gattc_cache_load
    match fd, hlen with
    | [], _ => rfl
    | [_], _ => rfl
    | [v0, v1], _ =>
      simp only [fread_uint16]
      split <;> rfl
    | [v0, v1, v2], _ =>
      simp only [fread_uint16]
      split <;> rfl
    | _ :: _ :: _ :: _ :: _, h => simp at h; omega
  · intro n0 n1 records hshort
    unfold bta_gattc_cache_load
    simp only [fread_uint16, GATT_CACHE_VERSION]
    rw [if_neg (by decide)]
    by_cases hn : n0 + 256 * n1 > 0xFFFF
    · rw [if_pos hn]
    · rw [if_neg hn]
      have := (fread_attr_bytes layout (n0 + 256 * n1) records).2
      rw [if_pos]
      intro heq
      rw [heq] at this
      omega

/-- What `bta_gattc_cache_save` hands to the writer for a non-empty graph. -/
theorem cache_save_eq (G : List tBTA_GATTC_SERVICE) (hne : G ≠ []) :
    bta_gattc_cache_save G =
      some (bta_gattc_get_db_size G 0x0000 0xFFFF % 65536,
        G.map srvc_record ++ G.flatMap (children_records G)) := by
  have hempty : G.isEmpty = false := by
    cases G with
    | nil => exact absurd rfl hne
    | cons _ _ => rfl
  unfold bta_gattc_cache_save
  rw [hempty]
  simp only [Bool.false_eq_true, if_false]
  rw [save_children_eq, save_services_eq, List.nil_append]

/-- C13. For every non-empty graph the record array `bta_gattc_cache_save` builds is: one `SRVC`
record per service in insertion order, then per service in insertion order one `CHAR` record
per characteristic, each immediately followed by one `CHAR_DESCR` record per descriptor of that
characteristic, and after the characteristics of the service one `INCL_SRVC` record per
included edge. The records carry the fields named: range, UUID and primary flag of the
service; value handle, UUID and properties of the characteristic; handle and UUID of the
descriptor; handle and UUID of the edge and the start handle of the service it points at. For
the graph of scenario 2 these are the four records `SRVC {1, 10}`, `CHAR {3}`,
`CHAR_DESCR {4}`, `CHAR {6}`. -/
theorem cache_save_emission_order :
    (∀ G : List tBTA_GATTC_SERVICE, G ≠ [] →
      ∃ num_attr, bta_gattc_cache_save G = some (num_attr,
        G.map srvc_record ++
          G.flatMap fun S =>
            (S.characteristics.flatMap fun c =>
              char_record c :: c.descriptors.map descr_record) ++
            S.included_svc.map (incl_record G))) ∧
    (∀ S, srvc_record S =
      { attr_type := BTA_GATTC_ATTR_TYPE_SRVC, s_handle := S.s_handle, e_handle := S.e_handle,
        uuid := S.uuid, is_primary := S.is_primary, id := 0, prop := 0,
        incl_srvc_handle := 0 }) ∧
    (∀ c, char_record c =
      { attr_type := BTA_GATTC_ATTR_TYPE_CHAR, s_handle := c.handle, e_handle := 0,
        uuid := c.uuid, is_primary := false, id := 0, prop := c.properties,
        incl_srvc_handle := 0 }) ∧
    (∀ d, descr_record d =
      { attr_type := BTA_GATTC_ATTR_TYPE_CHAR_DESCR, s_handle := d.handle, e_handle := 0,
        uuid := d.uuid, is_primary := false, id := 0, prop := 0, incl_srvc_handle := 0 }) ∧
    (∀ G e, incl_record G e =
      { attr_type := BTA_GATTC_ATTR_TYPE_INCL_SRVC, s_handle := e.handle, e_handle := 0,
        uuid := e.uuid, is_primary := false, id := 0, prop := 0,
        incl_srvc_handle := included_s_handle G e }) ∧
    (∀ G j T e, e.included_service = some j → G[j]? = some T →
      included_s_handle G e = T.s_handle) ∧
    bta_gattc_cache_save scenario2_graph = some (4,
      [ { attr_type := BTA_GATTC_ATTR_TYPE_SRVC, s_handle := 1, e_handle := 10,
          uuid := 0x180F, is_primary := true, id := 0, prop := 0, incl_srvc_handle := 0 },
        { attr_type := BTA_GATTC_ATTR_TYPE_CHAR, s_handle := 3, e_handle := 0,
          uuid := 0x2A19, is_primary := false, id := 0, prop := 0x10, incl_srvc_handle := 0 },
        { attr_type := BTA_GATTC_ATTR_TYPE_CHAR_DESCR, s_handle := 4, e_handle := 0,
          uuid := 0x2902, is_primary := false, id := 0, prop := 0, incl_srvc_handle := 0 },
        { attr_type := BTA_GATTC_ATTR_TYPE_CHAR, s_handle := 6, e_handle := 0,
          uuid := 0x2A1A, is_primary := false, id := 0, prop := 0x02,
          incl_srvc_handle := 0 } ]) := by
  refine ⟨?_, fun _ => rfl, fun _ => rfl, fun _ => rfl, fun _ _ => rfl, ?_, by decide⟩
  · intro G hne
    exact ⟨_, cache_save_eq G hne⟩
  · intro G j T e he hT
    unfold included_s_handle
    rw [he]
    simp [List.getD_eq_getElem?_getD, hT]

theorem char_records_length (cs : List tBTA_GATTC_CHARACTERISTIC) :
    (cs.flatMap char_records).length =
      cs.length + (cs.map fun c => c.descriptors.length).sum := by
  induction cs with
  | nil => rfl
  | cons c rest ih =>
    simp only [List.flatMap_cons, List.length_append, ih, char_records, List.length_cons,
      List.length_map, List.map_cons, List.sum_cons]
    omega

theorem children_records_length (G L : List tBTA_GATTC_SERVICE) :
    (L.flatMap (children_records G)).length =
      (L.map fun S => S.characteristics.length).sum +
      (L.map fun S => (S.characteristics.map fun c => c.descriptors.length).sum).sum +
      (L.map fun S => S.included_svc.length).sum := by
  induction L with
  | nil => rfl
  | cons S rest ih =>
    simp only [List.flatMap_cons, List.length_append, ih, children_records,
      char_records_length, List.length_map, List.map_cons, List.sum_cons]
    omega

/-- The record stream of a graph holds one record per attribute. -/
theorem record_stream_length (G : List tBTA_GATTC_SERVICE) :
    (G.map srvc_record ++ G.flatMap (children_records G)).length = attribute_count G := by
  rw [List.length_append, List.length_map, children_records_length]
  unfold attribute_count
  omega

/-- The size computed for the whole handle space is the number of attributes. -/
theorem get_db_size_all (G : List tBTA_GATTC_SERVICE) (h16 : ∀ S ∈ G, S.e_handle ≤ 0xFFFF) :
    bta_gattc_get_db_size G 0x0000 0xFFFF = attribute_count G := by
  unfold bta_gattc_get_db_size
  cases G with
  | nil => rfl
  | cons S rest =>
    simp only [List.isEmpty_cons, Bool.false_eq_true, if_false]
    rw [db_size_services_all (S :: rest) (S :: rest) 0 h16, children_records_length]
    unfold attribute_count
    omega

theorem to_bytes_flatMap_length (layout : NvAttrLayout) (attr : List tBTA_GATTC_NV_ATTR) :
    (attr.flatMap layout.to_bytes).length = attr.length * layout.sizeof_attr := by
  induction attr with
  | nil => simp
  | cons a rest ih =>
    simp only [List.flatMap_cons, List.length_append, ih, layout.to_bytes_length,
      List.length_cons, Nat.add_mul, Nat.one_mul]
    omega

/-- The file `bta_gattc_cache_write` leaves on a device that opens it and has room for all of
it: version, count, and the first `num_attr` records. -/
theorem cache_write_eq (layout : NvAttrLayout) (dev : Storage) (file : Option (List Nat))
    (num_attr : Nat) (attr : List tBTA_GATTC_NV_ATTR) (hopen : dev.fopen_wb = true)
    (hroom : 4 + (attr.take num_attr).length * layout.sizeof_attr ≤ dev.room) :
    bta_gattc_cache_write layout dev file num_attr attr =
      some (uint16_bytes 2 ++ uint16_bytes num_attr ++
        (attr.take num_attr).flatMap layout.to_bytes) := by
  have hlen := to_bytes_flatMap_length layout (attr.take num_attr)
  unfold bta_gattc_cache_write fwrite
  rw [hopen]
  simp only [Bool.not_true, Bool.false_eq_true, if_false, GATT_CACHE_VERSION]
  have h1 : (uint16_bytes 2).take dev.room = uint16_bytes 2 :=
    List.take_of_length_le (by simp [uint16_bytes]; omega)
  rw [h1]
  have h1l : (uint16_bytes 2).length = 2 := rfl
  rw [h1l]
  simp only [Nat.reduceEqDiff, if_false, Nat.div_self, ne_eq, not_true_eq_false]
  have h2 : (uint16_bytes num_attr).take (dev.room - 2) = uint16_bytes num_attr :=
    List.take_of_length_le (by simp [uint16_bytes]; omega)
  rw [h2]
  have h2l : (uint16_bytes num_attr).length = 2 := rfl
  rw [h2l]
  simp only [Nat.div_self, ne_eq, not_true_eq_false, if_false]
  rw [List.take_of_length_le (l := (attr.take num_attr).flatMap layout.to_bytes)
    (by rw [hlen]; omega)]

/-- C14, amended. For every non-empty graph with 16-bit handles and fewer than 65536
attributes, saved to a device that opens the file and has room for it: the count handed to the
writer and stored in the header is the number of records, which is the number of services,
characteristics, descriptors and included edges of the graph; the file is the version 2, the
count and the records, `4 + num_attr * sizeof (tBTA_GATTC_NV_ATTR)` bytes in all, and reading
the two header fields back yields 2 and the count. -/
theorem cache_save_file_count (layout : NvAttrLayout) (dev : Storage)
    (file : Option (List Nat)) (G : List tBTA_GATTC_SERVICE)
    (hne : G ≠ []) (h16 : ∀ S ∈ G, S.e_handle ≤ 0xFFFF)
    (hcount : attribute_count G < 65536)
    (hopen : dev.fopen_wb = true)
    (hroom : 4 + attribute_count G * layout.sizeof_attr ≤ dev.room) :
    ∃ attr fd,
      bta_gattc_cache_save G = some (attribute_count G, attr) ∧
      attr.length = attribute_count G ∧
      cache_save_file layout dev file G = some fd ∧
      fd = [2, 0] ++ uint16_bytes (attribute_count G) ++ attr.flatMap layout.to_bytes ∧
      fd.length = 4 + attribute_count G * layout.sizeof_attr ∧
      fread_uint16 fd =
        some (2, uint16_bytes (attribute_count G) ++ attr.flatMap layout.to_bytes) ∧
      fread_uint16 (uint16_bytes (attribute_count G) ++ attr.flatMap layout.to_bytes) =
        some (attribute_count G, attr.flatMap layout.to_bytes) := by
  have hsave := cache_save_eq G hne
  rw [get_db_size_all G h16, Nat.mod_eq_of_lt hcount] at hsave
  have hlen := record_stream_length G
  refine ⟨_, _, hsave, hlen, ?_, rfl, ?_, rfl, fread_uint16_bytes _ hcount _⟩
  · unfold cache_save_file
    rw [hsave]
    dsimp only
    rw [cache_write_eq layout dev file _ _ hopen
      (by rw [List.take_of_length_le (by omega), hlen]; exact hroom),
      List.take_of_length_le (by omega)]
    rfl
  · simp only [List.length_append, to_bytes_flatMap_length, hlen, uint16_bytes,
      List.length_cons, List.length_nil]

/-- C14, witness: the graph of scenario 2 has 4 attributes; saved with the example layout the
file holds the header `02 00 04 00` and four records. -/
theorem cache_save_file_count_witness :
    scenario2_graph ≠ [] ∧ (∀ S ∈ scenario2_graph, S.e_handle ≤ 0xFFFF) ∧
    attribute_count scenario2_graph = 4 ∧
    ∃ attr fd,
      bta_gattc_cache_save scenario2_graph = some (attribute_count scenario2_graph, attr) ∧
      attr.length = attribute_count scenario2_graph ∧
      cache_save_file packed_layout roomy_device none scenario2_graph = some fd ∧
      fd = [2, 0] ++ uint16_bytes (attribute_count scenario2_graph) ++
        attr.flatMap packed_layout.to_bytes ∧
      fd.length = 4 + attribute_count scenario2_graph * packed_layout.sizeof_attr ∧
      fread_uint16 fd =
        some (2, uint16_bytes (attribute_count scenario2_graph) ++
          attr.flatMap packed_layout.to_bytes) ∧
      fread_uint16 (uint16_bytes (attribute_count scenario2_graph) ++
          attr.flatMap packed_layout.to_bytes) =
        some (attribute_count scenario2_graph, attr.flatMap packed_layout.to_bytes) :=
  ⟨by decide, by decide, by decide,
    cache_save_file_count packed_layout roomy_device none scenario2_graph (by decide)
      (by decide) (by decide) rfl (by decide)⟩

theorem many_descriptors_length : many_descriptors.length = 65534 := by
  unfold many_descriptors
  exact List.length_replicate _ _

theorem attribute_count_single (S : tBTA_GATTC_SERVICE) (c : tBTA_GATTC_CHARACTERISTIC)
    (hc : S.characteristics = [c]) (hi : S.included_svc = []) :
    attribute_count [S] = c.descriptors.length + 2 := by
  unfold attribute_count
  simp only [List.map_cons, List.map_nil, List.sum_cons, List.sum_nil, List.length_cons,
    List.length_nil, hc, hi]
  omega

theorem attribute_count_oversized : attribute_count oversized_graph = 65536 := by
  unfold oversized_graph
  rw [attribute_count_single _
    { handle := 3, properties := 0x02, uuid := 0x2A19, descriptors := many_descriptors }
    rfl rfl]
  exact (congrArg (· + 2) many_descriptors_length)

/-- C14, counterexample. A graph of one service, one characteristic and 65534 descriptors has
65536 attributes and 16-bit handles; `bta_gattc_cache_save` fills 65536 records, the count
converted to `uint16_t` is 0, and the file written is the bare header `02 00 00 00`: the
stored `num_attr` is not the number of attributes of the graph. -/
theorem cache_save_count_truncated :
    oversized_graph ≠ [] ∧ (∀ S ∈ oversized_graph, S.e_handle ≤ 0xFFFF) ∧
    attribute_count oversized_graph = 65536 ∧
    ∃ attr, bta_gattc_cache_save oversized_graph = some (0, attr) ∧
      attr.length = 65536 ∧
      cache_save_file packed_layout roomy_device none oversized_graph = some [2, 0, 0, 0] := by
  have hne : oversized_graph ≠ [] := List.cons_ne_nil _ _
  have h16 : ∀ S ∈ oversized_graph, S.e_handle ≤ 0xFFFF := by
    intro S hS
    rw [List.mem_singleton.1 hS]
  have hc := attribute_count_oversized
  have hsave := cache_save_eq oversized_graph hne
  rw [get_db_size_all _ h16, hc] at hsave
  have hlen := record_stream_length oversized_graph
  rw [hc] at hlen
  refine ⟨hne, h16, hc, _, hsave, hlen, ?_⟩
  unfold cache_save_file
  rw [hsave]
  dsimp only
  rw [cache_write_eq packed_layout roomy_device none _ _ rfl (by
    rw [show (65536 % 65536) = 0 from rfl, List.take_zero]
    simp [roomy_device])]
  rw [show (65536 % 65536) = 0 from rfl, List.take_zero]
  rfl

/-! ## Scenario 2, empty discovery, failed completion (C15, C16, C17) -/

/-- C15. Scenario 2 from an initialised cache, for every buffer capacity of at least three
records, every collaborator that accepts the requests and every earlier state: the events
follow the protocol and the pass completes; after the two `CHAR` results the buffer records of
the characteristics hold the value handles 3 and 6 and the end handles 4 and 10; descriptor
discovery is requested on `[4, 4]` after the `CHAR` completion and then on `[7, 10]`; the final
graph is the one service `[1, 10]` with the characteristics 3 and 6 in that order, the first
owning the descriptor 4, the second none. -/
theorem scenario2_end_to_end (env : Env) (w : World) (hcap : 3 ≤ env.BTA_GATTC_MAX_CACHE_CHAR)
    (hacc : ∀ tr t s e, env.GATTC_Discover tr t s e = GATT_SUCCESS) :
    in_protocol_order env (start_discovery env w) scenario2_pass = true ∧
    pass_complete (run env (start_discovery env w) scenario2_pass) = true ∧
    ((rec_at (run env (start_discovery env w) (scenario2_pass.take 5)).srcb 1).s_handle,
      (rec_at (run env (start_discovery env w) (scenario2_pass.take 5)).srcb 1).e_handle) =
        (3, 4) ∧
    ((rec_at (run env (start_discovery env w) (scenario2_pass.take 5)).srcb 2).s_handle,
      (rec_at (run env (start_discovery env w) (scenario2_pass.take 5)).srcb 2).e_handle) =
        (6, 10) ∧
    dscpt_requests (run env (start_discovery env w) (scenario2_pass.take 6)).trace =
      dscpt_requests w.trace ++ [(4, 4)] ∧
    dscpt_requests (run env (start_discovery env w) scenario2_pass).trace =
      dscpt_requests w.trace ++ [(4, 4), (7, 10)] ∧
    (run env (start_discovery env w) scenario2_pass).srcb.srvc_cache =
      [{ s_handle := 1, e_handle := 10, is_primary := true, uuid := 0x180F, handle := 1,
         characteristics :=
           [{ handle := 3, properties := 0x10, uuid := 0x2A19,
              descriptors := [{ handle := 4, uuid := 0x2902 }] },
            { handle := 6, properties := 0x02, uuid := 0x2A1A, descriptors := [] }],
         included_svc := [] }] := by
  have h0 : 0 < env.BTA_GATTC_MAX_CACHE_CHAR := by omega
  have h1 : 1 < env.BTA_GATTC_MAX_CACHE_CHAR := by omega
  have h2 : 2 < env.BTA_GATTC_MAX_CACHE_CHAR := by omega
  have hfuel : (256 : Nat) = 255 + 1 := rfl
  have hsave : ∀ G : List tBTA_GATTC_SERVICE, G ≠ [] → ∃ r, bta_gattc_cache_save G = some r := by
    intro G hG
    unfold bta_gattc_cache_save
    cases G with
    | nil => exact absurd rfl hG
    | cons _ _ => exact ⟨_, rfl⟩
  refine ⟨?_, ?_, ?_, ?_, ?_, ?_, ?_⟩
  all_goals
    cases hb : env.btm_sec_is_a_bonded_dev <;>
    simp [hb, bta_gattc_cache_save, bta_gattc_get_db_size, db_size_services,
      db_size_characteristics, save_children, save_services, save_characteristics,
      save_descriptors, save_included, scenario2_pass, run, deliver, start_discovery, bta_gattc_init_cache,
      bta_gattc_discover_procedure, hacc, srvc_result, cmpl_ok, char_result, dscpt_result,
      bta_gattc_disc_res_cback, bta_gattc_disc_cmpl_cback, bta_gattc_find_scb_by_cid,
      bta_gattc_add_srvc_to_list, h0, h1, h2, bta_gattc_explore_srvc, rec_at,
      bta_gattc_start_disc_include_srvc, bta_gattc_get_disc_range, bta_gattc_add_srvc_to_cache,
      bta_gattc_incl_srvc_disc_cmpl, bta_gattc_start_disc_char, bta_gattc_add_char_to_list,
      bta_gattc_char_disc_cmpl, add_cur_char_to_cache, bta_gattc_add_char_to_cache,
      bta_gattc_find_matching_service, bta_gattc_start_disc_char_dscp,
      bta_gattc_add_attr_to_cache, append_descriptor_to_back, bta_gattc_char_dscpt_disc_cmpl,
      hfuel, char_dscpt_disc_cmpl_fuel, cache_save_effect, in_protocol_order, outstanding,
      accepted_request, DiscEvent.disc_type, pass_complete, dscpt_requests,
      List.getD_eq_getElem?_getD, List.getElem?_set]

/-- C15, witness: the scenario with a buffer of 128 records. -/
theorem scenario2_end_to_end_witness :
    3 ≤ scenario_env.BTA_GATTC_MAX_CACHE_CHAR ∧
    (∀ tr t s e, scenario_env.GATTC_Discover tr t s e = GATT_SUCCESS) ∧
    in_protocol_order scenario_env (start_discovery scenario_env default) scenario2_pass =
      true ∧
    pass_complete (run scenario_env (start_discovery scenario_env default) scenario2_pass) =
      true ∧
    ((rec_at (run scenario_env (start_discovery scenario_env default)
        (scenario2_pass.take 5)).srcb 1).s_handle,
      (rec_at (run scenario_env (start_discovery scenario_env default)
        (scenario2_pass.take 5)).srcb 1).e_handle) = (3, 4) ∧
    ((rec_at (run scenario_env (start_discovery scenario_env default)
        (scenario2_pass.take 5)).srcb 2).s_handle,
      (rec_at (run scenario_env (start_discovery scenario_env default)
        (scenario2_pass.take 5)).srcb 2).e_handle) = (6, 10) ∧
    dscpt_requests (run scenario_env (start_discovery scenario_env default)
        (scenario2_pass.take 6)).trace =
      dscpt_requests (default : World).trace ++ [(4, 4)] ∧
    dscpt_requests (run scenario_env (start_discovery scenario_env default)
        scenario2_pass).trace =
      dscpt_requests (default : World).trace ++ [(4, 4), (7, 10)] ∧
    (run scenario_env (start_discovery scenario_env default) scenario2_pass).srcb.srvc_cache =
      [{ s_handle := 1, e_handle := 10, is_primary := true, uuid := 0x180F, handle := 1,
         characteristics :=
           [{ handle := 3, properties := 0x10, uuid := 0x2A19,
              descriptors := [{ handle := 4, uuid := 0x2902 }] },
            { handle := 6, properties := 0x02, uuid := 0x2A1A, descriptors := [] }],
         included_svc := [] }] :=
  ⟨by decide, fun _ _ _ _ => rfl,
    scenario2_end_to_end scenario_env default (by decide) (fun _ _ _ _ => rfl)⟩

theorem explore_srvc_empty_buffer (env : Env) (w : World) (c : tBTA_GATTC_CLCB)
    (hc : w.clcb = some c) (ht : w.srcb.total_srvc = 0) (hg : w.srcb.srvc_cache = []) :
    bta_gattc_explore_srvc env w =
      { w with
        srcb := { w.srcb with cur_char_idx := 0, next_avail_idx := 0,
                              state := BTA_GATTC_SERV_SAVE }
        trace := w.trace ++ [Effect.reset_discover_st GATT_SUCCESS] } := by
  have hsave : bta_gattc_cache_save w.srcb.srvc_cache = none := by
    rw [hg]
    rfl
  unfold bta_gattc_explore_srvc
  simp only [hc, ht, Nat.not_lt_zero, if_false]
  cases env.btm_sec_is_a_bonded_dev with
  | false => simp
  | true => simp only [if_true, cache_save_effect, hsave]

/-- C16. With no service buffered (`total_srvc = 0`) and an empty graph,
`bta_gattc_explore_srvc` issues no discovery request and writes no cache file, bonded peer or
not (`bta_gattc_cache_save` returns at once for an empty graph): it sets the server state to
`BTA_GATTC_SERV_SAVE` and reports success through `bta_gattc_reset_discover_st`. So a pass
whose service discovery completes without a result ends, for every collaborator and every
earlier state, with an empty graph, state `BTA_GATTC_SERV_SAVE`, and a trace that grows by the
completion received and the success report only. -/
theorem explore_srvc_no_services (env : Env) :
    (∀ w c, w.clcb = some c → w.srcb.total_srvc = 0 → w.srcb.srvc_cache = [] →
      bta_gattc_explore_srvc env w =
        { w with
          srcb := { w.srcb with cur_char_idx := 0, next_avail_idx := 0,
                                state := BTA_GATTC_SERV_SAVE }
          trace := w.trace ++ [Effect.reset_discover_st GATT_SUCCESS] }) ∧
    bta_gattc_cache_save [] = none ∧
    (∀ w : World,
      (run env (start_discovery env w) [cmpl_ok GATT_DISC_SRVC_ALL]).srcb.srvc_cache = [] ∧
      (run env (start_discovery env w) [cmpl_ok GATT_DISC_SRVC_ALL]).srcb.state =
        BTA_GATTC_SERV_SAVE ∧
      (run env (start_discovery env w) [cmpl_ok GATT_DISC_SRVC_ALL]).trace =
        (start_discovery env w).trace ++
          [Effect.disc_cmpl_received GATT_DISC_SRVC_ALL GATT_SUCCESS,
           Effect.reset_discover_st GATT_SUCCESS] ∧
      discover_requests (run env (start_discovery env w) [cmpl_ok GATT_DISC_SRVC_ALL]).trace =
        discover_requests (start_discovery env w).trace ∧
      cache_writes (run env (start_discovery env w) [cmpl_ok GATT_DISC_SRVC_ALL]).trace =
        cache_writes (start_discovery env w).trace) := by
  refine ⟨fun w c hc ht hg => explore_srvc_empty_buffer env w c hc ht hg, rfl, ?_⟩
  intro w
  have hstart : (start_discovery env w).clcb =
      some { bta_conn_id := 0, state := BTA_GATTC_DISCOVER_ST, status := GATT_SUCCESS } ∧
      (start_discovery env w).srcb = bta_gattc_init_cache env w.srcb := by
    unfold start_discovery
    exact ⟨(discover_procedure_spec env _ _).2.1, (discover_procedure_spec env _ _).1⟩
  have key : ∀ w1 : World,
      w1.clcb = some { bta_conn_id := 0, state := BTA_GATTC_DISCOVER_ST,
                       status := GATT_SUCCESS } →
      w1.srcb = bta_gattc_init_cache env w.srcb →
      bta_gattc_disc_cmpl_cback env w1 GATT_DISC_SRVC_ALL GATT_SUCCESS =
        { w1 with
          srcb := { w1.srcb with cur_char_idx := 0, next_avail_idx := 0,
                                 state := BTA_GATTC_SERV_SAVE }
          trace := w1.trace ++ [Effect.reset_discover_st GATT_SUCCESS] } := by
    intro w1 hc1 hs1
    rw [disc_cmpl_cback_success env w1 _ GATT_DISC_SRVC_ALL hc1 rfl]
    exact explore_srvc_empty_buffer env w1 _ hc1 (by rw [hs1]; rfl) (by rw [hs1]; rfl)
  have hrun : run env (start_discovery env w) [cmpl_ok GATT_DISC_SRVC_ALL] =
      bta_gattc_disc_cmpl_cback env
        { start_discovery env w with
          trace := (start_discovery env w).trace ++
            [Effect.disc_cmpl_received GATT_DISC_SRVC_ALL GATT_SUCCESS] }
        GATT_DISC_SRVC_ALL GATT_SUCCESS := rfl
  rw [hrun, key { start_discovery env w with
      trace := (start_discovery env w).trace ++
        [Effect.disc_cmpl_received GATT_DISC_SRVC_ALL GATT_SUCCESS] } hstart.1 hstart.2]
  dsimp only
  refine ⟨?_, rfl, ?_, ?_, ?_⟩
  · rw [hstart.2]
    rfl
  · simp
  · simp [discover_requests]
  · simp [cache_writes]

/-- C17, the code at a failed completion. For a known connection and a status that is not
`GATT_SUCCESS`, `bta_gattc_disc_cmpl_cback` raises the discover-complete event and does
nothing else: no discovery request is issued, the server control block is unchanged, and the
client control block is unchanged too, so a recorded status of `GATT_SUCCESS` remains
`GATT_SUCCESS` although the completion failed. -/
theorem disc_cmpl_cback_failure_not_recorded (env : Env) (w : World) (c : tBTA_GATTC_CLCB)
    (disc_type : tGATT_DISC_TYPE) (status : tGATT_STATUS)
    (hc : w.clcb = some c) (hs : status ≠ GATT_SUCCESS) :
    bta_gattc_disc_cmpl_cback env w disc_type status =
      { w with trace := w.trace ++ [Effect.sm_execute_DISCOVER_CMPL_EVT] } ∧
    (bta_gattc_disc_cmpl_cback env w disc_type status).clcb = some c ∧
    (c.status = GATT_SUCCESS →
      ∃ c2, (bta_gattc_disc_cmpl_cback env w disc_type status).clcb = some c2 ∧
        c2.status = GATT_SUCCESS) := by
  have key : bta_gattc_disc_cmpl_cback env w disc_type status =
      { w with trace := w.trace ++ [Effect.sm_execute_DISCOVER_CMPL_EVT] } := by
    unfold bta_gattc_disc_cmpl_cback
    rw [hc]
    dsimp only
    rw [if_pos (Or.inl hs), if_neg hs, ← hc]
  refine ⟨key, ?_, ?_⟩
  · rw [key]
    exact hc
  · intro hst
    rw [key]
    exact ⟨c, hc, hst⟩

/-- C17, witness: the service discovery of a fresh pass completes with `GATT_ERROR`; the
client control block still records `GATT_SUCCESS`. -/
theorem disc_cmpl_cback_failure_not_recorded_witness :
    (start_discovery scenario_env default).clcb =
      some { bta_conn_id := 0, state := BTA_GATTC_DISCOVER_ST, status := GATT_SUCCESS } ∧
    GATT_ERROR ≠ GATT_SUCCESS ∧
    (bta_gattc_disc_cmpl_cback scenario_env (start_discovery scenario_env default)
        GATT_DISC_SRVC_ALL GATT_ERROR).clcb =
      some { bta_conn_id := 0, state := BTA_GATTC_DISCOVER_ST, status := GATT_SUCCESS } :=
  ⟨rfl, by decide,
    (disc_cmpl_cback_failure_not_recorded scenario_env (start_discovery scenario_env default)
      { bta_conn_id := 0, state := BTA_GATTC_DISCOVER_ST, status := GATT_SUCCESS }
      GATT_DISC_SRVC_ALL GATT_ERROR rfl (by decide)).2.1⟩

/-! ## Graphs built by the insert operations (C20) -/

theorem mem_modify {α : Type} (f : α → α) (l : List α) (i : Nat) (x : α)
    (hx : x ∈ l.modify f i) : x ∈ l ∨ ∃ y, l[i]? = some y ∧ x = f y := by
  induction l generalizing i with
  | nil => cases i <;> simp [List.modify] at hx
  | cons a rest ih =>
    cases i with
    | zero =>
      simp only [List.modify_zero_cons, List.mem_cons] at hx
      rcases hx with rfl | hx
      · exact Or.inr ⟨a, by simp, rfl⟩
      · exact Or.inl (List.mem_cons_of_mem _ hx)
    | succ n =>
      simp only [List.modify_succ_cons, List.mem_cons] at hx
      rcases hx with rfl | hx
      · exact Or.inl (by simp)
      · rcases ih n hx with h | ⟨y, hy, rfl⟩
        · exact Or.inl (List.mem_cons_of_mem _ h)
        · exact Or.inr ⟨y, by simpa using hy, rfl⟩

theorem append_descriptor_to_back_handles (cs : List tBTA_GATTC_CHARACTERISTIC)
    (d : tBTA_GATTC_DESCRIPTOR) (c : tBTA_GATTC_CHARACTERISTIC)
    (hc : c ∈ append_descriptor_to_back cs d) : ∃ c0 ∈ cs, c.handle = c0.handle := by
  unfold append_descriptor_to_back at hc
  cases hlast : cs.getLast? with
  | none =>
    rw [hlast] at hc
    exact ⟨c, hc, rfl⟩
  | some char_node =>
    rw [hlast] at hc
    simp only [List.mem_append, List.mem_singleton] at hc
    rcases hc with h | rfl
    · exact ⟨c, List.mem_of_mem_dropLast h, rfl⟩
    · exact ⟨char_node, List.mem_of_getLast?_eq_some hlast, rfl⟩

/-- The characteristics of a graph lie below the end of their service, and `lower` relates the
start of the service to the value handle. -/
theorem graph_built_chars_within (ok : Nat → Nat → Prop) (lower : Nat → Nat → Prop)
    (hlow : ∀ s a v, s ≤ a → ok a v → lower s v)
    (G : List tBTA_GATTC_SERVICE) (hG : graph_built ok G) :
    ∀ S ∈ G, ∀ c ∈ S.characteristics, c.handle ≤ S.e_handle ∧ lower S.s_handle c.handle := by
  induction hG with
  | empty => simp
  | add_srvc G s e u p _ ih =>
    intro S hS c hc
    unfold bta_gattc_add_srvc_to_cache at hS
    rcases List.mem_append.1 hS with h | h
    · exact ih S h c hc
    · rw [List.mem_singleton.1 h] at hc
      simp at hc
  | add_char G a v u p _ hok ih =>
    intro S hS c hc
    unfold bta_gattc_add_char_to_cache at hS
    cases hfind : bta_gattc_find_matching_service G a with
    | none =>
      rw [hfind] at hS
      exact ih S hS c hc
    | some i =>
      rw [hfind] at hS
      rcases mem_modify _ _ _ _ hS with h | ⟨T, hT, rfl⟩
      · exact ih S h c hc
      · obtain ⟨T2, hT2, hin, _⟩ := (find_matching_service_eq_some G a i).1 hfind
        rw [hT] at hT2
        cases hT2
        have hTm : T ∈ G := List.getElem?_mem hT
        simp only [List.mem_append, List.mem_singleton] at hc
        rcases hc with hc | rfl
        · have := ih T hTm c hc
          refine ⟨?_, this.2⟩
          dsimp only
          split <;> omega
        · dsimp only
          refine ⟨?_, hlow _ _ _ hin.1 hok⟩
          split <;> omega
  | add_attr G h u p i t _ ih =>
    intro S hS c hc
    unfold bta_gattc_add_attr_to_cache at hS
    cases hfind : bta_gattc_find_matching_service G h with
    | none =>
      rw [hfind] at hS
      exact ih S hS c hc
    | some k =>
      rw [hfind] at hS
      dsimp only at hS
      by_cases ht : t = BTA_GATTC_ATTR_TYPE_INCL_SRVC
      · rw [if_pos ht] at hS
        cases hfind2 : bta_gattc_find_matching_service G i with
        | none =>
          rw [hfind2] at hS
          exact ih S hS c hc
        | some j =>
          rw [hfind2] at hS
          rcases mem_modify _ _ _ _ hS with h1 | ⟨T, hT, rfl⟩
          · exact ih S h1 c hc
          · exact ih T (List.getElem?_mem hT) c hc
      · rw [if_neg ht] at hS
        by_cases ht2 : t = BTA_GATTC_ATTR_TYPE_CHAR_DESCR
        · rw [if_pos ht2] at hS
          rcases mem_modify _ _ _ _ hS with h1 | ⟨T, hT, rfl⟩
          · exact ih S h1 c hc
          · by_cases hemp : T.characteristics.isEmpty
            · rw [if_pos hemp] at hc ⊢
              exact ih T (List.getElem?_mem hT) c hc
            · rw [if_neg hemp] at hc ⊢
              dsimp only at hc ⊢
              obtain ⟨c0, hc0, heq⟩ := append_descriptor_to_back_handles _ _ _ hc
              rw [heq]
              exact ih T (List.getElem?_mem hT) c0 hc0
        · rw [if_neg ht2] at hS
          exact ih S hS c hc

/-- A weaker condition on the insertions builds the same graphs. -/
theorem graph_built_mono (ok ok2 : Nat → Nat → Prop) (h : ∀ a v, ok a v → ok2 a v)
    (G : List tBTA_GATTC_SERVICE) (hG : graph_built ok G) : graph_built ok2 G := by
  induction hG with
  | empty => exact graph_built.empty
  | add_srvc G s e u p _ ih => exact graph_built.add_srvc G s e u p ih
  | add_char G a v u p _ hok ih => exact graph_built.add_char G a v u p ih (h a v hok)
  | add_attr G hd u p i t _ ih => exact graph_built.add_attr G hd u p i t ih

theorem rebuild_record_built (G : List tBTA_GATTC_SERVICE) (p_attr : tBTA_GATTC_NV_ATTR)
    (hG : graph_built (fun a v => a = v) G) :
    graph_built (fun a v => a = v) (rebuild_record G p_attr) := by
  unfold rebuild_record
  cases p_attr.attr_type with
  | BTA_GATTC_ATTR_TYPE_SRVC => exact graph_built.add_srvc _ _ _ _ _ hG
  | BTA_GATTC_ATTR_TYPE_CHAR => exact graph_built.add_char _ _ _ _ _ hG rfl
  | BTA_GATTC_ATTR_TYPE_CHAR_DESCR => exact graph_built.add_attr _ _ _ _ _ _ hG
  | BTA_GATTC_ATTR_TYPE_INCL_SRVC => exact graph_built.add_attr _ _ _ _ _ _ hG

theorem rebuild_loop_built (num_attr : Nat) (attrs : List tBTA_GATTC_NV_ATTR)
    (G : List tBTA_GATTC_SERVICE) (hG : graph_built (fun a v => a = v) G) :
    graph_built (fun a v => a = v) (rebuild_loop num_attr attrs G) := by
  induction num_attr generalizing attrs G with
  | zero => unfold rebuild_loop; exact hG
  | succ n ih =>
    cases attrs with
    | nil => unfold rebuild_loop; exact hG
    | cons a rest =>
      unfold rebuild_loop
      exact ih rest _ (rebuild_record_built G a hG)

/-- The rebuild inserts every characteristic under its own value handle. -/
theorem rebuild_cache_built (num_attr : Nat) (p_attr : Option (List tBTA_GATTC_NV_ATTR)) :
    graph_built (fun a v => a = v) (bta_gattc_rebuild_cache num_attr p_attr) := by
  unfold bta_gattc_rebuild_cache
  cases p_attr with
  | none => exact graph_built.empty
  | some attrs => exact rebuild_loop_built _ _ _ graph_built.empty

theorem add_srvc_to_list_cache (env : Env) (p : tBTA_GATTC_SERV) (s e : Nat) (u : Uuid)
    (prim : Bool) : (bta_gattc_add_srvc_to_list env p s e u prim).1.srvc_cache = p.srvc_cache := by
  unfold bta_gattc_add_srvc_to_list
  split
  · rfl
  · split <;> rfl

theorem add_char_to_list_cache (env : Env) (p : tBTA_GATTC_SERV) (d v : Nat) (u : Uuid)
    (prop : Nat) : (bta_gattc_add_char_to_list env p d v u prop).1.srvc_cache = p.srvc_cache := by
  unfold bta_gattc_add_char_to_list
  split
  · rfl
  · split <;> rfl

theorem disc_res_cback_built (env : Env) (w : World) (t : tGATT_DISC_TYPE)
    (p_data : tGATT_DISC_RES) (hG : graph_built any_handles w.srcb.srvc_cache) :
    graph_built any_handles (bta_gattc_disc_res_cback env w t p_data).srcb.srvc_cache := by
  unfold bta_gattc_disc_res_cback bta_gattc_find_scb_by_cid
  cases hc : w.clcb with
  | none => exact hG
  | some c =>
    dsimp only
    by_cases hst : c.state = BTA_GATTC_DISCOVER_ST
    · rw [if_pos hst]
      cases t with
      | GATT_DISC_SRVC_ALL =>
        dsimp only
        rw [add_srvc_to_list_cache]
        exact hG
      | GATT_DISC_SRVC_BY_UUID =>
        dsimp only
        rw [add_srvc_to_list_cache]
        exact hG
      | GATT_DISC_INC_SRVC =>
        dsimp only
        apply graph_built.add_attr
        split
        · rw [add_srvc_to_list_cache]
          exact hG
        · exact hG
      | GATT_DISC_CHAR =>
        dsimp only
        rw [add_char_to_list_cache]
        exact hG
      | GATT_DISC_CHAR_DSCPT =>
        dsimp only
        exact graph_built.add_attr _ _ _ _ _ _ hG
    · rw [if_neg hst]
      exact hG

theorem discover_procedure_built (env : Env) (w : World) (t : tGATT_DISC_TYPE)
    (hG : graph_built any_handles w.srcb.srvc_cache) :
    graph_built any_handles (bta_gattc_discover_procedure env w t).1.srcb.srvc_cache := by
  rw [(discover_procedure_spec env w t).1]
  exact hG

theorem cache_save_effect_built (w : World)
    (hG : graph_built any_handles w.srcb.srvc_cache) :
    graph_built any_handles (cache_save_effect w).srcb.srvc_cache := by
  rw [(cache_save_effect_spec w).1]
  exact hG

theorem explore_srvc_built (env : Env) (w : World)
    (hG : graph_built any_handles w.srcb.srvc_cache) :
    graph_built any_handles (bta_gattc_explore_srvc env w).srcb.srvc_cache := by
  unfold bta_gattc_explore_srvc bta_gattc_start_disc_include_srvc
  dsimp only
  cases hc : w.clcb with
  | none => exact hG
  | some c =>
    dsimp only
    split
    · apply discover_procedure_built
      exact graph_built.add_srvc _ _ _ _ _ hG
    · dsimp only
      split
      · exact cache_save_effect_built _ hG
      · exact hG

theorem incl_srvc_disc_cmpl_built (env : Env) (w : World)
    (hG : graph_built any_handles w.srcb.srvc_cache) :
    graph_built any_handles (bta_gattc_incl_srvc_disc_cmpl env w).srcb.srvc_cache := by
  unfold bta_gattc_incl_srvc_disc_cmpl bta_gattc_start_disc_char
  apply discover_procedure_built
  exact hG

theorem start_disc_char_dscp_built (env : Env) (cmpl : World → World) (w : World)
    (hcmpl : ∀ w2, graph_built any_handles w2.srcb.srvc_cache →
      graph_built any_handles (cmpl w2).srcb.srvc_cache)
    (hG : graph_built any_handles w.srcb.srvc_cache) :
    graph_built any_handles (bta_gattc_start_disc_char_dscp env cmpl w).srcb.srvc_cache := by
  unfold bta_gattc_start_disc_char_dscp
  dsimp only
  split
  · exact hcmpl _ (discover_procedure_built env w _ hG)
  · exact discover_procedure_built env w _ hG

theorem add_cur_char_to_cache_built (w : World)
    (hG : graph_built any_handles w.srcb.srvc_cache) :
    graph_built any_handles (add_cur_char_to_cache w).srcb.srvc_cache := by
  unfold add_cur_char_to_cache
  exact graph_built.add_char _ _ _ _ _ hG trivial

theorem char_dscpt_disc_cmpl_fuel_built (env : Env) (fuel : Nat) (w : World)
    (hG : graph_built any_handles w.srcb.srvc_cache) :
    graph_built any_handles (char_dscpt_disc_cmpl_fuel env fuel w).srcb.srvc_cache := by
  induction fuel generalizing w with
  | zero => exact hG
  | succ n ih =>
    unfold char_dscpt_disc_cmpl_fuel
    dsimp only
    split
    · apply start_disc_char_dscp_built env _ _ (fun w2 h2 => ih w2 h2)
      apply add_cur_char_to_cache_built
      exact hG
    · apply explore_srvc_built
      exact hG

theorem char_disc_cmpl_built (env : Env) (w : World)
    (hG : graph_built any_handles w.srcb.srvc_cache) :
    graph_built any_handles (bta_gattc_char_disc_cmpl env w).srcb.srvc_cache := by
  unfold bta_gattc_char_disc_cmpl bta_gattc_char_dscpt_disc_cmpl
  split
  · apply start_disc_char_dscp_built env _ _
      (fun w2 h2 => char_dscpt_disc_cmpl_fuel_built env 256 w2 h2)
    exact add_cur_char_to_cache_built w hG
  · apply explore_srvc_built
    exact hG

theorem disc_cmpl_cback_built (env : Env) (w : World) (t : tGATT_DISC_TYPE)
    (st : tGATT_STATUS) (hG : graph_built any_handles w.srcb.srvc_cache) :
    graph_built any_handles (bta_gattc_disc_cmpl_cback env w t st).srcb.srvc_cache := by
  unfold bta_gattc_disc_cmpl_cback
  cases hc : w.clcb with
  | none => exact hG
  | some c =>
    dsimp only
    split
    · exact hG
    · cases t with
      | GATT_DISC_SRVC_ALL => exact explore_srvc_built env w hG
      | GATT_DISC_SRVC_BY_UUID => exact explore_srvc_built env w hG
      | GATT_DISC_INC_SRVC => exact incl_srvc_disc_cmpl_built env w hG
      | GATT_DISC_CHAR => exact char_disc_cmpl_built env w hG
      | GATT_DISC_CHAR_DSCPT => exact char_dscpt_disc_cmpl_fuel_built env 256 w hG

theorem deliver_built (env : Env) (w : World) (ev : DiscEvent)
    (hG : graph_built any_handles w.srcb.srvc_cache) :
    graph_built any_handles (deliver env w ev).srcb.srvc_cache := by
  cases ev with
  | res t p_data => exact disc_res_cback_built env w t p_data hG
  | cmpl t st => exact disc_cmpl_cback_built env _ t st hG

/-- Every event sequence keeps the graph among the graphs built by the insert operations. -/
theorem run_built (env : Env) (w : World) (evs : List DiscEvent)
    (hG : graph_built any_handles w.srcb.srvc_cache) :
    graph_built any_handles (run env w evs).srcb.srvc_cache := by
  induction evs generalizing w with
  | nil => exact hG
  | cons ev rest ih =>
    unfold run
    rw [List.foldl_cons]
    exact ih _ (deliver_built env w ev hG)

theorem start_discovery_built (env : Env) (w : World) :
    graph_built any_handles (start_discovery env w).srcb.srvc_cache := by
  unfold start_discovery
  apply discover_procedure_built
  exact graph_built.empty

/-- C20, amended. In every graph built from the empty graph by the insert operations, every
characteristic has its value handle at or below the end handle of its service; the value
handle is above the start handle when every characteristic was inserted under an attribute
handle below its value handle. Every event sequence of a discovery pass and every rebuild
yields such a graph: after a pass every value handle is at or below the end handle of its
service, after a rebuild every value handle lies inside the range of its service. -/
theorem built_graph_char_bounds :
    (∀ ok G, graph_built ok G →
      ∀ S ∈ G, ∀ c ∈ S.characteristics, c.handle ≤ S.e_handle) ∧
    (∀ ok G, (∀ a v, ok a v → a < v) → graph_built ok G →
      ∀ S ∈ G, ∀ c ∈ S.characteristics, S.s_handle < c.handle ∧ c.handle ≤ S.e_handle) ∧
    (∀ env w evs, graph_built any_handles (run env (start_discovery env w) evs).srcb.srvc_cache) ∧
    (∀ env w evs, ∀ S ∈ (run env (start_discovery env w) evs).srcb.srvc_cache,
      ∀ c ∈ S.characteristics, c.handle ≤ S.e_handle) ∧
    (∀ num_attr p_attr, ∀ S ∈ bta_gattc_rebuild_cache num_attr p_attr,
      ∀ c ∈ S.characteristics, S.s_handle ≤ c.handle ∧ c.handle ≤ S.e_handle) := by
  refine ⟨?_, ?_, ?_, ?_, ?_⟩
  · intro ok G hG S hS c hc
    exact (graph_built_chars_within ok (fun _ _ => True) (fun _ _ _ _ _ => trivial) G hG
      S hS c hc).1
  · intro ok G hok hG S hS c hc
    have := graph_built_chars_within ok (fun s v => s < v)
      (fun s a v hsa h => Nat.lt_of_le_of_lt hsa (hok a v h)) G hG S hS c hc
    exact ⟨this.2, this.1⟩
  · intro env w evs
    exact run_built env _ evs (start_discovery_built env w)
  · intro env w evs S hS c hc
    exact (graph_built_chars_within any_handles (fun _ _ => True) (fun _ _ _ _ _ => trivial) _
      (run_built env _ evs (start_discovery_built env w)) S hS c hc).1
  · intro num_attr p_attr S hS c hc
    have := graph_built_chars_within (fun a v => a = v) (fun s v => s ≤ v)
      (fun s a v hsa h => by rw [← h]; exact hsa) _ (rebuild_cache_built num_attr p_attr)
      S hS c hc
    exact ⟨this.2, this.1⟩

/-- C20, counterexample. A pass in protocol order that completes with success: the peer
reports, in the service `[3, 10]`, a characteristic declared at 5 with value handle 1. The
graph holds the characteristic 1 under the service `[3, 10]`, below its start handle. -/
theorem pass_char_below_service :
    in_protocol_order scenario_env (start_discovery scenario_env default)
      value_below_service_pass = true ∧
    pass_complete (scenario_run value_below_service_pass) = true ∧
    (scenario_run value_below_service_pass).srcb.srvc_cache.map
        (fun S => (S.s_handle, S.e_handle, S.characteristics.map fun c => c.handle)) =
      [(3, 10, [1])] ∧
    ¬ (∀ S ∈ (scenario_run value_below_service_pass).srcb.srvc_cache,
        ∀ c ∈ S.characteristics, S.s_handle < c.handle ∧ c.handle ≤ S.e_handle) := by
  decide

/-! ## Loading the cache file -/

theorem fread_attr_full (layout : NvAttrLayout) (num_attr : Nat) (stream : List Nat)
    (h : num_attr * layout.sizeof_attr ≤ stream.length) :
    (fread_attr layout num_attr stream).length = num_attr := by
  induction num_attr generalizing stream with
  | zero => simp [fread_attr]
  | succ n ih =>
    unfold fread_attr
    rw [Nat.add_mul, Nat.one_mul] at h
    rw [if_pos (by omega)]
    simp only [List.length_cons, Nat.add_right_cancel_iff]
    apply ih
    rw [List.length_drop]
    omega

theorem fread_attr_append (layout : NvAttrLayout) (num_attr : Nat) (stream extra : List Nat)
    (h : num_attr * layout.sizeof_attr ≤ stream.length) :
    fread_attr layout num_attr (stream ++ extra) = fread_attr layout num_attr stream := by
  induction num_attr generalizing stream with
  | zero => simp [fread_attr]
  | succ n ih =>
    rw [Nat.add_mul, Nat.one_mul] at h
    have hs : layout.sizeof_attr ≤ stream.length := by omega
    unfold fread_attr
    rw [if_pos hs, if_pos (by rw [List.length_append]; omega),
      List.take_append_of_le_length hs, List.drop_append_of_le_length hs]
    rw [ih]
    rw [List.length_drop]
    omega

theorem cache_load_eq (layout : NvAttrLayout) (b0 b1 c0 c1 : Nat) (rest : List Nat)
    (p_srcb : tBTA_GATTC_SERV) :
    bta_gattc_cache_load layout (some (b0 :: b1 :: c0 :: c1 :: rest)) p_srcb =
      if b0 + 256 * b1 = GATT_CACHE_VERSION ∧ c0 + 256 * c1 ≤ 0xFFFF ∧
          (c0 + 256 * c1) * layout.sizeof_attr ≤ rest.length then
        (true, { p_srcb with
                  srvc_cache := bta_gattc_rebuild_cache (c0 + 256 * c1)
                    (some (fread_attr layout (c0 + 256 * c1) rest)) })
      else (false, p_srcb) := by
  unfold bta_gattc_cache_load
  simp only [fread_uint16]
  by_cases hv : b0 + 256 * b1 = GATT_CACHE_VERSION
  · rw [if_neg (not_not.2 hv)]
    by_cases hn : c0 + 256 * c1 ≤ 0xFFFF
    · rw [if_neg (Nat.not_lt.2 hn)]
      by_cases hr : (c0 + 256 * c1) * layout.sizeof_attr ≤ rest.length
      · have hc : b0 + 256 * b1 = GATT_CACHE_VERSION ∧ c0 + 256 * c1 ≤ 0xFFFF ∧
            (c0 + 256 * c1) * layout.sizeof_attr ≤ rest.length := ⟨hv, hn, hr⟩
        have hlen : ¬ (fread_attr layout (c0 + 256 * c1) rest).length ≠ c0 + 256 * c1 :=
          not_not.2 (fread_attr_full layout _ rest hr)
        rw [if_pos hc, if_neg hlen]
      · have hc : ¬ (b0 + 256 * b1 = GATT_CACHE_VERSION ∧ c0 + 256 * c1 ≤ 0xFFFF ∧
            (c0 + 256 * c1) * layout.sizeof_attr ≤ rest.length) := fun h => hr h.2.2
        have hlen : (fread_attr layout (c0 + 256 * c1) rest).length ≠ c0 + 256 * c1 := by
          intro heq
          have := (fread_attr_bytes layout (c0 + 256 * c1) rest).2
          rw [heq] at this
          exact hr this
        rw [if_neg hc, if_pos hlen]
    · have hc : ¬ (b0 + 256 * b1 = GATT_CACHE_VERSION ∧ c0 + 256 * c1 ≤ 0xFFFF ∧
          (c0 + 256 * c1) * layout.sizeof_attr ≤ rest.length) := fun h => hn h.2.1
      rw [if_pos (Nat.lt_of_not_le hn), if_neg hc]
  · have hc : ¬ (b0 + 256 * b1 = GATT_CACHE_VERSION ∧ c0 + 256 * c1 ≤ 0xFFFF ∧
        (c0 + 256 * c1) * layout.sizeof_attr ≤ rest.length) := fun h => hv h.1
    rw [if_pos hv, if_neg hc]

theorem cache_load_short (layout : NvAttrLayout) (fd : List Nat) (p_srcb : tBTA_GATTC_SERV)
    (h : fd.length < 4) : bta_gattc_cache_load layout (some fd) p_srcb = (false, p_srcb) := by
  unfold bta_gattc_cache_load
  match fd, h with
  | [], _ => rfl
  | [_], _ => rfl
  | [b0, b1], _ =>
    simp only [fread_uint16]
    split <;> rfl
  | [b0, b1, c0], _ =>
    simp only [fread_uint16]
    split <;> rfl

theorem cache_load_true (layout : NvAttrLayout) (file : Option (List Nat))
    (p_srcb : tBTA_GATTC_SERV) (h : (bta_gattc_cache_load layout file p_srcb).1 = true) :
    ∃ b0 b1 c0 c1 rest, file = some (b0 :: b1 :: c0 :: c1 :: rest) ∧
      b0 + 256 * b1 = GATT_CACHE_VERSION ∧ c0 + 256 * c1 ≤ 0xFFFF ∧
      (c0 + 256 * c1) * layout.sizeof_attr ≤ rest.length := by
  match file, h with
  | none, h => exact absurd h (by simp [bta_gattc_cache_load])
  | some [], h => exact absurd h (by rw [cache_load_short _ _ _ (by simp)]; simp)
  | some [_], h => exact absurd h (by rw [cache_load_short _ _ _ (by simp)]; simp)
  | some [_, _], h => exact absurd h (by rw [cache_load_short _ _ _ (by simp)]; simp)
  | some [_, _, _], h => exact absurd h (by rw [cache_load_short _ _ _ (by simp)]; simp)
  | some (b0 :: b1 :: c0 :: c1 :: rest), h =>
    rw [cache_load_eq] at h
    by_cases hc : b0 + 256 * b1 = GATT_CACHE_VERSION ∧ c0 + 256 * c1 ≤ 0xFFFF ∧
        (c0 + 256 * c1) * layout.sizeof_attr ≤ rest.length
    · exact ⟨b0, b1, c0, c1, rest, rfl, hc⟩
    · rw [if_neg hc] at h
      simp at h

/-- A successful load leaves the graph rebuilt from the records of the file. -/
theorem cache_load_graph (layout : NvAttrLayout) (file : Option (List Nat))
    (p_srcb : tBTA_GATTC_SERV) (h : (bta_gattc_cache_load layout file p_srcb).1 = true) :
    ∃ num_attr attr, (bta_gattc_cache_load layout file p_srcb).2.srvc_cache =
      bta_gattc_rebuild_cache num_attr (some attr) := by
  obtain ⟨b0, b1, c0, c1, rest, rfl, hc⟩ := cache_load_true layout file p_srcb h
  rw [cache_load_eq, if_pos hc]
  exact ⟨_, _, rfl⟩

/-- C22, amended. `bta_gattc_cache_load` returns `true` exactly when the file opens, its first
two bytes hold the version 2, the next two a count `num_attr`, and at least `num_attr` complete
records follow; the graph is then rebuilt from the first `num_attr` records. Bytes after the
last record are never read: a file that loads successfully loads with the same result when
any bytes are appended to it. -/
theorem cache_load_success_iff (layout : NvAttrLayout) (p_srcb : tBTA_GATTC_SERV) :
    (∀ file, (bta_gattc_cache_load layout file p_srcb).1 = true ↔
      ∃ b0 b1 c0 c1 rest, file = some (b0 :: b1 :: c0 :: c1 :: rest) ∧
        b0 + 256 * b1 = GATT_CACHE_VERSION ∧ c0 + 256 * c1 ≤ 0xFFFF ∧
        (c0 + 256 * c1) * layout.sizeof_attr ≤ rest.length) ∧
    (∀ b0 b1 c0 c1 rest, b0 + 256 * b1 = GATT_CACHE_VERSION → c0 + 256 * c1 ≤ 0xFFFF →
      (c0 + 256 * c1) * layout.sizeof_attr ≤ rest.length →
      bta_gattc_cache_load layout (some (b0 :: b1 :: c0 :: c1 :: rest)) p_srcb =
        (true, { p_srcb with
                  srvc_cache := bta_gattc_rebuild_cache (c0 + 256 * c1)
                    (some (fread_attr layout (c0 + 256 * c1) rest)) })) ∧
    (∀ fd extra, (bta_gattc_cache_load layout (some fd) p_srcb).1 = true →
      bta_gattc_cache_load layout (some (fd ++ extra)) p_srcb =
        bta_gattc_cache_load layout (some fd) p_srcb) := by
  have hiff : ∀ file, (bta_gattc_cache_load layout file p_srcb).1 = true ↔
      ∃ b0 b1 c0 c1 rest, file = some (b0 :: b1 :: c0 :: c1 :: rest) ∧
        b0 + 256 * b1 = GATT_CACHE_VERSION ∧ c0 + 256 * c1 ≤ 0xFFFF ∧
        (c0 + 256 * c1) * layout.sizeof_attr ≤ rest.length := by
    intro file
    constructor
    · exact cache_load_true layout file p_srcb
    · rintro ⟨b0, b1, c0, c1, rest, rfl, hc⟩
      rw [cache_load_eq, if_pos hc]
  refine ⟨hiff, ?_, ?_⟩
  · intro b0 b1 c0 c1 rest hv hn hr
    rw [cache_load_eq, if_pos ⟨hv, hn, hr⟩]
  · intro fd extra h
    obtain ⟨b0, b1, c0, c1, rest, hfile, hv, hn, hr⟩ := (hiff (some fd)).1 h
    rw [Option.some.inj hfile]
    simp only [List.cons_append]
    have hc : b0 + 256 * b1 = GATT_CACHE_VERSION ∧ c0 + 256 * c1 ≤ 0xFFFF ∧
        (c0 + 256 * c1) * layout.sizeof_attr ≤ rest.length := ⟨hv, hn, hr⟩
    have hc2 : b0 + 256 * b1 = GATT_CACHE_VERSION ∧ c0 + 256 * c1 ≤ 0xFFFF ∧
        (c0 + 256 * c1) * layout.sizeof_attr ≤ (rest ++ extra).length :=
      ⟨hv, hn, by rw [List.length_append]; omega⟩
    rw [cache_load_eq, cache_load_eq, if_pos hc, if_pos hc2, fread_attr_append _ _ _ _ hr]

/-- C22, counterexample. A file with a valid header (version 2, one attribute), one complete
record and one extra byte is loaded successfully, and the graph holds the service of the
record; the same holds for every record layout. -/
theorem cache_load_trailing_byte :
    trailing_byte_file =
      [2, 0, 1, 0] ++ packed_layout.to_bytes battery_record ++ [0xAA] ∧
    trailing_byte_file.length = 4 + 1 * packed_layout.sizeof_attr + 1 ∧
    bta_gattc_cache_load packed_layout (some trailing_byte_file) default =
      (true, { (default : tBTA_GATTC_SERV) with
                srvc_cache :=
                  [{ s_handle := 1, e_handle := 10, is_primary := true, uuid := 0x180F,
                     handle := 1, characteristics := [], included_svc := [] }] }) ∧
    (∀ (layout : NvAttrLayout) (p_srcb : tBTA_GATTC_SERV),
      (bta_gattc_cache_load layout
        (some ([2, 0, 1, 0] ++ layout.to_bytes battery_record ++ [0xAA])) p_srcb).1 = true) := by
  refine ⟨by decide, by decide, by decide, ?_⟩
  intro layout p_srcb
  have hc : 2 + 256 * 0 = GATT_CACHE_VERSION ∧ 1 + 256 * 0 ≤ 0xFFFF ∧
      (1 + 256 * 0) * layout.sizeof_attr ≤
        (layout.to_bytes battery_record ++ [0xAA]).length := by
    refine ⟨rfl, by decide, ?_⟩
    rw [List.length_append, layout.to_bytes_length]
    simp
  have heq : [2, 0, 1, 0] ++ layout.to_bytes battery_record ++ [0xAA] =
      2 :: 0 :: 1 :: 0 :: (layout.to_bytes battery_record ++ [0xAA]) := rfl
  rw [heq, cache_load_eq, if_pos hc]

/-! ## The insert operations on the graph -/

theorem modify_eq_set {α : Type} (f : α → α) (l : List α) (i : Nat) (a : α)
    (h : l[i]? = some a) : l.modify f i = l.set i (f a) := by
  induction l generalizing i with
  | nil => simp at h
  | cons x rest ih =>
    cases i with
    | zero =>
      simp only [List.getElem?_cons_zero, Option.some.injEq] at h
      rw [h]
      rfl
    | succ n =>
      simp only [List.getElem?_cons_succ] at h
      simp only [List.modify_succ_cons, List.set_cons_succ]
      rw [ih n h]

theorem set_getElem_same {α : Type} (l : List α) (i : Nat) (a : α) (h : l[i]? = some a) :
    l.set i a = l := by
  induction l generalizing i with
  | nil => rfl
  | cons x rest ih =>
    cases i with
    | zero =>
      simp only [List.getElem?_cons_zero, Option.some.injEq] at h
      rw [h]
      rfl
    | succ n =>
      simp only [List.getElem?_cons_succ] at h
      rw [List.set_cons_succ, ih n h]

theorem append_descriptor_to_back_concat (cs : List tBTA_GATTC_CHARACTERISTIC)
    (c : tBTA_GATTC_CHARACTERISTIC) (d : tBTA_GATTC_DESCRIPTOR) :
    append_descriptor_to_back (cs ++ [c]) d =
      cs ++ [{ c with descriptors := c.descriptors ++ [d] }] := by
  unfold append_descriptor_to_back
  simp

theorem append_descriptor_to_back_descriptors (cs : List tBTA_GATTC_CHARACTERISTIC)
    (d : tBTA_GATTC_DESCRIPTOR) (c : tBTA_GATTC_CHARACTERISTIC)
    (hc : c ∈ append_descriptor_to_back cs d) :
    ∀ d2 ∈ c.descriptors, d2 = d ∨ ∃ c0 ∈ cs, d2 ∈ c0.descriptors := by
  unfold append_descriptor_to_back at hc
  cases hlast : cs.getLast? with
  | none =>
    rw [hlast] at hc
    intro d2 hd2
    exact Or.inr ⟨c, hc, hd2⟩
  | some char_node =>
    rw [hlast] at hc
    have hmem : char_node ∈ cs := List.mem_of_getLast?_eq_some hlast
    intro d2 hd2
    rcases List.mem_append.1 hc with h | h
    · exact Or.inr ⟨c, List.mem_of_mem_dropLast h, hd2⟩
    · rw [List.mem_singleton.1 h] at hd2
      rcases List.mem_append.1 hd2 with h2 | h2
      · exact Or.inr ⟨char_node, hmem, h2⟩
      · exact Or.inl (List.mem_singleton.1 h2)

theorem add_char_to_cache_length (G : List tBTA_GATTC_SERVICE) (a v : Nat) (u : Uuid)
    (p : Nat) : (bta_gattc_add_char_to_cache G a v u p).length = G.length := by
  unfold bta_gattc_add_char_to_cache
  split
  · rfl
  · exact List.length_modify _ _ _

theorem add_attr_to_cache_length (G : List tBTA_GATTC_SERVICE) (h : Nat) (u : Uuid)
    (p i : Nat) (t : tBTA_GATTC_ATTR_TYPE) :
    (bta_gattc_add_attr_to_cache G h u p i t).length = G.length := by
  unfold bta_gattc_add_attr_to_cache
  split
  · rfl
  · split
    · split
      · rfl
      · exact List.length_modify _ _ _
    · split
      · exact List.length_modify _ _ _
      · rfl

/-- Every included edge of a built graph points at a position of the graph. -/
theorem graph_built_edges_resolve (ok : Nat → Nat → Prop) (G : List tBTA_GATTC_SERVICE)
    (hG : graph_built ok G) :
    ∀ S ∈ G, ∀ e ∈ S.included_svc, ∃ j, e.included_service = some j ∧ j < G.length := by
  induction hG with
  | empty => simp
  | add_srvc G s e u p _ ih =>
    intro S hS ed hed
    unfold bta_gattc_add_srvc_to_cache at hS ⊢
    rcases List.mem_append.1 hS with h | h
    · obtain ⟨j, hj, hlt⟩ := ih S h ed hed
      exact ⟨j, hj, by simp; omega⟩
    · rw [List.mem_singleton.1 h] at hed
      simp at hed
  | add_char G a v u p _ hok ih =>
    intro S hS ed hed
    rw [add_char_to_cache_length]
    unfold bta_gattc_add_char_to_cache at hS
    cases hfind : bta_gattc_find_matching_service G a with
    | none =>
      rw [hfind] at hS
      exact ih S hS ed hed
    | some i =>
      rw [hfind] at hS
      rcases mem_modify _ _ _ _ hS with h | ⟨T, hT, rfl⟩
      · exact ih S h ed hed
      · exact ih T (List.getElem?_mem hT) ed hed
  | add_attr G h u p i t _ ih =>
    intro S hS ed hed
    rw [add_attr_to_cache_length]
    unfold bta_gattc_add_attr_to_cache at hS
    cases hfind : bta_gattc_find_matching_service G h with
    | none =>
      rw [hfind] at hS
      exact ih S hS ed hed
    | some k =>
      rw [hfind] at hS
      dsimp only at hS
      by_cases ht : t = BTA_GATTC_ATTR_TYPE_INCL_SRVC
      · rw [if_pos ht] at hS
        cases hfind2 : bta_gattc_find_matching_service G i with
        | none =>
          rw [hfind2] at hS
          exact ih S hS ed hed
        | some j =>
          rw [hfind2] at hS
          rcases mem_modify _ _ _ _ hS with h1 | ⟨T, hT, rfl⟩
          · exact ih S h1 ed hed
          · simp only [List.mem_append, List.mem_singleton] at hed
            rcases hed with hed | rfl
            · exact ih T (List.getElem?_mem hT) ed hed
            · obtain ⟨T2, hT2, _, _⟩ := (find_matching_service_eq_some G i j).1 hfind2
              exact ⟨j, rfl, (List.getElem?_eq_some.1 hT2).1⟩
      · rw [if_neg ht] at hS
        by_cases ht2 : t = BTA_GATTC_ATTR_TYPE_CHAR_DESCR
        · rw [if_pos ht2] at hS
          rcases mem_modify _ _ _ _ hS with h1 | ⟨T, hT, rfl⟩
          · exact ih S h1 ed hed
          · by_cases hemp : T.characteristics.isEmpty
            · rw [if_pos hemp] at hed
              exact ih T (List.getElem?_mem hT) ed hed
            · rw [if_neg hemp] at hed
              exact ih T (List.getElem?_mem hT) ed hed
        · rw [if_neg ht2] at hS
          exact ih S hS ed hed

/-- In a built graph the handles of the descriptors and of the included edges of a service lie
in the range of the service. -/
theorem graph_built_attrs_within (ok : Nat → Nat → Prop) (G : List tBTA_GATTC_SERVICE)
    (hG : graph_built ok G) :
    ∀ S ∈ G, (∀ c ∈ S.characteristics, ∀ d ∈ c.descriptors, in_range S d.handle) ∧
      (∀ e ∈ S.included_svc, in_range S e.handle) := by
  induction hG with
  | empty => simp
  | add_srvc G s e u p _ ih =>
    intro S hS
    unfold bta_gattc_add_srvc_to_cache at hS
    rcases List.mem_append.1 hS with h | h
    · exact ih S h
    · rw [List.mem_singleton.1 h]
      simp
  | add_char G a v u p _ hok ih =>
    intro S hS
    unfold bta_gattc_add_char_to_cache at hS
    cases hfind : bta_gattc_find_matching_service G a with
    | none =>
      rw [hfind] at hS
      exact ih S hS
    | some i =>
      rw [hfind] at hS
      rcases mem_modify _ _ _ _ hS with h | ⟨T, hT, rfl⟩
      · exact ih S h
      · have hT2 := ih T (List.getElem?_mem hT)
        have hle : T.e_handle ≤ (if T.e_handle < v then v else T.e_handle) := by
          split <;> omega
        constructor
        · intro c hc d hd
          simp only [List.mem_append, List.mem_singleton] at hc
          rcases hc with hc | rfl
          · have := hT2.1 c hc d hd
            exact ⟨this.1, Nat.le_trans this.2 hle⟩
          · simp at hd
        · intro e he
          have := hT2.2 e he
          exact ⟨this.1, Nat.le_trans this.2 hle⟩
  | add_attr G h u p i t _ ih =>
    intro S hS
    unfold bta_gattc_add_attr_to_cache at hS
    cases hfind : bta_gattc_find_matching_service G h with
    | none =>
      rw [hfind] at hS
      exact ih S hS
    | some k =>
      rw [hfind] at hS
      obtain ⟨T0, hT0, hin0, _⟩ := (find_matching_service_eq_some G h k).1 hfind
      dsimp only at hS
      by_cases ht : t = BTA_GATTC_ATTR_TYPE_INCL_SRVC
      · rw [if_pos ht] at hS
        cases hfind2 : bta_gattc_find_matching_service G i with
        | none =>
          rw [hfind2] at hS
          exact ih S hS
        | some j =>
          rw [hfind2] at hS
          rcases mem_modify _ _ _ _ hS with h1 | ⟨T, hT, rfl⟩
          · exact ih S h1
          · have hT2 := ih T (List.getElem?_mem hT)
            have hTT : T0 = T := Option.some.inj (hT0.symm.trans hT)
            refine ⟨hT2.1, ?_⟩
            intro e he
            simp only [List.mem_append, List.mem_singleton] at he
            rcases he with he | rfl
            · exact hT2.2 e he
            · rw [← hTT]
              exact hin0
      · rw [if_neg ht] at hS
        by_cases ht2 : t = BTA_GATTC_ATTR_TYPE_CHAR_DESCR
        · rw [if_pos ht2] at hS
          rcases mem_modify _ _ _ _ hS with h1 | ⟨T, hT, rfl⟩
          · exact ih S h1
          · have hT2 := ih T (List.getElem?_mem hT)
            have hTT : T0 = T := Option.some.inj (hT0.symm.trans hT)
            by_cases hemp : T.characteristics.isEmpty
            · rw [if_pos hemp]
              exact hT2
            · rw [if_neg hemp]
              refine ⟨?_, hT2.2⟩
              intro c hc d hd
              rcases append_descriptor_to_back_descriptors _ _ c hc d hd with rfl | ⟨c0, hc0, hd0⟩
              · rw [← hTT]
                exact hin0
              · exact hT2.1 c0 hc0 d hd0
        · rw [if_neg ht2] at hS
          exact ih S hS

/-- C21. In every graph built from the empty graph by the insert operations (service,
characteristic, descriptor, included edge), the target of every included edge of every service
is a service of the same graph; an edge is only ever inserted with, as target, the first
service whose range contains the target start handle at that moment, and otherwise the graph
is left as it was. Every event sequence of a discovery pass, every rebuild and every
successful load yields such a graph. -/
theorem included_edge_target_present :
    (∀ ok G, graph_built ok G →
      ∀ S ∈ G, ∀ e ∈ S.included_svc,
        ∃ j T, e.included_service = some j ∧ G[j]? = some T) ∧
    (∀ (G : List tBTA_GATTC_SERVICE) (handle : Nat) (uuid : Uuid)
        (property incl_srvc_s_handle : Nat),
      bta_gattc_add_attr_to_cache G handle uuid property incl_srvc_s_handle
          BTA_GATTC_ATTR_TYPE_INCL_SRVC = G ∨
      ∃ k S j T, G[k]? = some S ∧ in_range S handle ∧
        G[j]? = some T ∧ in_range T incl_srvc_s_handle ∧
        (∀ i U, i < j → G[i]? = some U → ¬ in_range U incl_srvc_s_handle) ∧
        bta_gattc_add_attr_to_cache G handle uuid property incl_srvc_s_handle
            BTA_GATTC_ATTR_TYPE_INCL_SRVC =
          G.set k { S with
            included_svc := S.included_svc ++
              [{ handle := handle, uuid := uuid, included_service := some j }] }) ∧
    (∀ env w evs, ∀ S ∈ (run env (start_discovery env w) evs).srcb.srvc_cache,
      ∀ e ∈ S.included_svc, ∃ j T, e.included_service = some j ∧
        (run env (start_discovery env w) evs).srcb.srvc_cache[j]? = some T) ∧
    (∀ num_attr p_attr, ∀ S ∈ bta_gattc_rebuild_cache num_attr p_attr,
      ∀ e ∈ S.included_svc, ∃ j T, e.included_service = some j ∧
        (bta_gattc_rebuild_cache num_attr p_attr)[j]? = some T) ∧
    (∀ layout file p_srcb, (bta_gattc_cache_load layout file p_srcb).1 = true →
      ∀ S ∈ (bta_gattc_cache_load layout file p_srcb).2.srvc_cache,
      ∀ e ∈ S.included_svc, ∃ j T, e.included_service = some j ∧
        (bta_gattc_cache_load layout file p_srcb).2.srvc_cache[j]? = some T) := by
  have key : ∀ ok G, graph_built ok G →
      ∀ S ∈ G, ∀ e ∈ S.included_svc,
        ∃ j T, e.included_service = some j ∧ G[j]? = some T := by
    intro ok G hG S hS e he
    obtain ⟨j, hj, hlt⟩ := graph_built_edges_resolve ok G hG S hS e he
    exact ⟨j, G[j], hj, List.getElem?_eq_getElem hlt⟩
  refine ⟨key, ?_, ?_, ?_, ?_⟩
  · intro G h u p i
    unfold bta_gattc_add_attr_to_cache
    cases hfind : bta_gattc_find_matching_service G h with
    | none => exact Or.inl rfl
    | some k =>
      dsimp only
      rw [if_pos rfl]
      cases hfind2 : bta_gattc_find_matching_service G i with
      | none => exact Or.inl rfl
      | some j =>
        right
        obtain ⟨S, hS, hin, _⟩ := (find_matching_service_eq_some G h k).1 hfind
        obtain ⟨T, hT, hTin, hfirst⟩ := (find_matching_service_eq_some G i j).1 hfind2
        refine ⟨k, S, j, T, hS, hin, hT, hTin, hfirst, ?_⟩
        dsimp only
        rw [modify_eq_set _ _ _ _ hS]
  · intro env w evs
    exact key _ _ (run_built env _ evs (start_discovery_built env w))
  · intro num_attr p_attr
    exact key _ _ (rebuild_cache_built num_attr p_attr)
  · intro layout file p_srcb h
    obtain ⟨n, attr, hg⟩ := cache_load_graph layout file p_srcb h
    rw [hg]
    exact key _ _ (rebuild_cache_built n (some attr))

/-- C23. When the range of some service contains `attr_handle`, `bta_gattc_add_char_to_cache`
replaces the first such service `S` by `S` with the characteristic `{handle = value_handle,
properties, uuid, no descriptors}` appended after its characteristics and with `e_handle` set
to `max(S.e_handle, value_handle)`; `s_handle` and every other field of `S`, the existing
characteristics with their descriptors, the included edges, the number of services and every
other service are unchanged. -/
theorem add_char_to_cache_spec (G : List tBTA_GATTC_SERVICE)
    (attr_handle value_handle : Nat) (uuid : Uuid) (property : Nat)
    (h : ∃ S ∈ G, in_range S attr_handle) :
    ∃ i S, G[i]? = some S ∧ in_range S attr_handle ∧
      (∀ j T, j < i → G[j]? = some T → ¬ in_range T attr_handle) ∧
      bta_gattc_add_char_to_cache G attr_handle value_handle uuid property =
        G.set i { S with
          e_handle := max S.e_handle value_handle
          characteristics := S.characteristics ++
            [{ handle := value_handle, properties := property, uuid := uuid,
               descriptors := [] }] } ∧
      (bta_gattc_add_char_to_cache G attr_handle value_handle uuid property).length =
        G.length ∧
      (∀ j, j ≠ i →
        (bta_gattc_add_char_to_cache G attr_handle value_handle uuid property)[j]? = G[j]?) := by
  obtain ⟨S0, hS0, hin0⟩ := h
  cases hfind : bta_gattc_find_matching_service G attr_handle with
  | none => exact absurd hin0 ((find_matching_service_eq_none G _).1 hfind S0 hS0)
  | some i =>
    obtain ⟨S, hS, hin, hfirst⟩ := (find_matching_service_eq_some G _ i).1 hfind
    have key : bta_gattc_add_char_to_cache G attr_handle value_handle uuid property =
        G.set i { S with
          e_handle := max S.e_handle value_handle
          characteristics := S.characteristics ++
            [{ handle := value_handle, properties := property, uuid := uuid,
               descriptors := [] }] } := by
      unfold bta_gattc_add_char_to_cache
      rw [hfind]
      dsimp only
      rw [modify_eq_set _ _ _ _ hS]
      congr 2
      by_cases hlt : S.e_handle < value_handle
      · rw [if_pos hlt, Nat.max_eq_right (Nat.le_of_lt hlt)]
      · rw [if_neg hlt, Nat.max_eq_left (Nat.le_of_not_lt hlt)]
    refine ⟨i, S, hS, hin, hfirst, key, ?_, ?_⟩
    · rw [key, List.length_set]
    · intro j hj
      rw [key, List.getElem?_set_ne (Ne.symm hj)]

theorem add_char_to_cache_spec_witness :
    (∃ S ∈ scenario2_graph, in_range S 7) ∧
    ∃ i S, scenario2_graph[i]? = some S ∧ in_range S 7 ∧
      (∀ j T, j < i → scenario2_graph[j]? = some T → ¬ in_range T 7) ∧
      bta_gattc_add_char_to_cache scenario2_graph 7 12 0x2A1B 0x02 =
        scenario2_graph.set i { S with
          e_handle := max S.e_handle 12
          characteristics := S.characteristics ++
            [{ handle := 12, properties := 0x02, uuid := 0x2A1B, descriptors := [] }] } ∧
      (bta_gattc_add_char_to_cache scenario2_graph 7 12 0x2A1B 0x02).length =
        scenario2_graph.length ∧
      (∀ j, j ≠ i →
        (bta_gattc_add_char_to_cache scenario2_graph 7 12 0x2A1B 0x02)[j]? =
          scenario2_graph[j]?) :=
  ⟨⟨_, List.mem_singleton.2 rfl, by decide, by decide⟩,
    add_char_to_cache_spec scenario2_graph 7 12 0x2A1B 0x02
      ⟨_, List.mem_singleton.2 rfl, by decide, by decide⟩⟩

/-- C24, amended. In every graph built from the empty graph by the insert operations, the
range `[s_handle, e_handle]` of every service contains the handle of every descriptor under it
and the handle of every included edge of it, and the value handle of every characteristic of
it is at or below `e_handle`; the value handle is also at or above `s_handle` when every
characteristic was inserted under an attribute handle not above its value handle. -/
theorem built_graph_range_covers :
    (∀ ok G, graph_built ok G → ∀ S ∈ G,
      (∀ c ∈ S.characteristics, c.handle ≤ S.e_handle) ∧
      (∀ c ∈ S.characteristics, ∀ d ∈ c.descriptors, in_range S d.handle) ∧
      (∀ e ∈ S.included_svc, in_range S e.handle)) ∧
    (∀ ok G, (∀ a v, ok a v → a ≤ v) → graph_built ok G → ∀ S ∈ G,
      (∀ c ∈ S.characteristics, in_range S c.handle) ∧
      (∀ c ∈ S.characteristics, ∀ d ∈ c.descriptors, in_range S d.handle) ∧
      (∀ e ∈ S.included_svc, in_range S e.handle)) := by
  constructor
  · intro ok G hG S hS
    refine ⟨?_, graph_built_attrs_within ok G hG S hS⟩
    intro c hc
    exact (graph_built_chars_within ok (fun _ _ => True) (fun _ _ _ _ _ => trivial) G hG
      S hS c hc).1
  · intro ok G hok hG S hS
    refine ⟨?_, graph_built_attrs_within ok G hG S hS⟩
    intro c hc
    have := graph_built_chars_within ok (fun s v => s ≤ v)
      (fun s a v hsa h => Nat.le_trans hsa (hok a v h)) G hG S hS c hc
    exact ⟨this.2, this.1⟩

/-- C24, counterexample. Inserting the service `[3, 10]` and then, under the attribute handle
5, a characteristic with value handle 1 gives a built graph whose service `[3, 10]` holds a
characteristic with value handle 1, outside its range. -/
theorem insert_char_below_service :
    graph_built any_handles char_below_graph ∧
    char_below_graph =
      [{ s_handle := 3, e_handle := 10, is_primary := true, uuid := 0x1801, handle := 3,
         characteristics :=
           [{ handle := 1, properties := 0x10, uuid := 0x2A19, descriptors := [] }],
         included_svc := [] }] ∧
    ¬ (∀ S ∈ char_below_graph, ∀ c ∈ S.characteristics, in_range S c.handle) := by
  have h2 : char_below_graph =
      [{ s_handle := 3, e_handle := 10, is_primary := true, uuid := 0x1801, handle := 3,
         characteristics :=
           [{ handle := 1, properties := 0x10, uuid := 0x2A19, descriptors := [] }],
         included_svc := [] }] := by decide
  refine ⟨?_, h2, ?_⟩
  · exact graph_built.add_char _ 5 1 _ _ (graph_built.add_srvc [] 3 10 _ _ graph_built.empty)
      trivial
  · intro h
    rw [h2] at h
    have h3 := h _ (List.mem_singleton.2 rfl) _ (List.mem_singleton.2 rfl)
    exact absurd h3.1 (by decide)

/-- C25. When the range of some service contains `handle`, `bta_gattc_add_attr_to_cache` with
type `CHAR_DESCR` acts on the first such service `S`: when `S` has no characteristics the
graph is unchanged; otherwise the descriptor `{handle, uuid}` is appended to the end of the
descriptor list of the last characteristic of `S`, and every other characteristic, every other
field of `S` and every other service are unchanged. -/
theorem add_descriptor_to_cache_spec (G : List tBTA_GATTC_SERVICE) (handle : Nat)
    (uuid : Uuid) (property incl_srvc_s_handle : Nat)
    (h : ∃ S ∈ G, in_range S handle) :
    ∃ i S, G[i]? = some S ∧ in_range S handle ∧
      (∀ j T, j < i → G[j]? = some T → ¬ in_range T handle) ∧
      (S.characteristics = [] →
        bta_gattc_add_attr_to_cache G handle uuid property incl_srvc_s_handle
          BTA_GATTC_ATTR_TYPE_CHAR_DESCR = G) ∧
      (∀ cs c, S.characteristics = cs ++ [c] →
        bta_gattc_add_attr_to_cache G handle uuid property incl_srvc_s_handle
            BTA_GATTC_ATTR_TYPE_CHAR_DESCR =
          G.set i { S with
            characteristics := cs ++
              [{ c with descriptors := c.descriptors ++
                  [{ handle := handle, uuid := uuid }] }] }) := by
  obtain ⟨S0, hS0, hin0⟩ := h
  cases hfind : bta_gattc_find_matching_service G handle with
  | none => exact absurd hin0 ((find_matching_service_eq_none G _).1 hfind S0 hS0)
  | some i =>
    obtain ⟨S, hS, hin, hfirst⟩ := (find_matching_service_eq_some G _ i).1 hfind
    have key : bta_gattc_add_attr_to_cache G handle uuid property incl_srvc_s_handle
          BTA_GATTC_ATTR_TYPE_CHAR_DESCR =
        G.set i (if S.characteristics.isEmpty then S
          else { S with
                 characteristics := append_descriptor_to_back S.characteristics
                   { handle := handle, uuid := uuid } }) := by
      unfold bta_gattc_add_attr_to_cache
      rw [hfind]
      dsimp only
      rw [if_neg (by decide), if_pos rfl, modify_eq_set _ _ _ _ hS]
    refine ⟨i, S, hS, hin, hfirst, ?_, ?_⟩
    · intro hnil
      rw [key, hnil]
      simp only [List.isEmpty_nil, if_true]
      exact set_getElem_same _ _ _ hS
    · intro cs c hcs
      rw [key, hcs, append_descriptor_to_back_concat]
      simp

theorem add_descriptor_to_cache_spec_witness :
    (∃ S ∈ scenario2_graph, in_range S 7) ∧
    ∃ i S, scenario2_graph[i]? = some S ∧ in_range S 7 ∧
      (∀ j T, j < i → scenario2_graph[j]? = some T → ¬ in_range T 7) ∧
      (S.characteristics = [] →
        bta_gattc_add_attr_to_cache scenario2_graph 7 0x2902 0 0
          BTA_GATTC_ATTR_TYPE_CHAR_DESCR = scenario2_graph) ∧
      (∀ cs c, S.characteristics = cs ++ [c] →
        bta_gattc_add_attr_to_cache scenario2_graph 7 0x2902 0 0
            BTA_GATTC_ATTR_TYPE_CHAR_DESCR =
          scenario2_graph.set i { S with
            characteristics := cs ++
              [{ c with descriptors := c.descriptors ++
                  [{ handle := 7, uuid := 0x2902 }] }] }) :=
  ⟨⟨_, List.mem_singleton.2 rfl, by decide, by decide⟩,
    add_descriptor_to_cache_spec scenario2_graph 7 0x2902 0 0
      ⟨_, List.mem_singleton.2 rfl, by decide, by decide⟩⟩

/-- C26. A missing parent is skipped: for every graph, inserting a characteristic under an
attribute handle that lies in the range of no service, inserting a descriptor with a handle
that lies in the range of no service, and inserting an included edge whose owner handle or
whose target start handle lies in the range of no service each leave the graph exactly as it
was. -/
theorem insert_without_parent (G : List tBTA_GATTC_SERVICE) :
    (∀ attr_handle value_handle uuid property,
      (∀ S ∈ G, ¬ in_range S attr_handle) →
      bta_gattc_add_char_to_cache G attr_handle value_handle uuid property = G) ∧
    (∀ handle uuid property incl_srvc_s_handle,
      (∀ S ∈ G, ¬ in_range S handle) →
      bta_gattc_add_attr_to_cache G handle uuid property incl_srvc_s_handle
        BTA_GATTC_ATTR_TYPE_CHAR_DESCR = G) ∧
    (∀ handle uuid property incl_srvc_s_handle,
      ((∀ S ∈ G, ¬ in_range S handle) ∨ (∀ S ∈ G, ¬ in_range S incl_srvc_s_handle)) →
      bta_gattc_add_attr_to_cache G handle uuid property incl_srvc_s_handle
        BTA_GATTC_ATTR_TYPE_INCL_SRVC = G) := by
  refine ⟨?_, ?_, ?_⟩
  · intro a v u p hno
    unfold bta_gattc_add_char_to_cache
    rw [(find_matching_service_eq_none G a).2 hno]
  · intro h u p i hno
    unfold bta_gattc_add_attr_to_cache
    rw [(find_matching_service_eq_none G h).2 hno]
  · intro h u p i hno
    unfold bta_gattc_add_attr_to_cache
    rcases hno with hno | hno
    · rw [(find_matching_service_eq_none G h).2 hno]
    · cases hfind : bta_gattc_find_matching_service G h with
      | none => rfl
      | some k =>
        dsimp only
        rw [if_pos rfl, (find_matching_service_eq_none G i).2 hno]

/-! ## The discovery buffer -/

theorem srvc_in_list_iff (p : tBTA_GATTC_SERV) (s e : Nat) (u : Uuid) :
    bta_gattc_srvc_in_list p s e u = true ↔
      s = 0 ∨ e = 0 ∨ ∃ i, i < p.next_avail_idx ∧
        ((rec_at p i).s_handle = s ∨ (rec_at p i).e_handle = e) := by
  unfold bta_gattc_srvc_in_list GATT_HANDLE_IS_VALID
  by_cases hs : s = 0
  · simp [hs]
  · by_cases he : e = 0
    · simp [he]
    · simp [hs, he]

theorem disc_res_cback_incl (env : Env) (w : World) (p_clcb : tBTA_GATTC_CLCB)
    (p_data : tGATT_DISC_RES) (hclcb : w.clcb = some p_clcb)
    (hst : p_clcb.state = BTA_GATTC_DISCOVER_ST) :
    (bta_gattc_disc_res_cback env w GATT_DISC_INC_SRVC p_data).srcb =
      if bta_gattc_srvc_in_list w.srcb p_data.value.incl_service.s_handle
          p_data.value.incl_service.e_handle p_data.value.incl_service.service_type then
        { w.srcb with
          srvc_cache := (bta_gattc_disc_res_cback env w GATT_DISC_INC_SRVC p_data).srcb.srvc_cache }
      else
        { (bta_gattc_add_srvc_to_list env w.srcb p_data.value.incl_service.s_handle
            p_data.value.incl_service.e_handle p_data.value.incl_service.service_type
            false).1 with
          srvc_cache := (bta_gattc_disc_res_cback env w GATT_DISC_INC_SRVC p_data).srcb.srvc_cache } := by
  unfold bta_gattc_disc_res_cback bta_gattc_find_scb_by_cid
  rw [hclcb]
  dsimp only
  rw [if_pos hst]
  dsimp only
  cases bta_gattc_srvc_in_list w.srcb p_data.value.incl_service.s_handle
      p_data.value.incl_service.e_handle p_data.value.incl_service.service_type <;> rfl

theorem disc_res_cback_ignored (env : Env) (w : World) (t : tGATT_DISC_TYPE)
    (p_data : tGATT_DISC_RES)
    (h : ∀ p_clcb, w.clcb = some p_clcb → p_clcb.state ≠ BTA_GATTC_DISCOVER_ST) :
    bta_gattc_disc_res_cback env w t p_data = w := by
  unfold bta_gattc_disc_res_cback bta_gattc_find_scb_by_cid
  cases hc : w.clcb with
  | none => rfl
  | some c =>
    dsimp only
    rw [if_neg (h c hc)]

theorem add_srvc_to_list_full (env : Env) (p : tBTA_GATTC_SERV) (s e : Nat) (u : Uuid)
    (prim : Bool) (hfull : env.BTA_GATTC_MAX_CACHE_CHAR ≤ p.next_avail_idx) :
    bta_gattc_add_srvc_to_list env p s e u prim = (p, GATT_DB_FULL) := by
  unfold bta_gattc_add_srvc_to_list
  split
  · rfl
  · rw [if_neg (Nat.not_lt.2 hfull)]

theorem add_char_to_list_full (env : Env) (p : tBTA_GATTC_SERV) (d v : Nat) (u : Uuid)
    (prop : Nat) (hbuf : p.p_srvc_list ≠ none)
    (hfull : env.BTA_GATTC_MAX_CACHE_CHAR ≤ p.next_avail_idx) :
    bta_gattc_add_char_to_list env p d v u prop = (p, GATT_DB_FULL) := by
  unfold bta_gattc_add_char_to_list
  split
  · rename_i hnone
    exact absurd hnone hbuf
  · rw [if_neg (Nat.not_lt.2 hfull)]

/-- C27. Buffer overflow is dropped: when the discovery buffer is allocated and full
(`next_avail_idx` has reached `BTA_GATTC_MAX_CACHE_CHAR`), `bta_gattc_add_srvc_to_list` and
`bta_gattc_add_char_to_list` each return `GATT_DB_FULL` and leave the server control block,
with every buffer record and all counters and cursors, unchanged; a service or characteristic
result delivered then leaves the whole world unchanged, the request the engine waits on
included, so the pass goes on. -/
theorem full_buffer_drops (env : Env) (w : World)
    (hbuf : w.srcb.p_srvc_list ≠ none)
    (hfull : env.BTA_GATTC_MAX_CACHE_CHAR ≤ w.srcb.next_avail_idx) :
    (∀ s e u prim, bta_gattc_add_srvc_to_list env w.srcb s e u prim = (w.srcb, GATT_DB_FULL)) ∧
    (∀ d v u prop, bta_gattc_add_char_to_list env w.srcb d v u prop = (w.srcb, GATT_DB_FULL)) ∧
    (∀ p_data, bta_gattc_disc_res_cback env w GATT_DISC_SRVC_ALL p_data = w ∧
      bta_gattc_disc_res_cback env w GATT_DISC_SRVC_BY_UUID p_data = w ∧
      bta_gattc_disc_res_cback env w GATT_DISC_CHAR p_data = w) := by
  refine ⟨fun s e u prim => add_srvc_to_list_full env _ s e u prim hfull,
    fun d v u prop => add_char_to_list_full env _ d v u prop hbuf hfull, ?_⟩
  intro p_data
  obtain ⟨clcb, srcb, trace⟩ := w
  cases clcb with
  | none => exact ⟨rfl, rfl, rfl⟩
  | some c =>
    by_cases hst : c.state = BTA_GATTC_DISCOVER_ST
    · simp only [bta_gattc_disc_res_cback, bta_gattc_find_scb_by_cid, hst, if_true,
        add_srvc_to_list_full env _ _ _ _ _ hfull,
        add_char_to_list_full env _ _ _ _ _ hbuf hfull, and_self]
    · simp only [bta_gattc_disc_res_cback, bta_gattc_find_scb_by_cid, hst, if_false, and_self]

theorem full_buffer_drops_witness :
    (two_slot_run [srvc_result 1 10 0x1800, srvc_result 20 30 0x180F]).srcb.p_srvc_list ≠ none ∧
    two_slot_env.BTA_GATTC_MAX_CACHE_CHAR =
      (two_slot_run [srvc_result 1 10 0x1800, srvc_result 20 30 0x180F]).srcb.next_avail_idx ∧
    bta_gattc_disc_res_cback two_slot_env
        (two_slot_run [srvc_result 1 10 0x1800, srvc_result 20 30 0x180F]) GATT_DISC_SRVC_ALL
        { handle := 40, value := { group_value := { e_handle := 50, service_type := 0x181A } } } =
      two_slot_run [srvc_result 1 10 0x1800, srvc_result 20 30 0x180F] :=
  ⟨by decide, by decide,
    ((full_buffer_drops two_slot_env
      (two_slot_run [srvc_result 1 10 0x1800, srvc_result 20 30 0x180F])
      (by decide) (by decide)).2.2 _).1⟩

/-- C28, amended. For an `INC_SRVC` result with included range `(incl_s, incl_e)` and UUID `u`
handled in the discover state: the buffer, its counters and cursors are unchanged when
`incl_s` or `incl_e` is zero, when one of the first `next_avail_idx` records has the start
handle `incl_s` or the end handle `incl_e`, and when the buffer is full; when the buffer has
room, `0 < incl_s ≤ incl_e` and the first `next_avail_idx` records are well-formed ranges that
share no handle with `[incl_s, incl_e]`, the record at `next_avail_idx` receives `s_handle =
incl_s`, `e_handle = incl_e`, `uuid = u`, `is_primary = false`, and `total_srvc` and
`next_avail_idx` each grow by one (as 8-bit counters), nothing else of the buffer changing. -/
theorem incl_result_buffer (env : Env) (w : World) (p_clcb : tBTA_GATTC_CLCB)
    (p_data : tGATT_DISC_RES) (hclcb : w.clcb = some p_clcb)
    (hst : p_clcb.state = BTA_GATTC_DISCOVER_ST) :
    ((p_data.value.incl_service.s_handle = 0 ∨ p_data.value.incl_service.e_handle = 0 ∨
        ∃ i, i < w.srcb.next_avail_idx ∧
          ((rec_at w.srcb i).s_handle = p_data.value.incl_service.s_handle ∨
            (rec_at w.srcb i).e_handle = p_data.value.incl_service.e_handle)) →
      (bta_gattc_disc_res_cback env w GATT_DISC_INC_SRVC p_data).srcb =
        { w.srcb with
          srvc_cache :=
            (bta_gattc_disc_res_cback env w GATT_DISC_INC_SRVC p_data).srcb.srvc_cache }) ∧
    (env.BTA_GATTC_MAX_CACHE_CHAR ≤ w.srcb.next_avail_idx →
      (bta_gattc_disc_res_cback env w GATT_DISC_INC_SRVC p_data).srcb =
        { w.srcb with
          srvc_cache :=
            (bta_gattc_disc_res_cback env w GATT_DISC_INC_SRVC p_data).srcb.srvc_cache }) ∧
    (∀ list, w.srcb.p_srvc_list = some list →
      w.srcb.next_avail_idx < env.BTA_GATTC_MAX_CACHE_CHAR →
      p_data.value.incl_service.s_handle ≠ 0 →
      p_data.value.incl_service.s_handle ≤ p_data.value.incl_service.e_handle →
      (∀ i, i < w.srcb.next_avail_idx →
        (rec_at w.srcb i).s_handle ≤ (rec_at w.srcb i).e_handle ∧
        ∀ h, ¬ ((p_data.value.incl_service.s_handle ≤ h ∧
                  h ≤ p_data.value.incl_service.e_handle) ∧
                ((rec_at w.srcb i).s_handle ≤ h ∧ h ≤ (rec_at w.srcb i).e_handle))) →
      (bta_gattc_disc_res_cback env w GATT_DISC_INC_SRVC p_data).srcb =
        { w.srcb with
          srvc_cache :=
            (bta_gattc_disc_res_cback env w GATT_DISC_INC_SRVC p_data).srcb.srvc_cache
          p_srvc_list := some (list.set w.srcb.next_avail_idx
            { list.getD w.srcb.next_avail_idx default with
              s_handle := p_data.value.incl_service.s_handle
              e_handle := p_data.value.incl_service.e_handle
              is_primary := false
              uuid := p_data.value.incl_service.service_type })
          total_srvc := (w.srcb.total_srvc + 1) % 256
          next_avail_idx := (w.srcb.next_avail_idx + 1) % 256 }) := by
  have hsrcb := disc_res_cback_incl env w p_clcb p_data hclcb hst
  refine ⟨?_, ?_, ?_⟩
  · intro h
    rw [(srvc_in_list_iff w.srcb _ _ p_data.value.incl_service.service_type).2 h] at hsrcb
    exact hsrcb
  · intro hfull
    cases hin : bta_gattc_srvc_in_list w.srcb p_data.value.incl_service.s_handle
        p_data.value.incl_service.e_handle p_data.value.incl_service.service_type with
    | true =>
      rw [hin] at hsrcb
      exact hsrcb
    | false =>
      rw [hin, add_srvc_to_list_full env _ _ _ _ _ hfull] at hsrcb
      exact hsrcb
  · intro list hbuf hroom hs hse hrec
    have hin : bta_gattc_srvc_in_list w.srcb p_data.value.incl_service.s_handle
        p_data.value.incl_service.e_handle p_data.value.incl_service.service_type = false := by
      rw [← Bool.not_eq_true, srvc_in_list_iff]
      rintro (h0 | h0 | ⟨i, hi, h0⟩)
      · exact hs h0
      · omega
      · obtain ⟨hwf, hdis⟩ := hrec i hi
        rcases h0 with h0 | h0
        · exact hdis p_data.value.incl_service.s_handle
            ⟨⟨Nat.le_refl _, hse⟩, ⟨by omega, by omega⟩⟩
        · exact hdis p_data.value.incl_service.e_handle
            ⟨⟨hse, Nat.le_refl _⟩, ⟨by omega, by omega⟩⟩
    rw [hin] at hsrcb
    rw [hsrcb, if_neg Bool.false_ne_true]
    unfold bta_gattc_add_srvc_to_list
    rw [hbuf]
    dsimp only
    rw [if_pos hroom]

/-- C28, counterexample. Two passes in protocol order. With the primaries `[1, 10]` and
`[20, 30]` buffered, the result naming `[25, 30]` appends nothing although no record has that
range (the end handle 30 is that of `[20, 30]`). With a buffer of two records holding the two
primaries, the result naming `[40, 50]` appends nothing although no record has that range
(the buffer is full). -/
theorem incl_result_shared_end_or_full :
    in_protocol_order scenario_env (start_discovery scenario_env default)
      (two_primaries_pass ++ [incl_result 2 25 30 0x181A]) = true ∧
    (∀ i, i < (scenario_run two_primaries_pass).srcb.next_avail_idx →
      ¬ ((rec_at (scenario_run two_primaries_pass).srcb i).s_handle = 25 ∧
          (rec_at (scenario_run two_primaries_pass).srcb i).e_handle = 30)) ∧
    (scenario_run (two_primaries_pass ++ [incl_result 2 25 30 0x181A])).srcb =
      (scenario_run two_primaries_pass).srcb ∧
    in_protocol_order two_slot_env (start_discovery two_slot_env default)
      (two_primaries_pass ++ [incl_result 2 40 50 0x181A]) = true ∧
    (∀ i, i < (two_slot_run two_primaries_pass).srcb.next_avail_idx →
      ¬ ((rec_at (two_slot_run two_primaries_pass).srcb i).s_handle = 40 ∧
          (rec_at (two_slot_run two_primaries_pass).srcb i).e_handle = 50)) ∧
    (two_slot_run (two_primaries_pass ++ [incl_result 2 40 50 0x181A])).srcb =
      (two_slot_run two_primaries_pass).srcb := by
  decide

theorem incl_result_buffer_witness :
    (scenario_run two_primaries_pass).clcb =
      some { bta_conn_id := 0, state := BTA_GATTC_DISCOVER_ST, status := GATT_SUCCESS } ∧
    (bta_gattc_disc_res_cback scenario_env (scenario_run two_primaries_pass)
        GATT_DISC_INC_SRVC (incl_data 2 25 30 0x181A)).srcb.next_avail_idx = 2 ∧
    (bta_gattc_disc_res_cback scenario_env (scenario_run two_primaries_pass)
        GATT_DISC_INC_SRVC (incl_data 2 40 50 0x181A)).srcb.next_avail_idx = 3 ∧
    (bta_gattc_disc_res_cback scenario_env (scenario_run two_primaries_pass)
        GATT_DISC_INC_SRVC (incl_data 2 40 50 0x181A)).srcb.total_srvc = 3 := by
  have h0 : rec_at (scenario_run two_primaries_pass).srcb 0 =
      { uuid := 0x1800, s_handle := 1, e_handle := 10, char_decl_handle := 0,
        is_primary := true, property := 0 } := by decide
  have h1 : rec_at (scenario_run two_primaries_pass).srcb 1 =
      { uuid := 0x180F, s_handle := 20, e_handle := 30, char_decl_handle := 0,
        is_primary := true, property := 0 } := by decide
  have hn : (scenario_run two_primaries_pass).srcb.next_avail_idx = 2 := by decide
  have hshared := (incl_result_buffer scenario_env (scenario_run two_primaries_pass)
    { bta_conn_id := 0, state := BTA_GATTC_DISCOVER_ST, status := GATT_SUCCESS }
    (incl_data 2 25 30 0x181A) (by decide) rfl).1
    (Or.inr (Or.inr ⟨1, by decide, Or.inr (by decide)⟩))
  have hroom := (incl_result_buffer scenario_env (scenario_run two_primaries_pass)
    { bta_conn_id := 0, state := BTA_GATTC_DISCOVER_ST, status := GATT_SUCCESS }
    (incl_data 2 40 50 0x181A) (by decide) rfl).2.2
    (((scenario_run two_primaries_pass).srcb.p_srvc_list).getD []) (by decide) (by decide)
    (by decide) (by decide)
    (by
      intro i hi
      rw [hn] at hi
      have hi2 : i = 0 ∨ i = 1 := by omega
      rcases hi2 with rfl | rfl
      · rw [h0]
        refine ⟨by decide, fun h hh => ?_⟩
        simp only [incl_data] at hh
        omega
      · rw [h1]
        refine ⟨by decide, fun h hh => ?_⟩
        simp only [incl_data] at hh
        omega)
  refine ⟨by decide, ?_, ?_, ?_⟩
  · rw [hshared]
    exact hn
  · rw [hroom]
    decide
  · rw [hroom]
    decide

/-- C29, amended. For every included-service handle pair with start `0x0000` or end `0x0000`,
`bta_gattc_srvc_in_list` reports the service as already present, and the `INC_SRVC` result
leaves the buffer, its counters and cursors unchanged; for a pair of non-zero handles the
answer depends only on whether one of the first `next_avail_idx` records has the same start or
the same end handle, whatever the order of start and end. -/
theorem zero_handle_reported_present :
    (∀ p_srvc_cb s_handle e_handle uuid, s_handle = 0 ∨ e_handle = 0 →
      bta_gattc_srvc_in_list p_srvc_cb s_handle e_handle uuid = true) ∧
    (∀ env w p_data,
      p_data.value.incl_service.s_handle = 0 ∨ p_data.value.incl_service.e_handle = 0 →
      (bta_gattc_disc_res_cback env w GATT_DISC_INC_SRVC p_data).srcb =
        { w.srcb with
          srvc_cache :=
            (bta_gattc_disc_res_cback env w GATT_DISC_INC_SRVC p_data).srcb.srvc_cache }) ∧
    (∀ p_srvc_cb s_handle e_handle uuid, s_handle ≠ 0 → e_handle ≠ 0 →
      (bta_gattc_srvc_in_list p_srvc_cb s_handle e_handle uuid = true ↔
        ∃ i, i < p_srvc_cb.next_avail_idx ∧
          ((rec_at p_srvc_cb i).s_handle = s_handle ∨
            (rec_at p_srvc_cb i).e_handle = e_handle))) := by
  refine ⟨?_, ?_, ?_⟩
  · intro p s e u h
    rw [srvc_in_list_iff]
    rcases h with h | h
    · exact Or.inl h
    · exact Or.inr (Or.inl h)
  · intro env w p_data h
    cases hc : w.clcb with
    | none =>
      rw [disc_res_cback_ignored env w _ p_data (fun c hc2 => by rw [hc] at hc2; cases hc2)]
    | some c =>
      by_cases hst : c.state = BTA_GATTC_DISCOVER_ST
      · have hsrcb := disc_res_cback_incl env w c p_data hc hst
        have hin : bta_gattc_srvc_in_list w.srcb p_data.value.incl_service.s_handle
            p_data.value.incl_service.e_handle p_data.value.incl_service.service_type =
            true := by
          rw [srvc_in_list_iff]
          rcases h with h | h
          · exact Or.inl h
          · exact Or.inr (Or.inl h)
        rw [hin] at hsrcb
        exact hsrcb
      · rw [disc_res_cback_ignored env w _ p_data
          (fun c2 hc2 => by rw [hc] at hc2; cases hc2; exact hst)]
  · intro p s e u hs he
    rw [srvc_in_list_iff]
    constructor
    · rintro (h | h | h)
      · exact absurd h hs
      · exact absurd h he
      · exact h
    · intro h
      exact Or.inr (Or.inr h)

/-- C29, counterexample. A pass in protocol order: with the primaries `[1, 10]` and `[20, 30]`
buffered, the result naming the pair `(50, 40)`, whose start is above its end, is not reported
as present, and the record `{s_handle = 50, e_handle = 40}` is appended to the buffer. -/
theorem inverted_pair_appended :
    in_protocol_order scenario_env (start_discovery scenario_env default)
      (two_primaries_pass ++ [incl_result 2 50 40 0x181A]) = true ∧
    50 > 40 ∧
    bta_gattc_srvc_in_list (scenario_run two_primaries_pass).srcb 50 40 0x181A = false ∧
    (scenario_run two_primaries_pass).srcb.next_avail_idx = 2 ∧
    (scenario_run (two_primaries_pass ++ [incl_result 2 50 40 0x181A])).srcb.next_avail_idx =
      3 ∧
    rec_at (scenario_run (two_primaries_pass ++ [incl_result 2 50 40 0x181A])).srcb 2 =
      { uuid := 0x181A, s_handle := 50, e_handle := 40, char_decl_handle := 0,
        is_primary := false, property := 0 } := by
  decide

/-- C30, the code at the failing input. A pass in protocol order: with the primaries `[1, 10]`
and `[20, 30]` buffered, `bta_gattc_srvc_in_list` returns `false` for the pair `(5, 15)` of
non-zero handles although the handle 5 lies in `[5, 15]` and in the range `[1, 10]` of the
first record; the result naming `[5, 15]` appends that record, so that the buffer holds two
services with overlapping ranges. -/
theorem srvc_in_list_admits_overlap :
    in_protocol_order scenario_env (start_discovery scenario_env default)
      (two_primaries_pass ++ [incl_result 2 5 15 0x181A]) = true ∧
    (scenario_run two_primaries_pass).srcb.next_avail_idx = 2 ∧
    rec_at (scenario_run two_primaries_pass).srcb 0 =
      { uuid := 0x1800, s_handle := 1, e_handle := 10, char_decl_handle := 0,
        is_primary := true, property := 0 } ∧
    bta_gattc_srvc_in_list (scenario_run two_primaries_pass).srcb 5 15 0x181A = false ∧
    ((5 ≤ 5 ∧ 5 ≤ 15) ∧
      (rec_at (scenario_run two_primaries_pass).srcb 0).s_handle ≤ 5 ∧
      5 ≤ (rec_at (scenario_run two_primaries_pass).srcb 0).e_handle) ∧
    (scenario_run (two_primaries_pass ++ [incl_result 2 5 15 0x181A])).srcb.next_avail_idx =
      3 ∧
    rec_at (scenario_run (two_primaries_pass ++ [incl_result 2 5 15 0x181A])).srcb 2 =
      { uuid := 0x181A, s_handle := 5, e_handle := 15, char_decl_handle := 0,
        is_primary := false, property := 0 } ∧
    ¬ disjoint_records
      (rec_at (scenario_run (two_primaries_pass ++ [incl_result 2 5 15 0x181A])).srcb 0)
      (rec_at (scenario_run (two_primaries_pass ++ [incl_result 2 5 15 0x181A])).srcb 2) := by
  refine ⟨by decide, by decide, by decide, by decide, by decide, by decide, by decide, ?_⟩
  intro h
  have h0 : rec_at (scenario_run (two_primaries_pass ++ [incl_result 2 5 15 0x181A])).srcb 0 =
      { uuid := 0x1800, s_handle := 1, e_handle := 10, char_decl_handle := 0,
        is_primary := true, property := 0 } := by decide
  have h2 : rec_at (scenario_run (two_primaries_pass ++ [incl_result 2 5 15 0x181A])).srcb 2 =
      { uuid := 0x181A, s_handle := 5, e_handle := 15, char_decl_handle := 0,
        is_primary := false, property := 0 } := by decide
  rw [h0, h2] at h
  exact h 5 (by decide)

/-! ## The chain of descriptor completions -/

theorem char_dscpt_disc_cmpl_entries_fst (env : Env) (fuel : Nat) (w : World) :
    (char_dscpt_disc_cmpl_entries env fuel w).1 = char_dscpt_disc_cmpl_fuel env fuel w := by
  induction fuel generalizing w with
  | zero => rfl
  | succ fuel ih =>
    unfold char_dscpt_disc_cmpl_entries char_dscpt_disc_cmpl_fuel bta_gattc_start_disc_char_dscp
    dsimp only
    split
    · split
      · exact ih _
      · rfl
    · rfl

/-- The depth bound of `char_dscpt_disc_cmpl_fuel` is never reached: every bound above the
8-bit counter after its decrement gives the same result. -/
theorem char_dscpt_disc_cmpl_fuel_irrelevant (env : Env) (fuel1 fuel2 : Nat) (w : World)
    (h1 : (w.srcb.total_char + 255) % 256 < fuel1)
    (h2 : (w.srcb.total_char + 255) % 256 < fuel2) :
    char_dscpt_disc_cmpl_fuel env fuel1 w = char_dscpt_disc_cmpl_fuel env fuel2 w := by
  induction fuel1 generalizing fuel2 w with
  | zero => omega
  | succ f1 ih =>
    cases fuel2 with
    | zero => omega
    | succ f2 =>
      unfold char_dscpt_disc_cmpl_fuel bta_gattc_start_disc_char_dscp
      dsimp only
      split
      · rename_i hpos
        split
        · apply ih
          · rw [(discover_procedure_spec env _ GATT_DISC_CHAR_DSCPT).1]
            show ((w.srcb.total_char + 255) % 256 + 255) % 256 < f1
            omega
          · rw [(discover_procedure_spec env _ GATT_DISC_CHAR_DSCPT).1]
            show ((w.srcb.total_char + 255) % 256 + 255) % 256 < f2
            omega
        · rfl
      · rfl

/-- The recursion of the source: `bta_gattc_char_dscpt_disc_cmpl` decrements `total_char`
and either lifts the next characteristic and starts its descriptor discovery, with itself as
the completion run at once, or moves to the next service. -/
theorem char_dscpt_disc_cmpl_unfold (env : Env) (w : World) :
    bta_gattc_char_dscpt_disc_cmpl env w =
      if (w.srcb.total_char + 255) % 256 > 0 then
        bta_gattc_start_disc_char_dscp env (bta_gattc_char_dscpt_disc_cmpl env)
          (add_cur_char_to_cache
            { w with srcb := { w.srcb with
                total_char := (w.srcb.total_char + 255) % 256
                cur_char_idx := (w.srcb.cur_char_idx + 1) % 256 } })
      else
        bta_gattc_explore_srvc env
          { w with srcb := { w.srcb with
              total_char := (w.srcb.total_char + 255) % 256
              cur_srvc_idx := (w.srcb.cur_srvc_idx + 1) % 256 } } := by
  have hsucc : bta_gattc_char_dscpt_disc_cmpl env w =
      if (w.srcb.total_char + 255) % 256 > 0 then
        bta_gattc_start_disc_char_dscp env (char_dscpt_disc_cmpl_fuel env 255)
          (add_cur_char_to_cache
            { w with srcb := { w.srcb with
                total_char := (w.srcb.total_char + 255) % 256
                cur_char_idx := (w.srcb.cur_char_idx + 1) % 256 } })
      else
        bta_gattc_explore_srvc env
          { w with srcb := { w.srcb with
              total_char := (w.srcb.total_char + 255) % 256
              cur_srvc_idx := (w.srcb.cur_srvc_idx + 1) % 256 } } := rfl
  rw [hsucc]
  by_cases hpos : (w.srcb.total_char + 255) % 256 > 0
  · rw [if_pos hpos, if_pos hpos]
    unfold bta_gattc_start_disc_char_dscp
    dsimp only
    split
    · unfold bta_gattc_char_dscpt_disc_cmpl
      apply char_dscpt_disc_cmpl_fuel_irrelevant
      · rw [(discover_procedure_spec env _ GATT_DISC_CHAR_DSCPT).1]
        show ((w.srcb.total_char + 255) % 256 + 255) % 256 < 255
        omega
      · rw [(discover_procedure_spec env _ GATT_DISC_CHAR_DSCPT).1]
        show ((w.srcb.total_char + 255) % 256 + 255) % 256 < 256
        omega
    · rfl
  · rw [if_neg hpos, if_neg hpos]

theorem discover_procedure_dscpt_empty (env : Env) (w : World)
    (h : ((rec_at w.srcb w.srcb.cur_char_idx).s_handle + 1) % 65536 >
      (rec_at w.srcb w.srcb.cur_char_idx).e_handle) :
    bta_gattc_discover_procedure env w GATT_DISC_CHAR_DSCPT = (w, GATT_ERROR) := by
  unfold bta_gattc_discover_procedure bta_gattc_get_disc_range
  rw [if_neg (by decide)]
  simp only [if_true, Bool.false_eq_true, if_false]
  rw [if_pos h]

theorem discover_procedure_dscpt_issued (env : Env) (w : World)
    (h : ¬ ((rec_at w.srcb w.srcb.cur_char_idx).s_handle + 1) % 65536 >
      (rec_at w.srcb w.srcb.cur_char_idx).e_handle) :
    bta_gattc_discover_procedure env w GATT_DISC_CHAR_DSCPT =
      ({ w with trace := w.trace ++
          [Effect.GATTC_Discover GATT_DISC_CHAR_DSCPT
            (((rec_at w.srcb w.srcb.cur_char_idx).s_handle + 1) % 65536)
            (rec_at w.srcb w.srcb.cur_char_idx).e_handle
            (env.GATTC_Discover w.trace GATT_DISC_CHAR_DSCPT
              (((rec_at w.srcb w.srcb.cur_char_idx).s_handle + 1) % 65536)
              (rec_at w.srcb w.srcb.cur_char_idx).e_handle)] },
        env.GATTC_Discover w.trace GATT_DISC_CHAR_DSCPT
          (((rec_at w.srcb w.srcb.cur_char_idx).s_handle + 1) % 65536)
          (rec_at w.srcb w.srcb.cur_char_idx).e_handle) := by
  unfold bta_gattc_discover_procedure bta_gattc_get_disc_range
  rw [if_neg (by decide)]
  simp only [if_true, Bool.false_eq_true, if_false]
  rw [if_neg h]

theorem insert_next_chars_succ (n : Nat) (p : tBTA_GATTC_SERV) :
    insert_next_chars (n + 1) p =
      insert_next_chars n
        { p with
          cur_char_idx := (p.cur_char_idx + 1) % 256
          srvc_cache := bta_gattc_add_char_to_cache p.srvc_cache
            (rec_at p ((p.cur_char_idx + 1) % 256)).char_decl_handle
            (rec_at p ((p.cur_char_idx + 1) % 256)).s_handle
            (rec_at p ((p.cur_char_idx + 1) % 256)).uuid
            (rec_at p ((p.cur_char_idx + 1) % 256)).property } := rfl

theorem insert_next_chars_total_char (n : Nat) (p : tBTA_GATTC_SERV) (t : Nat) :
    insert_next_chars n { p with total_char := t } =
      { insert_next_chars n p with total_char := t } := by
  induction n generalizing p with
  | zero => rfl
  | succ n ih =>
    exact ih
      { p with
        cur_char_idx := (p.cur_char_idx + 1) % 256
        srvc_cache := bta_gattc_add_char_to_cache p.srvc_cache
          (rec_at p ((p.cur_char_idx + 1) % 256)).char_decl_handle
          (rec_at p ((p.cur_char_idx + 1) % 256)).s_handle
          (rec_at p ((p.cur_char_idx + 1) % 256)).uuid
          (rec_at p ((p.cur_char_idx + 1) % 256)).property }

theorem insert_next_chars_buffer (n : Nat) (p : tBTA_GATTC_SERV) :
    (insert_next_chars n p).p_srvc_list = p.p_srvc_list ∧
    (insert_next_chars n p).total_srvc = p.total_srvc ∧
    (insert_next_chars n p).next_avail_idx = p.next_avail_idx ∧
    (insert_next_chars n p).cur_srvc_idx = p.cur_srvc_idx ∧
    (insert_next_chars n p).total_char = p.total_char ∧
    (insert_next_chars n p).state = p.state := by
  induction n generalizing p with
  | zero => exact ⟨rfl, rfl, rfl, rfl, rfl, rfl⟩
  | succ n ih =>
    exact ih
      { p with
        cur_char_idx := (p.cur_char_idx + 1) % 256
        srvc_cache := bta_gattc_add_char_to_cache p.srvc_cache
          (rec_at p ((p.cur_char_idx + 1) % 256)).char_decl_handle
          (rec_at p ((p.cur_char_idx + 1) % 256)).s_handle
          (rec_at p ((p.cur_char_idx + 1) % 256)).uuid
          (rec_at p ((p.cur_char_idx + 1) % 256)).property }

/-- The chain of completions when the descriptor range of every remaining characteristic is
empty: `n + 1` activations, the `n` remaining characteristics lifted, then
`bta_gattc_explore_srvc` on the next service. -/
theorem dscpt_chain_all_empty (env : Env) (n : Nat) : ∀ (fuel : Nat) (w : World),
    w.srcb.total_char = n + 1 → n + 1 ≤ 255 → n + 1 ≤ fuel →
    (∀ j, 1 ≤ j → j ≤ n →
      ((rec_at w.srcb ((w.srcb.cur_char_idx + j) % 256)).s_handle + 1) % 65536 >
        (rec_at w.srcb ((w.srcb.cur_char_idx + j) % 256)).e_handle) →
    (char_dscpt_disc_cmpl_entries env fuel w).1 =
      bta_gattc_explore_srvc env
        { w with srcb := { insert_next_chars n w.srcb with
            total_char := 0
            cur_srvc_idx := (w.srcb.cur_srvc_idx + 1) % 256 } } ∧
    (char_dscpt_disc_cmpl_entries env fuel w).2.length = n + 1 := by
  induction n with
  | zero =>
    intro fuel w htc h8 hfuel hempty
    obtain ⟨f, rfl⟩ : ∃ f, fuel = f + 1 := ⟨fuel - 1, by omega⟩
    have h0 : (w.srcb.total_char + 255) % 256 = 0 := by omega
    unfold char_dscpt_disc_cmpl_entries
    dsimp only
    rw [h0, if_neg (by decide)]
    exact ⟨rfl, rfl⟩
  | succ n ih =>
    intro fuel w htc h8 hfuel hempty
    obtain ⟨f, rfl⟩ : ∃ f, fuel = f + 1 := ⟨fuel - 1, by omega⟩
    have h0 : (w.srcb.total_char + 255) % 256 = n + 1 := by omega
    have hrange := hempty 1 (Nat.le_refl _) (by omega)
    unfold char_dscpt_disc_cmpl_entries
    dsimp only
    rw [h0, if_pos (by omega)]
    rw [discover_procedure_dscpt_empty env _ hrange]
    dsimp only
    rw [if_pos (by decide)]
    have hih := ih f
      (add_cur_char_to_cache
        { w with srcb := { w.srcb with
            total_char := n + 1
            cur_char_idx := (w.srcb.cur_char_idx + 1) % 256 } })
      rfl (by omega) (by omega)
      (by
        intro j hj1 hjn
        have := hempty (j + 1) (by omega) (by omega)
        have hidx : ((w.srcb.cur_char_idx + 1) % 256 + j) % 256 =
            (w.srcb.cur_char_idx + (j + 1)) % 256 := by omega
        show ((rec_at w.srcb (((w.srcb.cur_char_idx + 1) % 256 + j) % 256)).s_handle + 1)
            % 65536 > (rec_at w.srcb (((w.srcb.cur_char_idx + 1) % 256 + j) % 256)).e_handle
        rw [hidx]
        exact this)
    refine ⟨?_, ?_⟩
    · rw [hih.1]
      have key := insert_next_chars_total_char n
        { w.srcb with
          cur_char_idx := (w.srcb.cur_char_idx + 1) % 256
          srvc_cache := bta_gattc_add_char_to_cache w.srcb.srvc_cache
            (rec_at w.srcb ((w.srcb.cur_char_idx + 1) % 256)).char_decl_handle
            (rec_at w.srcb ((w.srcb.cur_char_idx + 1) % 256)).s_handle
            (rec_at w.srcb ((w.srcb.cur_char_idx + 1) % 256)).uuid
            (rec_at w.srcb ((w.srcb.cur_char_idx + 1) % 256)).property } (n + 1)
      show bta_gattc_explore_srvc env
          { w with srcb :=
            { insert_next_chars n
                { w.srcb with
                  cur_char_idx := (w.srcb.cur_char_idx + 1) % 256
                  srvc_cache := bta_gattc_add_char_to_cache w.srcb.srvc_cache
                    (rec_at w.srcb ((w.srcb.cur_char_idx + 1) % 256)).char_decl_handle
                    (rec_at w.srcb ((w.srcb.cur_char_idx + 1) % 256)).s_handle
                    (rec_at w.srcb ((w.srcb.cur_char_idx + 1) % 256)).uuid
                    (rec_at w.srcb ((w.srcb.cur_char_idx + 1) % 256)).property
                  total_char := n + 1 } with
              total_char := 0
              cur_srvc_idx := (w.srcb.cur_srvc_idx + 1) % 256 } } = _
      rw [key]
      rfl
    · rw [List.length_cons, hih.2]

theorem rec_at_replicate (p : tBTA_GATTC_SERV) (n i : Nat)
    (h : p.p_srvc_list = some (List.replicate n default)) : rec_at p i = default := by
  unfold rec_at
  rw [h]
  simp only [Option.getD_some, List.getD_eq_getElem?_getD]
  by_cases hi : i < n
  · rw [List.getElem?_eq_getElem (by simpa using hi)]
    simp
  · rw [List.getElem?_eq_none (by simpa using hi)]
    rfl

theorem accepted_request_refused (t : tGATT_DISC_TYPE) (s e : Nat) (st : tGATT_STATUS)
    (h : st ≠ GATT_SUCCESS) : accepted_request (Effect.GATTC_Discover t s e st) = none := by
  cases st <;> first | rfl | exact absurd rfl h

theorem strict_env_refuses : refuses_reserved_handle strict_env := by
  intro tr t e
  simp [strict_env, GATT_HANDLE_IS_VALID]

/-- A descriptor discovery over an empty range is not issued: either `GATTC_Discover` is not
called at all, or (value handle `0xFFFF`, start wrapped to `0x0000`) it is called and
refuses. -/
theorem discover_procedure_dscpt_skipped (env : Env) (w : World)
    (hempty : empty_descriptor_range (rec_at w.srcb w.srcb.cur_char_idx))
    (hrefuse : (rec_at w.srcb w.srcb.cur_char_idx).s_handle = 0xFFFF →
      refuses_reserved_handle env) :
    ∃ tr, (∀ e ∈ tr, accepted_request e = none) ∧
      ((rec_at w.srcb w.srcb.cur_char_idx).s_handle < 0xFFFF → tr = []) ∧
      (bta_gattc_discover_procedure env w GATT_DISC_CHAR_DSCPT).1 =
        { w with trace := w.trace ++ tr } ∧
      (bta_gattc_discover_procedure env w GATT_DISC_CHAR_DSCPT).2 ≠ GATT_SUCCESS := by
  obtain ⟨h16, hgt⟩ := hempty
  by_cases hlast : (rec_at w.srcb w.srcb.cur_char_idx).s_handle = 0xFFFF
  · have hno : ¬ ((rec_at w.srcb w.srcb.cur_char_idx).s_handle + 1) % 65536 >
        (rec_at w.srcb w.srcb.cur_char_idx).e_handle := by
      rw [hlast]
      simp
    have h0 : ((rec_at w.srcb w.srcb.cur_char_idx).s_handle + 1) % 65536 = 0 := by
      rw [hlast]
    have hd := discover_procedure_dscpt_issued env w hno
    rw [h0] at hd
    have hst := hrefuse hlast w.trace GATT_DISC_CHAR_DSCPT
      (rec_at w.srcb w.srcb.cur_char_idx).e_handle
    refine ⟨[Effect.GATTC_Discover GATT_DISC_CHAR_DSCPT 0
        (rec_at w.srcb w.srcb.cur_char_idx).e_handle
        (env.GATTC_Discover w.trace GATT_DISC_CHAR_DSCPT 0
          (rec_at w.srcb w.srcb.cur_char_idx).e_handle)], ?_, ?_, ?_, ?_⟩
    · intro e he
      rw [List.mem_singleton.1 he]
      exact accepted_request_refused _ _ _ _ hst
    · intro hlt
      omega
    · rw [hd]
    · rw [hd]
      exact hst
  · have h2 : ((rec_at w.srcb w.srcb.cur_char_idx).s_handle + 1) % 65536 >
        (rec_at w.srcb w.srcb.cur_char_idx).e_handle := by omega
    have hd := discover_procedure_dscpt_empty env w h2
    refine ⟨[], ?_, fun _ => rfl, ?_, ?_⟩
    · intro e he
      simp at he
    · rw [hd, List.append_nil]
    · rw [hd]
      exact fun h => tGATT_STATUS.noConfusion h

/-- C31. For every current characteristic record whose descriptor range is empty
(`value_handle + 1 > e_handle` with a 16-bit value handle, `0xFFFF` included),
`bta_gattc_start_disc_char_dscp` has no descriptor-discovery request accepted and runs the
`CHAR_DSCPT` completion at once: below `0xFFFF` `GATTC_Discover` is not called, at `0xFFFF`
the start handle wraps to the reserved `0x0000` and `GATTC_Discover`, which refuses that
handle, is called and refuses. The completion, `bta_gattc_char_dscpt_disc_cmpl`, then lifts
the next characteristic of the service or moves `cur_srvc_idx` to the next service. Scenario 1
ends with one service, one characteristic, no descriptor and no descriptor request; the pass
over the service `[1, 0xFFFF]` with the characteristic `0xFFFE/0xFFFF` completes with no
descriptor request accepted. -/
theorem start_disc_char_dscp_empty_range (env : Env) (w : World)
    (hempty : empty_descriptor_range (rec_at w.srcb w.srcb.cur_char_idx))
    (hrefuse : (rec_at w.srcb w.srcb.cur_char_idx).s_handle = 0xFFFF →
      refuses_reserved_handle env) :
    (∃ w2 tr, w2 = { w with trace := w.trace ++ tr } ∧
      (∀ e ∈ tr, accepted_request e = none) ∧
      ((rec_at w.srcb w.srcb.cur_char_idx).s_handle < 0xFFFF → tr = []) ∧
      (∀ cmpl, bta_gattc_start_disc_char_dscp env cmpl w = cmpl w2) ∧
      bta_gattc_start_disc_char_dscp env (bta_gattc_char_dscpt_disc_cmpl env) w =
        if (w.srcb.total_char + 255) % 256 > 0 then
          bta_gattc_start_disc_char_dscp env (bta_gattc_char_dscpt_disc_cmpl env)
            (add_cur_char_to_cache
              { w2 with srcb := { w.srcb with
                  total_char := (w.srcb.total_char + 255) % 256
                  cur_char_idx := (w.srcb.cur_char_idx + 1) % 256 } })
        else
          bta_gattc_explore_srvc env
            { w2 with srcb := { w.srcb with
                total_char := (w.srcb.total_char + 255) % 256
                cur_srvc_idx := (w.srcb.cur_srvc_idx + 1) % 256 } }) ∧
    (in_protocol_order scenario_env (start_discovery scenario_env default) scenario1_pass =
        true ∧
      pass_complete (scenario_run scenario1_pass) = true ∧
      dscpt_requests (scenario_run scenario1_pass).trace = [] ∧
      (scenario_run scenario1_pass).srcb.srvc_cache =
        [{ s_handle := 1, e_handle := 3, is_primary := true, uuid := 0x1800, handle := 1,
           characteristics :=
             [{ handle := 3, properties := 0x02, uuid := 0x2A00, descriptors := [] }],
           included_svc := [] }]) ∧
    (in_protocol_order strict_env (start_discovery strict_env default)
        (last_handle_pass ++ [cmpl_ok GATT_DISC_CHAR]) = true ∧
      (rec_at (strict_run last_handle_pass).srcb
        (strict_run last_handle_pass).srcb.cur_char_idx).s_handle = 0xFFFF ∧
      (rec_at (strict_run last_handle_pass).srcb
        (strict_run last_handle_pass).srcb.cur_char_idx).e_handle = 0xFFFF ∧
      pass_complete (strict_run (last_handle_pass ++ [cmpl_ok GATT_DISC_CHAR])) = true ∧
      (strict_run (last_handle_pass ++ [cmpl_ok GATT_DISC_CHAR])).trace.filterMap
          accepted_request =
        [GATT_DISC_SRVC_ALL, GATT_DISC_INC_SRVC, GATT_DISC_CHAR] ∧
      (strict_run (last_handle_pass ++ [cmpl_ok GATT_DISC_CHAR])).srcb.cur_srvc_idx = 1 ∧
      (strict_run (last_handle_pass ++ [cmpl_ok GATT_DISC_CHAR])).srcb.srvc_cache =
        [{ s_handle := 1, e_handle := 0xFFFF, is_primary := true, uuid := 0x1801, handle := 1,
           characteristics :=
             [{ handle := 0xFFFF, properties := 0x02, uuid := 0x2A19, descriptors := [] }],
           included_svc := [] }]) := by
  refine ⟨?_, by decide, by decide⟩
  obtain ⟨tr, hnone, hlt, hw, hst⟩ := discover_procedure_dscpt_skipped env w hempty hrefuse
  have hstart : ∀ cmpl, bta_gattc_start_disc_char_dscp env cmpl w =
      cmpl { w with trace := w.trace ++ tr } := by
    intro cmpl
    unfold bta_gattc_start_disc_char_dscp
    dsimp only
    rw [if_pos hst, hw]
  refine ⟨_, tr, rfl, hnone, hlt, hstart, ?_⟩
  rw [hstart, char_dscpt_disc_cmpl_unfold]

/-- C31, witness: the characteristic with value handle `0xFFFF` in the service
`[1, 0xFFFF]`, with a `GATTC_Discover` that checks the handles. -/
theorem start_disc_char_dscp_empty_range_witness :
    empty_descriptor_range (rec_at (strict_run last_handle_pass).srcb
      (strict_run last_handle_pass).srcb.cur_char_idx) ∧
    ((rec_at (strict_run last_handle_pass).srcb
        (strict_run last_handle_pass).srcb.cur_char_idx).s_handle = 0xFFFF →
      refuses_reserved_handle strict_env) ∧
    ∃ w2 tr, w2 = { strict_run last_handle_pass with
        trace := (strict_run last_handle_pass).trace ++ tr } ∧
      (∀ e ∈ tr, accepted_request e = none) ∧
      ((rec_at (strict_run last_handle_pass).srcb
          (strict_run last_handle_pass).srcb.cur_char_idx).s_handle < 0xFFFF → tr = []) ∧
      (∀ cmpl, bta_gattc_start_disc_char_dscp strict_env cmpl (strict_run last_handle_pass) =
        cmpl w2) ∧
      bta_gattc_start_disc_char_dscp strict_env (bta_gattc_char_dscpt_disc_cmpl strict_env)
          (strict_run last_handle_pass) =
        if ((strict_run last_handle_pass).srcb.total_char + 255) % 256 > 0 then
          bta_gattc_start_disc_char_dscp strict_env (bta_gattc_char_dscpt_disc_cmpl strict_env)
            (add_cur_char_to_cache
              { w2 with srcb := { (strict_run last_handle_pass).srcb with
                  total_char := ((strict_run last_handle_pass).srcb.total_char + 255) % 256
                  cur_char_idx :=
                    ((strict_run last_handle_pass).srcb.cur_char_idx + 1) % 256 } })
        else
          bta_gattc_explore_srvc strict_env
            { w2 with srcb := { (strict_run last_handle_pass).srcb with
                total_char := ((strict_run last_handle_pass).srcb.total_char + 255) % 256
                cur_srvc_idx :=
                  ((strict_run last_handle_pass).srcb.cur_srvc_idx + 1) % 256 } } :=
  ⟨by decide, fun _ => strict_env_refuses,
    (start_disc_char_dscp_empty_range strict_env (strict_run last_handle_pass) (by decide)
      (fun _ => strict_env_refuses)).1⟩

theorem char_dscpt_disc_cmpl_entries_head (env : Env) (fuel : Nat) (w : World) :
    (char_dscpt_disc_cmpl_entries env (fuel + 1) w).2.head? = some w := by
  unfold char_dscpt_disc_cmpl_entries
  dsimp only
  split
  · split <;> rfl
  · rfl

/-- The chain entered with `total_char = 0`: the 8-bit decrement gives 255, and when the
descriptor ranges of the 255 records that follow are empty the function is entered 256
times. The records read are those of the buffer only when the buffer holds 256 records. -/
theorem dscpt_chain_wrap (env : Env) (fuel : Nat) (w : World)
    (htc : w.srcb.total_char = 0) (hfuel : 256 ≤ fuel)
    (hempty : ∀ j, 1 ≤ j → j ≤ 255 →
      ((rec_at w.srcb ((w.srcb.cur_char_idx + j) % 256)).s_handle + 1) % 65536 >
        (rec_at w.srcb ((w.srcb.cur_char_idx + j) % 256)).e_handle) :
    (char_dscpt_disc_cmpl_entries env fuel w).1 =
      bta_gattc_explore_srvc env
        { w with srcb := { insert_next_chars 255 w.srcb with
            total_char := 0
            cur_srvc_idx := (w.srcb.cur_srvc_idx + 1) % 256 } } ∧
    (char_dscpt_disc_cmpl_entries env fuel w).2.length = 256 ∧
    ((char_dscpt_disc_cmpl_entries env fuel w).2.getD 1 default).srcb.total_char = 255 := by
  obtain ⟨f, rfl⟩ : ∃ f, fuel = f + 1 := ⟨fuel - 1, by omega⟩
  obtain ⟨g, rfl⟩ : ∃ g, f = g + 1 := ⟨f - 1, by omega⟩
  have h0 : (w.srcb.total_char + 255) % 256 = 255 := by omega
  have hrange := hempty 1 (Nat.le_refl _) (by omega)
  have hih := dscpt_chain_all_empty env 254 (g + 1)
    (add_cur_char_to_cache
      { w with srcb := { w.srcb with
          total_char := 255
          cur_char_idx := (w.srcb.cur_char_idx + 1) % 256 } })
    rfl (by omega) (by omega)
    (by
      intro j hj1 hjn
      have := hempty (j + 1) (by omega) (by omega)
      have hidx : ((w.srcb.cur_char_idx + 1) % 256 + j) % 256 =
          (w.srcb.cur_char_idx + (j + 1)) % 256 := by omega
      show ((rec_at w.srcb (((w.srcb.cur_char_idx + 1) % 256 + j) % 256)).s_handle + 1)
          % 65536 > (rec_at w.srcb (((w.srcb.cur_char_idx + 1) % 256 + j) % 256)).e_handle
      rw [hidx]
      exact this)
  have hhead := char_dscpt_disc_cmpl_entries_head env g
    (add_cur_char_to_cache
      { w with srcb := { w.srcb with
          total_char := 255
          cur_char_idx := (w.srcb.cur_char_idx + 1) % 256 } })
  have hunf : char_dscpt_disc_cmpl_entries env (g + 1 + 1) w =
      ((char_dscpt_disc_cmpl_entries env (g + 1)
          (add_cur_char_to_cache
            { w with srcb := { w.srcb with
                total_char := 255
                cur_char_idx := (w.srcb.cur_char_idx + 1) % 256 } })).1,
        w :: (char_dscpt_disc_cmpl_entries env (g + 1)
          (add_cur_char_to_cache
            { w with srcb := { w.srcb with
                total_char := 255
                cur_char_idx := (w.srcb.cur_char_idx + 1) % 256 } })).2) := by
    rw [char_dscpt_disc_cmpl_entries]
    dsimp only
    rw [h0, if_pos (by decide)]
    rw [discover_procedure_dscpt_empty env _ hrange]
    dsimp only
    rw [if_pos (by decide)]
  rw [hunf]
  refine ⟨?_, ?_, ?_⟩
  · show (char_dscpt_disc_cmpl_entries env (g + 1) _).1 = _
    rw [hih.1]
    have key := insert_next_chars_total_char 254
      { w.srcb with
        cur_char_idx := (w.srcb.cur_char_idx + 1) % 256
        srvc_cache := bta_gattc_add_char_to_cache w.srcb.srvc_cache
          (rec_at w.srcb ((w.srcb.cur_char_idx + 1) % 256)).char_decl_handle
          (rec_at w.srcb ((w.srcb.cur_char_idx + 1) % 256)).s_handle
          (rec_at w.srcb ((w.srcb.cur_char_idx + 1) % 256)).uuid
          (rec_at w.srcb ((w.srcb.cur_char_idx + 1) % 256)).property } 255
    show bta_gattc_explore_srvc env
        { w with srcb :=
          { insert_next_chars 254
              { w.srcb with
                cur_char_idx := (w.srcb.cur_char_idx + 1) % 256
                srvc_cache := bta_gattc_add_char_to_cache w.srcb.srvc_cache
                  (rec_at w.srcb ((w.srcb.cur_char_idx + 1) % 256)).char_decl_handle
                  (rec_at w.srcb ((w.srcb.cur_char_idx + 1) % 256)).s_handle
                  (rec_at w.srcb ((w.srcb.cur_char_idx + 1) % 256)).uuid
                  (rec_at w.srcb ((w.srcb.cur_char_idx + 1) % 256)).property
                total_char := 255 } with
            total_char := 0
            cur_srvc_idx := (w.srcb.cur_srvc_idx + 1) % 256 } } = _
    rw [key, insert_next_chars_succ 254 w.srcb]
  · show (w :: (char_dscpt_disc_cmpl_entries env (g + 1) _).2).length = 256
    rw [List.length_cons, hih.2]
  · show ((w :: (char_dscpt_disc_cmpl_entries env (g + 1) _).2).getD 1 default).srcb.total_char
      = 255
    rw [List.getD_eq_getElem?_getD, List.getElem?_cons_succ, ← List.head?_eq_getElem?, hhead]
    rfl

/-- One step of the chain: when the descriptor discovery of the next characteristic is not
accepted, the completion runs again on the world the attempt leaves. -/
theorem char_dscpt_disc_cmpl_entries_step (env : Env) (fuel : Nat) (w : World)
    (hpos : (w.srcb.total_char + 255) % 256 > 0)
    (hst : (bta_gattc_discover_procedure env
      (add_cur_char_to_cache
        { w with srcb := { w.srcb with
            total_char := (w.srcb.total_char + 255) % 256
            cur_char_idx := (w.srcb.cur_char_idx + 1) % 256 } })
      GATT_DISC_CHAR_DSCPT).2 ≠ GATT_SUCCESS) :
    char_dscpt_disc_cmpl_entries env (fuel + 1) w =
      ((char_dscpt_disc_cmpl_entries env fuel
          (bta_gattc_discover_procedure env
            (add_cur_char_to_cache
              { w with srcb := { w.srcb with
                  total_char := (w.srcb.total_char + 255) % 256
                  cur_char_idx := (w.srcb.cur_char_idx + 1) % 256 } })
            GATT_DISC_CHAR_DSCPT).1).1,
        w :: (char_dscpt_disc_cmpl_entries env fuel
          (bta_gattc_discover_procedure env
            (add_cur_char_to_cache
              { w with srcb := { w.srcb with
                  total_char := (w.srcb.total_char + 255) % 256
                  cur_char_idx := (w.srcb.cur_char_idx + 1) % 256 } })
            GATT_DISC_CHAR_DSCPT).1).2) := by
  rw [char_dscpt_disc_cmpl_entries]
  dsimp only
  rw [if_pos hpos, if_pos hst]

/-- The chain of completions when the descriptor discovery of every remaining characteristic
is skipped: `n + 1` activations, the `n` remaining characteristics lifted, then
`bta_gattc_explore_srvc` on the next service; no request is accepted on the way. -/
theorem dscpt_chain_all_skipped (env : Env) (n : Nat) : ∀ (fuel : Nat) (w : World),
    w.srcb.total_char = n + 1 → n + 1 ≤ 255 → n + 1 ≤ fuel →
    (∀ j, 1 ≤ j → j ≤ n →
      empty_descriptor_range (rec_at w.srcb ((w.srcb.cur_char_idx + j) % 256)) ∧
      ((rec_at w.srcb ((w.srcb.cur_char_idx + j) % 256)).s_handle = 0xFFFF →
        refuses_reserved_handle env)) →
    ∃ tr, (∀ e ∈ tr, accepted_request e = none) ∧
      (char_dscpt_disc_cmpl_entries env fuel w).1 =
        bta_gattc_explore_srvc env
          { w with
            srcb := { insert_next_chars n w.srcb with
              total_char := 0
              cur_srvc_idx := (w.srcb.cur_srvc_idx + 1) % 256 }
            trace := w.trace ++ tr } ∧
      (char_dscpt_disc_cmpl_entries env fuel w).2.length = n + 1 := by
  induction n with
  | zero =>
    intro fuel w htc h8 hfuel hempty
    obtain ⟨f, rfl⟩ : ∃ f, fuel = f + 1 := ⟨fuel - 1, by omega⟩
    have h0 : (w.srcb.total_char + 255) % 256 = 0 := by omega
    refine ⟨[], fun e he => by simp at he, ?_, ?_⟩
    · unfold char_dscpt_disc_cmpl_entries
      dsimp only
      rw [h0, if_neg (by decide), List.append_nil]
      rfl
    · unfold char_dscpt_disc_cmpl_entries
      dsimp only
      rw [h0, if_neg (by decide)]
      rfl
  | succ n ih =>
    intro fuel w htc h8 hfuel hempty
    obtain ⟨f, rfl⟩ : ∃ f, fuel = f + 1 := ⟨fuel - 1, by omega⟩
    have h0 : (w.srcb.total_char + 255) % 256 = n + 1 := by omega
    have hrange := hempty 1 (Nat.le_refl _) (by omega)
    obtain ⟨tr1, hnone1, _, hw1, hst1⟩ := discover_procedure_dscpt_skipped env
      (add_cur_char_to_cache
        { w with srcb := { w.srcb with
            total_char := (w.srcb.total_char + 255) % 256
            cur_char_idx := (w.srcb.cur_char_idx + 1) % 256 } })
      hrange.1 hrange.2
    rw [char_dscpt_disc_cmpl_entries_step env f w (by omega) hst1, hw1]
    obtain ⟨tr2, hnone2, hres, hlen⟩ := ih f
      { add_cur_char_to_cache
          { w with srcb := { w.srcb with
              total_char := (w.srcb.total_char + 255) % 256
              cur_char_idx := (w.srcb.cur_char_idx + 1) % 256 } } with
        trace := w.trace ++ tr1 }
      h0 (by omega) (by omega)
      (by
        intro j hj1 hjn
        have := hempty (j + 1) (by omega) (by omega)
        have hidx : ((w.srcb.cur_char_idx + 1) % 256 + j) % 256 =
            (w.srcb.cur_char_idx + (j + 1)) % 256 := by omega
        show empty_descriptor_range
            (rec_at w.srcb (((w.srcb.cur_char_idx + 1) % 256 + j) % 256)) ∧
          ((rec_at w.srcb (((w.srcb.cur_char_idx + 1) % 256 + j) % 256)).s_handle = 0xFFFF →
            refuses_reserved_handle env)
        rw [hidx]
        exact this)
    refine ⟨tr1 ++ tr2, ?_, ?_, ?_⟩
    · intro e he
      rcases List.mem_append.1 he with h | h
      · exact hnone1 e h
      · exact hnone2 e h
    · refine Eq.trans hres ?_
      have key := insert_next_chars_total_char n
        { w.srcb with
          cur_char_idx := (w.srcb.cur_char_idx + 1) % 256
          srvc_cache := bta_gattc_add_char_to_cache w.srcb.srvc_cache
            (rec_at w.srcb ((w.srcb.cur_char_idx + 1) % 256)).char_decl_handle
            (rec_at w.srcb ((w.srcb.cur_char_idx + 1) % 256)).s_handle
            (rec_at w.srcb ((w.srcb.cur_char_idx + 1) % 256)).uuid
            (rec_at w.srcb ((w.srcb.cur_char_idx + 1) % 256)).property }
        ((w.srcb.total_char + 255) % 256)
      show bta_gattc_explore_srvc env
          { w with
            srcb :=
              { insert_next_chars n
                  { w.srcb with
                    cur_char_idx := (w.srcb.cur_char_idx + 1) % 256
                    srvc_cache := bta_gattc_add_char_to_cache w.srcb.srvc_cache
                      (rec_at w.srcb ((w.srcb.cur_char_idx + 1) % 256)).char_decl_handle
                      (rec_at w.srcb ((w.srcb.cur_char_idx + 1) % 256)).s_handle
                      (rec_at w.srcb ((w.srcb.cur_char_idx + 1) % 256)).uuid
                      (rec_at w.srcb ((w.srcb.cur_char_idx + 1) % 256)).property
                    total_char := (w.srcb.total_char + 255) % 256 } with
                total_char := 0
                cur_srvc_idx := (w.srcb.cur_srvc_idx + 1) % 256 }
            trace := (w.trace ++ tr1) ++ tr2 } = _
      rw [key, List.append_assoc]
      rfl
    · rw [List.length_cons]
      exact congrArg (fun x => x + 1) hlen

/-- `bta_gattc_explore_srvc` returns with both `cur_char_idx` and `next_avail_idx` at the
service count. -/
theorem explore_srvc_cursor (env : Env) (w : World) :
    (bta_gattc_explore_srvc env w).srcb.cur_char_idx =
      (bta_gattc_explore_srvc env w).srcb.total_srvc := by
  unfold bta_gattc_explore_srvc bta_gattc_start_disc_include_srvc
  dsimp only
  cases w.clcb with
  | none => rfl
  | some c =>
    dsimp only
    split
    · rw [(discover_procedure_spec env _ GATT_DISC_INC_SRVC).1]
    · split
      · show (cache_save_effect _).srcb.cur_char_idx = (cache_save_effect _).srcb.total_srvc
        rw [(cache_save_effect_spec _).1]
      · rfl

/-- C36, amended. The buffer is allocated and the records of the current and of the remaining
characteristics lie inside it (`cur_char_idx + total_char - 1` is below its length and at most
255). With `total_char = 0`, `bta_gattc_char_disc_cmpl` calls `bta_gattc_explore_srvc` at
once. With `1 ≤ total_char ≤ 255` and the descriptor range of the current and of every
remaining characteristic record empty (`value_handle + 1 > e_handle`; at value handle
`0xFFFF`, where the start wraps to `0x0000`, `GATTC_Discover` refuses the reserved handle),
`bta_gattc_char_disc_cmpl` returns the result of one call of `bta_gattc_explore_srvc` on the
next service, after lifting the current and each remaining characteristic once and entering
`bta_gattc_char_dscpt_disc_cmpl` `total_char` times, with no request accepted on the way.
With `1 ≤ total_char ≤ 255` and the ranges of the remaining records empty,
`bta_gattc_char_dscpt_disc_cmpl` does the same for the remaining characteristics, and every
depth bound of at least `total_char` gives that result. -/
theorem completion_chain_terminates (env : Env) (w : World)
    (list : List tBTA_GATTC_ATTR_REC) (hbuf : w.srcb.p_srvc_list = some list) :
    (w.srcb.total_char = 0 →
      bta_gattc_char_disc_cmpl env w =
        bta_gattc_explore_srvc env
          { w with srcb := { w.srcb with
              cur_srvc_idx := (w.srcb.cur_srvc_idx + 1) % 256 } }) ∧
    (∀ n, w.srcb.total_char = n + 1 → n + 1 ≤ 255 →
      w.srcb.cur_char_idx + n < list.length → w.srcb.cur_char_idx + n ≤ 255 →
      (∀ j, j ≤ n →
        empty_descriptor_range (rec_at w.srcb (w.srcb.cur_char_idx + j)) ∧
        ((rec_at w.srcb (w.srcb.cur_char_idx + j)).s_handle = 0xFFFF →
          refuses_reserved_handle env)) →
      ∃ tr, (∀ e ∈ tr, accepted_request e = none) ∧
        bta_gattc_char_disc_cmpl env w =
          bta_gattc_explore_srvc env
            { w with
              srcb := { insert_next_chars n (add_cur_char_to_cache w).srcb with
                total_char := 0
                cur_srvc_idx := (w.srcb.cur_srvc_idx + 1) % 256 }
              trace := w.trace ++ tr } ∧
        (char_dscpt_disc_cmpl_entries env 256
          (bta_gattc_discover_procedure env (add_cur_char_to_cache w)
            GATT_DISC_CHAR_DSCPT).1).2.length = n + 1) ∧
    (∀ n, w.srcb.total_char = n + 1 → n + 1 ≤ 255 →
      w.srcb.cur_char_idx + n < list.length → w.srcb.cur_char_idx + n ≤ 255 →
      (∀ j, 1 ≤ j → j ≤ n →
        empty_descriptor_range (rec_at w.srcb (w.srcb.cur_char_idx + j)) ∧
        ((rec_at w.srcb (w.srcb.cur_char_idx + j)).s_handle = 0xFFFF →
          refuses_reserved_handle env)) →
      ∃ tr, (∀ e ∈ tr, accepted_request e = none) ∧
        bta_gattc_char_dscpt_disc_cmpl env w =
          bta_gattc_explore_srvc env
            { w with
              srcb := { insert_next_chars n w.srcb with
                total_char := 0
                cur_srvc_idx := (w.srcb.cur_srvc_idx + 1) % 256 }
              trace := w.trace ++ tr } ∧
        (char_dscpt_disc_cmpl_entries env 256 w).2.length = n + 1 ∧
        ∀ fuel, n + 1 ≤ fuel →
          char_dscpt_disc_cmpl_fuel env fuel w = bta_gattc_char_dscpt_disc_cmpl env w) := by
  refine ⟨?_, ?_, ?_⟩
  · intro h0
    unfold bta_gattc_char_disc_cmpl
    rw [if_neg (by omega)]
  · intro n htc h8 hin hcur hempty
    have h0 := hempty 0 (Nat.zero_le _)
    rw [Nat.add_zero] at h0
    obtain ⟨tr1, hnone1, _, hw1, hst1⟩ := discover_procedure_dscpt_skipped env
      (add_cur_char_to_cache w) h0.1 h0.2
    obtain ⟨tr2, hnone2, hres, hlen⟩ := dscpt_chain_all_skipped env n 256
      { add_cur_char_to_cache w with trace := w.trace ++ tr1 } htc h8 (by omega)
      (fun j hj1 hjn => by
        have hidx : (w.srcb.cur_char_idx + j) % 256 = w.srcb.cur_char_idx + j := by omega
        show empty_descriptor_range (rec_at w.srcb ((w.srcb.cur_char_idx + j) % 256)) ∧
          ((rec_at w.srcb ((w.srcb.cur_char_idx + j) % 256)).s_handle = 0xFFFF →
            refuses_reserved_handle env)
        rw [hidx]
        exact hempty j hjn)
    refine ⟨tr1 ++ tr2, ?_, ?_, ?_⟩
    · intro e he
      rcases List.mem_append.1 he with h | h
      · exact hnone1 e h
      · exact hnone2 e h
    · unfold bta_gattc_char_disc_cmpl
      rw [if_pos (by omega)]
      unfold bta_gattc_start_disc_char_dscp
      dsimp only
      rw [if_pos hst1, hw1]
      unfold bta_gattc_char_dscpt_disc_cmpl
      rw [← char_dscpt_disc_cmpl_entries_fst]
      refine Eq.trans hres ?_
      show bta_gattc_explore_srvc env
          { w with
            srcb := { insert_next_chars n (add_cur_char_to_cache w).srcb with
              total_char := 0
              cur_srvc_idx := (w.srcb.cur_srvc_idx + 1) % 256 }
            trace := (w.trace ++ tr1) ++ tr2 } = _
      rw [List.append_assoc]
    · rw [hw1]
      exact hlen
  · intro n htc h8 hin hcur hempty
    obtain ⟨tr, hnone, hres, hlen⟩ := dscpt_chain_all_skipped env n 256 w htc h8 (by omega)
      (fun j hj1 hjn => by
        have hidx : (w.srcb.cur_char_idx + j) % 256 = w.srcb.cur_char_idx + j := by omega
        rw [hidx]
        exact hempty j hj1 hjn)
    refine ⟨tr, hnone, ?_, hlen, ?_⟩
    · unfold bta_gattc_char_dscpt_disc_cmpl
      rw [← char_dscpt_disc_cmpl_entries_fst]
      exact hres
    · intro fuel hfuel
      unfold bta_gattc_char_dscpt_disc_cmpl
      apply char_dscpt_disc_cmpl_fuel_irrelevant <;> omega

/-- C36, witness: the `CHAR` completion of scenario 1 on a buffer of two records, whose only
characteristic (value handle 3 in the service `[1, 3]`) has an empty descriptor range. -/
theorem completion_chain_terminates_witness :
    (two_slot_run (scenario1_pass.take 4)).srcb.p_srvc_list =
      some scenario1_buffer ∧
    (two_slot_run (scenario1_pass.take 4)).srcb.total_char = 0 + 1 ∧
    (two_slot_run (scenario1_pass.take 4)).srcb.cur_char_idx + 0 < scenario1_buffer.length ∧
    (two_slot_run (scenario1_pass.take 4)).srcb.cur_char_idx + 0 ≤ 255 ∧
    empty_descriptor_range (rec_at (two_slot_run (scenario1_pass.take 4)).srcb
      ((two_slot_run (scenario1_pass.take 4)).srcb.cur_char_idx + 0)) ∧
    ∃ tr, (∀ e ∈ tr, accepted_request e = none) ∧
      bta_gattc_char_disc_cmpl two_slot_env (two_slot_run (scenario1_pass.take 4)) =
        bta_gattc_explore_srvc two_slot_env
          { two_slot_run (scenario1_pass.take 4) with
            srcb := { insert_next_chars 0
                        (add_cur_char_to_cache (two_slot_run (scenario1_pass.take 4))).srcb with
              total_char := 0
              cur_srvc_idx := ((two_slot_run (scenario1_pass.take 4)).srcb.cur_srvc_idx + 1)
                % 256 }
            trace := (two_slot_run (scenario1_pass.take 4)).trace ++ tr } ∧
      (char_dscpt_disc_cmpl_entries two_slot_env 256
        (bta_gattc_discover_procedure two_slot_env
          (add_cur_char_to_cache (two_slot_run (scenario1_pass.take 4)))
          GATT_DISC_CHAR_DSCPT).1).2.length = 0 + 1 :=
  ⟨by decide, by decide, by decide, by decide, by decide,
    (completion_chain_terminates two_slot_env (two_slot_run (scenario1_pass.take 4))
      scenario1_buffer (by decide)).2.1 0 (by decide) (by decide) (by decide) (by decide)
      (fun j hj => by
        have hj0 : j = 0 := by omega
        subst hj0
        exact ⟨by decide, fun h => absurd h (by decide)⟩)⟩

/-- C36, counterexample. While the second service of a pass in protocol order is explored,
`total_char = 0` and `cur_char_idx = 2`; slot 3 of the 128-record buffer still holds the
second characteristic of the first service. No characteristic remains, so the condition on
the remaining characteristics holds, but `bta_gattc_char_dscpt_disc_cmpl` does not return
after at most `total_char = 0` steps having inserted nothing and called
`bta_gattc_explore_srvc` once: its 8-bit decrement leaves `total_char = 255`, it advances
`cur_char_idx` to 3, inserts the record of slot 3 into the graph a second time and has the
descriptor request `[7, 10]` accepted; what it returns is no result of
`bta_gattc_explore_srvc`. Every record read lies inside the buffer. -/
theorem completion_chain_not_entered_with_zero :
    in_protocol_order strict_env (start_discovery strict_env default) second_service_pass =
      true ∧
    (strict_run second_service_pass).srcb.total_char = 0 ∧
    (strict_run second_service_pass).srcb.cur_char_idx = 2 ∧
    (strict_run second_service_pass).srcb.cur_srvc_idx = 1 ∧
    (∃ list, (strict_run second_service_pass).srcb.p_srvc_list = some list ∧
      list.length = 128) ∧
    (rec_at (strict_run second_service_pass).srcb 3).char_decl_handle = 5 ∧
    (rec_at (strict_run second_service_pass).srcb 3).s_handle = 6 ∧
    (rec_at (strict_run second_service_pass).srcb 3).e_handle = 10 ∧
    (char_dscpt_disc_cmpl_entries strict_env 256 (strict_run second_service_pass)).1 =
      bta_gattc_char_dscpt_disc_cmpl strict_env (strict_run second_service_pass) ∧
    (char_dscpt_disc_cmpl_entries strict_env 256 (strict_run second_service_pass)).2.length =
      1 ∧
    (bta_gattc_char_dscpt_disc_cmpl strict_env
      (strict_run second_service_pass)).srcb.total_char = 255 ∧
    (bta_gattc_char_dscpt_disc_cmpl strict_env
      (strict_run second_service_pass)).srcb.cur_char_idx = 3 ∧
    (bta_gattc_char_dscpt_disc_cmpl strict_env
      (strict_run second_service_pass)).srcb.cur_srvc_idx = 1 ∧
    (strict_run second_service_pass).srcb.srvc_cache.map
        (fun S => (S.s_handle, S.characteristics.map fun c => c.handle)) =
      [(1, [3, 6]), (20, [])] ∧
    (bta_gattc_char_dscpt_disc_cmpl strict_env
        (strict_run second_service_pass)).srcb.srvc_cache.map
        (fun S => (S.s_handle, S.characteristics.map fun c => c.handle)) =
      [(1, [3, 6, 6]), (20, [])] ∧
    (bta_gattc_char_dscpt_disc_cmpl strict_env (strict_run second_service_pass)).trace =
      (strict_run second_service_pass).trace ++
        [Effect.GATTC_Discover GATT_DISC_CHAR_DSCPT 7 10 GATT_SUCCESS] ∧
    (∀ w, bta_gattc_char_dscpt_disc_cmpl strict_env (strict_run second_service_pass) ≠
      bta_gattc_explore_srvc strict_env w) := by
  have hp : in_protocol_order strict_env (start_discovery strict_env default)
      second_service_pass = true := by decide
  have hout : outstanding (strict_run second_service_pass) = some GATT_DISC_CHAR := by decide
  have hbuf : ∃ list, (strict_run second_service_pass).srcb.p_srvc_list = some list ∧
      list.length = 128 := by
    have hinv := run_inv strict_env (by decide) second_service_pass _
      (start_discovery_inv strict_env default) hp
    cases hinv with
    | srvc list hc ho => exact ⟨list, hc.buf, hc.len⟩
    | incl list hc ho => exact ⟨list, hc.buf, hc.len⟩
    | char list hc ho => exact ⟨list, hc.buf, hc.len⟩
    | dscpt list hc ho => exact ⟨list, hc.buf, hc.len⟩
    | idle hi =>
      have h1 := hi.1
      unfold strict_run at hout
      rw [hout] at h1
      simp at h1
    | done list hbuf hl hp2 =>
      have h1 := outstanding_none_of_complete _ hp2
      unfold strict_run at hout
      rw [hout] at h1
      simp at h1
  refine ⟨hp, by decide, by decide, by decide, hbuf, by decide, by decide, by decide,
    char_dscpt_disc_cmpl_entries_fst _ _ _, by decide, by decide, by decide,
    by decide, by decide, by decide, by decide, ?_⟩
  intro w h
  have h1 := explore_srvc_cursor strict_env w
  rw [← h] at h1
  revert h1
  decide

theorem in_protocol_order_append (env : Env) (w : World) (evs : List DiscEvent)
    (ev : DiscEvent) (h : in_protocol_order env w (evs ++ [ev]) = true) :
    in_protocol_order env w evs = true ∧ outstanding (run env w evs) = some ev.disc_type := by
  induction evs generalizing w with
  | nil =>
    simp only [List.nil_append, in_protocol_order, Bool.and_eq_true, beq_iff_eq] at h
    exact ⟨rfl, h.1⟩
  | cons e rest ih =>
    simp only [List.cons_append, in_protocol_order, Bool.and_eq_true, beq_iff_eq] at h
    obtain ⟨h1, h2⟩ := ih _ h.2
    refine ⟨?_, ?_⟩
    · simp only [in_protocol_order, Bool.and_eq_true, beq_iff_eq]
      exact ⟨h.1, h1⟩
    · unfold run
      rw [List.foldl_cons]
      exact h2

/-- Every world in which the chain of completions enters `bta_gattc_char_dscpt_disc_cmpl` is
in the descriptor phase when the first one is. -/
theorem char_dscpt_disc_cmpl_entries_phase (env : Env)
    (hmax : env.BTA_GATTC_MAX_CACHE_CHAR ≤ 255) (list : List tBTA_GATTC_ATTR_REC)
    (fuel : Nat) (w : World) (hd : dscpt_phase env w list) :
    ∀ x ∈ (char_dscpt_disc_cmpl_entries env fuel w).2, dscpt_phase env x list := by
  induction fuel generalizing w with
  | zero =>
    intro x hx
    simp [char_dscpt_disc_cmpl_entries] at hx
  | succ fuel ih =>
    obtain ⟨hc, hcur, hl, hidx, hchar, hnext, hfit⟩ := hd
    have htot := hc.tot
    have htc : (w.srcb.total_char + 255) % 256 = w.srcb.total_char - 1 := by omega
    intro x hx
    unfold char_dscpt_disc_cmpl_entries at hx
    dsimp only at hx
    rw [htc] at hx
    by_cases hmore : w.srcb.total_char - 1 > 0
    · rw [if_pos hmore] at hx
      have hcci : (w.srcb.cur_char_idx + 1) % 256 = w.srcb.cur_char_idx + 1 := by omega
      rw [hcci] at hx
      have hd3 : dscpt_phase env
          (add_cur_char_to_cache
            { w with srcb := { w.srcb with
                total_char := w.srcb.total_char - 1
                cur_char_idx := w.srcb.cur_char_idx + 1 } }) list := by
        refine ⟨⟨hc.clcb, hc.buf, hc.len, hc.tot⟩, hcur, ?_, ?_, ?_, ?_, hfit⟩
        · exact add_char_to_cache_lifted _ _ _ _ _ _ hl
        · show w.srcb.total_srvc ≤ w.srcb.cur_char_idx + 1
          omega
        · show 1 ≤ w.srcb.total_char - 1
          omega
        · show w.srcb.cur_char_idx + 1 + (w.srcb.total_char - 1) = w.srcb.next_avail_idx
          omega
      obtain ⟨hsrcb, hcl, _⟩ := discover_procedure_spec env
        (add_cur_char_to_cache
          { w with srcb := { w.srcb with
              total_char := w.srcb.total_char - 1
              cur_char_idx := w.srcb.cur_char_idx + 1 } }) GATT_DISC_CHAR_DSCPT
      have hd4 := dscpt_phase_congr env _ _ list hsrcb hcl hd3
      split at hx
      · rcases List.mem_cons.1 hx with rfl | hx2
        · exact ⟨hc, hcur, hl, hidx, hchar, hnext, hfit⟩
        · exact ih _ hd4 x hx2
      · rw [List.mem_singleton.1 hx]
        exact ⟨hc, hcur, hl, hidx, hchar, hnext, hfit⟩
    · rw [if_neg hmore] at hx
      rw [List.mem_singleton.1 hx]
      exact ⟨hc, hcur, hl, hidx, hchar, hnext, hfit⟩

theorem disc_cmpl_cback_entries_phase (env : Env)
    (hmax : env.BTA_GATTC_MAX_CACHE_CHAR ≤ 255) (w w1 : World) (t : tGATT_DISC_TYPE)
    (st : tGATT_STATUS) (hs1 : w1.srcb = w.srcb) (hcl1 : w1.clcb = w.clcb)
    (hinv : pass_inv env w) (hout : outstanding w = some t) :
    ∀ x ∈ disc_cmpl_cback_entries env w1 t st, ∃ list, dscpt_phase env x list := by
  intro x hx
  unfold disc_cmpl_cback_entries at hx
  cases hclcb : w1.clcb with
  | none =>
    rw [hclcb] at hx
    simp at hx
  | some c =>
    rw [hclcb] at hx
    dsimp only at hx
    by_cases hfail : st ≠ GATT_SUCCESS ∨ c.status ≠ GATT_SUCCESS
    · rw [if_pos hfail] at hx
      simp at hx
    · rw [if_neg hfail] at hx
      cases hinv with
      | srvc list hc ho hcache hcur hnext =>
        have ht : t = GATT_DISC_SRVC_ALL := by rw [ho] at hout; simpa using hout.symm
        subst ht
        simp at hx
      | incl list hc ho hcur hl hnext =>
        have ht : t = GATT_DISC_INC_SRVC := by rw [ho] at hout; simpa using hout.symm
        subst ht
        simp at hx
      | char list hc ho hcur hl hidx hnext hfit =>
        have ht : t = GATT_DISC_CHAR := by rw [ho] at hout; simpa using hout.symm
        subst ht
        dsimp only at hx
        by_cases hmore : w1.srcb.total_char > 0
        · rw [if_pos hmore] at hx
          have hd3 : dscpt_phase env (add_cur_char_to_cache w1) list := by
            have hc1 := pass_common_congr env w w1 list hs1 hcl1 hc
            refine ⟨⟨hc1.clcb, hc1.buf, hc1.len, hc1.tot⟩, ?_, ?_, ?_, hmore, ?_, ?_⟩
            · show w1.srcb.cur_srvc_idx < w1.srcb.total_srvc
              rw [hs1]; exact hcur
            · have hl1 : graph_lifted w1.srcb.srvc_cache list (w1.srcb.cur_srvc_idx + 1) := by
                rw [hs1]; exact hl
              exact add_char_to_cache_lifted _ _ _ _ _ _ hl1
            · show w1.srcb.total_srvc ≤ w1.srcb.cur_char_idx
              rw [hs1]; omega
            · show w1.srcb.cur_char_idx + w1.srcb.total_char = w1.srcb.next_avail_idx
              rw [hs1]; omega
            · show w1.srcb.next_avail_idx ≤ env.BTA_GATTC_MAX_CACHE_CHAR
              rw [hs1]; exact hfit
          obtain ⟨hsrcb, hcl, _⟩ := discover_procedure_spec env (add_cur_char_to_cache w1)
            GATT_DISC_CHAR_DSCPT
          have hd4 := dscpt_phase_congr env _ _ list hsrcb hcl hd3
          split at hx
          · exact ⟨list, char_dscpt_disc_cmpl_entries_phase env hmax list 256 _ hd4 x hx⟩
          · simp at hx
        · rw [if_neg hmore] at hx
          simp at hx
      | dscpt list hc ho hcur hl hidx hchar hnext hfit =>
        have ht : t = GATT_DISC_CHAR_DSCPT := by rw [ho] at hout; simpa using hout.symm
        subst ht
        dsimp only at hx
        exact ⟨list, char_dscpt_disc_cmpl_entries_phase env hmax list 256 _
          (dscpt_phase_congr env w w1 list hs1 hcl1
            ⟨hc, hcur, hl, hidx, hchar, hnext, hfit⟩) x hx⟩
      | idle hi2 => rw [hi2.1] at hout; simp at hout
      | done list hbuf hl hp => rw [outstanding_none_of_complete w hp] at hout; simp at hout

/-- In a pass in protocol order every world in which `bta_gattc_char_dscpt_disc_cmpl` is
entered while an event is delivered is in the descriptor phase. -/
theorem dscpt_cmpl_entries_phase (env : Env) (hmax : env.BTA_GATTC_MAX_CACHE_CHAR ≤ 255)
    (w : World) (ev : DiscEvent) (hinv : pass_inv env w)
    (hout : outstanding w = some ev.disc_type) :
    ∀ x ∈ dscpt_cmpl_entries env w ev, ∃ list, dscpt_phase env x list := by
  cases ev with
  | res t d =>
    intro x hx
    simp [dscpt_cmpl_entries] at hx
  | cmpl t st =>
    simp only [DiscEvent.disc_type] at hout
    intro x hx
    exact disc_cmpl_cback_entries_phase env hmax w
      { w with trace := w.trace ++ [Effect.disc_cmpl_received t st] } t st rfl rfl hinv hout
      x hx

/-- The recorded worlds belong to the calls `bta_gattc_disc_cmpl_cback` makes: for a successful
`CHAR_DSCPT` completion its result is that of the recorded chain, and so it is for a successful
`CHAR` completion whose first descriptor request is not issued or is refused. -/
theorem disc_cmpl_cback_through_entries (env : Env) (w : World) (c : tBTA_GATTC_CLCB)
    (hclcb : w.clcb = some c) (hss : c.status = GATT_SUCCESS) :
    bta_gattc_disc_cmpl_cback env w GATT_DISC_CHAR_DSCPT GATT_SUCCESS =
      (char_dscpt_disc_cmpl_entries env 256 w).1 ∧
    (w.srcb.total_char > 0 →
      (bta_gattc_discover_procedure env (add_cur_char_to_cache w) GATT_DISC_CHAR_DSCPT).2 ≠
        GATT_SUCCESS →
      bta_gattc_disc_cmpl_cback env w GATT_DISC_CHAR GATT_SUCCESS =
        (char_dscpt_disc_cmpl_entries env 256
          (bta_gattc_discover_procedure env (add_cur_char_to_cache w)
            GATT_DISC_CHAR_DSCPT).1).1) := by
  constructor
  · rw [disc_cmpl_cback_success env w c _ hclcb hss, char_dscpt_disc_cmpl_entries_fst]
    rfl
  · intro hmore hfail
    rw [disc_cmpl_cback_success env w c _ hclcb hss, char_dscpt_disc_cmpl_entries_fst]
    show bta_gattc_char_disc_cmpl env w = _
    unfold bta_gattc_char_disc_cmpl bta_gattc_start_disc_char_dscp
    rw [if_pos hmore]
    dsimp only
    rw [if_pos hfail]
    rfl

/-- C34. In every discovery pass in protocol order (buffer capacity at most 255), in every
world in which `bta_gattc_char_dscpt_disc_cmpl` is entered while an event is delivered,
`total_char` is at least 1, so the 8-bit decrement gives `total_char - 1`; and when
characteristics remain, the cursor advances without wrapping to an index that is at least
`total_srvc` and below `next_avail_idx`, inside the buffer: the slot of a characteristic
record of the current service. -/
theorem dscpt_cmpl_no_wrap (env : Env) (hmax : env.BTA_GATTC_MAX_CACHE_CHAR ≤ 255)
    (w : World) (evs : List DiscEvent) (ev : DiscEvent)
    (hp : in_protocol_order env (start_discovery env w) (evs ++ [ev]) = true) :
    ∀ x ∈ dscpt_cmpl_entries env (run env (start_discovery env w) evs) ev,
      1 ≤ x.srcb.total_char ∧
      (x.srcb.total_char + 255) % 256 = x.srcb.total_char - 1 ∧
      (x.srcb.total_char - 1 > 0 →
        (x.srcb.cur_char_idx + 1) % 256 = x.srcb.cur_char_idx + 1 ∧
        x.srcb.total_srvc ≤ x.srcb.cur_char_idx + 1 ∧
        x.srcb.cur_char_idx + 1 < x.srcb.next_avail_idx ∧
        x.srcb.next_avail_idx ≤ env.BTA_GATTC_MAX_CACHE_CHAR) := by
  obtain ⟨hp1, hout⟩ := in_protocol_order_append env _ evs ev hp
  have hinv := run_inv env hmax evs _ (start_discovery_inv env w) hp1
  intro x hx
  obtain ⟨list, hc, hcur, hl, hidx, hchar, hnext, hfit⟩ :=
    dscpt_cmpl_entries_phase env hmax _ ev hinv hout x hx
  refine ⟨hchar, by omega, fun hmore => ⟨by omega, by omega, by omega, hfit⟩⟩

theorem dscpt_cmpl_no_wrap_witness :
    scenario_env.BTA_GATTC_MAX_CACHE_CHAR ≤ 255 ∧
    in_protocol_order scenario_env (start_discovery scenario_env default)
      (scenario2_pass.take 7 ++ [cmpl_ok GATT_DISC_CHAR_DSCPT]) = true ∧
    (dscpt_cmpl_entries scenario_env (scenario_run (scenario2_pass.take 7))
      (cmpl_ok GATT_DISC_CHAR_DSCPT)).length = 1 ∧
    ∀ x ∈ dscpt_cmpl_entries scenario_env
        (run scenario_env (start_discovery scenario_env default) (scenario2_pass.take 7))
        (cmpl_ok GATT_DISC_CHAR_DSCPT),
      1 ≤ x.srcb.total_char ∧
      (x.srcb.total_char + 255) % 256 = x.srcb.total_char - 1 ∧
      (x.srcb.total_char - 1 > 0 →
        (x.srcb.cur_char_idx + 1) % 256 = x.srcb.cur_char_idx + 1 ∧
        x.srcb.total_srvc ≤ x.srcb.cur_char_idx + 1 ∧
        x.srcb.cur_char_idx + 1 < x.srcb.next_avail_idx ∧
        x.srcb.next_avail_idx ≤ scenario_env.BTA_GATTC_MAX_CACHE_CHAR) :=
  ⟨by decide, by decide, by decide,
    dscpt_cmpl_no_wrap scenario_env (by decide) default (scenario2_pass.take 7)
      (cmpl_ok GATT_DISC_CHAR_DSCPT) (by decide)⟩

/-! ## Export size, insert then find -/

theorem export_characteristics_length (chars : List tBTA_GATTC_CHARACTERISTIC)
    (out : List btgatt_db_element_t) :
    (export_characteristics chars out).length = db_size_characteristics chars out.length := by
  induction chars generalizing out with
  | nil => rfl
  | cons c rest ih =>
    unfold export_characteristics db_size_characteristics
    rw [ih, export_descriptors_eq]
    simp only [List.length_append, List.length_map, List.length_singleton]

theorem export_service_length (srvc_cache : List tBTA_GATTC_SERVICE)
    (service : tBTA_GATTC_SERVICE) (out : List btgatt_db_element_t) :
    (export_service srvc_cache service out).length =
      db_size_characteristics service.characteristics (out.length + 1) +
        service.included_svc.length := by
  unfold export_service
  rw [export_included_eq, List.length_append, List.length_map, export_characteristics_length]
  simp only [List.length_append, List.length_singleton]

theorem export_services_length (srvc_cache services : List tBTA_GATTC_SERVICE)
    (start_handle end_handle : Nat) (out : List btgatt_db_element_t) :
    (export_services srvc_cache services start_handle end_handle out).length =
      db_size_services services start_handle end_handle out.length := by
  induction services generalizing out with
  | nil => rfl
  | cons S rest ih =>
    unfold export_services db_size_services
    by_cases h1 : S.s_handle < start_handle
    · rw [if_pos h1, if_pos h1]
      exact ih out
    · rw [if_neg h1, if_neg h1]
      by_cases h2 : S.e_handle > end_handle
      · rw [if_pos h2, if_pos h2]
      · rw [if_neg h2, if_neg h2, ih, export_service_length]

/-- C32. For every graph and every `start`, `end`, the number of elements
`bta_gattc_get_gatt_db_impl` writes equals the count `bta_gattc_get_db_size` computes, which
is the size of the allocation and the count reported; the same holds for the two service
loops from every cursor position, and the export only appends behind the cursor, so that
every element is written at a position below the count. -/
theorem export_size_agreement :
    (∀ srvc_cache start_handle end_handle,
      (bta_gattc_get_gatt_db_impl srvc_cache start_handle end_handle).elements.length =
        bta_gattc_get_db_size srvc_cache start_handle end_handle ∧
      (bta_gattc_get_gatt_db_impl srvc_cache start_handle end_handle).count =
        (bta_gattc_get_gatt_db_impl srvc_cache start_handle end_handle).elements.length) ∧
    (∀ srvc_cache services start_handle end_handle out,
      (export_services srvc_cache services start_handle end_handle out).length =
        db_size_services services start_handle end_handle out.length ∧
      out <+: export_services srvc_cache services start_handle end_handle out) := by
  constructor
  · intro G s e
    have hlen : (bta_gattc_get_gatt_db_impl G s e).elements.length =
        bta_gattc_get_db_size G s e := by
      unfold bta_gattc_get_gatt_db_impl GattDbOut.elements bta_gattc_get_db_size
      cases G with
      | nil => rfl
      | cons S rest =>
        simp only [List.isEmpty_cons, Bool.false_eq_true, if_false, Option.getD_some]
        rw [export_services_length]
        rfl
    refine ⟨hlen, ?_⟩
    rw [hlen]
    unfold bta_gattc_get_gatt_db_impl bta_gattc_get_db_size
    cases G with
    | nil => rfl
    | cons S rest => rfl
  · intro G L s e out
    refine ⟨export_services_length G L s e out, ?_⟩
    rw [export_services_eq]
    exact List.prefix_append _ _

/-- C35, amended. When `S` is the first service whose range contains `attr_handle`, no service
before `S` has `value_handle` in its range, and `attr_handle ≤ value_handle`, then after
`bta_gattc_add_char_to_cache(attr_handle, value_handle, uuid, prop)` the lookup
`bta_gattc_get_characteristic_srcb(value_handle)` returns a characteristic whose handle is
`value_handle`. -/
theorem add_char_then_get_characteristic (p_srcb : tBTA_GATTC_SERV)
    (attr_handle value_handle : Nat) (uuid : Uuid) (property : Nat)
    (i : Nat) (S : tBTA_GATTC_SERVICE)
    (hS : p_srcb.srvc_cache[i]? = some S) (hin : in_range S attr_handle)
    (hfirst : ∀ j T, j < i → p_srcb.srvc_cache[j]? = some T →
      ¬ in_range T attr_handle ∧ ¬ in_range T value_handle)
    (hle : attr_handle ≤ value_handle) :
    ∃ c, bta_gattc_get_characteristic_srcb
        (some { p_srcb with
          srvc_cache := bta_gattc_add_char_to_cache p_srcb.srvc_cache attr_handle
            value_handle uuid property }) value_handle = some c ∧
      c.handle = value_handle := by
  have hfind : bta_gattc_find_matching_service p_srcb.srvc_cache attr_handle = some i :=
    (find_matching_service_eq_some _ _ _).2 ⟨S, hS, hin, fun j T hj hT => (hfirst j T hj hT).1⟩
  have hi : i < p_srcb.srvc_cache.length := (List.getElem?_eq_some.1 hS).1
  have hG : bta_gattc_add_char_to_cache p_srcb.srvc_cache attr_handle value_handle uuid
        property =
      p_srcb.srvc_cache.set i
        { S with
          e_handle := if S.e_handle < value_handle then value_handle else S.e_handle
          characteristics := S.characteristics ++
            [{ handle := value_handle, properties := property, uuid := uuid,
               descriptors := [] }] } := by
    unfold bta_gattc_add_char_to_cache
    rw [hfind]
    dsimp only
    rw [modify_eq_set _ _ _ _ hS]
  have hfind2 : bta_gattc_find_matching_service
      (bta_gattc_add_char_to_cache p_srcb.srvc_cache attr_handle value_handle uuid property)
      value_handle = some i := by
    rw [hG]
    apply (find_matching_service_eq_some _ _ _).2
    refine ⟨_, by rw [List.getElem?_set_self hi], ?_, ?_⟩
    · constructor
      · exact Nat.le_trans hin.1 hle
      · show value_handle ≤ if S.e_handle < value_handle then value_handle else S.e_handle
        split <;> omega
    · intro j T hj hT
      rw [List.getElem?_set_ne (by omega)] at hT
      exact (hfirst j T hj hT).2
  have hne : (bta_gattc_add_char_to_cache p_srcb.srvc_cache attr_handle value_handle uuid
      property).isEmpty = false := by
    rw [hG]
    cases hl : p_srcb.srvc_cache with
    | nil => rw [hl] at hi; simp at hi
    | cons a rest => cases i <;> rfl
  have hlook : bta_gattc_get_characteristic_srcb
      (some { p_srcb with
        srvc_cache := bta_gattc_add_char_to_cache p_srcb.srvc_cache attr_handle
          value_handle uuid property }) value_handle =
      find_characteristic_in
        (S.characteristics ++
          [{ handle := value_handle, properties := property, uuid := uuid,
             descriptors := [] }]) value_handle := by
    unfold bta_gattc_get_characteristic_srcb bta_gattc_get_service_for_handle_srcb
      bta_gattc_get_services_srcb
    dsimp only
    rw [hne]
    simp only [Bool.false_eq_true, if_false]
    rw [hfind2]
    dsimp only
    rw [hG, List.getElem?_set_self hi]
  rw [hlook]
  cases hres : find_characteristic_in
      (S.characteristics ++
        [{ handle := value_handle, properties := property, uuid := uuid,
           descriptors := [] }]) value_handle with
  | none =>
    have := (find_characteristic_in_none _ _).1 hres
      { handle := value_handle, properties := property, uuid := uuid, descriptors := [] }
      (by simp)
    exact absurd rfl this
  | some c => exact ⟨c, rfl, (find_characteristic_in_some _ _ c hres).2⟩

theorem add_char_then_get_characteristic_witness :
    scenario2_graph[0]? = some (scenario2_graph.getD 0 default) ∧
    in_range (scenario2_graph.getD 0 default) 7 ∧
    ∃ c, bta_gattc_get_characteristic_srcb
        (some { (default : tBTA_GATTC_SERV) with
          srvc_cache := bta_gattc_add_char_to_cache scenario2_graph 7 8 0x2A1B 0x02 }) 8 =
          some c ∧
      c.handle = 8 :=
  ⟨rfl, ⟨by decide, by decide⟩,
    add_char_then_get_characteristic
      { (default : tBTA_GATTC_SERV) with srvc_cache := scenario2_graph } 7 8 0x2A1B 0x02 0
      (scenario2_graph.getD 0 default) rfl ⟨by decide, by decide⟩
      (fun j T hj _ => absurd hj (Nat.not_lt_zero j)) (by decide)⟩

/-- C35, counterexample. (a) In the graph with the service `[3, 10]`, inserting a
characteristic under the attribute handle 5 with value handle 1 and looking up 1 finds
nothing: no range contains 1. (b) In the graph with the services `[8, 10]` and `[1, 5]`, in
that order, inserting under the attribute handle 3 with value handle 9 and looking up 9 finds
nothing: the lookup stops at `[8, 10]`, which has no characteristic. -/
theorem add_char_then_lookup_fails :
    ((∃ S ∈ bta_gattc_add_srvc_to_cache [] 3 10 0x1801 true, in_range S 5) ∧
      bta_gattc_get_characteristic_srcb
        (some { (default : tBTA_GATTC_SERV) with
          srvc_cache := bta_gattc_add_char_to_cache
            (bta_gattc_add_srvc_to_cache [] 3 10 0x1801 true) 5 1 0x2A19 0x10 }) 1 = none) ∧
    ((∃ S ∈ bta_gattc_add_srvc_to_cache
          (bta_gattc_add_srvc_to_cache [] 8 10 0x180F true) 1 5 0x1801 true, in_range S 3) ∧
      bta_gattc_get_characteristic_srcb
        (some { (default : tBTA_GATTC_SERV) with
          srvc_cache := bta_gattc_add_char_to_cache
            (bta_gattc_add_srvc_to_cache
              (bta_gattc_add_srvc_to_cache [] 8 10 0x180F true) 1 5 0x1801 true)
            3 9 0x2A19 0x10 }) 9 = none) := by
  refine ⟨⟨⟨_, List.mem_singleton.2 rfl, by decide, by decide⟩, by decide⟩,
    ⟨⟨_, List.mem_cons_of_mem _ (List.mem_singleton.2 rfl), by decide, by decide⟩, by decide⟩⟩

/-! ## Buffer bounds -/

theorem buffer_kept_refl (a : tBTA_GATTC_SERV) : buffer_kept a a := ⟨rfl, rfl, Or.inl rfl, rfl⟩

theorem buffer_kept_trans (a b c : tBTA_GATTC_SERV) (h1 : buffer_kept a b)
    (h2 : buffer_kept b c) : buffer_kept a c := by
  obtain ⟨h1a, h1b, h1c, h1d⟩ := h1
  obtain ⟨h2a, h2b, h2c, h2d⟩ := h2
  refine ⟨h2a.trans h1a, h2b.trans h1b, ?_, h2d.trans h1d⟩
  rcases h2c with h | h
  · rw [h]; exact h1c
  · right; rw [h, h1a]

theorem explore_srvc_buffer_kept (env : Env) (w : World) :
    buffer_kept w.srcb (bta_gattc_explore_srvc env w).srcb := by
  unfold bta_gattc_explore_srvc bta_gattc_start_disc_include_srvc
  dsimp only
  cases w.clcb with
  | none => exact ⟨rfl, rfl, Or.inr rfl, rfl⟩
  | some c =>
    dsimp only
    split
    · rw [(discover_procedure_spec env _ GATT_DISC_INC_SRVC).1]
      exact ⟨rfl, rfl, Or.inr rfl, rfl⟩
    · split
      · show buffer_kept w.srcb (cache_save_effect _).srcb
        rw [(cache_save_effect_spec _).1]
        exact ⟨rfl, rfl, Or.inr rfl, rfl⟩
      · exact ⟨rfl, rfl, Or.inr rfl, rfl⟩

theorem char_dscpt_disc_cmpl_fuel_buffer_kept (env : Env) (fuel : Nat) (w : World) :
    buffer_kept w.srcb (char_dscpt_disc_cmpl_fuel env fuel w).srcb := by
  induction fuel generalizing w with
  | zero => exact buffer_kept_refl _
  | succ fuel ih =>
    unfold char_dscpt_disc_cmpl_fuel bta_gattc_start_disc_char_dscp
    dsimp only
    split
    · have hsp := (discover_procedure_spec env
        (add_cur_char_to_cache
          { w with srcb := { w.srcb with
              total_char := (w.srcb.total_char + 255) % 256
              cur_char_idx := (w.srcb.cur_char_idx + 1) % 256 } }) GATT_DISC_CHAR_DSCPT).1
      split
      · refine buffer_kept_trans _ _ _ ?_ (ih _)
        rw [hsp]
        exact ⟨rfl, rfl, Or.inl rfl, rfl⟩
      · rw [hsp]
        exact ⟨rfl, rfl, Or.inl rfl, rfl⟩
    · exact buffer_kept_trans _ _ _ ⟨rfl, rfl, Or.inl rfl, rfl⟩ (explore_srvc_buffer_kept env _)

theorem disc_cmpl_cback_buffer_kept (env : Env) (w : World) (t : tGATT_DISC_TYPE)
    (st : tGATT_STATUS) : buffer_kept w.srcb (bta_gattc_disc_cmpl_cback env w t st).srcb := by
  unfold bta_gattc_disc_cmpl_cback
  cases w.clcb with
  | none => exact buffer_kept_refl _
  | some c =>
    dsimp only
    split
    · exact buffer_kept_refl _
    · cases t with
      | GATT_DISC_SRVC_ALL => exact explore_srvc_buffer_kept env w
      | GATT_DISC_SRVC_BY_UUID => exact explore_srvc_buffer_kept env w
      | GATT_DISC_INC_SRVC =>
        show buffer_kept w.srcb (bta_gattc_incl_srvc_disc_cmpl env w).srcb
        unfold bta_gattc_incl_srvc_disc_cmpl bta_gattc_start_disc_char
        rw [(discover_procedure_spec env _ GATT_DISC_CHAR).1]
        exact ⟨rfl, rfl, Or.inl rfl, rfl⟩
      | GATT_DISC_CHAR =>
        show buffer_kept w.srcb (bta_gattc_char_disc_cmpl env w).srcb
        unfold bta_gattc_char_disc_cmpl
        split
        · unfold bta_gattc_start_disc_char_dscp
          dsimp only
          have hsp := (discover_procedure_spec env (add_cur_char_to_cache w)
            GATT_DISC_CHAR_DSCPT).1
          split
          · refine buffer_kept_trans _ _ _ ?_
              (char_dscpt_disc_cmpl_fuel_buffer_kept env 256 _)
            rw [hsp]
            exact ⟨rfl, rfl, Or.inl rfl, rfl⟩
          · rw [hsp]
            exact ⟨rfl, rfl, Or.inl rfl, rfl⟩
        · exact buffer_kept_trans _ _ _ ⟨rfl, rfl, Or.inl rfl, rfl⟩
            (explore_srvc_buffer_kept env _)
      | GATT_DISC_CHAR_DSCPT =>
        exact char_dscpt_disc_cmpl_fuel_buffer_kept env 256 w

theorem add_srvc_to_list_bounds (env : Env) (hmax : env.BTA_GATTC_MAX_CACHE_CHAR ≤ 255)
    (p : tBTA_GATTC_SERV) (s e : Nat) (u : Uuid) (prim : Bool)
    (h : p.total_srvc ≤ p.next_avail_idx ∧ p.next_avail_idx ≤ env.BTA_GATTC_MAX_CACHE_CHAR) :
    (bta_gattc_add_srvc_to_list env p s e u prim).1.total_srvc ≤
        (bta_gattc_add_srvc_to_list env p s e u prim).1.next_avail_idx ∧
      (bta_gattc_add_srvc_to_list env p s e u prim).1.next_avail_idx ≤
        env.BTA_GATTC_MAX_CACHE_CHAR := by
  unfold bta_gattc_add_srvc_to_list
  split
  · exact h
  · split
    · rename_i hlt
      show (p.total_srvc + 1) % 256 ≤ (p.next_avail_idx + 1) % 256 ∧
        (p.next_avail_idx + 1) % 256 ≤ env.BTA_GATTC_MAX_CACHE_CHAR
      omega
    · exact h

theorem add_char_to_list_bounds (env : Env) (hmax : env.BTA_GATTC_MAX_CACHE_CHAR ≤ 255)
    (p : tBTA_GATTC_SERV) (d v : Nat) (u : Uuid) (prop : Nat)
    (h : p.total_srvc ≤ p.next_avail_idx ∧ p.next_avail_idx ≤ env.BTA_GATTC_MAX_CACHE_CHAR) :
    (bta_gattc_add_char_to_list env p d v u prop).1.total_srvc ≤
        (bta_gattc_add_char_to_list env p d v u prop).1.next_avail_idx ∧
      (bta_gattc_add_char_to_list env p d v u prop).1.next_avail_idx ≤
        env.BTA_GATTC_MAX_CACHE_CHAR := by
  unfold bta_gattc_add_char_to_list
  split
  · exact h
  · split
    · rename_i hlt
      show p.total_srvc ≤ (p.next_avail_idx + 1) % 256 ∧
        (p.next_avail_idx + 1) % 256 ≤ env.BTA_GATTC_MAX_CACHE_CHAR
      omega
    · exact h

/-- One event, whatever it is, keeps `total_srvc ≤ next_avail_idx ≤ BTA_GATTC_MAX_CACHE_CHAR`. -/
theorem deliver_bounds (env : Env) (hmax : env.BTA_GATTC_MAX_CACHE_CHAR ≤ 255) (w : World)
    (ev : DiscEvent)
    (h : w.srcb.total_srvc ≤ w.srcb.next_avail_idx ∧
      w.srcb.next_avail_idx ≤ env.BTA_GATTC_MAX_CACHE_CHAR) :
    (deliver env w ev).srcb.total_srvc ≤ (deliver env w ev).srcb.next_avail_idx ∧
      (deliver env w ev).srcb.next_avail_idx ≤ env.BTA_GATTC_MAX_CACHE_CHAR := by
  cases ev with
  | cmpl t st =>
    obtain ⟨h1, _, h3, _⟩ := disc_cmpl_cback_buffer_kept env
      { w with trace := w.trace ++ [Effect.disc_cmpl_received t st] } t st
    show (bta_gattc_disc_cmpl_cback env _ t st).srcb.total_srvc ≤
        (bta_gattc_disc_cmpl_cback env _ t st).srcb.next_avail_idx ∧
      (bta_gattc_disc_cmpl_cback env _ t st).srcb.next_avail_idx ≤
        env.BTA_GATTC_MAX_CACHE_CHAR
    rw [h1]
    rcases h3 with h3 | h3
    · rw [h3]
      exact h
    · rw [h3]
      exact ⟨Nat.le_refl _, Nat.le_trans h.1 h.2⟩
  | res t d =>
    show (bta_gattc_disc_res_cback env w t d).srcb.total_srvc ≤
        (bta_gattc_disc_res_cback env w t d).srcb.next_avail_idx ∧
      (bta_gattc_disc_res_cback env w t d).srcb.next_avail_idx ≤
        env.BTA_GATTC_MAX_CACHE_CHAR
    unfold bta_gattc_disc_res_cback bta_gattc_find_scb_by_cid
    cases w.clcb with
    | none => exact h
    | some c =>
      dsimp only
      split
      · cases t with
        | GATT_DISC_SRVC_ALL => exact add_srvc_to_list_bounds env hmax _ _ _ _ _ h
        | GATT_DISC_SRVC_BY_UUID => exact add_srvc_to_list_bounds env hmax _ _ _ _ _ h
        | GATT_DISC_INC_SRVC =>
          dsimp only
          split
          · exact add_srvc_to_list_bounds env hmax _ _ _ _ _ h
          · exact h
        | GATT_DISC_CHAR => exact add_char_to_list_bounds env hmax _ _ _ _ _ h
        | GATT_DISC_CHAR_DSCPT => exact h
      · exact h

theorem run_bounds (env : Env) (hmax : env.BTA_GATTC_MAX_CACHE_CHAR ≤ 255)
    (evs : List DiscEvent) (w : World)
    (h : w.srcb.total_srvc ≤ w.srcb.next_avail_idx ∧
      w.srcb.next_avail_idx ≤ env.BTA_GATTC_MAX_CACHE_CHAR) :
    (run env w evs).srcb.total_srvc ≤ (run env w evs).srcb.next_avail_idx ∧
      (run env w evs).srcb.next_avail_idx ≤ env.BTA_GATTC_MAX_CACHE_CHAR := by
  induction evs generalizing w with
  | nil => exact h
  | cons ev rest ih =>
    unfold run
    rw [List.foldl_cons]
    exact ih _ (deliver_bounds env hmax w ev h)

theorem add_srvc_to_list_slots_lt (env : Env) (p : tBTA_GATTC_SERV) :
    ∀ i ∈ add_srvc_to_list_slots env p, i < (env.BTA_GATTC_MAX_CACHE_CHAR : Int) := by
  intro i hi
  unfold add_srvc_to_list_slots at hi
  split at hi
  · simp at hi
  · split at hi
    · rw [List.mem_singleton.1 hi]
      omega
    · simp at hi

theorem add_char_to_list_slots_lt (env : Env) (p : tBTA_GATTC_SERV) :
    ∀ i ∈ add_char_to_list_slots env p, i < (env.BTA_GATTC_MAX_CACHE_CHAR : Int) := by
  intro i hi
  unfold add_char_to_list_slots at hi
  split at hi
  · simp at hi
  · split at hi
    · rcases List.mem_cons.1 hi with rfl | hi2
      · omega
      · split at hi2
        · rw [List.mem_singleton.1 hi2]
          omega
        · simp at hi2
    · simp at hi

theorem written_slots_lt (env : Env) (w : World) (ev : DiscEvent) :
    ∀ i ∈ written_slots env w ev, i < (env.BTA_GATTC_MAX_CACHE_CHAR : Int) := by
  intro i hi
  cases ev with
  | cmpl t st => simp [written_slots] at hi
  | res t d =>
    unfold written_slots bta_gattc_find_scb_by_cid at hi
    cases hc : w.clcb with
    | none =>
      rw [hc] at hi
      simp at hi
    | some c =>
      rw [hc] at hi
      dsimp only at hi
      split at hi
      · cases t with
        | GATT_DISC_SRVC_ALL => exact add_srvc_to_list_slots_lt env _ i hi
        | GATT_DISC_SRVC_BY_UUID => exact add_srvc_to_list_slots_lt env _ i hi
        | GATT_DISC_INC_SRVC =>
          dsimp only at hi
          split at hi
          · exact add_srvc_to_list_slots_lt env _ i hi
          · simp at hi
        | GATT_DISC_CHAR => exact add_char_to_list_slots_lt env _ i hi
        | GATT_DISC_CHAR_DSCPT => simp at hi
      · simp at hi

theorem add_srvc_to_list_rec_at (env : Env) (p : tBTA_GATTC_SERV) (s e : Nat) (u : Uuid)
    (prim : Bool) (j : Nat) (hj : (j : Int) ∉ add_srvc_to_list_slots env p) :
    rec_at (bta_gattc_add_srvc_to_list env p s e u prim).1 j = rec_at p j := by
  unfold add_srvc_to_list_slots at hj
  unfold bta_gattc_add_srvc_to_list
  cases hl : p.p_srvc_list with
  | none => rfl
  | some list =>
    rw [hl] at hj
    dsimp only at hj ⊢
    by_cases hlt : p.next_avail_idx < env.BTA_GATTC_MAX_CACHE_CHAR
    · rw [if_pos hlt] at hj
      rw [if_pos hlt]
      have hne : p.next_avail_idx ≠ j := by
        intro h
        apply hj
        rw [h]
        exact List.mem_singleton.2 rfl
      unfold rec_at
      rw [hl]
      exact getD_set_other _ _ _ _ _ hne
    · rw [if_neg hlt]

theorem add_char_to_list_rec_at (env : Env) (p : tBTA_GATTC_SERV) (d v : Nat) (u : Uuid)
    (prop : Nat) (j : Nat) (hj : (j : Int) ∉ add_char_to_list_slots env p) :
    rec_at (bta_gattc_add_char_to_list env p d v u prop).1 j = rec_at p j := by
  unfold add_char_to_list_slots at hj
  unfold bta_gattc_add_char_to_list
  cases hl : p.p_srvc_list with
  | none => rfl
  | some list =>
    rw [hl] at hj
    dsimp only at hj ⊢
    by_cases hlt : p.next_avail_idx < env.BTA_GATTC_MAX_CACHE_CHAR
    · rw [if_pos hlt] at hj
      rw [if_pos hlt]
      have hne : p.next_avail_idx ≠ j := by
        intro h
        apply hj
        rw [h]
        exact List.mem_cons_self _ _
      unfold rec_at
      rw [hl]
      dsimp only
      simp only [Option.getD_some]
      by_cases hprev : (p.total_char + 1) % 256 > 1 ∧ p.next_avail_idx ≥ 1
      · rw [if_pos hprev]
        have hne2 : p.next_avail_idx - 1 ≠ j := by
          intro h
          apply hj
          rw [if_pos hprev.1]
          apply List.mem_cons_of_mem
          apply List.mem_singleton.2
          omega
        rw [getD_set_other _ _ _ _ _ hne2, getD_set_other _ _ _ _ _ hne]
      · rw [if_neg hprev, getD_set_other _ _ _ _ _ hne]
    · rw [if_neg hlt]

/-- The records outside the slots written by an event are the same after it. -/
theorem deliver_rec_at (env : Env) (w : World) (ev : DiscEvent) (j : Nat)
    (hj : (j : Int) ∉ written_slots env w ev) :
    rec_at (deliver env w ev).srcb j = rec_at w.srcb j := by
  cases ev with
  | cmpl t st =>
    have h := (disc_cmpl_cback_buffer_kept env
      { w with trace := w.trace ++ [Effect.disc_cmpl_received t st] } t st).2.1
    show rec_at (bta_gattc_disc_cmpl_cback env _ t st).srcb j = rec_at w.srcb j
    unfold rec_at
    rw [h]
  | res t d =>
    show rec_at (bta_gattc_disc_res_cback env w t d).srcb j = rec_at w.srcb j
    unfold written_slots bta_gattc_find_scb_by_cid at hj
    unfold bta_gattc_disc_res_cback bta_gattc_find_scb_by_cid
    cases hc : w.clcb with
    | none => rfl
    | some c =>
      rw [hc] at hj
      dsimp only at hj ⊢
      by_cases hst : c.state = BTA_GATTC_DISCOVER_ST
      · rw [if_pos hst] at hj
        rw [if_pos hst]
        cases t with
        | GATT_DISC_SRVC_ALL => exact add_srvc_to_list_rec_at env _ _ _ _ _ j hj
        | GATT_DISC_SRVC_BY_UUID => exact add_srvc_to_list_rec_at env _ _ _ _ _ j hj
        | GATT_DISC_INC_SRVC =>
          dsimp only at hj ⊢
          cases hin : bta_gattc_srvc_in_list w.srcb d.value.incl_service.s_handle
              d.value.incl_service.e_handle d.value.incl_service.service_type with
          | true => rfl
          | false =>
            rw [hin] at hj
            exact add_srvc_to_list_rec_at env _ _ _ _ _ j hj
        | GATT_DISC_CHAR => exact add_char_to_list_rec_at env _ _ _ _ _ j hj
        | GATT_DISC_CHAR_DSCPT => rfl
      · rw [if_neg hst]

/-- In a pass in protocol order every slot written lies in the buffer from below as well: a
characteristic result only arrives after a service record was stored. -/
theorem written_slots_nonneg (env : Env) (hmax : env.BTA_GATTC_MAX_CACHE_CHAR ≤ 255)
    (w : World) (ev : DiscEvent) (hinv : pass_inv env w)
    (hout : outstanding w = some ev.disc_type) :
    ∀ i ∈ written_slots env w ev, 0 ≤ i := by
  intro i hi
  cases ev with
  | cmpl t st => simp [written_slots] at hi
  | res t d =>
    simp only [DiscEvent.disc_type] at hout
    unfold written_slots bta_gattc_find_scb_by_cid at hi
    cases hc : w.clcb with
    | none =>
      rw [hc] at hi
      simp at hi
    | some c =>
      rw [hc] at hi
      dsimp only at hi
      split at hi
      · have hsrvc : ∀ i ∈ add_srvc_to_list_slots env w.srcb, 0 ≤ i := by
          intro i hi
          unfold add_srvc_to_list_slots at hi
          split at hi
          · simp at hi
          · split at hi
            · rw [List.mem_singleton.1 hi]
              omega
            · simp at hi
        cases t with
        | GATT_DISC_SRVC_ALL => exact hsrvc i hi
        | GATT_DISC_SRVC_BY_UUID => exact hsrvc i hi
        | GATT_DISC_INC_SRVC =>
          dsimp only at hi
          split at hi
          · exact hsrvc i hi
          · simp at hi
        | GATT_DISC_CHAR =>
          have hpos : 1 ≤ w.srcb.next_avail_idx := by
            cases hinv with
            | srvc list hc ho => rw [ho] at hout; simp at hout
            | incl list hc ho => rw [ho] at hout; simp at hout
            | char list hc ho hcur hl hidx hnext hfit => omega
            | dscpt list hc ho => rw [ho] at hout; simp at hout
            | idle hi2 => rw [hi2.1] at hout; simp at hout
            | done list hbuf hl hp =>
              rw [outstanding_none_of_complete w hp] at hout; simp at hout
          dsimp only at hi
          unfold add_char_to_list_slots at hi
          split at hi
          · simp at hi
          · split at hi
            · rcases List.mem_cons.1 hi with rfl | hi2
              · omega
              · split at hi2
                · rw [List.mem_singleton.1 hi2]
                  omega
                · simp at hi2
            · simp at hi
        | GATT_DISC_CHAR_DSCPT => simp at hi
      · simp at hi

/-- What holds of the buffer bounds. With a buffer capacity of at most 255 (the cursors are 8
bits wide), in every state reached from `bta_gattc_init_cache` by any sequence of result and
completion events, and so in every state of a pass,
`total_srvc ≤ next_avail_idx ≤ BTA_GATTC_MAX_CACHE_CHAR`; in every state at all, every buffer
slot written while an event is handled has an index below `BTA_GATTC_MAX_CACHE_CHAR`, and the
records at all other indices are unchanged; in a pass in protocol order no slot below the
buffer is written. -/
theorem buffer_bounds (env : Env) (hmax : env.BTA_GATTC_MAX_CACHE_CHAR ≤ 255) :
    (∀ (w : World) (p_srvc_cb : tBTA_GATTC_SERV) (evs : List DiscEvent),
      w.srcb = bta_gattc_init_cache env p_srvc_cb →
      (run env w evs).srcb.total_srvc ≤ (run env w evs).srcb.next_avail_idx ∧
      (run env w evs).srcb.next_avail_idx ≤ env.BTA_GATTC_MAX_CACHE_CHAR) ∧
    (∀ (w : World) (evs : List DiscEvent),
      (run env (start_discovery env w) evs).srcb.total_srvc ≤
        (run env (start_discovery env w) evs).srcb.next_avail_idx ∧
      (run env (start_discovery env w) evs).srcb.next_avail_idx ≤
        env.BTA_GATTC_MAX_CACHE_CHAR) ∧
    (∀ (w : World) (ev : DiscEvent),
      (∀ i ∈ written_slots env w ev, i < (env.BTA_GATTC_MAX_CACHE_CHAR : Int)) ∧
      (∀ j : Nat, (j : Int) ∉ written_slots env w ev →
        rec_at (deliver env w ev).srcb j = rec_at w.srcb j)) ∧
    (∀ (w : World) (evs : List DiscEvent) (ev : DiscEvent),
      in_protocol_order env (start_discovery env w) (evs ++ [ev]) = true →
      ∀ i ∈ written_slots env (run env (start_discovery env w) evs) ev, 0 ≤ i) := by
  have hinit : ∀ p : tBTA_GATTC_SERV,
      (bta_gattc_init_cache env p).total_srvc ≤ (bta_gattc_init_cache env p).next_avail_idx ∧
      (bta_gattc_init_cache env p).next_avail_idx ≤ env.BTA_GATTC_MAX_CACHE_CHAR :=
    fun p => ⟨Nat.le_refl _, Nat.zero_le _⟩
  refine ⟨?_, ?_, ?_, ?_⟩
  · intro w p evs hw
    apply run_bounds env hmax evs w
    rw [hw]
    exact hinit p
  · intro w evs
    apply run_bounds env hmax evs
    unfold start_discovery
    rw [(discover_procedure_spec env _ GATT_DISC_SRVC_ALL).1]
    exact hinit w.srcb
  · intro w ev
    exact ⟨written_slots_lt env w ev, deliver_rec_at env w ev⟩
  · intro w evs ev hp
    obtain ⟨hp1, hout⟩ := in_protocol_order_append env _ evs ev hp
    exact written_slots_nonneg env hmax _ ev
      (run_inv env hmax evs _ (start_discovery_inv env w) hp1) hout

theorem buffer_bounds_witness :
    scenario_env.BTA_GATTC_MAX_CACHE_CHAR ≤ 255 ∧
    (scenario_run (scenario2_pass.take 5)).srcb.total_srvc = 1 ∧
    (scenario_run (scenario2_pass.take 5)).srcb.next_avail_idx = 3 ∧
    written_slots scenario_env (scenario_run (scenario2_pass.take 4))
      (char_result 5 6 0x2A1A 0x02) = [2, 1] ∧
    ((run scenario_env (start_discovery scenario_env default)
        (scenario2_pass.take 5)).srcb.total_srvc ≤
      (run scenario_env (start_discovery scenario_env default)
        (scenario2_pass.take 5)).srcb.next_avail_idx ∧
    (run scenario_env (start_discovery scenario_env default)
        (scenario2_pass.take 5)).srcb.next_avail_idx ≤
      scenario_env.BTA_GATTC_MAX_CACHE_CHAR) :=
  ⟨by decide, by decide, by decide, by decide,
    (buffer_bounds scenario_env (by decide)).2.1 default (scenario2_pass.take 5)⟩

theorem add_srvc_to_list_front (env : Env) (p : tBTA_GATTC_SERV) (s e : Nat) (u : Uuid)
    (prim : Bool) :
    (bta_gattc_add_srvc_to_list env p s e u prim).1.front_e_handle = p.front_e_handle := by
  unfold bta_gattc_add_srvc_to_list
  split
  · rfl
  · split <;> rfl

/-- `bta_gattc_add_char_to_list` writes the memory in front of the buffer exactly when slot
`-1` is among the slots it writes, and then with the declaration handle less one. -/
theorem add_char_to_list_front (env : Env) (p : tBTA_GATTC_SERV) (d v : Nat) (u : Uuid)
    (prop : Nat) :
    ((-1 : Int) ∉ add_char_to_list_slots env p →
      (bta_gattc_add_char_to_list env p d v u prop).1.front_e_handle = p.front_e_handle) ∧
    ((-1 : Int) ∈ add_char_to_list_slots env p →
      (bta_gattc_add_char_to_list env p d v u prop).1.front_e_handle =
        some ((d + 65535) % 65536)) := by
  unfold bta_gattc_add_char_to_list add_char_to_list_slots
  cases hb : p.p_srvc_list with
  | none => simp
  | some list =>
    dsimp only
    by_cases hlt : p.next_avail_idx < env.BTA_GATTC_MAX_CACHE_CHAR
    · rw [if_pos hlt, if_pos hlt]
      by_cases hgt : (p.total_char + 1) % 256 > 1
      · rw [if_pos hgt]
        by_cases h0 : p.next_avail_idx = 0
        · have hc : (p.total_char + 1) % 256 > 1 ∧ p.next_avail_idx = 0 := ⟨hgt, h0⟩
          simp only [List.mem_cons, List.mem_singleton, List.not_mem_nil, or_false, not_or]
          refine ⟨fun h => absurd (by rw [h0]; rfl) h.2, fun _ => ?_⟩
          show (if (p.total_char + 1) % 256 > 1 ∧ p.next_avail_idx = 0 then
            some ((d + 65535) % 65536) else p.front_e_handle) = _
          rw [if_pos hc]
        · have hc : ¬ ((p.total_char + 1) % 256 > 1 ∧ p.next_avail_idx = 0) := fun h => h0 h.2
          simp only [List.mem_cons, List.mem_singleton, List.not_mem_nil, or_false, not_or]
          refine ⟨fun _ => ?_, fun h => ?_⟩
          · show (if (p.total_char + 1) % 256 > 1 ∧ p.next_avail_idx = 0 then
              some ((d + 65535) % 65536) else p.front_e_handle) = _
            rw [if_neg hc]
          · exfalso
            omega
      · rw [if_neg hgt]
        have hc : ¬ ((p.total_char + 1) % 256 > 1 ∧ p.next_avail_idx = 0) := fun h => hgt h.1
        simp only [List.mem_cons, List.mem_singleton, List.not_mem_nil, or_false]
        refine ⟨fun _ => ?_, fun h => ?_⟩
        · show (if (p.total_char + 1) % 256 > 1 ∧ p.next_avail_idx = 0 then
            some ((d + 65535) % 65536) else p.front_e_handle) = _
          rw [if_neg hc]
        · exfalso
          omega
    · rw [if_neg hlt, if_neg hlt]
      simp

/-- The memory in front of the buffer is the same after an event that does not write slot
`-1`. -/
theorem deliver_front_e_handle (env : Env) (w : World) (ev : DiscEvent)
    (hj : (-1 : Int) ∉ written_slots env w ev) :
    (deliver env w ev).srcb.front_e_handle = w.srcb.front_e_handle := by
  cases ev with
  | cmpl t st =>
    exact (disc_cmpl_cback_buffer_kept env
      { w with trace := w.trace ++ [Effect.disc_cmpl_received t st] } t st).2.2.2
  | res t d =>
    show (bta_gattc_disc_res_cback env w t d).srcb.front_e_handle = w.srcb.front_e_handle
    unfold written_slots bta_gattc_find_scb_by_cid at hj
    unfold bta_gattc_disc_res_cback bta_gattc_find_scb_by_cid
    cases hc : w.clcb with
    | none => rfl
    | some c =>
      rw [hc] at hj
      dsimp only at hj ⊢
      by_cases hst : c.state = BTA_GATTC_DISCOVER_ST
      · rw [if_pos hst] at hj
        rw [if_pos hst]
        cases t with
        | GATT_DISC_SRVC_ALL => exact add_srvc_to_list_front env _ _ _ _ _
        | GATT_DISC_SRVC_BY_UUID => exact add_srvc_to_list_front env _ _ _ _ _
        | GATT_DISC_INC_SRVC =>
          dsimp only
          split
          · exact add_srvc_to_list_front env _ _ _ _ _
          · rfl
        | GATT_DISC_CHAR => exact (add_char_to_list_front env _ _ _ _ _).1 hj
        | GATT_DISC_CHAR_DSCPT => rfl
      · rw [if_neg hst]

/-- In a pass in protocol order nothing is written in front of the buffer. -/
theorem run_front_e_handle (env : Env) (hmax : env.BTA_GATTC_MAX_CACHE_CHAR ≤ 255)
    (evs : List DiscEvent) (w : World) (hinv : pass_inv env w)
    (hp : in_protocol_order env w evs = true) :
    (run env w evs).srcb.front_e_handle = w.srcb.front_e_handle := by
  induction evs generalizing w with
  | nil => rfl
  | cons ev rest ih =>
    unfold in_protocol_order at hp
    simp only [Bool.and_eq_true, beq_iff_eq] at hp
    unfold run
    rw [List.foldl_cons]
    have h1 := ih _ (deliver_inv env hmax w ev hinv hp.1) hp.2
    unfold run at h1
    rw [h1]
    apply deliver_front_e_handle
    intro hmem
    have := written_slots_nonneg env hmax w ev hinv hp.1 _ hmem
    omega

/-- C33, the code at the failing input. A discovery pass is started again while an earlier
pass has counted one characteristic; `bta_gattc_init_cache` resets every cursor but
`total_char`, so the state it leaves has `next_avail_idx = 0` and `total_char = 1`. The
characteristic result `decl = 5, value = 6` delivered in that state is written to slot 0, and
because `total_char` is then 2 the end handle `decl - 1 = 4` is written through `p_rec - 1`,
which is slot `-1`: the memory in front of the buffer. The counters stay within
`total_srvc ≤ next_avail_idx ≤ BTA_GATTC_MAX_CACHE_CHAR`. -/
theorem add_char_to_list_front_write :
    restarted_pass.srcb =
      bta_gattc_init_cache scenario_env (scenario_run (scenario2_pass.take 4)).srcb ∧
    (scenario_run (scenario2_pass.take 4)).srcb.total_char = 1 ∧
    restarted_pass.srcb.total_char = 1 ∧
    restarted_pass.srcb.next_avail_idx = 0 ∧
    restarted_pass.srcb.front_e_handle = none ∧
    written_slots scenario_env restarted_pass (char_result 5 6 0x2A1A 0x02) = [0, -1] ∧
    (deliver scenario_env restarted_pass (char_result 5 6 0x2A1A 0x02)).srcb.front_e_handle =
      some 4 ∧
    (deliver scenario_env restarted_pass (char_result 5 6 0x2A1A 0x02)).srcb.total_char = 2 ∧
    (deliver scenario_env restarted_pass (char_result 5 6 0x2A1A 0x02)).srcb.total_srvc = 0 ∧
    (deliver scenario_env restarted_pass (char_result 5 6 0x2A1A 0x02)).srcb.next_avail_idx =
      1 := by
  decide

/-! ## The services a pass stores -/

theorem take_succ_set {α : Type} (l : List α) (n : Nat) (a : α) (h : n < l.length) :
    (l.set n a).take (n + 1) = l.take n ++ [a] := by
  rw [List.take_succ, take_set_of_le a l (Nat.le_refl n)]
  simp [h]

theorem add_srvc_to_list_stored (env : Env) (p : tBTA_GATTC_SERV)
    (list : List tBTA_GATTC_ATTR_REC) (s e : Nat) (u : Uuid) (prim : Bool)
    (hmax : env.BTA_GATTC_MAX_CACHE_CHAR ≤ 255)
    (hbuf : p.p_srvc_list = some list)
    (hlen : list.length = env.BTA_GATTC_MAX_CACHE_CHAR)
    (hnext : p.next_avail_idx = p.total_srvc) :
    ∃ list2, (bta_gattc_add_srvc_to_list env p s e u prim).1.p_srvc_list = some list2 ∧
      (list2.take (bta_gattc_add_srvc_to_list env p s e u prim).1.total_srvc).map
          record_service =
        store_service env.BTA_GATTC_MAX_CACHE_CHAR
          ((list.take p.total_srvc).map record_service)
          { s_handle := s, e_handle := e, uuid := u, is_primary := prim } := by
  unfold bta_gattc_add_srvc_to_list store_service
  rw [hbuf]
  dsimp only
  by_cases hlt : p.next_avail_idx < env.BTA_GATTC_MAX_CACHE_CHAR
  · rw [if_pos hlt]
    refine ⟨_, rfl, ?_⟩
    have hl : ((list.take p.total_srvc).map record_service).length <
        env.BTA_GATTC_MAX_CACHE_CHAR := by
      rw [List.length_map, List.length_take]
      omega
    rw [if_pos hl]
    have hmod : (p.total_srvc + 1) % 256 = p.total_srvc + 1 := by omega
    show (List.take ((p.total_srvc + 1) % 256) (list.set p.next_avail_idx _)).map
      record_service = _
    rw [hmod, hnext, take_succ_set _ _ _ (by omega), List.map_append]
    rfl
  · rw [if_neg hlt]
    refine ⟨list, hbuf, ?_⟩
    have hl : ¬ ((list.take p.total_srvc).map record_service).length <
        env.BTA_GATTC_MAX_CACHE_CHAR := by
      rw [List.length_map, List.length_take]
      omega
    rw [if_neg hl]

theorem already_stored_iff (acc : List reported_service) (r : reported_service) :
    already_stored acc r = true ↔
      r.s_handle = 0 ∨ r.e_handle = 0 ∨
        ∃ q ∈ acc, q.s_handle = r.s_handle ∨ q.e_handle = r.e_handle := by
  unfold already_stored
  simp [List.any_eq_true, or_assoc]

/-- The test `bta_gattc_srvc_in_list` makes on the buffer is the test `already_stored` on the
services its first `next_avail_idx` records describe. -/
theorem srvc_in_list_stored (p : tBTA_GATTC_SERV) (list : List tBTA_GATTC_ATTR_REC)
    (s e : Nat) (u : Uuid) (hbuf : p.p_srvc_list = some list)
    (hle : p.next_avail_idx ≤ list.length) :
    bta_gattc_srvc_in_list p s e u =
      already_stored ((list.take p.next_avail_idx).map record_service)
        { s_handle := s, e_handle := e, uuid := u, is_primary := false } := by
  rw [Bool.eq_iff_iff, srvc_in_list_iff, already_stored_iff]
  apply or_congr Iff.rfl
  apply or_congr Iff.rfl
  constructor
  · rintro ⟨i, hi, h⟩
    refine ⟨record_service (rec_at p i), ?_, h⟩
    apply List.mem_map.2
    refine ⟨rec_at p i, ?_, rfl⟩
    unfold rec_at
    rw [hbuf]
    simp only [Option.getD_some]
    rw [List.getD_eq_getElem _ _ (by omega)]
    apply List.mem_take_iff_getElem.2
    exact ⟨i, by omega, rfl⟩
  · rintro ⟨q, hq, h⟩
    obtain ⟨r, hr, rfl⟩ := List.mem_map.1 hq
    obtain ⟨i, hi, rfl⟩ := List.mem_take_iff_getElem.1 hr
    refine ⟨i, by omega, ?_⟩
    have : rec_at p i = list[i] := by
      unfold rec_at
      rw [hbuf]
      simp only [Option.getD_some]
      rw [List.getD_eq_getElem _ _ (by omega)]
    rw [this]
    exact h


/-- One event in protocol order stores what `store_reported` says. -/
theorem deliver_stored (env : Env) (hmax : env.BTA_GATTC_MAX_CACHE_CHAR ≤ 255) (w : World)
    (ev : DiscEvent) (acc : List reported_service) (hinv : pass_inv env w)
    (hout : outstanding w = some ev.disc_type) (hQ : services_buffered w acc) :
    services_buffered (deliver env w ev)
      (store_reported env.BTA_GATTC_MAX_CACHE_CHAR acc ev) := by
  obtain ⟨list0, hb0, hm0⟩ := hQ
  cases ev with
  | cmpl t st =>
    obtain ⟨h1, h2, _, _⟩ := disc_cmpl_cback_buffer_kept env
      { w with trace := w.trace ++ [Effect.disc_cmpl_received t st] } t st
    refine ⟨list0, ?_, ?_⟩
    · show (bta_gattc_disc_cmpl_cback env _ t st).srcb.p_srvc_list = some list0
      rw [h2]
      exact hb0
    · show (list0.take (bta_gattc_disc_cmpl_cback env _ t st).srcb.total_srvc).map
        record_service = acc
      rw [h1]
      exact hm0
  | res t d =>
    simp only [DiscEvent.disc_type] at hout
    simp only [deliver]
    cases hinv with
    | srvc list hc ho hcache hcur hnext =>
      have ht : t = GATT_DISC_SRVC_ALL := by rw [ho] at hout; simpa using hout.symm
      subst ht
      obtain ⟨c, hclcb, hst, hss⟩ := hc.clcb
      have hl : list0 = list := Option.some.inj (hb0.symm.trans hc.buf)
      subst hl
      obtain ⟨list2, h1, h2⟩ := add_srvc_to_list_stored env w.srcb list0 d.handle
        d.value.group_value.e_handle d.value.group_value.service_type true hmax hc.buf
        hc.len hnext
      simp only [bta_gattc_disc_res_cback, bta_gattc_find_scb_by_cid, hclcb, hst, if_true]
      refine ⟨list2, h1, ?_⟩
      rw [← hm0]
      exact h2
    | incl list hc ho hcur hl hnext =>
      have ht : t = GATT_DISC_INC_SRVC := by rw [ho] at hout; simpa using hout.symm
      subst ht
      obtain ⟨c, hclcb, hst, hss⟩ := hc.clcb
      have hl : list0 = list := Option.some.inj (hb0.symm.trans hc.buf)
      subst hl
      have hin := srvc_in_list_stored w.srcb list0 d.value.incl_service.s_handle
        d.value.incl_service.e_handle d.value.incl_service.service_type hc.buf
        (by rw [hnext, hc.len]; exact hc.tot)
      rw [hnext, hm0] at hin
      obtain ⟨list2, h1, h2⟩ := add_srvc_to_list_stored env w.srcb list0
        d.value.incl_service.s_handle d.value.incl_service.e_handle
        d.value.incl_service.service_type false hmax hc.buf hc.len hnext
      rw [hm0] at h2
      have hsrcb := disc_res_cback_incl env w c d hclcb hst
      unfold services_buffered
      rw [hsrcb]
      show ∃ list, _ ∧ _ = (if already_stored acc (included_reported d) then acc
        else store_service env.BTA_GATTC_MAX_CACHE_CHAR acc (included_reported d))
      by_cases hin2 : bta_gattc_srvc_in_list w.srcb d.value.incl_service.s_handle
          d.value.incl_service.e_handle d.value.incl_service.service_type = true
      · rw [if_pos hin2]
        have hin3 : already_stored acc (included_reported d) = true := by
          rw [← hin2, hin]
          rfl
        rw [if_pos hin3]
        exact ⟨list0, hb0, hm0⟩
      · rw [if_neg hin2]
        have hin3 : ¬ already_stored acc (included_reported d) = true := by
          intro h
          apply hin2
          rw [hin]
          exact h
        rw [if_neg hin3]
        exact ⟨list2, h1, h2⟩
    | char list hc ho hcur hl hidx hnext hfit =>
      have ht : t = GATT_DISC_CHAR := by rw [ho] at hout; simpa using hout.symm
      subst ht
      obtain ⟨c, hclcb, hst, hss⟩ := hc.clcb
      have hl : list0 = list := Option.some.inj (hb0.symm.trans hc.buf)
      subst hl
      obtain ⟨list2, h1, h2, h3, h4, h5, h6, h7, h8, h9⟩ :=
        add_char_to_list_spec env w.srcb list0 d.handle d.value.dclr_value.val_handle
          d.value.dclr_value.char_uuid d.value.dclr_value.char_prop hmax
          hc.buf hc.len hnext hfit
      simp only [bta_gattc_disc_res_cback, bta_gattc_find_scb_by_cid, hclcb, hst, if_true]
      refine ⟨list2, h1, ?_⟩
      show (list2.take (bta_gattc_add_char_to_list env w.srcb _ _ _ _).1.total_srvc).map
        record_service = acc
      rw [h5, h6 _ (Nat.le_refl _)]
      exact hm0
    | dscpt list hc ho hcur hl hidx hchar hnext hfit =>
      have ht : t = GATT_DISC_CHAR_DSCPT := by rw [ho] at hout; simpa using hout.symm
      subst ht
      obtain ⟨c, hclcb, hst, hss⟩ := hc.clcb
      simp only [bta_gattc_disc_res_cback, bta_gattc_find_scb_by_cid, hclcb, hst, if_true]
      exact ⟨list0, hb0, hm0⟩
    | idle hi => rw [hi.1] at hout; simp at hout
    | done list hbuf hl hp => rw [outstanding_none_of_complete w hp] at hout; simp at hout

/-- Every pass in protocol order stores the services `stored_services` computes from its
events. -/
theorem run_stored (env : Env) (hmax : env.BTA_GATTC_MAX_CACHE_CHAR ≤ 255)
    (evs : List DiscEvent) (w : World) (acc : List reported_service)
    (hinv : pass_inv env w) (hp : in_protocol_order env w evs = true)
    (hQ : services_buffered w acc) :
    services_buffered (run env w evs)
      (evs.foldl (store_reported env.BTA_GATTC_MAX_CACHE_CHAR) acc) := by
  induction evs generalizing w acc with
  | nil => exact hQ
  | cons ev rest ih =>
    unfold in_protocol_order at hp
    simp only [Bool.and_eq_true, beq_iff_eq] at hp
    unfold run
    rw [List.foldl_cons, List.foldl_cons]
    exact ih _ _ (deliver_inv env hmax w ev hinv hp.1) hp.2
      (deliver_stored env hmax w ev acc hinv hp.1 hQ)

theorem start_discovery_stored (env : Env) (w : World) :
    services_buffered (start_discovery env w) [] := by
  unfold start_discovery
  refine ⟨List.replicate env.BTA_GATTC_MAX_CACHE_CHAR default, ?_, ?_⟩
  · rw [(discover_procedure_spec env _ GATT_DISC_SRVC_ALL).1]
    rfl
  · rw [(discover_procedure_spec env _ GATT_DISC_SRVC_ALL).1]
    rfl

/-- In every discovery pass in protocol order that completes, the graph holds one service per
service stored from the results, in the order stored: same start handle, UUID and primary
flag, and an end handle that is the one reported or was widened past it. -/
theorem pass_graph_stored (env : Env) (hmax : env.BTA_GATTC_MAX_CACHE_CHAR ≤ 255)
    (w : World) (evs : List DiscEvent)
    (hp : in_protocol_order env (start_discovery env w) evs = true)
    (hdone : pass_complete (run env (start_discovery env w) evs) = true) :
    List.Forall₂
      (fun S r => S.s_handle = r.s_handle ∧ r.e_handle ≤ S.e_handle ∧ S.uuid = r.uuid ∧
        S.is_primary = r.is_primary)
      (run env (start_discovery env w) evs).srcb.srvc_cache
      (stored_services env.BTA_GATTC_MAX_CACHE_CHAR evs) := by
  obtain ⟨list, hbuf, hl⟩ := pass_graph_lifted env hmax w evs hp hdone
  obtain ⟨list2, hb2, hm2⟩ := run_stored env hmax evs _ [] (start_discovery_inv env w) hp
    (start_discovery_stored env w)
  have hl2 : list2 = list := Option.some.inj (hb2.symm.trans hbuf)
  subst hl2
  unfold stored_services
  rw [← hm2, List.forall₂_map_right_iff]
  exact hl

/-! ## Primary-service results come first -/

theorem past_srvc_of_trace (w w2 : World) (h : w2.trace = w.trace) (hp : past_srvc w) :
    past_srvc w2 := by
  unfold past_srvc outstanding at *
  rw [h]
  exact hp

theorem past_srvc_concat (w : World) (t : List Effect) (e : Effect) (h : w.trace = t ++ [e])
    (h1 : accepted_request e ≠ some GATT_DISC_SRVC_ALL)
    (h2 : accepted_request e ≠ some GATT_DISC_SRVC_BY_UUID) : past_srvc w := by
  unfold past_srvc
  rw [outstanding_concat w t e h]
  exact ⟨h1, h2⟩

theorem discover_procedure_past_srvc (env : Env) (w : World) (t : tGATT_DISC_TYPE)
    (h1 : t ≠ GATT_DISC_SRVC_ALL) (h2 : t ≠ GATT_DISC_SRVC_BY_UUID) (hp : past_srvc w) :
    past_srvc (bta_gattc_discover_procedure env w t).1 := by
  rcases discover_procedure_cases env w t with heq | ⟨s, e, heq⟩
  · rw [heq]
    exact hp
  · rw [heq]
    apply past_srvc_concat _ w.trace _ rfl
    · cases hst : env.GATTC_Discover w.trace t s e <;>
        simp [accepted_request, h1]
    · cases hst : env.GATTC_Discover w.trace t s e <;>
        simp [accepted_request, h2]

theorem explore_srvc_past_srvc (env : Env) (w : World) (hp : past_srvc w) :
    past_srvc (bta_gattc_explore_srvc env w) := by
  unfold bta_gattc_explore_srvc bta_gattc_start_disc_include_srvc
  dsimp only
  cases w.clcb with
  | none => exact hp
  | some c =>
    dsimp only
    split
    · exact discover_procedure_past_srvc env _ _ (by decide) (by decide) hp
    · exact past_srvc_concat _ _ _ rfl (by simp [accepted_request])
        (by simp [accepted_request])

theorem char_dscpt_disc_cmpl_fuel_past_srvc (env : Env) (fuel : Nat) (w : World)
    (hp : past_srvc w) : past_srvc (char_dscpt_disc_cmpl_fuel env fuel w) := by
  induction fuel generalizing w with
  | zero => exact hp
  | succ fuel ih =>
    unfold char_dscpt_disc_cmpl_fuel bta_gattc_start_disc_char_dscp
    dsimp only
    split
    · split
      · exact ih _ (discover_procedure_past_srvc env _ _ (by decide) (by decide) hp)
      · exact discover_procedure_past_srvc env _ _ (by decide) (by decide) hp
    · exact explore_srvc_past_srvc env _ hp

/-- After a completion the engine never waits on a primary-service discovery: no callback
issues one. -/
theorem deliver_cmpl_past_srvc (env : Env) (w : World) (t : tGATT_DISC_TYPE)
    (st : tGATT_STATUS) : past_srvc (deliver env w (.cmpl t st)) := by
  have h0 : past_srvc { w with trace := w.trace ++ [Effect.disc_cmpl_received t st] } :=
    past_srvc_concat _ w.trace _ rfl (by simp [accepted_request]) (by simp [accepted_request])
  show past_srvc (bta_gattc_disc_cmpl_cback env _ t st)
  unfold bta_gattc_disc_cmpl_cback
  cases w.clcb with
  | none => exact h0
  | some c =>
    dsimp only
    split
    · exact past_srvc_concat _ _ _ rfl (by simp [accepted_request])
        (by simp [accepted_request])
    · cases t with
      | GATT_DISC_SRVC_ALL => exact explore_srvc_past_srvc env _ h0
      | GATT_DISC_SRVC_BY_UUID => exact explore_srvc_past_srvc env _ h0
      | GATT_DISC_INC_SRVC =>
        show past_srvc (bta_gattc_incl_srvc_disc_cmpl env _)
        unfold bta_gattc_incl_srvc_disc_cmpl bta_gattc_start_disc_char
        exact discover_procedure_past_srvc env _ _ (by decide) (by decide) h0
      | GATT_DISC_CHAR =>
        show past_srvc (bta_gattc_char_disc_cmpl env _)
        unfold bta_gattc_char_disc_cmpl
        split
        · unfold bta_gattc_start_disc_char_dscp
          dsimp only
          split
          · exact char_dscpt_disc_cmpl_fuel_past_srvc env 256 _
              (discover_procedure_past_srvc env _ _ (by decide) (by decide) h0)
          · exact discover_procedure_past_srvc env _ _ (by decide) (by decide) h0
        · exact explore_srvc_past_srvc env _ h0
      | GATT_DISC_CHAR_DSCPT => exact char_dscpt_disc_cmpl_fuel_past_srvc env 256 _ h0

theorem deliver_res_trace (env : Env) (w : World) (t : tGATT_DISC_TYPE) (d : tGATT_DISC_RES) :
    (deliver env w (.res t d)).trace = w.trace := by
  show (bta_gattc_disc_res_cback env w t d).trace = w.trace
  unfold bta_gattc_disc_res_cback bta_gattc_find_scb_by_cid
  cases w.clcb with
  | none => rfl
  | some c =>
    dsimp only
    split
    · cases t <;> rfl
    · rfl

/-- Once the engine waits on something else than a primary-service discovery, a pass in
protocol order delivers no primary-service result any more. -/
theorem no_primaries_past_srvc (env : Env) (evs : List DiscEvent) (w : World)
    (hpast : past_srvc w) (hp : in_protocol_order env w evs = true) :
    primaries_reported evs = [] := by
  induction evs generalizing w with
  | nil => rfl
  | cons ev rest ih =>
    unfold in_protocol_order at hp
    simp only [Bool.and_eq_true, beq_iff_eq] at hp
    obtain ⟨hout, hrest⟩ := hp
    cases ev with
    | cmpl t st =>
      have := ih _ (deliver_cmpl_past_srvc env w t st) hrest
      simpa [primaries_reported] using this
    | res t d =>
      have hnext : past_srvc (deliver env w (.res t d)) :=
        past_srvc_of_trace w _ (deliver_res_trace env w t d) hpast
      have := ih _ hnext hrest
      simp only [DiscEvent.disc_type] at hout
      cases t with
      | GATT_DISC_SRVC_ALL => exact absurd hout hpast.1
      | GATT_DISC_SRVC_BY_UUID => exact absurd hout hpast.2
      | GATT_DISC_INC_SRVC => simpa [primaries_reported] using this
      | GATT_DISC_CHAR => simpa [primaries_reported] using this
      | GATT_DISC_CHAR_DSCPT => simpa [primaries_reported] using this

theorem past_srvc_of_outstanding (w : World) (t : tGATT_DISC_TYPE)
    (h : outstanding w = some t) (h1 : t ≠ GATT_DISC_SRVC_ALL)
    (h2 : t ≠ GATT_DISC_SRVC_BY_UUID) : past_srvc w := by
  unfold past_srvc
  rw [h]
  exact ⟨fun h3 => h1 (Option.some.inj h3), fun h3 => h2 (Option.some.inj h3)⟩

theorem store_service_take (cap : Nat) (acc : List reported_service) (p : reported_service)
    (l : List reported_service) :
    store_service cap acc p ++ l.take (cap - (store_service cap acc p).length) =
      acc ++ (p :: l).take (cap - acc.length) := by
  unfold store_service
  by_cases h : acc.length < cap
  · rw [if_pos h]
    obtain ⟨k, hk⟩ : ∃ k, cap - acc.length = k + 1 := ⟨cap - acc.length - 1, by omega⟩
    have h2 : cap - (acc ++ [p]).length = k := by
      rw [List.length_append, List.length_singleton]
      omega
    rw [hk, h2, List.take_succ_cons, List.append_assoc]
    rfl
  · rw [if_neg h]
    have h2 : cap - acc.length = 0 := by omega
    rw [h2, List.take_zero, List.take_zero]

/-- The services a pass in protocol order stores are the primary services in the order
reported, as many as the buffer has room for, followed by secondary services. -/
theorem foldl_store_decompose (env : Env) (cap : Nat) (evs : List DiscEvent) :
    ∀ (w : World) (acc : List reported_service), in_protocol_order env w evs = true →
    ∃ appended, evs.foldl (store_reported cap) acc =
        acc ++ (primaries_reported evs).take (cap - acc.length) ++ appended ∧
      ∀ r ∈ appended, r.is_primary = false := by
  induction evs with
  | nil =>
    intro w acc _
    exact ⟨[], by simp [primaries_reported], fun r hr => by simp at hr⟩
  | cons ev rest ih =>
    intro w acc hp
    unfold in_protocol_order at hp
    simp only [Bool.and_eq_true, beq_iff_eq] at hp
    obtain ⟨hout, hrest⟩ := hp
    rw [List.foldl_cons]
    have hkeep : ∀ (hnot : primaries_reported (ev :: rest) = primaries_reported rest)
        (hst : store_reported cap acc ev = acc),
        ∃ appended, rest.foldl (store_reported cap) (store_reported cap acc ev) =
          acc ++ (primaries_reported (ev :: rest)).take (cap - acc.length) ++ appended ∧
        ∀ r ∈ appended, r.is_primary = false := by
      intro hnot hst
      rw [hnot, hst]
      exact ih _ acc hrest
    cases ev with
    | cmpl t st => exact hkeep (by simp [primaries_reported]) rfl
    | res t d =>
      simp only [DiscEvent.disc_type] at hout
      cases t with
      | GATT_DISC_SRVC_ALL =>
        obtain ⟨app, h1, h2⟩ := ih _ (store_service cap acc (primary_reported d)) hrest
        refine ⟨app, ?_, h2⟩
        show rest.foldl (store_reported cap) (store_service cap acc (primary_reported d)) = _
        rw [h1]
        have hprim : primaries_reported (DiscEvent.res GATT_DISC_SRVC_ALL d :: rest) =
            primary_reported d :: primaries_reported rest := by
          simp [primaries_reported]
        rw [hprim, store_service_take]
      | GATT_DISC_SRVC_BY_UUID =>
        obtain ⟨app, h1, h2⟩ := ih _ (store_service cap acc (primary_reported d)) hrest
        refine ⟨app, ?_, h2⟩
        show rest.foldl (store_reported cap) (store_service cap acc (primary_reported d)) = _
        rw [h1]
        have hprim : primaries_reported (DiscEvent.res GATT_DISC_SRVC_BY_UUID d :: rest) =
            primary_reported d :: primaries_reported rest := by
          simp [primaries_reported]
        rw [hprim, store_service_take]
      | GATT_DISC_INC_SRVC =>
        have hpast : past_srvc (deliver env w (.res GATT_DISC_INC_SRVC d)) :=
          past_srvc_of_trace w _ (deliver_res_trace env w _ d)
            (past_srvc_of_outstanding w _ hout (by decide) (by decide))
        have hnone := no_primaries_past_srvc env rest _ hpast hrest
        have hprim : primaries_reported (DiscEvent.res GATT_DISC_INC_SRVC d :: rest) = [] := by
          simpa [primaries_reported] using hnone
        rw [hprim]
        obtain ⟨app, h1, h2⟩ := ih _
          (store_reported cap acc (DiscEvent.res GATT_DISC_INC_SRVC d)) hrest
        rw [hnone] at h1
        simp only [List.take_nil, List.append_nil] at h1 ⊢
        rw [h1]
        show ∃ appended,
          (if already_stored acc (included_reported d) then acc
            else store_service cap acc (included_reported d)) ++ app = acc ++ appended ∧ _
        by_cases hin : already_stored acc (included_reported d) = true
        · rw [if_pos hin]
          exact ⟨app, rfl, h2⟩
        · rw [if_neg hin]
          unfold store_service
          by_cases hlt : acc.length < cap
          · rw [if_pos hlt]
            refine ⟨included_reported d :: app, by simp, ?_⟩
            intro r hr
            rcases List.mem_cons.1 hr with rfl | hr2
            · rfl
            · exact h2 r hr2
          · rw [if_neg hlt]
            exact ⟨app, rfl, h2⟩
      | GATT_DISC_CHAR => exact hkeep (by simp [primaries_reported]) rfl
      | GATT_DISC_CHAR_DSCPT => exact hkeep (by simp [primaries_reported]) rfl

/-- When no `INC_SRVC` result names a new service, a pass in protocol order stores the
primary services in the order reported and nothing else. -/
theorem foldl_store_primaries (env : Env) (cap : Nat) (evs : List DiscEvent) :
    ∀ (w : World) (acc pre : List reported_service), in_protocol_order env w evs = true →
    (∀ d, DiscEvent.res GATT_DISC_INC_SRVC d ∈ evs →
      already_stored (pre ++ primaries_reported evs) (included_reported d) = true) →
    (∀ r ∈ pre, r ∈ acc ∨ cap ≤ acc.length) →
    evs.foldl (store_reported cap) acc =
      acc ++ (primaries_reported evs).take (cap - acc.length) := by
  induction evs with
  | nil =>
    intro w acc pre _ _ _
    simp [primaries_reported]
  | cons ev rest ih =>
    intro w acc pre hp hknown hpre
    unfold in_protocol_order at hp
    simp only [Bool.and_eq_true, beq_iff_eq] at hp
    obtain ⟨hout, hrest⟩ := hp
    rw [List.foldl_cons]
    have hkeep : ∀ (hnot : primaries_reported (ev :: rest) = primaries_reported rest)
        (hst : store_reported cap acc ev = acc),
        rest.foldl (store_reported cap) (store_reported cap acc ev) =
          acc ++ (primaries_reported (ev :: rest)).take (cap - acc.length) := by
      intro hnot hst
      rw [hnot, hst]
      apply ih _ acc pre hrest _ hpre
      intro d hd
      rw [← hnot]
      exact hknown d (List.mem_cons_of_mem _ hd)
    have hprimary : ∀ (p : reported_service)
        (hyes : primaries_reported (ev :: rest) = p :: primaries_reported rest)
        (hst : store_reported cap acc ev = store_service cap acc p),
        rest.foldl (store_reported cap) (store_reported cap acc ev) =
          acc ++ (primaries_reported (ev :: rest)).take (cap - acc.length) := by
      intro p hyes hst
      rw [hyes, hst, ← store_service_take]
      apply ih _ _ (pre ++ [p]) hrest
      · intro d hd
        have := hknown d (List.mem_cons_of_mem _ hd)
        rw [hyes] at this
        rw [List.append_assoc]
        exact this
      · intro r hr
        unfold store_service
        by_cases hlt : acc.length < cap
        · rw [if_pos hlt]
          rcases List.mem_append.1 hr with h | h
          · rcases hpre r h with h2 | h2
            · exact Or.inl (List.mem_append_left _ h2)
            · omega
          · exact Or.inl (List.mem_append_right _ h)
        · rw [if_neg hlt]
          right
          omega
    cases ev with
    | cmpl t st => exact hkeep (by simp [primaries_reported]) rfl
    | res t d =>
      simp only [DiscEvent.disc_type] at hout
      cases t with
      | GATT_DISC_SRVC_ALL =>
        exact hprimary (primary_reported d) (by simp [primaries_reported]) rfl
      | GATT_DISC_SRVC_BY_UUID =>
        exact hprimary (primary_reported d) (by simp [primaries_reported]) rfl
      | GATT_DISC_INC_SRVC =>
        have hpast : past_srvc (deliver env w (.res GATT_DISC_INC_SRVC d)) :=
          past_srvc_of_trace w _ (deliver_res_trace env w _ d)
            (past_srvc_of_outstanding w _ hout (by decide) (by decide))
        have hnone := no_primaries_past_srvc env rest _ hpast hrest
        have hprim : primaries_reported (DiscEvent.res GATT_DISC_INC_SRVC d :: rest) =
            primaries_reported rest := by
          simp [primaries_reported]
        apply hkeep hprim
        have hk := hknown d (List.mem_cons_self _ _)
        rw [hprim, hnone, List.append_nil, already_stored_iff] at hk
        show (if already_stored acc (included_reported d) then acc
          else store_service cap acc (included_reported d)) = acc
        by_cases hin : already_stored acc (included_reported d) = true
        · rw [if_pos hin]
        · rw [if_neg hin]
          rw [already_stored_iff] at hin
          have hfull : ¬ acc.length < cap := by
            intro hlt
            apply hin
            rcases hk with h | h | ⟨q, hq, h⟩
            · exact Or.inl h
            · exact Or.inr (Or.inl h)
            · rcases hpre q hq with h2 | h2
              · exact Or.inr (Or.inr ⟨q, h2, h⟩)
              · omega
          unfold store_service
          rw [if_neg hfull]
      | GATT_DISC_CHAR => exact hkeep (by simp [primaries_reported]) rfl
      | GATT_DISC_CHAR_DSCPT => exact hkeep (by simp [primaries_reported]) rfl

theorem stored_services_primaries (env : Env) (cap : Nat) (evs : List DiscEvent) (w : World)
    (hp : in_protocol_order env w evs = true) (hknown : includes_known evs = true) :
    stored_services cap evs = (primaries_reported evs).take cap := by
  unfold stored_services
  rw [foldl_store_primaries env cap evs w [] [] hp _ (fun r hr => by simp at hr)]
  · simp
  · intro d hd
    unfold includes_known at hknown
    rw [List.all_eq_true] at hknown
    have := hknown _ hd
    simpa using this

theorem forall₂_map_eq {α β γ : Type} (R : α → β → Prop) (f : α → γ) (g : β → γ)
    (hR : ∀ a b, R a b → f a = g b) (l1 : List α) (l2 : List β)
    (h : List.Forall₂ R l1 l2) : l1.map f = l2.map g := by
  induction h with
  | nil => rfl
  | cons hab _ ih =>
    simp only [List.map_cons, List.cons.injEq]
    exact ⟨hR _ _ hab, ih⟩

/-- C7, amended. In every discovery pass in protocol order that completes (buffer capacity
within the 8-bit cursors), the services of the resulting graph, read in insertion order, are
the services stored from the results, with the start handles, UUIDs and primary flags
reported: first the primary services in the order the `SRVC_ALL` results report them, as many
as the buffer has room for, then the secondary services that `INC_SRVC` results append. Their
start handles are strictly ascending exactly when those of the stored primary services are,
those of the appended services are, and every appended service starts above every stored
primary service. When no `INC_SRVC` result names a new service, the graph holds the primary
services alone, and its start handles are strictly ascending when the primary services are
reported in strictly ascending order. -/
theorem pass_service_order (env : Env) (hmax : env.BTA_GATTC_MAX_CACHE_CHAR ≤ 255)
    (w : World) (evs : List DiscEvent)
    (hp : in_protocol_order env (start_discovery env w) evs = true)
    (hdone : pass_complete (run env (start_discovery env w) evs) = true) :
    (run env (start_discovery env w) evs).srcb.srvc_cache.map
        (fun S => (S.s_handle, S.uuid, S.is_primary)) =
      (stored_services env.BTA_GATTC_MAX_CACHE_CHAR evs).map service_key ∧
    (∃ appended,
      stored_services env.BTA_GATTC_MAX_CACHE_CHAR evs =
        (primaries_reported evs).take env.BTA_GATTC_MAX_CACHE_CHAR ++ appended ∧
      (∀ r ∈ appended, r.is_primary = false) ∧
      (((run env (start_discovery env w) evs).srcb.srvc_cache.map
          (fun S => S.s_handle)).Pairwise (· < ·) ↔
        (((primaries_reported evs).take env.BTA_GATTC_MAX_CACHE_CHAR).map
            (fun r => r.s_handle)).Pairwise (· < ·) ∧
          (appended.map (fun r => r.s_handle)).Pairwise (· < ·) ∧
          ∀ p ∈ (primaries_reported evs).take env.BTA_GATTC_MAX_CACHE_CHAR,
            ∀ a ∈ appended, p.s_handle < a.s_handle)) ∧
    (includes_known evs = true →
      (run env (start_discovery env w) evs).srcb.srvc_cache.map
          (fun S => (S.s_handle, S.uuid, S.is_primary)) =
        ((primaries_reported evs).take env.BTA_GATTC_MAX_CACHE_CHAR).map service_key ∧
      (((primaries_reported evs).map (fun r => r.s_handle)).Pairwise (· < ·) →
        ((run env (start_discovery env w) evs).srcb.srvc_cache.map
          (fun S => S.s_handle)).Pairwise (· < ·))) := by
  have hg := pass_graph_stored env hmax w evs hp hdone
  have hkey := forall₂_map_eq _ (fun S : tBTA_GATTC_SERVICE => (S.s_handle, S.uuid, S.is_primary))
    service_key (fun S r h => by
      show (S.s_handle, S.uuid, S.is_primary) = (r.s_handle, r.uuid, r.is_primary)
      rw [h.1, h.2.2.1, h.2.2.2]) _ _ hg
  have hs := forall₂_map_eq _ (fun S : tBTA_GATTC_SERVICE => S.s_handle)
    (fun r : reported_service => r.s_handle) (fun S r h => h.1) _ _ hg
  obtain ⟨appended, hdec, hsec⟩ := foldl_store_decompose env env.BTA_GATTC_MAX_CACHE_CHAR evs
    (start_discovery env w) [] hp
  have hdec2 : stored_services env.BTA_GATTC_MAX_CACHE_CHAR evs =
      (primaries_reported evs).take env.BTA_GATTC_MAX_CACHE_CHAR ++ appended := by
    unfold stored_services
    rw [hdec]
    simp
  refine ⟨hkey, ⟨appended, hdec2, hsec, ?_⟩, ?_⟩
  · rw [hs, hdec2, List.map_append, List.pairwise_append]
    constructor
    · rintro ⟨h1, h2, h3⟩
      refine ⟨h1, h2, ?_⟩
      intro p hp2 a ha
      exact h3 _ (List.mem_map_of_mem _ hp2) _ (List.mem_map_of_mem _ ha)
    · rintro ⟨h1, h2, h3⟩
      refine ⟨h1, h2, ?_⟩
      intro x hx y hy
      obtain ⟨p, hp2, rfl⟩ := List.mem_map.1 hx
      obtain ⟨a, ha, rfl⟩ := List.mem_map.1 hy
      exact h3 p hp2 a ha
  · intro hknown
    have hprim := stored_services_primaries env env.BTA_GATTC_MAX_CACHE_CHAR evs
      (start_discovery env w) hp hknown
    refine ⟨by rw [hkey, hprim], ?_⟩
    intro hasc
    rw [hs, hprim, List.map_take]
    exact hasc.sublist (List.take_sublist _ _)

/-- C7, witness: scenario 3, in which the `INC_SRVC` result names the primary service
`[20, 30]`; the graph lists the start handles 1, 20. -/
theorem pass_service_order_witness :
    scenario_env.BTA_GATTC_MAX_CACHE_CHAR ≤ 255 ∧
    in_protocol_order scenario_env (start_discovery scenario_env default)
      scenario3_pass = true ∧
    pass_complete (run scenario_env (start_discovery scenario_env default)
      scenario3_pass) = true ∧
    includes_known scenario3_pass = true ∧
    ((primaries_reported scenario3_pass).map (fun r => r.s_handle)).Pairwise (· < ·) ∧
    (run scenario_env (start_discovery scenario_env default) scenario3_pass).srcb.srvc_cache.map
        (fun S => (S.s_handle, S.uuid, S.is_primary)) =
      ((primaries_reported scenario3_pass).take scenario_env.BTA_GATTC_MAX_CACHE_CHAR).map
        service_key ∧
    ((run scenario_env (start_discovery scenario_env default)
      scenario3_pass).srcb.srvc_cache.map (fun S => S.s_handle)).Pairwise (· < ·) :=
  ⟨by decide, by decide, by decide, by decide, by decide,
    ((pass_service_order scenario_env (by decide) default scenario3_pass (by decide)
      (by decide)).2.2 (by decide)).1,
    ((pass_service_order scenario_env (by decide) default scenario3_pass (by decide)
      (by decide)).2.2 (by decide)).2 (by decide)⟩

/-- C7, counterexample. Every sub-procedure of this pass delivers its results in ascending
handle order, the pass follows the protocol and completes; the secondary service `[12, 15]`
reported as included in the first service is appended after the primary services, so the
graph lists the start handles 1, 20, 12. -/
theorem pass_service_order_not_ascending :
    in_protocol_order scenario_env (start_discovery scenario_env default)
      secondary_between_pass = true ∧
    pass_complete (scenario_run secondary_between_pass) = true ∧
    (scenario_run secondary_between_pass).srcb.srvc_cache.map (fun S => S.s_handle) =
      [1, 20, 12] ∧
    ¬ ((scenario_run secondary_between_pass).srcb.srvc_cache.map
        (fun S => S.s_handle)).Pairwise (· < ·) := by
  decide

/-! ## No service is widened when the characteristics lie inside the services -/

theorem getElem?_modify_cases {α : Type} (f : α → α) (l : List α) (n i : Nat) (b : α)
    (h : (l.modify f n)[i]? = some b) :
    ∃ a, l[i]? = some a ∧ (b = a ∨ (n = i ∧ b = f a)) := by
  rw [List.getElem?_modify] at h
  cases ha : l[i]? with
  | none =>
    rw [ha] at h
    simp at h
  | some a =>
    rw [ha] at h
    simp only [Option.map_eq_map, Option.map_some', Option.some.injEq] at h
    refine ⟨a, rfl, ?_⟩
    by_cases hn : n = i
    · rw [if_pos hn] at h
      exact Or.inr ⟨hn, h.symm⟩
    · rw [if_neg hn] at h
      exact Or.inl h.symm

theorem char_inside_iff (R : List reported_service) (decl value : Nat) :
    char_inside R decl value = true ↔
      ∀ r ∈ R, r.s_handle ≤ decl → decl ≤ r.e_handle → value ≤ r.e_handle := by
  unfold char_inside
  rw [List.all_eq_true]
  constructor
  · intro h r hr h1 h2
    have := h r hr
    simp only [Bool.or_eq_true, Bool.not_eq_true', Bool.and_eq_false_iff,
      decide_eq_false_iff_not, decide_eq_true_eq] at this
    omega
  · intro h r hr
    have := h r hr
    simp only [Bool.or_eq_true, Bool.not_eq_true', Bool.and_eq_false_iff,
      decide_eq_false_iff_not, decide_eq_true_eq]
    omega

/-- Inserting a characteristic keeps the range of every service when its value handle is not
beyond the end of the service that receives it. -/
theorem add_char_to_cache_ranges (G : List tBTA_GATTC_SERVICE) (a v : Nat) (u : Uuid)
    (prop : Nat)
    (hno : ∀ (i : Nat) (S : tBTA_GATTC_SERVICE),
      bta_gattc_find_matching_service G a = some i → G[i]? = some S → v ≤ S.e_handle) :
    ∀ (i : Nat) (S2 : tBTA_GATTC_SERVICE),
      (bta_gattc_add_char_to_cache G a v u prop)[i]? = some S2 →
      ∃ S : tBTA_GATTC_SERVICE,
        G[i]? = some S ∧ S2.s_handle = S.s_handle ∧ S2.e_handle = S.e_handle := by
  intro i S2 h
  unfold bta_gattc_add_char_to_cache at h
  cases hf : bta_gattc_find_matching_service G a with
  | none =>
    rw [hf] at h
    exact ⟨S2, h, rfl, rfl⟩
  | some k =>
    rw [hf] at h
    dsimp only at h
    obtain ⟨S, hS, hcase⟩ := getElem?_modify_cases _ _ _ _ _ h
    refine ⟨S, hS, ?_⟩
    rcases hcase with rfl | ⟨hk, rfl⟩
    · exact ⟨rfl, rfl⟩
    · subst hk
      have := hno k S hf hS
      refine ⟨rfl, ?_⟩
      show (if S.e_handle < v then v else S.e_handle) = S.e_handle
      rw [if_neg (by omega)]

/-- Adding an included edge or a descriptor keeps the range of every service. -/
theorem add_attr_to_cache_ranges (G : List tBTA_GATTC_SERVICE) (handle : Nat) (uuid : Uuid)
    (property incl_srvc_s_handle : Nat) (type : tBTA_GATTC_ATTR_TYPE) :
    ∀ (i : Nat) (S2 : tBTA_GATTC_SERVICE),
      (bta_gattc_add_attr_to_cache G handle uuid property incl_srvc_s_handle type)[i]? =
        some S2 →
      ∃ S : tBTA_GATTC_SERVICE,
        G[i]? = some S ∧ S2.s_handle = S.s_handle ∧ S2.e_handle = S.e_handle := by
  intro i S2 h
  unfold bta_gattc_add_attr_to_cache at h
  cases hf : bta_gattc_find_matching_service G handle with
  | none =>
    rw [hf] at h
    exact ⟨S2, h, rfl, rfl⟩
  | some k =>
    rw [hf] at h
    dsimp only at h
    split at h
    · cases hj : bta_gattc_find_matching_service G incl_srvc_s_handle with
      | none =>
        rw [hj] at h
        exact ⟨S2, h, rfl, rfl⟩
      | some j =>
        rw [hj] at h
        dsimp only at h
        obtain ⟨S, hS, hcase⟩ := getElem?_modify_cases _ _ _ _ _ h
        refine ⟨S, hS, ?_⟩
        rcases hcase with rfl | ⟨_, rfl⟩
        · exact ⟨rfl, rfl⟩
        · exact ⟨rfl, rfl⟩
    · split at h
      · obtain ⟨S, hS, hcase⟩ := getElem?_modify_cases _ _ _ _ _ h
        refine ⟨S, hS, ?_⟩
        rcases hcase with rfl | ⟨_, rfl⟩
        · exact ⟨rfl, rfl⟩
        · split
          · exact ⟨rfl, rfl⟩
          · exact ⟨rfl, rfl⟩
      · exact ⟨S2, h, rfl, rfl⟩

theorem add_cur_char_to_cache_unwidened (R : List reported_service) (w : World)
    (hB : buffer_within R w.srcb) (hX : graph_unwidened w.srcb)
    (hidx : w.srcb.total_srvc ≤ w.srcb.cur_char_idx) :
    graph_unwidened (add_cur_char_to_cache w).srcb := by
  intro i S2 h
  have hin := (char_inside_iff _ _ _).1 (hB.2 _ hidx)
  obtain ⟨S, hS, h1, h2⟩ := add_char_to_cache_ranges w.srcb.srvc_cache
    (rec_at w.srcb w.srcb.cur_char_idx).char_decl_handle
    (rec_at w.srcb w.srcb.cur_char_idx).s_handle
    (rec_at w.srcb w.srcb.cur_char_idx).uuid
    (rec_at w.srcb w.srcb.cur_char_idx).property
    (by
      intro k T hk hT
      obtain ⟨T2, hT2, hrange, _⟩ := (find_matching_service_eq_some _ _ _).1 hk
      rw [hT] at hT2
      obtain rfl := Option.some.inj hT2
      obtain ⟨hlt, hs, he⟩ := hX k T hT
      have := hin _ (hB.1 k hlt)
      unfold in_range at hrange
      unfold record_service at this
      simp only at this
      rw [← hs, ← he] at this
      exact this hrange.1 hrange.2) i S2 h
  obtain ⟨hlt, hs, he⟩ := hX i S hS
  exact ⟨hlt, h1.trans hs, h2.trans he⟩

theorem explore_srvc_unwidened (env : Env) (w : World)
    (hlen : w.srcb.srvc_cache.length = w.srcb.cur_srvc_idx)
    (hX : graph_unwidened w.srcb) :
    graph_unwidened (bta_gattc_explore_srvc env w).srcb := by
  unfold bta_gattc_explore_srvc bta_gattc_start_disc_include_srvc
  dsimp only
  cases w.clcb with
  | none => exact hX
  | some c =>
    dsimp only
    split
    · rename_i hlt
      rw [(discover_procedure_spec env _ GATT_DISC_INC_SRVC).1]
      intro i S h
      unfold bta_gattc_add_srvc_to_cache at h
      dsimp only at h
      by_cases hi : i < w.srcb.srvc_cache.length
      · rw [List.getElem?_append_left hi] at h
        exact hX i S h
      · rw [List.getElem?_append_right (by omega)] at h
        have hi0 : i = w.srcb.srvc_cache.length := by
          by_contra hne
          have : i - w.srcb.srvc_cache.length ≠ 0 := by omega
          obtain ⟨k, hk⟩ := Nat.exists_eq_succ_of_ne_zero this
          rw [hk] at h
          simp at h
        subst hi0
        rw [Nat.sub_self] at h
        simp only [List.getElem?_cons_zero, Option.some.injEq] at h
        subst h
        rw [hlen]
        exact ⟨hlt, rfl, rfl⟩
    · split
      · show graph_unwidened (cache_save_effect _).srcb
        rw [(cache_save_effect_spec _).1]
        exact hX
      · exact hX

theorem start_disc_char_dscp_unwidened (env : Env) (cmpl : World → World) (w : World)
    (hX : graph_unwidened w.srcb)
    (hcmpl : ∀ w2, w2.srcb = w.srcb → w2.clcb = w.clcb → graph_unwidened (cmpl w2).srcb) :
    graph_unwidened (bta_gattc_start_disc_char_dscp env cmpl w).srcb := by
  unfold bta_gattc_start_disc_char_dscp
  dsimp only
  obtain ⟨hsrcb, hcl, _⟩ := discover_procedure_spec env w GATT_DISC_CHAR_DSCPT
  split
  · exact hcmpl _ hsrcb hcl
  · rw [hsrcb]
    exact hX

theorem graph_lifted_length (srvc_cache : List tBTA_GATTC_SERVICE)
    (list : List tBTA_GATTC_ATTR_REC) (k : Nat) (hk : k ≤ list.length)
    (hl : graph_lifted srvc_cache list k) : srvc_cache.length = k := by
  have := List.Forall₂.length_eq hl
  rw [List.length_take] at this
  omega

/-- The chain of descriptor completions widens no service. -/
theorem char_dscpt_disc_cmpl_fuel_unwidened (env : Env)
    (hmax : env.BTA_GATTC_MAX_CACHE_CHAR ≤ 255) (R : List reported_service)
    (list : List tBTA_GATTC_ATTR_REC) (fuel : Nat) (w : World)
    (hd : dscpt_phase env w list) (hB : buffer_within R w.srcb)
    (hX : graph_unwidened w.srcb) :
    graph_unwidened (char_dscpt_disc_cmpl_fuel env fuel w).srcb := by
  induction fuel generalizing w with
  | zero => exact hX
  | succ fuel ih =>
    obtain ⟨hc, hcur, hl, hidx, hchar, hnext, hfit⟩ := hd
    have htot := hc.tot
    have htc : (w.srcb.total_char + 255) % 256 = w.srcb.total_char - 1 := by omega
    unfold char_dscpt_disc_cmpl_fuel
    dsimp only
    rw [htc]
    by_cases hmore : w.srcb.total_char - 1 > 0
    · rw [if_pos hmore]
      have hcci : (w.srcb.cur_char_idx + 1) % 256 = w.srcb.cur_char_idx + 1 := by omega
      rw [hcci]
      have hd1 : dscpt_phase env
          (add_cur_char_to_cache
            { w with srcb := { w.srcb with
                total_char := w.srcb.total_char - 1
                cur_char_idx := w.srcb.cur_char_idx + 1 } }) list := by
        refine ⟨⟨hc.clcb, hc.buf, hc.len, hc.tot⟩, hcur, ?_, ?_, ?_, ?_, hfit⟩
        · exact add_char_to_cache_lifted _ _ _ _ _ _ hl
        · show w.srcb.total_srvc ≤ w.srcb.cur_char_idx + 1
          omega
        · show 1 ≤ w.srcb.total_char - 1
          omega
        · show w.srcb.cur_char_idx + 1 + (w.srcb.total_char - 1) = w.srcb.next_avail_idx
          omega
      have hX1 : graph_unwidened
          (add_cur_char_to_cache
            { w with srcb := { w.srcb with
                total_char := w.srcb.total_char - 1
                cur_char_idx := w.srcb.cur_char_idx + 1 } }).srcb :=
        add_cur_char_to_cache_unwidened R _ hB hX
          (show w.srcb.total_srvc ≤ w.srcb.cur_char_idx + 1 by omega)
      apply start_disc_char_dscp_unwidened env _ _ hX1
      intro w2 hs2 hcl2
      apply ih w2 (dscpt_phase_congr env _ w2 list hs2 hcl2 hd1)
      · rw [hs2]
        exact hB
      · rw [hs2]
        exact hX1
    · rw [if_neg hmore]
      have hcs : (w.srcb.cur_srvc_idx + 1) % 256 = w.srcb.cur_srvc_idx + 1 := by omega
      rw [hcs]
      apply explore_srvc_unwidened
      · show w.srcb.srvc_cache.length = w.srcb.cur_srvc_idx + 1
        exact graph_lifted_length _ list _ (by rw [hc.len]; omega) hl
      · exact hX

theorem buffer_within_of_kept (R : List reported_service) (a b : tBTA_GATTC_SERV)
    (h : buffer_kept a b) (hB : buffer_within R a) : buffer_within R b := by
  obtain ⟨h1, h2, _, _⟩ := h
  unfold buffer_within rec_at at *
  rw [h1, h2]
  exact hB

/-- A completion in protocol order widens no service. -/
theorem disc_cmpl_cback_unwidened (env : Env) (hmax : env.BTA_GATTC_MAX_CACHE_CHAR ≤ 255)
    (R : List reported_service) (w w1 : World) (t : tGATT_DISC_TYPE) (st : tGATT_STATUS)
    (hs1 : w1.srcb = w.srcb) (hcl1 : w1.clcb = w.clcb)
    (hinv : pass_inv env w) (hout : outstanding w = some t)
    (hB : buffer_within R w.srcb) (hX : graph_unwidened w.srcb) :
    graph_unwidened (bta_gattc_disc_cmpl_cback env w1 t st).srcb := by
  have hB1 : buffer_within R w1.srcb := by rw [hs1]; exact hB
  have hX1 : graph_unwidened w1.srcb := by rw [hs1]; exact hX
  unfold bta_gattc_disc_cmpl_cback
  cases hclcb : w1.clcb with
  | none => exact hX1
  | some c =>
    dsimp only
    split
    · exact hX1
    · cases hinv with
      | srvc list hc ho hcache hcur hnext =>
        have ht : t = GATT_DISC_SRVC_ALL := by rw [ho] at hout; simpa using hout.symm
        subst ht
        apply explore_srvc_unwidened env w1 _ hX1
        rw [hs1, hcache, hcur]
        rfl
      | incl list hc ho hcur hl hnext =>
        have ht : t = GATT_DISC_INC_SRVC := by rw [ho] at hout; simpa using hout.symm
        subst ht
        show graph_unwidened (bta_gattc_incl_srvc_disc_cmpl env w1).srcb
        unfold bta_gattc_incl_srvc_disc_cmpl bta_gattc_start_disc_char
        rw [(discover_procedure_spec env _ GATT_DISC_CHAR).1]
        exact hX1
      | char list hc ho hcur hl hidx hnext hfit =>
        have ht : t = GATT_DISC_CHAR := by rw [ho] at hout; simpa using hout.symm
        subst ht
        have htot := hc.tot
        show graph_unwidened (bta_gattc_char_disc_cmpl env w1).srcb
        unfold bta_gattc_char_disc_cmpl
        by_cases hpos : w1.srcb.total_char > 0
        · rw [if_pos hpos]
          rw [hs1] at hpos
          have hd1 : dscpt_phase env (add_cur_char_to_cache w1) list := by
            refine ⟨⟨?_, ?_, hc.len, ?_⟩, ?_, ?_, ?_, ?_, ?_, ?_⟩
            · show ∃ c, w1.clcb = some c ∧ _
              rw [hcl1]
              exact hc.clcb
            · show w1.srcb.p_srvc_list = some list
              rw [hs1]
              exact hc.buf
            · show w1.srcb.total_srvc ≤ _
              rw [hs1]
              exact hc.tot
            · show w1.srcb.cur_srvc_idx < w1.srcb.total_srvc
              rw [hs1]
              exact hcur
            · show graph_lifted (bta_gattc_add_char_to_cache w1.srcb.srvc_cache _ _ _ _) list
                (w1.srcb.cur_srvc_idx + 1)
              rw [hs1]
              exact add_char_to_cache_lifted _ _ _ _ _ _ hl
            · show w1.srcb.total_srvc ≤ w1.srcb.cur_char_idx
              rw [hs1]
              omega
            · show 1 ≤ w1.srcb.total_char
              rw [hs1]
              omega
            · show w1.srcb.cur_char_idx + w1.srcb.total_char = w1.srcb.next_avail_idx
              rw [hs1]
              omega
            · show w1.srcb.next_avail_idx ≤ _
              rw [hs1]
              exact hfit
          have hX2 : graph_unwidened (add_cur_char_to_cache w1).srcb :=
            add_cur_char_to_cache_unwidened R w1 hB1 hX1 (by rw [hs1]; omega)
          apply start_disc_char_dscp_unwidened env _ _ hX2
          intro w2 hs2 hcl2
          unfold bta_gattc_char_dscpt_disc_cmpl
          apply char_dscpt_disc_cmpl_fuel_unwidened env hmax R list 256 w2
            (dscpt_phase_congr env _ w2 list hs2 hcl2 hd1)
          · rw [hs2]
            exact hB1
          · rw [hs2]
            exact hX2
        · rw [if_neg hpos]
          apply explore_srvc_unwidened
          · show w1.srcb.srvc_cache.length = (w1.srcb.cur_srvc_idx + 1) % 256
            rw [hs1]
            have hcs : (w.srcb.cur_srvc_idx + 1) % 256 = w.srcb.cur_srvc_idx + 1 := by omega
            rw [hcs]
            exact graph_lifted_length _ list _ (by rw [hc.len]; omega) hl
          · exact hX1
      | dscpt list hc ho hcur hl hidx hchar hnext hfit =>
        have ht : t = GATT_DISC_CHAR_DSCPT := by rw [ho] at hout; simpa using hout.symm
        subst ht
        show graph_unwidened (bta_gattc_char_dscpt_disc_cmpl env w1).srcb
        unfold bta_gattc_char_dscpt_disc_cmpl
        exact char_dscpt_disc_cmpl_fuel_unwidened env hmax R list 256 w1
          (dscpt_phase_congr env w w1 list hs1 hcl1 ⟨hc, hcur, hl, hidx, hchar, hnext, hfit⟩)
          hB1 hX1
      | idle hi => rw [hi.1] at hout; simp at hout
      | done list hbuf hl hp =>
        rw [outstanding_none_of_complete w hp] at hout; simp at hout

theorem services_buffered_mem (w : World) (acc : List reported_service)
    (hQ : services_buffered w acc) (list : List tBTA_GATTC_ATTR_REC)
    (hbuf : w.srcb.p_srvc_list = some list) (hle : w.srcb.total_srvc ≤ list.length)
    (i : Nat) (hi : i < w.srcb.total_srvc) : record_service (rec_at w.srcb i) ∈ acc := by
  obtain ⟨list0, hb0, hm0⟩ := hQ
  have hl : list0 = list := Option.some.inj (hb0.symm.trans hbuf)
  subst hl
  rw [← hm0]
  apply List.mem_map_of_mem
  unfold rec_at
  rw [hbuf]
  simp only [Option.getD_some]
  rw [List.getD_eq_getElem _ _ (by omega)]
  apply List.mem_take_iff_getElem.2
  exact ⟨i, by omega, rfl⟩

theorem store_reported_mono (cap : Nat) (acc : List reported_service) (ev : DiscEvent) :
    ∀ r ∈ acc, r ∈ store_reported cap acc ev := by
  intro r hr
  have hs : ∀ q, r ∈ store_service cap acc q := by
    intro q
    unfold store_service
    split
    · exact List.mem_append_left _ hr
    · exact hr
  cases ev with
  | cmpl t st => exact hr
  | res t d =>
    cases t with
    | GATT_DISC_SRVC_ALL => exact hs _
    | GATT_DISC_SRVC_BY_UUID => exact hs _
    | GATT_DISC_INC_SRVC =>
      show r ∈ (if already_stored acc (included_reported d) then acc
        else store_service cap acc (included_reported d))
      split
      · exact hr
      · exact hs _
    | GATT_DISC_CHAR => exact hr
    | GATT_DISC_CHAR_DSCPT => exact hr

theorem foldl_store_mono (cap : Nat) (evs : List DiscEvent) (acc : List reported_service) :
    ∀ r ∈ acc, r ∈ evs.foldl (store_reported cap) acc := by
  induction evs generalizing acc with
  | nil => exact fun r hr => hr
  | cons ev rest ih =>
    intro r hr
    rw [List.foldl_cons]
    exact ih _ r (store_reported_mono cap acc ev r hr)

/-- Behind the service records, `bta_gattc_add_srvc_to_list` leaves every record as it
was. -/
theorem add_srvc_to_list_behind (env : Env) (hmax : env.BTA_GATTC_MAX_CACHE_CHAR ≤ 255)
    (p : tBTA_GATTC_SERV) (s e : Nat) (u : Uuid) (prim : Bool)
    (hnext : p.next_avail_idx = p.total_srvc) :
    p.total_srvc ≤ (bta_gattc_add_srvc_to_list env p s e u prim).1.total_srvc ∧
    (∀ i, i < p.total_srvc →
      rec_at (bta_gattc_add_srvc_to_list env p s e u prim).1 i = rec_at p i) ∧
    (∀ i, (bta_gattc_add_srvc_to_list env p s e u prim).1.total_srvc ≤ i →
      p.total_srvc ≤ i ∧
      rec_at (bta_gattc_add_srvc_to_list env p s e u prim).1 i = rec_at p i) := by
  unfold bta_gattc_add_srvc_to_list
  cases hl : p.p_srvc_list with
  | none => exact ⟨Nat.le_refl _, fun _ _ => rfl, fun i hi => ⟨hi, rfl⟩⟩
  | some list =>
    dsimp only
    by_cases hlt : p.next_avail_idx < env.BTA_GATTC_MAX_CACHE_CHAR
    · rw [if_pos hlt]
      have hmod : (p.total_srvc + 1) % 256 = p.total_srvc + 1 := by omega
      refine ⟨?_, ?_, ?_⟩
      · show p.total_srvc ≤ (p.total_srvc + 1) % 256
        omega
      · intro i hi
        unfold rec_at
        rw [hl]
        exact getD_set_other _ _ _ _ _ (by omega)
      · intro i hi
        have hi2 : p.total_srvc + 1 ≤ i := by
          rw [← hmod]
          exact hi
        refine ⟨by omega, ?_⟩
        unfold rec_at
        rw [hl]
        exact getD_set_other _ _ _ _ _ (by omega)
    · rw [if_neg hlt]
      exact ⟨Nat.le_refl _, fun _ _ => rfl, fun i hi => ⟨hi, rfl⟩⟩

/-- What `bta_gattc_add_char_to_list` leaves in a record: the declaration and value handle it
had, or those of the characteristic just reported. -/
theorem add_char_to_list_fields (env : Env) (p : tBTA_GATTC_SERV) (d v : Nat) (u : Uuid)
    (prop : Nat) (i : Nat) :
    ((rec_at (bta_gattc_add_char_to_list env p d v u prop).1 i).char_decl_handle =
        (rec_at p i).char_decl_handle ∧
      (rec_at (bta_gattc_add_char_to_list env p d v u prop).1 i).s_handle =
        (rec_at p i).s_handle) ∨
    ((rec_at (bta_gattc_add_char_to_list env p d v u prop).1 i).char_decl_handle = d ∧
      (rec_at (bta_gattc_add_char_to_list env p d v u prop).1 i).s_handle = v) := by
  unfold bta_gattc_add_char_to_list
  cases hl : p.p_srvc_list with
  | none => exact Or.inl ⟨rfl, rfl⟩
  | some list =>
    dsimp only
    by_cases hlt : p.next_avail_idx < env.BTA_GATTC_MAX_CACHE_CHAR
    · rw [if_pos hlt]
      unfold rec_at
      rw [hl]
      simp only [Option.getD_some]
      have hnew : ∀ r0 : tBTA_GATTC_ATTR_REC,
          (((list.set p.next_avail_idx
              { r0 with s_handle := v, char_decl_handle := d, property := prop,
                        e_handle := (list.getD p.cur_srvc_idx default).e_handle,
                        uuid := u }).getD i default).char_decl_handle =
              (list.getD i default).char_decl_handle ∧
            ((list.set p.next_avail_idx
              { r0 with s_handle := v, char_decl_handle := d, property := prop,
                        e_handle := (list.getD p.cur_srvc_idx default).e_handle,
                        uuid := u }).getD i default).s_handle =
              (list.getD i default).s_handle) ∨
          (((list.set p.next_avail_idx
              { r0 with s_handle := v, char_decl_handle := d, property := prop,
                        e_handle := (list.getD p.cur_srvc_idx default).e_handle,
                        uuid := u }).getD i default).char_decl_handle = d ∧
            ((list.set p.next_avail_idx
              { r0 with s_handle := v, char_decl_handle := d, property := prop,
                        e_handle := (list.getD p.cur_srvc_idx default).e_handle,
                        uuid := u }).getD i default).s_handle = v) := by
        intro r0
        by_cases hi : p.next_avail_idx = i
        · by_cases hin : i < list.length
          · right
            subst hi
            rw [getD_set_self _ _ _ _ hin]
            exact ⟨rfl, rfl⟩
          · left
            rw [List.set_eq_of_length_le (by omega)]
            exact ⟨rfl, rfl⟩
        · left
          rw [getD_set_other _ _ _ _ _ hi]
          exact ⟨rfl, rfl⟩
      by_cases hprev : (p.total_char + 1) % 256 > 1 ∧ p.next_avail_idx ≥ 1
      · rw [if_pos hprev]
        by_cases hi : p.next_avail_idx - 1 = i
        · by_cases hin : i < list.length
          · left
            subst hi
            rw [getD_set_self _ _ _ _ (by simpa using hin)]
            rw [getD_set_other _ _ _ _ _ (by omega)]
            exact ⟨rfl, rfl⟩
          · left
            rw [List.set_eq_of_length_le (by simp; omega)]
            have hne : p.next_avail_idx ≠ i := by omega
            rw [getD_set_other _ _ _ _ _ hne]
            exact ⟨rfl, rfl⟩
        · rw [getD_set_other _ _ _ _ _ hi]
          exact hnew _
      · rw [if_neg hprev]
        exact hnew _
    · rw [if_neg hlt]
      exact Or.inl ⟨rfl, rfl⟩

theorem pass_inv_common (env : Env) (w : World) (t : tGATT_DISC_TYPE) (hinv : pass_inv env w)
    (hout : outstanding w = some t) : ∃ list, pass_common env w list := by
  cases hinv with
  | srvc list hc ho => exact ⟨list, hc⟩
  | incl list hc ho => exact ⟨list, hc⟩
  | char list hc ho => exact ⟨list, hc⟩
  | dscpt list hc ho => exact ⟨list, hc⟩
  | idle hi => rw [hi.1] at hout; simp at hout
  | done list hbuf hl hp => rw [outstanding_none_of_complete w hp] at hout; simp at hout

theorem graph_unwidened_of_ranges (p q : tBTA_GATTC_SERV)
    (htot : p.total_srvc ≤ q.total_srvc)
    (hrec : ∀ i, i < p.total_srvc → rec_at q i = rec_at p i)
    (hG : ∀ (i : Nat) (S2 : tBTA_GATTC_SERVICE), q.srvc_cache[i]? = some S2 →
      ∃ S : tBTA_GATTC_SERVICE, p.srvc_cache[i]? = some S ∧ S2.s_handle = S.s_handle ∧
        S2.e_handle = S.e_handle)
    (hX : graph_unwidened p) : graph_unwidened q := by
  intro i S2 h
  obtain ⟨S, hS, h1, h2⟩ := hG i S2 h
  obtain ⟨hlt, hs, he⟩ := hX i S hS
  rw [hrec i hlt]
  exact ⟨by omega, h1.trans hs, h2.trans he⟩

/-- One event in protocol order keeps the buffer within what the stored services explain and
widens no service, when a characteristic result has its value handle inside. -/
theorem deliver_unwidened (env : Env) (hmax : env.BTA_GATTC_MAX_CACHE_CHAR ≤ 255)
    (R : List reported_service) (w : World) (ev : DiscEvent) (acc : List reported_service)
    (hinv : pass_inv env w) (hout : outstanding w = some ev.disc_type)
    (hQ : services_buffered w acc) (hacc : ∀ r ∈ acc, r ∈ R)
    (hev : ∀ d, ev = DiscEvent.res GATT_DISC_CHAR d →
      char_inside R d.handle d.value.dclr_value.val_handle = true)
    (hC : ∀ i, w.srcb.total_srvc ≤ i →
      char_inside R (rec_at w.srcb i).char_decl_handle (rec_at w.srcb i).s_handle = true)
    (hX : graph_unwidened w.srcb) :
    (∀ i, (deliver env w ev).srcb.total_srvc ≤ i →
      char_inside R (rec_at (deliver env w ev).srcb i).char_decl_handle
        (rec_at (deliver env w ev).srcb i).s_handle = true) ∧
    graph_unwidened (deliver env w ev).srcb := by
  obtain ⟨list, hc⟩ := pass_inv_common env w _ hinv hout
  have hB : buffer_within R w.srcb :=
    ⟨fun i hi => hacc _ (services_buffered_mem w acc hQ list hc.buf
      (by rw [hc.len]; exact hc.tot) i hi), hC⟩
  cases ev with
  | cmpl t st =>
    simp only [DiscEvent.disc_type] at hout
    have hk := disc_cmpl_cback_buffer_kept env
      { w with trace := w.trace ++ [Effect.disc_cmpl_received t st] } t st
    refine ⟨?_, ?_⟩
    · exact (buffer_within_of_kept R _ _ hk hB).2
    · exact disc_cmpl_cback_unwidened env hmax R w _ t st rfl rfl hinv hout hB hX
  | res t d =>
    simp only [DiscEvent.disc_type] at hout
    simp only [deliver]
    cases hinv with
    | srvc list2 hc2 ho hcache hcur hnext =>
      have ht : t = GATT_DISC_SRVC_ALL := by rw [ho] at hout; simpa using hout.symm
      subst ht
      obtain ⟨c, hclcb, hst, hss⟩ := hc.clcb
      obtain ⟨h1, h2, h3⟩ := add_srvc_to_list_behind env hmax w.srcb d.handle
        d.value.group_value.e_handle d.value.group_value.service_type true hnext
      simp only [bta_gattc_disc_res_cback, bta_gattc_find_scb_by_cid, hclcb, hst, if_true]
      refine ⟨?_, ?_⟩
      · intro i hi
        obtain ⟨hi2, hr⟩ := h3 i hi
        show char_inside R (rec_at (bta_gattc_add_srvc_to_list env w.srcb _ _ _ _).1 i).char_decl_handle
          (rec_at (bta_gattc_add_srvc_to_list env w.srcb _ _ _ _).1 i).s_handle = true
        rw [hr]
        exact hC i hi2
      · intro i S h
        have hcache2 : (bta_gattc_add_srvc_to_list env w.srcb d.handle
            d.value.group_value.e_handle d.value.group_value.service_type
            true).1.srvc_cache = [] := by
          rw [add_srvc_to_list_cache]
          exact hcache
        have h' : (bta_gattc_add_srvc_to_list env w.srcb d.handle
            d.value.group_value.e_handle d.value.group_value.service_type
            true).1.srvc_cache[i]? = some S := h
        rw [hcache2] at h'
        simp at h'
    | incl list2 hc2 ho hcur hl hnext =>
      have ht : t = GATT_DISC_INC_SRVC := by rw [ho] at hout; simpa using hout.symm
      subst ht
      obtain ⟨c, hclcb, hst, hss⟩ := hc.clcb
      obtain ⟨h1, h2, h3⟩ := add_srvc_to_list_behind env hmax w.srcb
        d.value.incl_service.s_handle d.value.incl_service.e_handle
        d.value.incl_service.service_type false hnext
      simp only [bta_gattc_disc_res_cback, bta_gattc_find_scb_by_cid, hclcb, hst, if_true]
      split
      · refine ⟨?_, ?_⟩
        · intro i hi
          obtain ⟨hi2, hr⟩ := h3 i hi
          show char_inside R
            (rec_at (bta_gattc_add_srvc_to_list env w.srcb _ _ _ _).1 i).char_decl_handle
            (rec_at (bta_gattc_add_srvc_to_list env w.srcb _ _ _ _).1 i).s_handle = true
          rw [hr]
          exact hC i hi2
        · refine graph_unwidened_of_ranges w.srcb _ ?_ ?_ ?_ hX
          · exact h1
          · exact h2
          · intro i S2 hS2
            dsimp only at hS2
            rw [add_srvc_to_list_cache] at hS2
            exact add_attr_to_cache_ranges _ _ _ _ _ _ i S2 hS2
      · refine ⟨hC, ?_⟩
        refine graph_unwidened_of_ranges w.srcb _ ?_ ?_ ?_ hX
        · exact Nat.le_refl _
        · exact fun _ _ => rfl
        · intro i S2 hS2
          dsimp only at hS2
          exact add_attr_to_cache_ranges _ _ _ _ _ _ i S2 hS2
    | char list2 hc2 ho hcur hl hidx hnext hfit =>
      have ht : t = GATT_DISC_CHAR := by rw [ho] at hout; simpa using hout.symm
      subst ht
      obtain ⟨c, hclcb, hst, hss⟩ := hc.clcb
      obtain ⟨list3, g1, g2, g3, g4, g5, g6, g7, g8, g9⟩ :=
        add_char_to_list_spec env w.srcb list d.handle d.value.dclr_value.val_handle
          d.value.dclr_value.char_uuid d.value.dclr_value.char_prop hmax
          hc.buf hc.len hnext hfit
      simp only [bta_gattc_disc_res_cback, bta_gattc_find_scb_by_cid, hclcb, hst, if_true]
      refine ⟨?_, ?_⟩
      · intro i hi
        have hi2 : w.srcb.total_srvc ≤ i := by
          rw [← g5]
          exact hi
        rcases add_char_to_list_fields env w.srcb d.handle d.value.dclr_value.val_handle
          d.value.dclr_value.char_uuid d.value.dclr_value.char_prop i with ⟨f1, f2⟩ | ⟨f1, f2⟩
        · show char_inside R
            (rec_at (bta_gattc_add_char_to_list env w.srcb _ _ _ _).1 i).char_decl_handle
            (rec_at (bta_gattc_add_char_to_list env w.srcb _ _ _ _).1 i).s_handle = true
          rw [f1, f2]
          exact hC i hi2
        · show char_inside R
            (rec_at (bta_gattc_add_char_to_list env w.srcb _ _ _ _).1 i).char_decl_handle
            (rec_at (bta_gattc_add_char_to_list env w.srcb _ _ _ _).1 i).s_handle = true
          rw [f1, f2]
          exact hev d rfl
      · refine graph_unwidened_of_ranges w.srcb _ ?_ ?_ ?_ hX
        · show w.srcb.total_srvc ≤ (bta_gattc_add_char_to_list env w.srcb _ _ _ _).1.total_srvc
          rw [g5]
        · intro i hi
          apply add_char_to_list_rec_at
          unfold add_char_to_list_slots
          rw [hc.buf]
          dsimp only
          split
          · intro hmem
            rcases List.mem_cons.1 hmem with h | h
            · omega
            · split at h
              · have := List.mem_singleton.1 h
                omega
              · simp at h
          · simp
        · intro i S2 hS2
          have hS3 : (bta_gattc_add_char_to_list env w.srcb d.handle
              d.value.dclr_value.val_handle d.value.dclr_value.char_uuid
              d.value.dclr_value.char_prop).1.srvc_cache[i]? = some S2 := hS2
          rw [g7] at hS3
          exact ⟨S2, hS3, rfl, rfl⟩
    | dscpt list2 hc2 ho hcur hl hidx hchar hnext hfit =>
      have ht : t = GATT_DISC_CHAR_DSCPT := by rw [ho] at hout; simpa using hout.symm
      subst ht
      obtain ⟨c, hclcb, hst, hss⟩ := hc.clcb
      simp only [bta_gattc_disc_res_cback, bta_gattc_find_scb_by_cid, hclcb, hst, if_true]
      refine ⟨hC, ?_⟩
      refine graph_unwidened_of_ranges w.srcb _ ?_ ?_ ?_ hX
      · exact Nat.le_refl _
      · exact fun _ _ => rfl
      · intro i S2 hS2
        dsimp only at hS2
        exact add_attr_to_cache_ranges _ _ _ _ _ _ i S2 hS2
    | idle hi => rw [hi.1] at hout; simp at hout
    | done list hbuf hl hp => rw [outstanding_none_of_complete w hp] at hout; simp at hout

/-- A pass in protocol order widens no service when its characteristic results lie inside
the services. -/
theorem run_unwidened (env : Env) (hmax : env.BTA_GATTC_MAX_CACHE_CHAR ≤ 255)
    (R : List reported_service) (evs : List DiscEvent) (w : World)
    (acc : List reported_service) (hinv : pass_inv env w)
    (hp : in_protocol_order env w evs = true) (hQ : services_buffered w acc)
    (hsub : ∀ r ∈ evs.foldl (store_reported env.BTA_GATTC_MAX_CACHE_CHAR) acc, r ∈ R)
    (hchars : ∀ d, DiscEvent.res GATT_DISC_CHAR d ∈ evs →
      char_inside R d.handle d.value.dclr_value.val_handle = true)
    (hC : ∀ i, w.srcb.total_srvc ≤ i →
      char_inside R (rec_at w.srcb i).char_decl_handle (rec_at w.srcb i).s_handle = true)
    (hX : graph_unwidened w.srcb) :
    graph_unwidened (run env w evs).srcb := by
  induction evs generalizing w acc with
  | nil => exact hX
  | cons ev rest ih =>
    unfold in_protocol_order at hp
    simp only [Bool.and_eq_true, beq_iff_eq] at hp
    unfold run
    rw [List.foldl_cons]
    rw [List.foldl_cons] at hsub
    obtain ⟨hC2, hX2⟩ := deliver_unwidened env hmax R w ev acc hinv hp.1 hQ
      (fun r hr => hsub r (foldl_store_mono _ rest _ r (store_reported_mono _ acc ev r hr)))
      (fun d hd => hchars d (by rw [hd]; exact List.mem_cons_self _ _)) hC hX
    exact ih _ _ (deliver_inv env hmax w ev hinv hp.1) hp.2
      (deliver_stored env hmax w ev acc hinv hp.1 hQ) hsub
      (fun d hd => hchars d (List.mem_cons_of_mem _ hd)) hC2 hX2

theorem start_discovery_unwidened (env : Env) (w : World) (R : List reported_service) :
    (∀ i, (start_discovery env w).srcb.total_srvc ≤ i →
      char_inside R (rec_at (start_discovery env w).srcb i).char_decl_handle
        (rec_at (start_discovery env w).srcb i).s_handle = true) ∧
    graph_unwidened (start_discovery env w).srcb := by
  unfold start_discovery
  rw [(discover_procedure_spec env _ GATT_DISC_SRVC_ALL).1]
  refine ⟨?_, ?_⟩
  · intro i _
    have hr : rec_at (bta_gattc_init_cache env w.srcb) i = default :=
      rec_at_replicate _ env.BTA_GATTC_MAX_CACHE_CHAR i rfl
    rw [hr, char_inside_iff]
    intro r _ _ _
    exact Nat.zero_le _
  · intro i S h
    have h2 : ([] : List tBTA_GATTC_SERVICE)[i]? = some S := h
    simp at h2

/-- In every discovery pass in protocol order that completes and whose characteristic results
lie inside the services, the services of the graph are exactly the services stored from the
results, in the order stored, with the ranges reported. -/
theorem pass_graph_exact (env : Env) (hmax : env.BTA_GATTC_MAX_CACHE_CHAR ≤ 255)
    (w : World) (evs : List DiscEvent)
    (hp : in_protocol_order env (start_discovery env w) evs = true)
    (hdone : pass_complete (run env (start_discovery env w) evs) = true)
    (hin : chars_inside env.BTA_GATTC_MAX_CACHE_CHAR evs = true) :
    (run env (start_discovery env w) evs).srcb.srvc_cache.map node_service =
      stored_services env.BTA_GATTC_MAX_CACHE_CHAR evs := by
  have hg := pass_graph_stored env hmax w evs hp hdone
  obtain ⟨hC0, hX0⟩ := start_discovery_unwidened env w
    (stored_services env.BTA_GATTC_MAX_CACHE_CHAR evs)
  have hX := run_unwidened env hmax (stored_services env.BTA_GATTC_MAX_CACHE_CHAR evs) evs
    (start_discovery env w) [] (start_discovery_inv env w) hp (start_discovery_stored env w)
    (fun r hr => hr)
    (by
      intro d hd
      unfold chars_inside at hin
      rw [List.all_eq_true] at hin
      exact hin _ hd)
    hC0 hX0
  obtain ⟨list, hb, hm⟩ := run_stored env hmax evs _ [] (start_discovery_inv env w) hp
    (start_discovery_stored env w)
  have hm2 : (list.take (run env (start_discovery env w) evs).srcb.total_srvc).map
      record_service = stored_services env.BTA_GATTC_MAX_CACHE_CHAR evs := hm
  rw [← hm2] at hg ⊢
  rw [List.forall₂_map_right_iff] at hg
  have hlen := List.Forall₂.length_eq hg
  apply List.ext_getElem?
  intro i
  rw [List.getElem?_map, List.getElem?_map]
  cases hS : (run env (start_discovery env w) evs).srcb.srvc_cache[i]? with
  | none =>
    have : (list.take (run env (start_discovery env w) evs).srcb.total_srvc)[i]? = none := by
      rw [List.getElem?_eq_none_iff] at hS ⊢
      omega
    rw [this]
    rfl
  | some S =>
    obtain ⟨hlt, hs, he⟩ := hX i S hS
    have hi : i < (list.take (run env (start_discovery env w) evs).srcb.total_srvc).length := by
      rw [← hlen]
      exact (List.getElem?_eq_some_iff.1 hS).1
    rw [List.getElem?_eq_getElem hi]
    simp only [Option.map_some', Option.some.injEq]
    have hrel := (List.forall₂_iff_get.1 hg).2 i (List.getElem?_eq_some_iff.1 hS).1 hi
    have hSi : (run env (start_discovery env w) evs).srcb.srvc_cache.get
        ⟨i, (List.getElem?_eq_some_iff.1 hS).1⟩ = S := (List.getElem?_eq_some_iff.1 hS).2
    rw [hSi] at hrel
    have hrec : rec_at (run env (start_discovery env w) evs).srcb i =
        (list.take (run env (start_discovery env w) evs).srcb.total_srvc)[i] := by
      unfold rec_at
      rw [hb]
      simp only [Option.getD_some]
      rw [List.length_take] at hi
      rw [List.getD_eq_getElem _ _ (by omega), List.getElem_take]
    rw [hrec] at he
    unfold node_service record_service
    simp only [reported_service.mk.injEq]
    exact ⟨hrel.1, he, hrel.2.2.1, hrel.2.2.2⟩

theorem ranges_disjoint_map (G : List tBTA_GATTC_SERVICE) :
    ranges_disjoint G ↔ (G.map node_service).Pairwise disjoint_reported := by
  unfold ranges_disjoint
  rw [List.pairwise_map]
  exact Iff.rfl

/-- C8, amended. In every discovery pass in protocol order that completes (buffer capacity
within the 8-bit cursors), the graph holds one service per service stored from the results,
in the order stored, with the start handle reported and an end handle that is the one
reported or was widened past it by a characteristic. When every `CHAR` result has its value
handle at or below the end of each stored service that contains its declaration handle, the
services of the graph are exactly the stored services, and their ranges are pairwise disjoint
exactly when the stored ranges are. What is stored: a `SRVC_ALL` result stores the primary
service it reports whenever the buffer has room, whether or not its range is stored already;
an `INC_SRVC` result stores nothing when a handle of the service it names is `0x0000` or when
a stored service has the same start handle or the same end handle, and otherwise stores the
service it names whenever the buffer has room. -/
theorem pass_ranges_disjoint (env : Env) (hmax : env.BTA_GATTC_MAX_CACHE_CHAR ≤ 255)
    (w : World) (evs : List DiscEvent)
    (hp : in_protocol_order env (start_discovery env w) evs = true)
    (hdone : pass_complete (run env (start_discovery env w) evs) = true) :
    List.Forall₂
      (fun S r => S.s_handle = r.s_handle ∧ r.e_handle ≤ S.e_handle ∧ S.uuid = r.uuid ∧
        S.is_primary = r.is_primary)
      (run env (start_discovery env w) evs).srcb.srvc_cache
      (stored_services env.BTA_GATTC_MAX_CACHE_CHAR evs) ∧
    (chars_inside env.BTA_GATTC_MAX_CACHE_CHAR evs = true →
      (run env (start_discovery env w) evs).srcb.srvc_cache.map node_service =
        stored_services env.BTA_GATTC_MAX_CACHE_CHAR evs ∧
      (ranges_disjoint (run env (start_discovery env w) evs).srcb.srvc_cache ↔
        (stored_services env.BTA_GATTC_MAX_CACHE_CHAR evs).Pairwise disjoint_reported)) ∧
    (∀ acc p_data,
      store_reported env.BTA_GATTC_MAX_CACHE_CHAR acc (.res GATT_DISC_SRVC_ALL p_data) =
        if acc.length < env.BTA_GATTC_MAX_CACHE_CHAR then acc ++ [primary_reported p_data]
        else acc) ∧
    (∀ acc p_data,
      (p_data.value.incl_service.s_handle = 0 ∨ p_data.value.incl_service.e_handle = 0 ∨
        ∃ q ∈ acc, q.s_handle = p_data.value.incl_service.s_handle ∨
          q.e_handle = p_data.value.incl_service.e_handle) →
      store_reported env.BTA_GATTC_MAX_CACHE_CHAR acc (.res GATT_DISC_INC_SRVC p_data) =
        acc) ∧
    (∀ acc p_data,
      ¬ (p_data.value.incl_service.s_handle = 0 ∨ p_data.value.incl_service.e_handle = 0 ∨
        ∃ q ∈ acc, q.s_handle = p_data.value.incl_service.s_handle ∨
          q.e_handle = p_data.value.incl_service.e_handle) →
      store_reported env.BTA_GATTC_MAX_CACHE_CHAR acc (.res GATT_DISC_INC_SRVC p_data) =
        if acc.length < env.BTA_GATTC_MAX_CACHE_CHAR then acc ++ [included_reported p_data]
        else acc) := by
  refine ⟨pass_graph_stored env hmax w evs hp hdone, ?_, fun _ _ => rfl, ?_, ?_⟩
  · intro hin
    have hex := pass_graph_exact env hmax w evs hp hdone hin
    refine ⟨hex, ?_⟩
    rw [ranges_disjoint_map, hex]
  · intro acc d h
    have h2 : already_stored acc (included_reported d) = true :=
      (already_stored_iff acc (included_reported d)).2 h
    show (if already_stored acc (included_reported d) then acc
      else store_service env.BTA_GATTC_MAX_CACHE_CHAR acc (included_reported d)) = acc
    rw [if_pos h2]
  · intro acc d h
    have h2 : ¬ already_stored acc (included_reported d) = true :=
      fun hs => h ((already_stored_iff acc (included_reported d)).1 hs)
    show (if already_stored acc (included_reported d) then acc
      else store_service env.BTA_GATTC_MAX_CACHE_CHAR acc (included_reported d)) = _
    rw [if_neg h2]
    rfl

/-- C8, witness: the pass over the services `[1, 10]`, with two characteristics, and
`[20, 30]`. -/
theorem pass_ranges_disjoint_witness :
    strict_env.BTA_GATTC_MAX_CACHE_CHAR ≤ 255 ∧
    in_protocol_order strict_env (start_discovery strict_env default) two_services_pass =
      true ∧
    pass_complete (run strict_env (start_discovery strict_env default) two_services_pass) =
      true ∧
    chars_inside strict_env.BTA_GATTC_MAX_CACHE_CHAR two_services_pass = true ∧
    (stored_services strict_env.BTA_GATTC_MAX_CACHE_CHAR two_services_pass).Pairwise
      disjoint_reported ∧
    (run strict_env (start_discovery strict_env default)
        two_services_pass).srcb.srvc_cache.map node_service =
      stored_services strict_env.BTA_GATTC_MAX_CACHE_CHAR two_services_pass ∧
    ranges_disjoint
      (run strict_env (start_discovery strict_env default) two_services_pass).srcb.srvc_cache :=
  ⟨by decide, by decide, by decide, by decide, by decide,
    ((pass_ranges_disjoint strict_env (by decide) default two_services_pass (by decide)
      (by decide)).2.1 (by decide)).1,
    ((pass_ranges_disjoint strict_env (by decide) default two_services_pass (by decide)
      (by decide)).2.1 (by decide)).2.2 (by decide)⟩

/-- C8, counterexample. (a) The peer reports the primary service `[1, 10]` twice; the pass
follows the protocol and completes, the range is stored twice and the graph holds two services
with the range `[1, 10]`. (b) The peer reports the primary services `[1, 10]` and `[20, 30]`
and, in the first, a characteristic declared at 5 with value handle 25; the pass follows the
protocol and completes, the stored ranges are pairwise disjoint, and the graph holds the
ranges `[1, 25]` and `[20, 30]`, which share the handles 20 to 25. -/
theorem pass_stores_repeated_service :
    (in_protocol_order scenario_env (start_discovery scenario_env default)
        repeated_service_pass = true ∧
      pass_complete (scenario_run repeated_service_pass) = true ∧
      (stored_services scenario_env.BTA_GATTC_MAX_CACHE_CHAR repeated_service_pass).map
          (fun r => (r.s_handle, r.e_handle)) = [(1, 10), (1, 10)] ∧
      (scenario_run repeated_service_pass).srcb.srvc_cache.map
          (fun S => (S.s_handle, S.e_handle)) = [(1, 10), (1, 10)] ∧
      ¬ ranges_disjoint (scenario_run repeated_service_pass).srcb.srvc_cache) ∧
    (in_protocol_order scenario_env (start_discovery scenario_env default)
        value_beyond_service_pass = true ∧
      pass_complete (scenario_run value_beyond_service_pass) = true ∧
      (stored_services scenario_env.BTA_GATTC_MAX_CACHE_CHAR value_beyond_service_pass).map
          (fun r => (r.s_handle, r.e_handle)) = [(1, 10), (20, 30)] ∧
      (stored_services scenario_env.BTA_GATTC_MAX_CACHE_CHAR
        value_beyond_service_pass).Pairwise disjoint_reported ∧
      chars_inside scenario_env.BTA_GATTC_MAX_CACHE_CHAR value_beyond_service_pass = false ∧
      (scenario_run value_beyond_service_pass).srcb.srvc_cache.map
          (fun S => (S.s_handle, S.e_handle)) = [(1, 25), (20, 30)] ∧
      ¬ ranges_disjoint (scenario_run value_beyond_service_pass).srcb.srvc_cache) := by
  decide

end BtaGattc
